import Mathlib

/-!
# Audio routing core of the Spica audio HAL (`libaudio/AudioRouter.cpp`)

A shallow embedding of `AudioRouter` and of the file-scope Bluetooth PCM helpers.

Conventions of the embedding

* The router object, the four file-scope statics of the Bluetooth helpers and the
  history of driver calls form one record, `AudioRouter`; every C++ method is a
  function `AudioRouter → AudioRouter`.
* Every call into the mixer library (`mixer_get_control`, `mixer_ctl_set`,
  `mixer_ctl_select`) and every invocation of a route callback appends one `Event`
  to the field `trace`, in program order.
* The static tables are lists that keep their terminator entry; the loops stop at the
  terminator exactly as the C++ loops do.
* `float` volumes are exact rationals.
-/

namespace android

/-! ## Data model (`AudioRouter.h`) -/

/-- The enum `AudioRouter::PinType`. -/
inductive PinType where
  | TYPE_NONE
  | TYPE_INT
  | TYPE_MUX
  deriving DecidableEq, Repr

/-- The enum `AudioRouter::RouteType` (without the count `ROUTE_COUNT`). -/
inductive RouteType where
  | ROUTE_INPUT
  | ROUTE_OUTPUT
  | ROUTE_VOICE_IN
  | ROUTE_VOICE_OUT
  deriving DecidableEq, Repr

/-- Numeric value of a `RouteType` enumerator. -/
def RouteType.toNat : RouteType → Nat
  | .ROUTE_INPUT => 0
  | .ROUTE_OUTPUT => 1
  | .ROUTE_VOICE_IN => 2
  | .ROUTE_VOICE_OUT => 3

/-! The enum `AudioRouter::AudioEndpoint`: bit positions of a route mask. -/

abbrev ENDPOINT_MIC_MAIN : Nat := 1
abbrev ENDPOINT_MIC_SUB : Nat := 2
abbrev ENDPOINT_MIC_HP : Nat := 3
abbrev ENDPOINT_HP : Nat := 4
abbrev ENDPOINT_PHONE_IN : Nat := 5
abbrev ENDPOINT_PHONE_OUT : Nat := 6
abbrev ENDPOINT_MIC_BT : Nat := 7
abbrev ENDPOINT_BT : Nat := 8
abbrev ENDPOINT_RCV : Nat := 9
abbrev ENDPOINT_SPK : Nat := 10
abbrev ENDPOINT_AMP : Nat := 11

/-- The macro `BIT(x)`, `1UL << x`, of `utils.h`. -/
def BIT (x : Nat) : Nat := 1 <<< x

/-- The struct `AudioRouter::AudioPinConfig`.  The pointers `ctl` and `strValue` are
only read on entries whose type is not `TYPE_NONE` (resp. is `TYPE_MUX`), where the
tables always give a literal, so `NULL` is rendered as the empty string;
`resetStrValue` is tested against `NULL` by the code and is an `Option`. -/
structure AudioPinConfig where
  ctl : String
  type : PinType
  strValue : String
  resetStrValue : Option String
  intValue : Int
  resetIntValue : Int
  deriving DecidableEq, Repr

/-- The macro `PIN_CONFIG_TERMINATOR`. -/
def PIN_CONFIG_TERMINATOR : AudioPinConfig :=
  { ctl := "", type := .TYPE_NONE, strValue := "", resetStrValue := none,
    intValue := 0, resetIntValue := 0 }

/-- The macro `PIN_CONFIG_MUX(ctl, active, inactive)`. -/
def PIN_CONFIG_MUX (ctl active : String) (inactive : Option String) : AudioPinConfig :=
  { ctl := ctl, type := .TYPE_MUX, strValue := active, resetStrValue := inactive,
    intValue := 0, resetIntValue := 0 }

/-- The macro `PIN_CONFIG_INT(ctl, active, inactive)`. -/
def PIN_CONFIG_INT (ctl : String) (active inactive : Int) : AudioPinConfig :=
  { ctl := ctl, type := .TYPE_INT, strValue := "", resetStrValue := none,
    intValue := active, resetIntValue := inactive }

/-- The macro `PIN_CONFIG_BOOL(ctl, active)`: the reset value is `!active`. -/
def PIN_CONFIG_BOOL (ctl : String) (active : Int) : AudioPinConfig :=
  { ctl := ctl, type := .TYPE_INT, strValue := "", resetStrValue := none,
    intValue := active, resetIntValue := if active = 0 then 1 else 0 }

/-- The four file-scope functions that the route tables use as callbacks. -/
inductive Callback where
  | bluetoothInOpen
  | bluetoothInClose
  | bluetoothOutOpen
  | bluetoothOutClose
  deriving DecidableEq, Repr

/-- The struct `AudioRouter::AudioRouteConfig`; a `NULL` function pointer is `none`. -/
structure AudioRouteConfig where
  route : Nat
  config : List AudioPinConfig
  enable : Option Callback
  disable : Option Callback
  deriving DecidableEq, Repr

/-- The macro `ROUTE_CONFIG(route, config)`. -/
def ROUTE_CONFIG (route : Nat) (config : List AudioPinConfig) : AudioRouteConfig :=
  { route := route, config := config, enable := none, disable := none }

/-- The macro `ROUTE_CONFIG_CALLBACKS(route, config, enable, disable)`. -/
def ROUTE_CONFIG_CALLBACKS (route : Nat) (config : List AudioPinConfig)
    (enable disable : Callback) : AudioRouteConfig :=
  { route := route, config := config, enable := some enable, disable := some disable }

/-- The macro `ROUTE_CONFIG_TERMINATOR`. -/
def ROUTE_CONFIG_TERMINATOR : AudioRouteConfig :=
  { route := 0, config := [], enable := none, disable := none }

/-- The struct `AudioRouter::VolumeControl`. -/
structure VolumeControl where
  endpoint : Nat
  control : String
  max : Nat
  deriving DecidableEq, Repr

/-- The macro `VOLUME_CONTROL(route, control, max)`. -/
def VOLUME_CONTROL (route : Nat) (control : String) (max : Nat) : VolumeControl :=
  { endpoint := route, control := control, max := max }

/-- The macro `VOLUME_CONTROL_TERMINATOR`. -/
def VOLUME_CONTROL_TERMINATOR : VolumeControl :=
  { endpoint := 0, control := "", max := 0 }

/-! ## The driver side -/

/-- The mixer device behind `mMixer`, as far as the router can observe it: the names
for which `mixer_get_control` returns `NULL`, and the names of the controls on which
`mixer_ctl_set` and `mixer_ctl_select` report an error. -/
structure Mixer where
  absent : List String
  failing : List String
  deriving DecidableEq, Repr

/-- Whether `mixer_get_control(mMixer, name, 0)` returns a control. -/
def Mixer.hasControl (mx : Mixer) (name : String) : Bool :=
  decide (name ∉ mx.absent)

/-- The two file-scope PCM handles of the Bluetooth helpers: `bluetoothInPcm` is opened
with `PCM_BT | PCM_IN` (capture), `bluetoothOutPcm` with `PCM_BT | PCM_OUT` (playback). -/
inductive BtPcm where
  | bluetoothInPcm
  | bluetoothOutPcm
  deriving DecidableEq, Repr

/-- The calls the Bluetooth helpers make on their static PCM handles. -/
inductive PcmOp where
  | pcm_open (h : BtPcm)
  | pcm_start (h : BtPcm)
  | pcm_close (h : BtPcm)
  deriving DecidableEq, Repr

/-- One observable step of the router.  `ctlSet c v` is the call
`mixer_ctl_set(c, CTL_VALUE_RAW | v)`: the flag (declared in `alsa_audio.h`) marks the
operand as a raw register value, and the event records that operand.  `callback f n pcm`
is one invocation of the route callback `f`, entered with its reference count equal to
`n` (the value its `LOGV` line prints), during which it made the PCM calls `pcm` on its
static handle. -/
inductive Event where
  | getControl (ctl : String)
  | ctlSet (ctl : String) (value : Int)
  | ctlSelect (ctl : String) (value : String)
  | callback (f : Callback) (refCnt : Int) (pcm : List PcmOp)
  deriving DecidableEq, Repr

/-- The router object (on the path where `mixer_open` succeeded) together with the
file-scope reference counts of `AudioRouter.cpp` and the history of driver calls.
`btPcmReady` is the answer `pcm_ready` gives for a Bluetooth PCM handle.  The field
`mStatus` and the two static handle pointers are not read by any routing method and are
left out; the handles are named by `BtPcm` in the PCM calls. -/
structure AudioRouter where
  mRoute : RouteType → Nat
  mDisabled : RouteType → Bool
  mPlaybackVolume : ℚ
  mVoiceVol : ℚ
  mMasterVol : ℚ
  mMixer : Mixer
  bluetoothInRefCnt : Int
  bluetoothOutRefCnt : Int
  btPcmReady : Bool
  trace : List Event

/-! ## The static tables (`AudioRouter.cpp`) -/

def initialPinConfig : List AudioPinConfig :=
  [ PIN_CONFIG_BOOL "Line Output 1 Differential" 1,
    PIN_CONFIG_BOOL "Line Output 3 Differential" 1,
    PIN_CONFIG_INT "DATT-B DATT-B" 0 0,
    PIN_CONFIG_INT "DATT-B DATT-B" 231 0,
    PIN_CONFIG_MUX "BVMX Mux" "PCM-A" none,
    PIN_CONFIG_MUX "SDOA Mux" "SRC-A" none,
    PIN_CONFIG_TERMINATOR ]

def inputMicMainPinConfigs : List AudioPinConfig :=
  [ PIN_CONFIG_BOOL "Line Input 1 Differential" 1,
    PIN_CONFIG_BOOL "Main Mic Switch" 1,
    PIN_CONFIG_MUX "RIN MUX" "RIN2" none,
    PIN_CONFIG_MUX "LIN MUX" "LIN1" none,
    PIN_CONFIG_INT "Mic Amp Capture Volume" 13 0,
    PIN_CONFIG_TERMINATOR ]

def inputMicSubPinConfigs : List AudioPinConfig :=
  [ PIN_CONFIG_BOOL "Line Input 2 Differential" 1,
    PIN_CONFIG_BOOL "Sub Mic Switch" 1,
    PIN_CONFIG_MUX "RIN MUX" "RIN2" none,
    PIN_CONFIG_MUX "LIN MUX" "LIN1" none,
    PIN_CONFIG_INT "Mic Amp Capture Volume" 9 0,
    PIN_CONFIG_TERMINATOR ]

def inputHeadsetPinConfigs : List AudioPinConfig :=
  [ PIN_CONFIG_BOOL "Line Input 3 Differential" 1,
    PIN_CONFIG_BOOL "Jack Mic Switch" 1,
    PIN_CONFIG_MUX "RIN MUX" "RIN2" none,
    PIN_CONFIG_MUX "LIN MUX" "LIN3" none,
    PIN_CONFIG_INT "Mic Amp Capture Volume" 9 0,
    PIN_CONFIG_TERMINATOR ]

def inputPhonePinConfigs : List AudioPinConfig :=
  [ PIN_CONFIG_BOOL "Line Input 4 Differential" 1,
    PIN_CONFIG_BOOL "Main Mic Switch" 1,
    PIN_CONFIG_MUX "RIN MUX" "RIN4" none,
    PIN_CONFIG_MUX "LIN MUX" "LIN1" none,
    PIN_CONFIG_INT "Mic Amp Capture Volume" 13 0,
    PIN_CONFIG_TERMINATOR ]

def inputBtPinConfigs : List AudioPinConfig :=
  [ PIN_CONFIG_MUX "SDOL Mux" "SRC-B" (some "ADC Left"),
    PIN_CONFIG_MUX "SDOR Mux" "SRC-B" (some "ADC Right"),
    PIN_CONFIG_INT "Mic Amp Capture Volume" 13 0,
    PIN_CONFIG_TERMINATOR ]

def outputRcvPinConfigs : List AudioPinConfig :=
  [ PIN_CONFIG_BOOL "LOUT1 Mixer DACL" 1,
    PIN_CONFIG_BOOL "ROUT1 Mixer DACR" 1,
    PIN_CONFIG_BOOL "Earpiece Switch" 1,
    PIN_CONFIG_TERMINATOR ]

def outputSpkPinConfigs : List AudioPinConfig :=
  [ PIN_CONFIG_BOOL "Speaker Switch" 1,
    PIN_CONFIG_TERMINATOR ]

def outputHpPinConfigs : List AudioPinConfig :=
  [ PIN_CONFIG_BOOL "Headphones Switch" 1,
    PIN_CONFIG_TERMINATOR ]

def outputAmpPinConfigs : List AudioPinConfig :=
  [ PIN_CONFIG_BOOL "LOUT2 Mixer DACHL" 1,
    PIN_CONFIG_BOOL "ROUT2 Mixer DACHR" 1,
    PIN_CONFIG_TERMINATOR ]

def outputBtPinConfigs : List AudioPinConfig :=
  [ PIN_CONFIG_TERMINATOR ]

def voiceInMicMainPinConfigs : List AudioPinConfig :=
  [ PIN_CONFIG_BOOL "Line Input 1 Differential" 1,
    PIN_CONFIG_BOOL "Main Mic Switch" 1,
    PIN_CONFIG_BOOL "LOUT3 Mixer LINS1" 1,
    PIN_CONFIG_BOOL "ROUT3 Mixer RINS1" 1,
    PIN_CONFIG_BOOL "GSM Send Switch" 1,
    PIN_CONFIG_MUX "RIN MUX" "RIN4" none,
    PIN_CONFIG_MUX "LIN MUX" "LIN1" none,
    PIN_CONFIG_INT "Mic Amp Capture Volume" 13 0,
    PIN_CONFIG_TERMINATOR ]

def voiceInMicSubPinConfigs : List AudioPinConfig :=
  [ PIN_CONFIG_BOOL "Line Input 2 Differential" 1,
    PIN_CONFIG_BOOL "Sub Mic Switch" 1,
    PIN_CONFIG_BOOL "LOUT3 Mixer LINS2" 1,
    PIN_CONFIG_BOOL "ROUT3 Mixer RINS2" 1,
    PIN_CONFIG_BOOL "GSM Send Switch" 1,
    PIN_CONFIG_MUX "RIN MUX" "RIN4" none,
    PIN_CONFIG_MUX "LIN MUX" "LIN1" none,
    PIN_CONFIG_INT "Mic Amp Capture Volume" 13 0,
    PIN_CONFIG_TERMINATOR ]

def voiceInHeadsetPinConfigs : List AudioPinConfig :=
  [ PIN_CONFIG_BOOL "Line Input 3 Differential" 1,
    PIN_CONFIG_BOOL "Jack Mic Switch" 1,
    PIN_CONFIG_BOOL "LOUT3 Mixer LINS3" 1,
    PIN_CONFIG_BOOL "ROUT3 Mixer RINS3" 1,
    PIN_CONFIG_BOOL "GSM Send Switch" 1,
    PIN_CONFIG_MUX "RIN MUX" "RIN4" none,
    PIN_CONFIG_MUX "LIN MUX" "LIN3" none,
    PIN_CONFIG_INT "Mic Amp Capture Volume" 9 0,
    PIN_CONFIG_TERMINATOR ]

def voiceInBtPinConfigs : List AudioPinConfig :=
  [ PIN_CONFIG_MUX "SRA Mux" "SRMXR Mux" (some "MIXD"),
    PIN_CONFIG_MUX "SRMXL Mux" "SRC-B" (some "PFMXL Mux"),
    PIN_CONFIG_BOOL "LOUT3 Mixer DACSL" 1,
    PIN_CONFIG_BOOL "GSM Send Switch" 1,
    PIN_CONFIG_MUX "SDOL Mux" "SRC-B" (some "ADC Left"),
    PIN_CONFIG_INT "Mic Amp Capture Volume" 5 (-1),
    PIN_CONFIG_TERMINATOR ]

def voiceOutRcvPinConfigs : List AudioPinConfig :=
  [ PIN_CONFIG_BOOL "Line Input 4 Differential" 1,
    PIN_CONFIG_BOOL "LOUT1 Mixer DACL" 1,
    PIN_CONFIG_BOOL "ROUT1 Mixer DACR" 1,
    PIN_CONFIG_BOOL "LOUT1 Mixer LINL4" 1,
    PIN_CONFIG_BOOL "ROUT1 Mixer RINR4" 1,
    PIN_CONFIG_BOOL "GSM Receive Switch" 1,
    PIN_CONFIG_BOOL "Earpiece Switch" 1,
    PIN_CONFIG_TERMINATOR ]

def voiceOutAmpPinConfigs : List AudioPinConfig :=
  [ PIN_CONFIG_BOOL "Line Input 4 Differential" 1,
    PIN_CONFIG_BOOL "LOUT2 Mixer DACHL" 1,
    PIN_CONFIG_BOOL "ROUT2 Mixer DACHR" 1,
    PIN_CONFIG_BOOL "LOUT2 Mixer LINH4" 1,
    PIN_CONFIG_BOOL "ROUT2 Mixer RINH4" 1,
    PIN_CONFIG_BOOL "GSM Receive Switch" 1,
    PIN_CONFIG_TERMINATOR ]

def voiceOutSpkPinConfigs : List AudioPinConfig :=
  [ PIN_CONFIG_BOOL "Speaker Switch" 1,
    PIN_CONFIG_TERMINATOR ]

def voiceOutHpPinConfigs : List AudioPinConfig :=
  [ PIN_CONFIG_BOOL "Headphones Switch" 1,
    PIN_CONFIG_TERMINATOR ]

def voiceOutBtPinConfigs : List AudioPinConfig :=
  [ PIN_CONFIG_BOOL "Line Input 4 Differential" 1,
    PIN_CONFIG_BOOL "GSM Receive Switch" 1,
    PIN_CONFIG_MUX "PFMXR Mux" "PFMXR Mixer" (some "SDTI Right"),
    PIN_CONFIG_MUX "RIN MUX" "RIN4" none,
    PIN_CONFIG_MUX "LIN MUX" "LIN1" none,
    PIN_CONFIG_INT "Mic Amp Capture Volume" 5 0,
    PIN_CONFIG_TERMINATOR ]

def inputRouteConfigs : List AudioRouteConfig :=
  [ ROUTE_CONFIG ENDPOINT_MIC_MAIN inputMicMainPinConfigs,
    ROUTE_CONFIG ENDPOINT_MIC_SUB inputMicSubPinConfigs,
    ROUTE_CONFIG ENDPOINT_MIC_HP inputHeadsetPinConfigs,
    ROUTE_CONFIG ENDPOINT_PHONE_IN inputPhonePinConfigs,
    ROUTE_CONFIG_CALLBACKS ENDPOINT_MIC_BT inputBtPinConfigs
      .bluetoothInOpen .bluetoothInClose,
    ROUTE_CONFIG_TERMINATOR ]

def outputRouteConfigs : List AudioRouteConfig :=
  [ ROUTE_CONFIG ENDPOINT_RCV outputRcvPinConfigs,
    ROUTE_CONFIG ENDPOINT_AMP outputAmpPinConfigs,
    ROUTE_CONFIG ENDPOINT_SPK outputSpkPinConfigs,
    ROUTE_CONFIG ENDPOINT_HP outputHpPinConfigs,
    ROUTE_CONFIG_CALLBACKS ENDPOINT_BT outputBtPinConfigs
      .bluetoothOutOpen .bluetoothOutClose,
    ROUTE_CONFIG_TERMINATOR ]

def voiceInRouteConfigs : List AudioRouteConfig :=
  [ ROUTE_CONFIG ENDPOINT_MIC_MAIN voiceInMicMainPinConfigs,
    ROUTE_CONFIG ENDPOINT_MIC_SUB voiceInMicSubPinConfigs,
    ROUTE_CONFIG ENDPOINT_MIC_HP voiceInHeadsetPinConfigs,
    ROUTE_CONFIG_CALLBACKS ENDPOINT_MIC_BT voiceInBtPinConfigs
      .bluetoothInOpen .bluetoothInClose,
    ROUTE_CONFIG_TERMINATOR ]

def voiceOutRouteConfigs : List AudioRouteConfig :=
  [ ROUTE_CONFIG ENDPOINT_RCV voiceOutRcvPinConfigs,
    ROUTE_CONFIG ENDPOINT_AMP voiceOutAmpPinConfigs,
    ROUTE_CONFIG ENDPOINT_SPK voiceOutSpkPinConfigs,
    ROUTE_CONFIG ENDPOINT_HP voiceOutHpPinConfigs,
    ROUTE_CONFIG_CALLBACKS ENDPOINT_BT voiceOutBtPinConfigs
      .bluetoothOutOpen .bluetoothOutClose,
    ROUTE_CONFIG_TERMINATOR ]

/-- The array `AudioRouter::routeTables`, indexed by route type. -/
def routeTables : RouteType → List AudioRouteConfig
  | .ROUTE_INPUT => inputRouteConfigs
  | .ROUTE_OUTPUT => outputRouteConfigs
  | .ROUTE_VOICE_IN => voiceInRouteConfigs
  | .ROUTE_VOICE_OUT => voiceOutRouteConfigs

def endpointVolCtrls : List VolumeControl :=
  [ VOLUME_CONTROL ENDPOINT_HP "MAX9877 Amp HP Playback Volume" 28,
    VOLUME_CONTROL ENDPOINT_PHONE_OUT "Line Output3 Playback Volume" 3,
    VOLUME_CONTROL ENDPOINT_RCV "Line Output1 Playback Volume" 6,
    VOLUME_CONTROL ENDPOINT_SPK "MAX9877 Amp Speaker Playback Volume" 28,
    VOLUME_CONTROL_TERMINATOR ]

/-- The array `AudioRouter::pathVolCtrls`.  Its entries are keyed by route type, and the
first key is `ROUTE_INPUT`, whose numeric value is 0. -/
def pathVolCtrls : List VolumeControl :=
  [ VOLUME_CONTROL RouteType.ROUTE_INPUT.toNat "Mic Amp Capture Volume" 15,
    VOLUME_CONTROL RouteType.ROUTE_OUTPUT.toNat "Master Playback Volume" 231,
    VOLUME_CONTROL_TERMINATOR ]

/-! ## The router (`AudioRouter.cpp`) -/

namespace AudioRouter

/-- Append one driver call to the history. -/
def emit (s : AudioRouter) (e : Event) : AudioRouter :=
  { s with trace := s.trace ++ [e] }

/-- The function `bluetoothInOpen`: pre-increment the count, and open (and, when ready,
start) the capture PCM when the count has become 1. -/
def bluetoothInOpen (s : AudioRouter) : AudioRouter :=
  let cnt := s.bluetoothInRefCnt + 1
  let pcm := if cnt = 1 then
      (if s.btPcmReady then
        [PcmOp.pcm_open .bluetoothInPcm, PcmOp.pcm_start .bluetoothInPcm]
       else [PcmOp.pcm_open .bluetoothInPcm])
    else []
  { s with bluetoothInRefCnt := cnt,
           trace := s.trace ++ [Event.callback .bluetoothInOpen s.bluetoothInRefCnt pcm] }

/-- The function `bluetoothInClose`: pre-decrement the count, and close the capture PCM
when the count has become 0. -/
def bluetoothInClose (s : AudioRouter) : AudioRouter :=
  let cnt := s.bluetoothInRefCnt - 1
  let pcm := if cnt = 0 then [PcmOp.pcm_close .bluetoothInPcm] else []
  { s with bluetoothInRefCnt := cnt,
           trace := s.trace ++ [Event.callback .bluetoothInClose s.bluetoothInRefCnt pcm] }

/-- The function `bluetoothOutOpen`. -/
def bluetoothOutOpen (s : AudioRouter) : AudioRouter :=
  let cnt := s.bluetoothOutRefCnt + 1
  let pcm := if cnt = 1 then
      (if s.btPcmReady then
        [PcmOp.pcm_open .bluetoothOutPcm, PcmOp.pcm_start .bluetoothOutPcm]
       else [PcmOp.pcm_open .bluetoothOutPcm])
    else []
  { s with bluetoothOutRefCnt := cnt,
           trace := s.trace ++ [Event.callback .bluetoothOutOpen s.bluetoothOutRefCnt pcm] }

/-- The function `bluetoothOutClose`. -/
def bluetoothOutClose (s : AudioRouter) : AudioRouter :=
  let cnt := s.bluetoothOutRefCnt - 1
  let pcm := if cnt = 0 then [PcmOp.pcm_close .bluetoothOutPcm] else []
  { s with bluetoothOutRefCnt := cnt,
           trace := s.trace ++ [Event.callback .bluetoothOutClose s.bluetoothOutRefCnt pcm] }

/-- Calling through a function pointer of a route table. -/
def invoke : Callback → AudioRouter → AudioRouter
  | .bluetoothInOpen => bluetoothInOpen
  | .bluetoothInClose => bluetoothInClose
  | .bluetoothOutOpen => bluetoothOutOpen
  | .bluetoothOutClose => bluetoothOutClose

/-- Body of the loop of `enablePinConfig` for the entry `pin`. -/
def enablePin (pin : AudioPinConfig) (s : AudioRouter) : AudioRouter :=
  let s1 := s.emit (.getControl pin.ctl)
  if !s.mMixer.hasControl pin.ctl then s1
  else if pin.type = .TYPE_MUX then s1.emit (.ctlSelect pin.ctl pin.strValue)
  else s1.emit (.ctlSet pin.ctl pin.intValue)

/-- The method `enablePinConfig`: `for (; pin->type; ++pin)`. -/
def enablePinConfig : List AudioPinConfig → AudioRouter → AudioRouter
  | [], s => s
  | pin :: rest, s =>
    if pin.type = .TYPE_NONE then s else enablePinConfig rest (enablePin pin s)

/-- Body of the loop of `disablePinConfig` for the entry `p`. -/
def disablePin (p : AudioPinConfig) (s : AudioRouter) : AudioRouter :=
  let s1 := s.emit (.getControl p.ctl)
  if !s.mMixer.hasControl p.ctl then s1
  else if p.type = .TYPE_MUX then
    match p.resetStrValue with
    | none => s1
    | some v => s1.emit (.ctlSelect p.ctl v)
  else if p.resetIntValue < 0 then s1
  else s1.emit (.ctlSet p.ctl p.resetIntValue)

/-- The scan `while (p->type) ++p` of `disablePinConfig`: index of the terminator. -/
def findTerminator : List AudioPinConfig → Nat
  | [] => 0
  | p :: rest => if p.type = .TYPE_NONE then 0 else findTerminator rest + 1

/-- The loop `do ... while (p-- != pin)` of `disablePinConfig`, entered with `p` at
index `i`: the body runs on entry `i`, then on `i - 1`, and so on down to entry 0. -/
def disablePinLoop (pin : List AudioPinConfig) : Nat → AudioRouter → AudioRouter
  | 0, s => disablePin (pin.getD 0 PIN_CONFIG_TERMINATOR) s
  | i + 1, s => disablePinLoop pin i (disablePin (pin.getD (i + 1) PIN_CONFIG_TERMINATOR) s)

/-- The method `disablePinConfig`. -/
def disablePinConfig (pin : List AudioPinConfig) (s : AudioRouter) : AudioRouter :=
  let p := findTerminator pin
  if p = 0 then s else disablePinLoop pin (p - 1) s

/-- The loop of `disableRoute` over a route table, with the mask `mRoute[type]` of the
category it runs for. -/
def disableRouteLoop (mask : Nat) : List AudioRouteConfig → AudioRouter → AudioRouter
  | [], s => s
  | route :: rest, s =>
    if route.route = 0 then s
    else if mask &&& BIT route.route = 0 then disableRouteLoop mask rest s
    else
      let s1 := disablePinConfig route.config s
      let s2 := match route.disable with
        | none => s1
        | some f => invoke f s1
      disableRouteLoop mask rest s2

/-- The method `disableRoute`. -/
def disableRoute (type : RouteType) (s : AudioRouter) : AudioRouter :=
  disableRouteLoop (s.mRoute type) (routeTables type) s

/-- The loop of `enableRoute` over a route table. -/
def enableRouteLoop (mask : Nat) : List AudioRouteConfig → AudioRouter → AudioRouter
  | [], s => s
  | route :: rest, s =>
    if route.route = 0 then s
    else if mask &&& BIT route.route = 0 then enableRouteLoop mask rest s
    else
      let s1 := match route.enable with
        | none => s
        | some f => invoke f s
      enableRouteLoop mask rest (enablePinConfig route.config s1)

/-- The method `enableRoute`. -/
def enableRoute (type : RouteType) (s : AudioRouter) : AudioRouter :=
  enableRouteLoop (s.mRoute type) (routeTables type) s

/-- The conversion `(uint32_t)(volume * volCtrl->max)`: truncation of a non-negative
value to an integer (the C++ conversion is only defined for values in the range of
`uint32_t`). -/
def toRaw (q : ℚ) : Int := Int.toNat ⌊q⌋

/-- The method `setEndpointVolume`: `for (; volCtrl->endpoint; ++volCtrl)`. -/
def setEndpointVolume : List VolumeControl → Nat → ℚ → AudioRouter → AudioRouter
  | [], _, _, s => s
  | volCtrl :: rest, endpointMask, volume, s =>
    if volCtrl.endpoint = 0 then s
    else if endpointMask &&& BIT volCtrl.endpoint = 0 then
      setEndpointVolume rest endpointMask volume s
    else
      let s1 := s.emit (.getControl volCtrl.control)
      let s2 := if s.mMixer.hasControl volCtrl.control then
          s1.emit (.ctlSet volCtrl.control (toRaw (volume * volCtrl.max)))
        else s1
      setEndpointVolume rest endpointMask volume s2

/-- The method `muteOutputs`. -/
def muteOutputs (s : AudioRouter) : AudioRouter :=
  let s1 := setEndpointVolume endpointVolCtrls (s.mRoute .ROUTE_OUTPUT) 0 s
  setEndpointVolume endpointVolCtrls (s1.mRoute .ROUTE_VOICE_OUT) 0 s1

/-- The first half of `updateVolume` ("Calculate volume factors"): the final values of
the locals `playbackVolume`, `playbackOutputVolume` and `voiceOutputVolume`. -/
def volumeFactors (s : AudioRouter) : ℚ × ℚ × ℚ :=
  if s.mRoute .ROUTE_OUTPUT &&& s.mRoute .ROUTE_VOICE_OUT ≠ 0 then
    if s.mVoiceVol > s.mMasterVol then
      (s.mMasterVol / s.mVoiceVol, s.mVoiceVol, s.mVoiceVol)
    else
      (1, s.mVoiceVol, s.mVoiceVol)
  else
    (1, s.mMasterVol, s.mVoiceVol)

/-- The method `updateVolume`. -/
def updateVolume (s : AudioRouter) : AudioRouter :=
  let playbackVolume := (volumeFactors s).1
  let playbackOutputVolume := (volumeFactors s).2.1
  let voiceOutputVolume := (volumeFactors s).2.2
  let s1 := if playbackVolume ≤ s.mPlaybackVolume then
      setEndpointVolume pathVolCtrls (BIT RouteType.ROUTE_OUTPUT.toNat) playbackVolume s
    else s
  let s2 := setEndpointVolume endpointVolCtrls (s1.mRoute .ROUTE_OUTPUT)
    playbackOutputVolume s1
  let s3 := setEndpointVolume endpointVolCtrls (s2.mRoute .ROUTE_VOICE_OUT)
    voiceOutputVolume s2
  let s4 := if playbackVolume > s3.mPlaybackVolume then
      setEndpointVolume pathVolCtrls (BIT RouteType.ROUTE_OUTPUT.toNat) playbackVolume s3
    else s3
  { s4 with mPlaybackVolume := playbackVolume }

/-- Whether a route type is `ROUTE_OUTPUT` or `ROUTE_VOICE_OUT`. -/
def isOut (type : RouteType) : Bool :=
  type = .ROUTE_OUTPUT || type = .ROUTE_VOICE_OUT

/-- The method `setRouteDisable`. -/
def setRouteDisable (type : RouteType) (disabled : Bool) (s : AudioRouter) : AudioRouter :=
  if s.mDisabled type = disabled then s
  else
    let s1 := if disabled then disableRoute type s
      else
        let a := if isOut type then muteOutputs s else s
        let b := enableRoute type a
        if isOut type then updateVolume b else b
    { s1 with mDisabled := Function.update s1.mDisabled type disabled }

/-- The method `setAudioRoute`. -/
def setAudioRoute (type : RouteType) (route : Nat) (s : AudioRouter) : AudioRouter :=
  if s.mDisabled type then
    { s with mRoute := Function.update s.mRoute type route }
  else
    let s1 := if isOut type then muteOutputs s else s
    let s2 := disableRoute type s1
    let s3 := { s2 with mRoute := Function.update s2.mRoute type route }
    let s4 := enableRoute type s3
    if isOut type then updateVolume s4 else s4

/-- The method `setVoiceVolume` (the mixer is open). -/
def setVoiceVolume (volume : ℚ) (s : AudioRouter) : AudioRouter :=
  updateVolume { s with mVoiceVol := volume }

/-- The method `setMasterVolume` (the mixer is open). -/
def setMasterVolume (volume : ℚ) (s : AudioRouter) : AudioRouter :=
  updateVolume { s with mMasterVol := volume }

/-- The constructor `AudioRouter::AudioRouter`, on the path where `mixer_open` returned
the mixer `mx`; the Bluetooth statics have their initial value 0. -/
def init (mx : Mixer) (btPcmReady : Bool) : AudioRouter :=
  enablePinConfig initialPinConfig
    { mRoute := fun _ => 0,
      mDisabled := fun _ => false,
      mPlaybackVolume := 1,
      mVoiceVol := 0,
      mMasterVol := 0,
      mMixer := mx,
      bluetoothInRefCnt := 0,
      bluetoothOutRefCnt := 0,
      btPcmReady := btPcmReady,
      trace := [] }

/-- One call of the public routing interface. -/
inductive Call where
  | setAudioRoute (type : RouteType) (route : Nat)
  | setRouteDisable (type : RouteType) (disabled : Bool)
  deriving DecidableEq, Repr

/-- Execute one call. -/
def Call.exec : Call → AudioRouter → AudioRouter
  | .setAudioRoute type route => AudioRouter.setAudioRoute type route
  | .setRouteDisable type disabled => AudioRouter.setRouteDisable type disabled

/-- Execute a sequence of calls, first to last. -/
def run (calls : List Call) (s : AudioRouter) : AudioRouter :=
  calls.foldl (fun acc c => c.exec acc) s

/-! ## Reading a history -/

/-- Whether an event is a write to a mixer control. -/
def isWrite : Event → Bool
  | .ctlSet _ _ => true
  | .ctlSelect _ _ => true
  | _ => false

/-- The mixer writes of a history, in order. -/
def writesOf (t : List Event) : List Event := t.filter isWrite

/-- The callbacks invoked in a history, in order. -/
def callbacksOf (t : List Event) : List Callback :=
  t.filterMap fun e => match e with
    | .callback f _ _ => some f
    | _ => none

/-- The events a call `f` appends to the history of `s`. -/
def eventsOf (f : AudioRouter → AudioRouter) (s : AudioRouter) : List Event :=
  (f s).trace.drop s.trace.length

/-- The control an event writes to, if it is a write. -/
def writtenCtl : Event → Option String
  | .ctlSet c _ => some c
  | .ctlSelect c _ => some c
  | _ => none

/-- The value a control holds after a history of writes on a mixer on which every write
succeeds: the last write to it, if any. -/
def ctlValue (t : List Event) (ctl : String) : Option Event :=
  (t.reverse.find? fun e => writtenCtl e == some ctl)

/-! ## The routing tables as the specification reads them -/

/-- The entries of a pin list, without the terminator. -/
def pinList (pin : List AudioPinConfig) : List AudioPinConfig :=
  pin.takeWhile fun p => decide (p.type ≠ .TYPE_NONE)

/-- The entries of a route table, without the terminator. -/
def routeList (table : List AudioRouteConfig) : List AudioRouteConfig :=
  table.takeWhile fun r => decide (r.route ≠ 0)

/-- The entries of a volume table up to its first entry keyed 0. -/
def volumeList (table : List VolumeControl) : List VolumeControl :=
  table.takeWhile fun v => decide (v.endpoint ≠ 0)

/-- The endpoints of a mask, as entries of a table, in table order. -/
def endpointsIn (table : List AudioRouteConfig) (mask : Nat) : List AudioRouteConfig :=
  (routeList table).filter fun r => mask.testBit r.route

/-- The write that applies a pin entry. -/
def applyWrite (p : AudioPinConfig) : Event :=
  if p.type = .TYPE_MUX then .ctlSelect p.ctl p.strValue else .ctlSet p.ctl p.intValue

/-- The write that reverts a pin entry, if the entry has a reset value. -/
def revertWrite (p : AudioPinConfig) : Option Event :=
  if p.type = .TYPE_MUX then p.resetStrValue.map (Event.ctlSelect p.ctl)
  else if p.resetIntValue < 0 then none
  else some (.ctlSet p.ctl p.resetIntValue)

/-- Applying a pin list: its entries first to last, on the controls the mixer has. -/
def applyListOn (mx : Mixer) (pin : List AudioPinConfig) : List Event :=
  ((pinList pin).filter fun p => mx.hasControl p.ctl).map applyWrite

/-- Reverting a pin list: its entries last to first, on the controls the mixer has,
skipping the entries without a reset value. -/
def revertListOn (mx : Mixer) (pin : List AudioPinConfig) : List Event :=
  ((pinList pin).reverse.filter fun p => mx.hasControl p.ctl).filterMap revertWrite

/-- Applying the pin lists of the endpoints of a mask, in table order. -/
def applyRouteOn (mx : Mixer) (table : List AudioRouteConfig) (mask : Nat) : List Event :=
  (endpointsIn table mask).flatMap fun r => applyListOn mx r.config

/-- Reverting the pin lists of the endpoints of a mask, in table order. -/
def revertRouteOn (mx : Mixer) (table : List AudioRouteConfig) (mask : Nat) : List Event :=
  (endpointsIn table mask).flatMap fun r => revertListOn mx r.config

/-- The writes that set the volume controls of the endpoints of a mask to a level. -/
def volumeWritesOn (mx : Mixer) (table : List VolumeControl) (mask : Nat) (volume : ℚ) :
    List Event :=
  (((volumeList table).filter fun v => mask.testBit v.endpoint).filter
    fun v => mx.hasControl v.control).map
    fun v => Event.ctlSet v.control (toRaw (volume * v.max))

/-- The zero-gain writes of the mute step: the endpoint volume controls of the OUTPUT mask,
then those of the VOICE_OUT mask. -/
def muteWritesOn (s : AudioRouter) : List Event :=
  volumeWritesOn s.mMixer endpointVolCtrls (s.mRoute .ROUTE_OUTPUT) 0 ++
  volumeWritesOn s.mMixer endpointVolCtrls (s.mRoute .ROUTE_VOICE_OUT) 0

/-- The full event list of applying one pin entry: the control lookup, then the write
when the control exists. -/
def applyEvents (mx : Mixer) (p : AudioPinConfig) : List Event :=
  .getControl p.ctl :: (if mx.hasControl p.ctl then [applyWrite p] else [])

/-- The full event list of reverting one pin entry. -/
def revertEvents (mx : Mixer) (p : AudioPinConfig) : List Event :=
  .getControl p.ctl :: (if mx.hasControl p.ctl then (revertWrite p).toList else [])

/-- The full event list of enabling a pin list. -/
def enableEvents (mx : Mixer) (pin : List AudioPinConfig) : List Event :=
  (pinList pin).flatMap (applyEvents mx)

/-- The full event list of disabling a pin list. -/
def disableEvents (mx : Mixer) (pin : List AudioPinConfig) : List Event :=
  (pinList pin).reverse.flatMap (revertEvents mx)

/-- The full event list of one volume pass over a table. -/
def volumeEvents (mx : Mixer) (table : List VolumeControl) (mask : Nat) (volume : ℚ) :
    List Event :=
  ((volumeList table).filter fun v => mask.testBit v.endpoint).flatMap fun v =>
    .getControl v.control ::
      (if mx.hasControl v.control then
        [Event.ctlSet v.control (toRaw (volume * v.max))] else [])

/-- Two masks share an endpoint. -/
def shareEndpoint (a b : Nat) : Prop := ∃ e, a.testBit e = true ∧ b.testBit e = true

/-- The state `b` differs from `a` at most in the Bluetooth reference counts and by events
appended to the history. -/
structure Frame (a b : AudioRouter) : Prop where
  mRoute : b.mRoute = a.mRoute
  mDisabled : b.mDisabled = a.mDisabled
  mPlaybackVolume : b.mPlaybackVolume = a.mPlaybackVolume
  mVoiceVol : b.mVoiceVol = a.mVoiceVol
  mMasterVol : b.mMasterVol = a.mMasterVol
  mMixer : b.mMixer = a.mMixer
  btPcmReady : b.btPcmReady = a.btPcmReady
  trace : a.trace <+: b.trace

/-- The disable callbacks of the endpoints of a mask, in table order. -/
def disableCallbacks (table : List AudioRouteConfig) (mask : Nat) : List Callback :=
  (endpointsIn table mask).filterMap fun r => r.disable

/-- The enable callbacks of the endpoints of a mask, in table order. -/
def enableCallbacks (table : List AudioRouteConfig) (mask : Nat) : List Callback :=
  (endpointsIn table mask).filterMap fun r => r.enable

/-- Applying a pin list when every control exists: its entries, first to last. -/
def applyList (pin : List AudioPinConfig) : List Event :=
  (pinList pin).map applyWrite

/-- Reverting a pin list when every control exists: its entries, last to first, skipping
the entries without a reset value. -/
def revertList (pin : List AudioPinConfig) : List Event :=
  (pinList pin).reverse.filterMap revertWrite

/-- Applying the pin lists of the endpoints of a mask, in table order, when every control
exists. -/
def applyRoute (table : List AudioRouteConfig) (mask : Nat) : List Event :=
  (endpointsIn table mask).flatMap fun r => applyList r.config

/-- Reverting the pin lists of the endpoints of a mask, in table order, when every control
exists. -/
def revertRoute (table : List AudioRouteConfig) (mask : Nat) : List Event :=
  (endpointsIn table mask).flatMap fun r => revertList r.config

/-- The writes that set the volume controls of the endpoints of a mask to a level, when
every control exists. -/
def volumeWrites (table : List VolumeControl) (mask : Nat) (volume : ℚ) : List Event :=
  ((volumeList table).filter fun v => mask.testBit v.endpoint).map
    fun v => Event.ctlSet v.control (toRaw (volume * v.max))

/-- The zero-gain writes of the mute step when every control exists. -/
def muteWrites (s : AudioRouter) : List Event :=
  volumeWrites endpointVolCtrls (s.mRoute .ROUTE_OUTPUT) 0 ++
  volumeWrites endpointVolCtrls (s.mRoute .ROUTE_VOICE_OUT) 0

/-- The full event list of the mute step. -/
def muteEvents (s : AudioRouter) : List Event :=
  volumeEvents s.mMixer endpointVolCtrls (s.mRoute .ROUTE_OUTPUT) 0 ++
  volumeEvents s.mMixer endpointVolCtrls (s.mRoute .ROUTE_VOICE_OUT) 0

/-- The full event list of the volume rebalance run in state `s`: the path gain first when
it does not rise, the endpoint levels of OUTPUT, the endpoint levels of VOICE_OUT, the path
gain last when it rises. -/
def rebalanceEvents (s : AudioRouter) : List Event :=
  (if (volumeFactors s).1 ≤ s.mPlaybackVolume then
    volumeEvents s.mMixer pathVolCtrls (BIT RouteType.ROUTE_OUTPUT.toNat) (volumeFactors s).1
   else []) ++
  volumeEvents s.mMixer endpointVolCtrls (s.mRoute .ROUTE_OUTPUT) (volumeFactors s).2.1 ++
  volumeEvents s.mMixer endpointVolCtrls (s.mRoute .ROUTE_VOICE_OUT) (volumeFactors s).2.2 ++
  (if (volumeFactors s).1 > s.mPlaybackVolume then
    volumeEvents s.mMixer pathVolCtrls (BIT RouteType.ROUTE_OUTPUT.toNat) (volumeFactors s).1
   else [])

/-- The writes of the volume rebalance run in state `s`. -/
def rebalanceWrites (s : AudioRouter) : List Event := writesOf (rebalanceEvents s)

/-- The router state that `setAudioRoute` leaves when it stores a mask: only the mask of
the category differs. -/
def withRoute (s : AudioRouter) (type : RouteType) (route : Nat) : AudioRouter :=
  { s with mRoute := Function.update s.mRoute type route }

/-- The middle of `setAudioRoute`: `disableRoute`, store the mask, `enableRoute`. -/
def reroute (type : RouteType) (route : Nat) (s : AudioRouter) : AudioRouter :=
  enableRoute type
    { disableRoute type s with
      mRoute := Function.update (disableRoute type s).mRoute type route }

/-- The effect of a routing call on the fields other than the Bluetooth counts: the
state `b` has the masks `r`, the flags `d`, the playback factor `p`, the volumes and the
mixer of `a`, and a history that extends the history of `a`. -/
structure Keeps (a b : AudioRouter) (r : RouteType → Nat) (d : RouteType → Bool) (p : ℚ) :
    Prop where
  mRoute : b.mRoute = r
  mDisabled : b.mDisabled = d
  mPlaybackVolume : b.mPlaybackVolume = p
  mVoiceVol : b.mVoiceVol = a.mVoiceVol
  mMasterVol : b.mMasterVol = a.mMasterVol
  mMixer : b.mMixer = a.mMixer
  btPcmReady : b.btPcmReady = a.btPcmReady
  trace : a.trace <+: b.trace

/-- A router constructed on a mixer that has every control and on which no write fails. -/
def fresh : AudioRouter := init { absent := [], failing := [] } true

/-- A router whose OUTPUT category is enabled and routed to the Bluetooth endpoint. -/
def btOutputRouter : AudioRouter := setAudioRoute .ROUTE_OUTPUT (BIT ENDPOINT_BT) fresh

/-- Whether a callback is one of the two open helpers. -/
def isOpenCallback : Callback → Bool
  | .bluetoothInOpen => true
  | .bluetoothOutOpen => true
  | _ => false

/-- The PCM handle a callback works on. -/
def pcmOf : Callback → BtPcm
  | .bluetoothInOpen => .bluetoothInPcm
  | .bluetoothInClose => .bluetoothInPcm
  | .bluetoothOutOpen => .bluetoothOutPcm
  | .bluetoothOutClose => .bluetoothOutPcm

/-- The edge rule of the Bluetooth helpers, read on one event of a history: an open helper
entered with count 0 opens the PCM (and starts it when it is ready), a close helper entered
with count 1 closes it, and an invocation entered with any other count makes no PCM call. -/
def edgeOk : Event → Bool
  | .callback f n pcm =>
    if isOpenCallback f then
      if n = 0 then
        pcm == [PcmOp.pcm_open (pcmOf f), PcmOp.pcm_start (pcmOf f)] ||
          pcm == [PcmOp.pcm_open (pcmOf f)]
      else pcm == []
    else
      if n = 1 then pcm == [PcmOp.pcm_close (pcmOf f)] else pcm == []
  | _ => true

/-- Every event of a history obeys the edge rule. -/
def AllOk (t : List Event) : Prop := ∀ e ∈ t, edgeOk e = true

/-- The reference count a callback works on. -/
def refCntOf : Callback → AudioRouter → Int
  | .bluetoothInOpen, s => s.bluetoothInRefCnt
  | .bluetoothInClose, s => s.bluetoothInRefCnt
  | .bluetoothOutOpen, s => s.bluetoothOutRefCnt
  | .bluetoothOutClose, s => s.bluetoothOutRefCnt

/-- Whether an event is a callback invocation. -/
def isCallback : Event → Bool
  | .callback _ _ _ => true
  | _ => false

/-- Storing a sequence of masks for a category by successive `setAudioRoute` calls. -/
def stageMasks (type : RouteType) (masks : List Nat) (s : AudioRouter) : AudioRouter :=
  masks.foldl (fun a m => setAudioRoute type m a) s

/-- A router whose INPUT category is disabled. -/
def inputOffRouter : AudioRouter := setRouteDisable .ROUTE_INPUT true fresh

/-- A router in a call with media playing: OUTPUT and VOICE_OUT both routed to the
speaker, master volume `m` and voice volume `v`. -/
def speakerCall (m v : ℚ) : AudioRouter :=
  { fresh with
    mRoute := fun t => if isOut t then BIT ENDPOINT_SPK else 0,
    mMasterVol := m,
    mVoiceVol := v }

/-- The events of one iteration of `setEndpointVolume` on a selected entry. -/
def volumeStep (mx : Mixer) (volume : ℚ) (v : VolumeControl) : List Event :=
  .getControl v.control ::
    (if mx.hasControl v.control then
      [Event.ctlSet v.control (toRaw (volume * v.max))] else [])

/-- The category a call works on. -/
def Call.type : Call → RouteType
  | .setAudioRoute type _ => type
  | .setRouteDisable type _ => type

/-- The control names in the pin lists of the endpoints of a mask. -/
def namedControls (table : List AudioRouteConfig) (mask : Nat) : List String :=
  (endpointsIn table mask).flatMap fun r => (pinList r.config).map fun p => p.ctl

/-- The control names in the pin lists of a whole route table. -/
def tableControls (table : List AudioRouteConfig) : List String :=
  (routeList table).flatMap fun r => (pinList r.config).map fun p => p.ctl

/-- The names of the endpoint volume controls. -/
def volumeNames : List String := (volumeList endpointVolCtrls).map fun v => v.control

/-- The pin state of category `C` at the control `c`: the value the control holds after
the history of `s` is the value it holds after applying the pin lists of the endpoints of
the stored mask of `C`, in table order, first entry to last. -/
def PinStateAt (s : AudioRouter) (C : RouteType) (c : String) : Prop :=
  ctlValue s.trace c = ctlValue (applyRoute (routeTables C) (s.mRoute C)) c

/-- The pin state of category `C`: `PinStateAt` at every control named in the pin lists of
the endpoints of its stored mask. -/
def PinState (s : AudioRouter) (C : RouteType) : Prop :=
  ∀ c ∈ namedControls (routeTables C) (s.mRoute C), PinStateAt s C c

/-- Media on the earpiece, then a call on the earpiece, then the call route cleared. -/
def earpieceCalls : List Call :=
  [ .setAudioRoute .ROUTE_OUTPUT (BIT ENDPOINT_RCV),
    .setAudioRoute .ROUTE_VOICE_OUT (BIT ENDPOINT_RCV),
    .setAudioRoute .ROUTE_VOICE_OUT 0 ]

/-- Media routed to the earpiece after the call route was cleared. -/
def clearThenEarpiece : List Call :=
  [ .setAudioRoute .ROUTE_VOICE_OUT 0, .setAudioRoute .ROUTE_OUTPUT (BIT ENDPOINT_RCV) ]

/-- The pin state of `C` at `c`, required only while `C` is enabled and `c` is named in
the pin lists of its enabled endpoints. -/
def PinInv (C : RouteType) (c : String) (s : AudioRouter) : Prop :=
  s.mDisabled C = false → c ∈ namedControls (routeTables C) (s.mRoute C) → PinStateAt s C c

/-- Whether a call is a `setAudioRoute` call. -/
def Call.isRoute : Call → Bool
  | .setAudioRoute _ _ => true
  | .setRouteDisable _ _ => false

/-- The control names looked up in a history, in order. -/
def lookupsOf (t : List Event) : List String :=
  t.filterMap fun e => match e with
    | .getControl c => some c
    | _ => none

/-! ## The Bluetooth reference counts along a history -/

/-- The two counts `bluetoothInRefCnt` and `bluetoothOutRefCnt` of a state. -/
def cnts (s : AudioRouter) : Int × Int := (s.bluetoothInRefCnt, s.bluetoothOutRefCnt)

/-- The count of a pair that a callback works on. -/
def cntOf (f : Callback) (c : Int × Int) : Int :=
  if pcmOf f = .bluetoothInPcm then c.1 else c.2

/-- The effect of a callback on the two counts. -/
def cntStep (f : Callback) (c : Int × Int) : Int × Int :=
  match f with
  | .bluetoothInOpen => (c.1 + 1, c.2)
  | .bluetoothInClose => (c.1 - 1, c.2)
  | .bluetoothOutOpen => (c.1, c.2 + 1)
  | .bluetoothOutClose => (c.1, c.2 - 1)

/-- Reading a history from the counts `c`: every callback event must record the count its
PCM has at that point, and a close helper must be entered with a positive count, that is,
with an earlier open that no close has matched yet.  The result is the pair of counts at
the end, or `none` when an event breaks the rule. -/
def replay : List Event → Int × Int → Option (Int × Int)
  | [], c => some c
  | .callback f n _ :: t, c =>
    if n = cntOf f c ∧ (isOpenCallback f = true ∨ 1 ≤ n) then replay t (cntStep f c)
    else none
  | _ :: t, c => replay t c

/-- Running a list of callbacks on the counts `c`, each close helper entered with a
positive count; `none` when a close helper would see a count below 1. -/
def safeSteps : List Callback → Int × Int → Option (Int × Int)
  | [], c => some c
  | f :: t, c =>
    if isOpenCallback f = true ∨ 1 ≤ cntOf f c then safeSteps t (cntStep f c) else none

/-- The endpoint whose entry in the route table of a category carries the callbacks. -/
def btEndpoint (C : RouteType) : Nat :=
  if isOut C then ENDPOINT_BT else ENDPOINT_MIC_BT

/-- The open helper in the route table of a category. -/
def openCb (C : RouteType) : Callback :=
  if isOut C then .bluetoothOutOpen else .bluetoothInOpen

/-- The close helper in the route table of a category. -/
def closeCb (C : RouteType) : Callback :=
  if isOut C then .bluetoothOutClose else .bluetoothInClose

/-- Whether a category uses its Bluetooth endpoint: it is not disabled and its mask
contains the endpoint (1 or 0). -/
def btUse (s : AudioRouter) (C : RouteType) : Int :=
  if s.mDisabled C = false ∧ (s.mRoute C).testBit (btEndpoint C) = true then 1 else 0

/-- The number of categories of a list that are not disabled and whose mask contains the
endpoint `e`. -/
def btUsers (s : AudioRouter) (e : Nat) (cats : List RouteType) : Nat :=
  (cats.filter fun C => !s.mDisabled C && (s.mRoute C).testBit e).length

/-- The number of invocations of the open helper minus those of the close helper of a PCM
in a history. -/
def netOpens (p : BtPcm) (t : List Event) : Int :=
  ((callbacksOf t).filter fun f => decide (pcmOf f = p) && isOpenCallback f).length -
    ((callbacksOf t).filter fun f => decide (pcmOf f = p) && !isOpenCallback f).length

/-- The invariant of the Bluetooth counts: the history read from counts 0 obeys the rule of
`replay` and ends at the current counts, and each count is the number of users of the PCM. -/
structure BtInv (s : AudioRouter) : Prop where
  sound : replay s.trace (0, 0) = some (cnts s)
  capture : s.bluetoothInRefCnt = btUse s .ROUTE_INPUT + btUse s .ROUTE_VOICE_IN
  playback : s.bluetoothOutRefCnt = btUse s .ROUTE_OUTPUT + btUse s .ROUTE_VOICE_OUT

end AudioRouter

/-! ## The streams and the hardware facade -/

/-- What the audio HAL takes from outside this repository: constants of the Android
framework headers (`AudioSystem`, `utils/Errors.h`) and of `alsa_audio.h`, the helper
`AudioSystem::popCount`, the method `AudioHardwareBase::setMode` (current `mMode` and
requested mode to status and new `mMode`) and the value the base class constructor gives
`mMode`. -/
structure Platform where
  PCM_PERIOD_SZ_MIN : Nat
  PCM_16_BIT : Int
  CHANNEL_OUT_STEREO : Nat
  CHANNEL_IN_MONO : Nat
  CHANNEL_IN_STEREO : Nat
  MODE_IN_CALL : Int
  DEVICE_OUT_EARPIECE : Nat
  DEVICE_OUT_SPEAKER : Nat
  DEVICE_OUT_WIRED_HEADSET : Nat
  DEVICE_OUT_WIRED_HEADPHONE : Nat
  DEVICE_OUT_BLUETOOTH_SCO : Nat
  DEVICE_OUT_BLUETOOTH_SCO_HEADSET : Nat
  DEVICE_OUT_BLUETOOTH_SCO_CARKIT : Nat
  DEVICE_IN_BUILTIN_MIC : Nat
  DEVICE_IN_BACK_MIC : Nat
  DEVICE_IN_WIRED_HEADSET : Nat
  DEVICE_IN_BLUETOOTH_SCO_HEADSET : Nat
  DEVICE_IN_VOICE_CALL : Nat
  NO_INIT : Int
  BAD_VALUE : Int
  INVALID_OPERATION : Int
  popCount : Nat → Nat
  baseSetMode : Int → Int → Int × Int
  initMode : Int

/-- The status `NO_ERROR`; the code itself tests success as `ret == 0` and `!ret`. -/
abbrev NO_ERROR : Int := 0

/-- The size of `unsigned int`, `uint32_t` and `size_t` on the target. -/
abbrev U32 : Nat := 2 ^ 32

/-- The value of `sizeof(int16_t)`. -/
abbrev SIZEOF_INT16 : Nat := 2

/-- The value of a C `int` (or any integer) converted to `uint32_t`. -/
def toU32 (x : Int) : Nat := (x % (U32 : Int)).toNat

/-- The value of a `uint32_t` converted to `int` (two's complement). -/
def toI32 (u : Nat) : Int :=
  if u % U32 < 2 ^ 31 then ((u % U32 : Nat) : Int) else ((u % U32 : Nat) : Int) - (U32 : Int)

/-- An `int` result reduced to 32 bits (two's complement; the C++ standard leaves a signed
overflow undefined, the ARM target wraps). -/
def wrapI32 (x : Int) : Int := toI32 (toU32 x)

/-! The macros of `config.h`. -/

abbrev AUDIO_HW_OUT_SAMPLERATE : Nat := 44100
abbrev AUDIO_HW_OUT_PERIOD_MULT : Nat := 8
abbrev AUDIO_HW_IN_SAMPLERATE : Nat := 44100
abbrev AUDIO_HW_IN_PERIOD_MULT : Nat := 8

/-- The macro `AUDIO_HW_OUT_PERIOD_SZ`. -/
def AUDIO_HW_OUT_PERIOD_SZ (P : Platform) : Nat := P.PCM_PERIOD_SZ_MIN * AUDIO_HW_OUT_PERIOD_MULT

/-- The macro `AUDIO_HW_OUT_PERIOD_BYTES` (arithmetic in `size_t`). -/
def AUDIO_HW_OUT_PERIOD_BYTES (P : Platform) : Nat :=
  (AUDIO_HW_OUT_PERIOD_SZ P * 2 * SIZEOF_INT16) % U32

/-- The macro `AUDIO_HW_IN_PERIOD_SZ`. -/
def AUDIO_HW_IN_PERIOD_SZ (P : Platform) : Nat := P.PCM_PERIOD_SZ_MIN * AUDIO_HW_IN_PERIOD_MULT

/-- The macro `AUDIO_HW_IN_PERIOD_BYTES` (arithmetic in `size_t`). -/
def AUDIO_HW_IN_PERIOD_BYTES (P : Platform) : Nat :=
  (AUDIO_HW_IN_PERIOD_SZ P * 2 * SIZEOF_INT16) % U32

/-- The answer of the kernel to `pcm_open` followed by `pcm_ready`: no handle, a handle
that is not ready, or a ready handle. -/
inductive PcmOpen where
  | null
  | notReady
  | ready
  deriving DecidableEq, Repr

/-- The two kernel PCM devices of the streams (`PCM_OUT` and `PCM_IN`). -/
inductive PcmDir where
  | PCM_OUT
  | PCM_IN
  deriving DecidableEq, Repr

/-- The calls of the streams into the kernel PCM driver, the wake-lock manager and the C
library, recorded in program order.  The data transfers `pcm_write` and `pcm_read` are not
recorded: their results are arguments of `write` and `read`. -/
inductive SysCall where
  | acquire_wake_lock (tag : String)
  | release_wake_lock (tag : String)
  | usleep (us : Nat)
  | pcm_open (dir : PcmDir)
  | pcm_close (dir : PcmDir)
  deriving DecidableEq, Repr

/-- The class `AudioStreamOutALSA`.  `self` is the address of the object, `mPcm` tells
whether the handle pointer is non-null; `mHardware` is set by `set()` before the facade
stores the stream and is not represented.  `mStandbyCnt` is an `int`: `doStandby_l`
reduces it to 32 bits after each increment. -/
structure AudioStreamOutALSA where
  self : Nat
  mPcm : Bool
  mStandby : Bool
  mDevices : Nat
  mChannels : Nat
  mSampleRate : Nat
  mBufferSize : Nat
  mStandbyCnt : Int
  mSleepReq : Bool
  deriving DecidableEq, Repr

/-- The class `AudioStreamInALSA`.  `mDownSampler` and `mChannelMixer` tell whether the
pointer is non-null.  `mStandbyCnt` is an `int`: `doStandby_l` reduces it to 32 bits after
each increment. -/
structure AudioStreamInALSA where
  self : Nat
  mPcm : Bool
  mStandby : Bool
  mDevices : Nat
  mInputChannels : Nat
  mChannels : Nat
  mInputChannelCount : Nat
  mChannelCount : Nat
  mSampleRate : Nat
  mBufferSize : Nat
  mDownSampler : Bool
  mChannelMixer : Bool
  mReadStatus : Int
  mStandbyCnt : Int
  mSleepReq : Bool
  deriving DecidableEq, Repr

/-- The class `AudioHardware` with the objects it owns (the stream objects of its slots
and its router), the field `mMode` of its base class, the answers the kernel gives for the
two PCM devices, and the history of system calls. -/
structure AudioHardware where
  mOutput : Option AudioStreamOutALSA
  mInputs : List AudioStreamInALSA
  mRouter : AudioRouter
  mMicMute : Bool
  mInCallAudioMode : Bool
  mVoiceVolume : ℚ
  mMode : Int
  pcmOut : PcmOpen
  pcmIn : PcmOpen
  sys : List SysCall

/-- The result of a `read` or `write`: a byte count, or a status. -/
inductive IoResult where
  | bytes (n : Nat)
  | status (st : Int)
  deriving DecidableEq, Repr

/-- The constructor `AudioStreamOutALSA::AudioStreamOutALSA` for an object at `addr`. -/
def AudioStreamOutALSA.new (P : Platform) (addr : Nat) : AudioStreamOutALSA :=
  { self := addr, mPcm := false, mStandby := true, mDevices := 0,
    mChannels := P.CHANNEL_OUT_STEREO, mSampleRate := AUDIO_HW_OUT_SAMPLERATE,
    mBufferSize := AUDIO_HW_OUT_PERIOD_BYTES P, mStandbyCnt := 0, mSleepReq := false }

/-- The constructor `AudioStreamInALSA::AudioStreamInALSA` for an object at `addr`
(`mInputChannels` and `mInputChannelCount` are not initialised by it; they are 0 here). -/
def AudioStreamInALSA.new (P : Platform) (addr : Nat) : AudioStreamInALSA :=
  { self := addr, mPcm := false, mStandby := true, mDevices := 0, mInputChannels := 0,
    mChannels := P.CHANNEL_IN_STEREO, mInputChannelCount := 0, mChannelCount := 2,
    mSampleRate := AUDIO_HW_IN_SAMPLERATE, mBufferSize := AUDIO_HW_IN_PERIOD_BYTES P,
    mDownSampler := false, mChannelMixer := false, mReadStatus := NO_ERROR,
    mStandbyCnt := 0, mSleepReq := false }

/-- The values a `set()` call leaves behind: its status and what the three pointer
arguments point to afterwards (`none` for a null pointer). -/
structure SetResult where
  status : Int
  format : Option Int
  channels : Option Nat
  rate : Option Nat
  deriving DecidableEq, Repr

/-- The method `AudioStreamOutALSA::set`. -/
def AudioStreamOutALSA.set (P : Platform) (o : AudioStreamOutALSA) (devices : Nat)
    (pFormat : Option Int) (pChannels pRate : Option Nat) :
    SetResult × AudioStreamOutALSA :=
  let lFormat := P.PCM_16_BIT
  let lChannels := o.mChannels
  let lRate := o.mSampleRate
  let o1 := { o with mDevices := devices }
  let bad (v : Option Nat) (l : Nat) : Bool :=
    match v with
    | none => false
    | some x => x ≠ 0 && x ≠ l
  let badFormat : Bool :=
    match pFormat with
    | none => false
    | some x => x ≠ 0 && x ≠ lFormat
  let out : SetResult :=
    { status := NO_ERROR, format := pFormat.map fun _ => lFormat,
      channels := pChannels.map fun _ => lChannels, rate := pRate.map fun _ => lRate }
  if badFormat || bad pChannels lChannels || bad pRate lRate then
    ({ out with status := P.BAD_VALUE }, o1)
  else
    (out, { o1 with mChannels := lChannels, mSampleRate := lRate,
                    mBufferSize := AUDIO_HW_OUT_PERIOD_BYTES P })

/-- The array `inputSamplingRates` of `getInputSampleRate`. -/
def inputSamplingRates : List Nat := [8000, 11025, 16000, 22050, 44100]

/-- The expression `abs(sampleRate - rate)` on `uint32_t` operands, stored in a
`uint32_t`: the difference wraps modulo 2^32, is read as a 32-bit signed `int` by `abs`,
and the result is stored back as unsigned. -/
def absDelta (sampleRate rate : Nat) : Nat :=
  let d := (sampleRate + U32 - rate % U32) % U32
  let asInt : Int := if d < 2 ^ 31 then (d : Int) else (d : Int) - U32
  asInt.natAbs % U32

/-- The loop of `getInputSampleRate` from index `i` on, with the rates still to visit:
the value of `i` when the loop ends. -/
def rateLoop (sampleRate : Nat) : List Nat → Nat → Nat → Nat
  | [], _, i => i
  | rate :: rest, prevDelta, i =>
    let delta := absDelta sampleRate rate
    if delta > prevDelta then i else rateLoop sampleRate rest delta (i + 1)

/-- The method `AudioStreamInALSA::getInputSampleRate`. -/
def getInputSampleRate (sampleRate : Nat) : Nat :=
  let i := rateLoop sampleRate inputSamplingRates 0xffffffff 0
  inputSamplingRates.getD (i - 1) 0

/-- The static method `AudioStreamInALSA::getBufferSize` (arithmetic in `size_t`). -/
def getBufferSize (P : Platform) (sampleRate : Nat) (channelCount : Int) : Nat :=
  let ratio : Nat :=
    if sampleRate = 8000 ∨ sampleRate = 11025 then 4
    else if sampleRate = 16000 ∨ sampleRate = 22050 then 2
    else 1
  (((AUDIO_HW_IN_PERIOD_SZ P : Int) * channelCount % U32).toNat * SIZEOF_INT16 % U32) / ratio

/-- The method `AudioHardware::getInputBufferSize`. -/
def getInputBufferSize (P : Platform) (sampleRate : Nat) (format : Int) (channelCount : Int) :
    Nat :=
  if format ≠ P.PCM_16_BIT then 0
  else if channelCount < 1 ∨ channelCount > 2 then 0
  else if sampleRate = 8000 ∨ sampleRate = 11025 ∨ sampleRate = 16000 ∨ sampleRate = 22050 ∨
      sampleRate = 44100 then
    getBufferSize P sampleRate channelCount
  else 0

/-- The method `AudioStreamInALSA::set`.  The channel mixer initialises only for the
conversion from 2 channels to 1 and the down-sampler only for the rates 8000, 11025, 16000
and 22050 (their constructors; allocation succeeds). -/
def AudioStreamInALSA.set (P : Platform) (st : AudioStreamInALSA) (devices : Nat)
    (pFormat : Option Int) (pChannels pRate : Option Nat) :
    SetResult × AudioStreamInALSA :=
  match pFormat, pChannels, pRate with
  | some format, some channels, some rate0 =>
    let out : SetResult :=
      { status := NO_ERROR, format := some format, channels := some channels,
        rate := some rate0 }
    if format ≠ P.PCM_16_BIT then
      ({ out with status := P.BAD_VALUE, format := some P.PCM_16_BIT }, st)
    else
      let rate := getInputSampleRate rate0
      if rate ≠ rate0 then
        ({ out with status := P.BAD_VALUE, rate := some rate }, st)
      else if channels ≠ P.CHANNEL_IN_MONO ∧ channels ≠ P.CHANNEL_IN_STEREO then
        ({ out with status := P.BAD_VALUE, channels := some P.CHANNEL_IN_STEREO }, st)
      else
        let st1 := { st with
          mDevices := devices,
          mInputChannels := P.CHANNEL_IN_STEREO,
          mInputChannelCount := P.popCount P.CHANNEL_IN_STEREO,
          mChannels := channels,
          mChannelCount := P.popCount channels,
          mBufferSize := getBufferSize P rate (P.popCount channels),
          mSampleRate := rate,
          mChannelMixer := false,
          mDownSampler := false }
        if channels ≠ P.CHANNEL_IN_STEREO then
          let st2 := { st1 with mChannelMixer := true }
          if ¬ (st2.mChannelCount = 1 ∧ st2.mInputChannelCount = 2) then
            ({ out with status := P.NO_INIT }, st2)
          else if st2.mSampleRate ≠ AUDIO_HW_IN_SAMPLERATE then
            let st3 := { st2 with mDownSampler := true }
            if st3.mSampleRate ≠ 8000 ∧ st3.mSampleRate ≠ 11025 ∧ st3.mSampleRate ≠ 16000 ∧
                st3.mSampleRate ≠ 22050 then
              ({ out with status := P.NO_INIT }, st3)
            else (out, st3)
          else (out, st2)
        else if st1.mSampleRate ≠ AUDIO_HW_IN_SAMPLERATE then
          let st3 := { st1 with mDownSampler := true }
          if st3.mSampleRate ≠ 8000 ∧ st3.mSampleRate ≠ 11025 ∧ st3.mSampleRate ≠ 16000 ∧
              st3.mSampleRate ≠ 22050 then
            ({ out with status := P.NO_INIT }, st3)
          else (out, st3)
        else (out, st1)
  | _, _, _ =>
    ({ status := P.BAD_VALUE, format := pFormat, channels := pChannels, rate := pRate }, st)

/-- The method `AudioHardware::getVoiceOutRouteFromDevice`; the `switch` is read as the
chain of its case labels in source order. -/
def getVoiceOutRouteFromDevice (P : Platform) (device : Nat) : Nat :=
  if device = P.DEVICE_OUT_EARPIECE then BIT ENDPOINT_RCV
  else if device = P.DEVICE_OUT_SPEAKER then BIT ENDPOINT_AMP ||| BIT ENDPOINT_SPK
  else if device = P.DEVICE_OUT_WIRED_HEADPHONE ∨ device = P.DEVICE_OUT_WIRED_HEADSET then
    BIT ENDPOINT_AMP ||| BIT ENDPOINT_HP
  else if device = P.DEVICE_OUT_BLUETOOTH_SCO ∨ device = P.DEVICE_OUT_BLUETOOTH_SCO_HEADSET ∨
      device = P.DEVICE_OUT_BLUETOOTH_SCO_CARKIT then BIT ENDPOINT_BT
  else 0

/-- The method `AudioHardware::getVoiceInRouteFromDevice`. -/
def getVoiceInRouteFromDevice (P : Platform) (device : Nat) : Nat :=
  if device = P.DEVICE_OUT_EARPIECE ∨ device = P.DEVICE_OUT_WIRED_HEADPHONE then
    BIT ENDPOINT_MIC_MAIN
  else if device = P.DEVICE_OUT_SPEAKER then BIT ENDPOINT_MIC_SUB
  else if device = P.DEVICE_OUT_WIRED_HEADSET then BIT ENDPOINT_MIC_HP
  else if device = P.DEVICE_OUT_BLUETOOTH_SCO ∨ device = P.DEVICE_OUT_BLUETOOTH_SCO_HEADSET ∨
      device = P.DEVICE_OUT_BLUETOOTH_SCO_CARKIT then BIT ENDPOINT_MIC_BT
  else 0

/-- The method `AudioStreamOutALSA::getOutputRouteFromDevice`. -/
def getOutputRouteFromDevice (P : Platform) (device : Nat) : Nat :=
  if device = P.DEVICE_OUT_EARPIECE then BIT ENDPOINT_RCV
  else if device = P.DEVICE_OUT_SPEAKER then BIT ENDPOINT_AMP ||| BIT ENDPOINT_SPK
  else if device = P.DEVICE_OUT_WIRED_HEADPHONE ∨ device = P.DEVICE_OUT_WIRED_HEADSET then
    BIT ENDPOINT_AMP ||| BIT ENDPOINT_HP
  else if device = (P.DEVICE_OUT_SPEAKER ||| P.DEVICE_OUT_WIRED_HEADPHONE) ∨
      device = (P.DEVICE_OUT_SPEAKER ||| P.DEVICE_OUT_WIRED_HEADSET) then
    BIT ENDPOINT_AMP ||| BIT ENDPOINT_SPK ||| BIT ENDPOINT_HP
  else if device = P.DEVICE_OUT_BLUETOOTH_SCO ∨ device = P.DEVICE_OUT_BLUETOOTH_SCO_HEADSET ∨
      device = P.DEVICE_OUT_BLUETOOTH_SCO_CARKIT then BIT ENDPOINT_BT
  else 0

/-- The method `AudioStreamInALSA::getInputRouteFromDevice`. -/
def getInputRouteFromDevice (P : Platform) (device : Nat) : Nat :=
  if device = P.DEVICE_IN_BUILTIN_MIC then BIT ENDPOINT_MIC_MAIN
  else if device = P.DEVICE_IN_BACK_MIC then BIT ENDPOINT_MIC_SUB
  else if device = P.DEVICE_IN_WIRED_HEADSET then BIT ENDPOINT_MIC_HP
  else if device = P.DEVICE_IN_BLUETOOTH_SCO_HEADSET then BIT ENDPOINT_MIC_BT
  else if device = P.DEVICE_IN_VOICE_CALL then BIT ENDPOINT_PHONE_IN
  else 0

namespace AudioHardware

/-- Append one system call to the history. -/
def emitSys (hw : AudioHardware) (c : SysCall) : AudioHardware :=
  { hw with sys := hw.sys ++ [c] }

/-- The inline method `AudioHardware::setAudioRoute` (the router exists). -/
def setAudioRoute (type : RouteType) (route : Nat) (hw : AudioHardware) : AudioHardware :=
  { hw with mRouter := AudioRouter.setAudioRoute type route hw.mRouter }

/-- The method `AudioHardware::getInput`: the index in `mInputs` of the first stream that
is not in standby. -/
def getInput (hw : AudioHardware) : Option Nat :=
  hw.mInputs.findIdx? fun st => !st.mStandby

end AudioHardware

/-- The error-path argument of `usleep`:
`(((bytes * 1000) / frameSize()) * 1000) / sampleRate()` in 32-bit unsigned arithmetic. -/
def sleepTime (bytes frameSize sampleRate : Nat) : Nat :=
  ((bytes * 1000 % U32 / frameSize) * 1000 % U32) / sampleRate

namespace AudioStreamOutALSA

/-- The method `frameSize()` of the base class `AudioStreamOut`: the channel count times
the sample size, which is `sizeof(int16_t)` because `format()` is `PCM_16_BIT`. -/
def frameSize (P : Platform) (o : AudioStreamOutALSA) : Nat :=
  P.popCount o.mChannels * SIZEOF_INT16

/-- The method `prepareLock`: the counter, and the stream with `mSleepReq` set. -/
def prepareLock (o : AudioStreamOutALSA) : Int × AudioStreamOutALSA :=
  (o.mStandbyCnt, { o with mSleepReq := true })

/-- The method `lock` (the mutex itself is not represented). -/
def lock (o : AudioStreamOutALSA) : AudioStreamOutALSA :=
  { o with mSleepReq := false }

/-- The method `close_l`. -/
def close_l (o : AudioStreamOutALSA) (hw : AudioHardware) :
    AudioStreamOutALSA × AudioHardware :=
  let hw1 := hw.setAudioRoute .ROUTE_OUTPUT 0
  if o.mPcm then ({ o with mPcm := false }, hw1.emitSys (.pcm_close .PCM_OUT))
  else (o, hw1)

/-- The method `open_l`. -/
def open_l (P : Platform) (o : AudioStreamOutALSA) (hw : AudioHardware) :
    Int × AudioStreamOutALSA × AudioHardware :=
  let hw1 := hw.emitSys (.pcm_open .PCM_OUT)
  match hw.pcmOut with
  | .null => (P.NO_INIT, { o with mPcm := false }, hw1)
  | .notReady => (P.NO_INIT, { o with mPcm := false }, hw1.emitSys (.pcm_close .PCM_OUT))
  | .ready =>
    if hw.mMode ≠ P.MODE_IN_CALL then
      (NO_ERROR, { o with mPcm := true },
        hw1.setAudioRoute .ROUTE_OUTPUT (getOutputRouteFromDevice P o.mDevices))
    else (NO_ERROR, { o with mPcm := true }, hw1)

/-- The method `doStandby_l`. -/
def doStandby_l (o : AudioStreamOutALSA) (hw : AudioHardware) :
    AudioStreamOutALSA × AudioHardware :=
  let o1 := { o with mStandbyCnt := wrapI32 (o.mStandbyCnt + 1) }
  if !o1.mStandby then
    close_l { o1 with mStandby := true } (hw.emitSys (.release_wake_lock "AudioOutLock"))
  else close_l o1 hw

/-- The method `standby` (the stream belongs to a facade). -/
def standby (o : AudioStreamOutALSA) (hw : AudioHardware) :
    AudioStreamOutALSA × AudioHardware :=
  doStandby_l { o with mSleepReq := false } hw

end AudioStreamOutALSA

namespace AudioStreamInALSA

/-- The inline method `frameSize()`. -/
def frameSize (st : AudioStreamInALSA) : Nat :=
  st.mChannelCount * SIZEOF_INT16 % U32

/-- The method `prepareLock`. -/
def prepareLock (st : AudioStreamInALSA) : Int × AudioStreamInALSA :=
  (st.mStandbyCnt, { st with mSleepReq := true })

/-- The method `lock` (the mutex itself is not represented). -/
def lock (st : AudioStreamInALSA) : AudioStreamInALSA :=
  { st with mSleepReq := false }

/-- The method `close_l`. -/
def close_l (st : AudioStreamInALSA) (hw : AudioHardware) :
    AudioStreamInALSA × AudioHardware :=
  if st.mPcm then ({ st with mPcm := false }, hw.emitSys (.pcm_close .PCM_IN))
  else (st, hw)

/-- The method `open_l` (the reset of the down-sampler is not represented). -/
def open_l (P : Platform) (st : AudioStreamInALSA) (hw : AudioHardware) :
    Int × AudioStreamInALSA × AudioHardware :=
  let hw1 := hw.emitSys (.pcm_open .PCM_IN)
  match hw.pcmIn with
  | .null => (P.NO_INIT, { st with mPcm := false }, hw1)
  | .notReady => (P.NO_INIT, { st with mPcm := false }, hw1.emitSys (.pcm_close .PCM_IN))
  | .ready =>
    (NO_ERROR, { st with mPcm := true },
      hw1.setAudioRoute .ROUTE_INPUT (getInputRouteFromDevice P st.mDevices))

/-- The method `doStandby_l`. -/
def doStandby_l (st : AudioStreamInALSA) (hw : AudioHardware) :
    AudioStreamInALSA × AudioHardware :=
  let st1 := { st with mStandbyCnt := wrapI32 (st.mStandbyCnt + 1) }
  if !st1.mStandby then
    close_l { st1 with mStandby := true } (hw.emitSys (.release_wake_lock "AudioInLock"))
  else close_l st1 hw

/-- The method `standby` (the stream belongs to a facade). -/
def standby (st : AudioStreamInALSA) (hw : AudioHardware) :
    AudioStreamInALSA × AudioHardware :=
  doStandby_l { st with mSleepReq := false } hw

/-- The method `getNextBuffer` of the stream itself, asked for `frameCount` frames into a
buffer whose pointer is null or not, when `pcm_read` would return `pcmRead`: the status,
the frame count left in the buffer descriptor, and the stream. -/
def getNextBuffer (P : Platform) (st : AudioStreamInALSA) (frameCount : Nat) (rawNull : Bool)
    (pcmRead : Int) : Int × Nat × AudioStreamInALSA :=
  if !st.mPcm then (P.NO_INIT, 0, { st with mReadStatus := P.NO_INIT })
  else if rawNull ∨ frameCount = 0 then (P.BAD_VALUE, 0, st)
  else if pcmRead ≠ 0 then (pcmRead, 0, { st with mReadStatus := pcmRead })
  else (0, frameCount, { st with mReadStatus := pcmRead })

end AudioStreamInALSA

/-- The interface `BufferProvider` as `read` uses it: the answer of the `k`-th call of
`mInputProvider->getNextBuffer` on the stream when asked for a number of frames (status,
frames delivered, stream). -/
abbrev BufferProvider := Nat → AudioStreamInALSA → Nat → Int × Nat × AudioStreamInALSA

/-- The provider of a stream without channel mixer and down-sampler, `mInputProvider =
this`, when the `k`-th `pcm_read` returns `pcmReads k`. -/
def rawProvider (P : Platform) (pcmReads : Nat → Int) : BufferProvider :=
  fun k st frameCount => AudioStreamInALSA.getNextBuffer P st frameCount false (pcmReads k)

namespace AudioStreamOutALSA

/-- The end of `wakeUp_l`, after the devices were opened. -/
def wakeUpEnd (o : AudioStreamOutALSA) (hw : AudioHardware) :
    Int × AudioStreamOutALSA × AudioHardware :=
  if !o.mPcm then (-1, o, hw.emitSys (.release_wake_lock "AudioOutLock"))
  else (0, { o with mStandby := false }, hw)

/-- The method `wakeUp_l`, executed without interleaving: no other thread changes the
facade while its lock is released, so the re-check of the hand-off loop succeeds at its
first pass.  The input stream taken over is written back to its place in `mInputs`. -/
def wakeUp_l (P : Platform) (o : AudioStreamOutALSA) (hw : AudioHardware) :
    Int × AudioStreamOutALSA × AudioHardware :=
  if !o.mStandby then (0, o, hw)
  else
    let hw1 := hw.emitSys (.acquire_wake_lock "AudioOutLock")
    match hw1.getInput with
    | none =>
      let r := open_l P o hw1
      wakeUpEnd r.2.1 r.2.2
    | some i =>
      match hw1.mInputs[i]? with
      | none =>
        let r := open_l P o hw1
        wakeUpEnd r.2.1 r.2.2
      | some spIn =>
        let spIn1 := AudioStreamInALSA.lock (AudioStreamInALSA.prepareLock spIn).2
        let c := AudioStreamInALSA.close_l spIn1 hw1
        let r := open_l P o c.2
        let ri := AudioStreamInALSA.open_l P c.1 r.2.2
        let d := if ri.1 ≠ NO_ERROR then AudioStreamInALSA.doStandby_l ri.2.1 ri.2.2
          else (ri.2.1, ri.2.2)
        wakeUpEnd r.2.1 { d.2 with mInputs := d.2.mInputs.set i d.1 }

/-- The error path of `write`: `standby()`, then the sleep that simulates the timing. -/
def writeError (P : Platform) (status : Int) (bytes : Nat) (o : AudioStreamOutALSA)
    (hw : AudioHardware) : IoResult × AudioStreamOutALSA × AudioHardware :=
  let s := standby o hw
  (.status status, s.1,
    s.2.emitSys (.usleep (sleepTime bytes (frameSize P s.1) s.1.mSampleRate)))

/-- The method `write` of a stream that belongs to a facade, when `pcm_write` would return
`pcmRet` and leave `errno`. -/
def write (P : Platform) (o : AudioStreamOutALSA) (hw : AudioHardware) (bytes : Nat)
    (pcmRet errno : Int) : IoResult × AudioStreamOutALSA × AudioHardware :=
  let hw0 := if o.mSleepReq then hw.emitSys (.usleep 10000) else hw
  let w := wakeUp_l P o hw0
  if w.1 ≠ 0 then writeError P P.NO_INIT bytes w.2.1 w.2.2
  else if pcmRet = 0 then (.bytes bytes, w.2.1, w.2.2)
  else writeError P (-errno) bytes w.2.1 w.2.2

end AudioStreamOutALSA

namespace AudioStreamInALSA

/-- The end of `wakeUp_l`, after the devices were opened. -/
def wakeUpEnd (st : AudioStreamInALSA) (hw : AudioHardware) :
    Int × AudioStreamInALSA × AudioHardware :=
  if !st.mPcm then (-1, st, hw.emitSys (.release_wake_lock "AudioInLock"))
  else (0, { st with mStandby := false }, hw)

/-- The method `wakeUp_l`, executed without interleaving.  The output stream taken over
is written back to the slot `mOutput`. -/
def wakeUp_l (P : Platform) (st : AudioStreamInALSA) (hw : AudioHardware) :
    Int × AudioStreamInALSA × AudioHardware :=
  if !st.mStandby then (0, st, hw)
  else
    let hw1 := hw.emitSys (.acquire_wake_lock "AudioInLock")
    match hw1.mOutput with
    | none =>
      let r := open_l P st hw1
      wakeUpEnd r.2.1 r.2.2
    | some spOut =>
      if spOut.mStandby then
        let r := open_l P st hw1
        wakeUpEnd r.2.1 r.2.2
      else
        let spOut1 := AudioStreamOutALSA.lock (AudioStreamOutALSA.prepareLock spOut).2
        let c := AudioStreamOutALSA.close_l spOut1 hw1
        let ro := AudioStreamOutALSA.open_l P c.1 c.2
        let d := if ro.1 ≠ NO_ERROR then AudioStreamOutALSA.doStandby_l ro.2.1 ro.2.2
          else (ro.2.1, ro.2.2)
        let r := open_l P st { d.2 with mOutput := some d.1 }
        wakeUpEnd r.2.1 r.2.2

/-- The loop of `read`: with `framesIn` frames read so far, call the provider (call number
`k`) until enough frames were read or a call fails; `none` when the number of calls exceeds
the bound `fuel`. -/
def readLoop (prov : BufferProvider) (frames : Nat) :
    Nat → Nat → Nat → AudioStreamInALSA → Option (Nat × Int × AudioStreamInALSA)
  | 0, _, _, _ => none
  | fuel + 1, k, framesIn, st =>
    let r := prov k st (frames - framesIn)
    let framesIn1 := framesIn + r.2.1
    if framesIn1 < frames ∧ r.1 = 0 then readLoop prov frames fuel (k + 1) framesIn1 r.2.2
    else some (framesIn1, r.1, r.2.2)

/-- The error path of `read`: `standby()`, then the sleep computed from the local `bytes`
as it is when the label `error` is reached. -/
def readError (status : Int) (bytes : Nat) (st : AudioStreamInALSA) (hw : AudioHardware) :
    IoResult × AudioStreamInALSA × AudioHardware :=
  let s := standby st hw
  (.status status, s.1,
    s.2.emitSys (.usleep (sleepTime bytes (frameSize s.1) s.1.mSampleRate)))

/-- The method `read` of a stream that belongs to a facade, with the provider chain
`prov`; `none` only when the loop needs more than `fuel` provider calls. -/
def read (P : Platform) (st : AudioStreamInALSA) (hw : AudioHardware) (bytes : Nat)
    (prov : BufferProvider) (fuel : Nat) :
    Option (IoResult × AudioStreamInALSA × AudioHardware) :=
  let frames := bytes / frameSize st
  let hw0 := if st.mSleepReq then hw.emitSys (.usleep 10000) else hw
  let w := wakeUp_l P st hw0
  if w.1 ≠ 0 then some (readError P.NO_INIT bytes w.2.1 w.2.2)
  else
    match readLoop prov frames fuel 0 0 { w.2.1 with mReadStatus := 0 } with
    | none => none
    | some l =>
      let bytes1 := l.1 * frameSize l.2.2 % U32
      if l.2.1 = 0 then some (.bytes bytes1, l.2.2, w.2.2)
      else some (readError l.2.1 bytes1 l.2.2 w.2.2)

end AudioStreamInALSA

namespace AudioHardware

/-- The constructor `AudioHardware::AudioHardware`, on the path where the router was
constructed, with the answers the kernel will give for the two PCM devices. -/
def init (P : Platform) (router : AudioRouter) (pcmOut pcmIn : PcmOpen) : AudioHardware :=
  { mOutput := none, mInputs := [], mRouter := router, mMicMute := false,
    mInCallAudioMode := false, mVoiceVolume := 0, mMode := P.initMode,
    pcmOut := pcmOut, pcmIn := pcmIn, sys := [] }

/-- The result of `openOutputStream`: the returned pointer (`none` for 0), the status, and
what the three pointer arguments point to afterwards. -/
structure OpenResult where
  stream : Option Nat
  status : Int
  format : Option Int
  channels : Option Nat
  rate : Option Nat
  deriving DecidableEq, Repr

/-- The method `openOutputStream`; `addr` is the address `new` gives the stream object.
A stream whose `set()` fails is destroyed, and its destructor calls `standby()`. -/
def openOutputStream (P : Platform) (addr devices : Nat) (pFormat : Option Int)
    (pChannels pRate : Option Nat) (hw : AudioHardware) : OpenResult × AudioHardware :=
  match hw.mOutput with
  | some _ =>
    ({ stream := none, status := P.INVALID_OPERATION, format := pFormat,
       channels := pChannels, rate := pRate }, hw)
  | none =>
    let r := AudioStreamOutALSA.set P (AudioStreamOutALSA.new P addr) devices pFormat
      pChannels pRate
    if r.1.status = NO_ERROR then
      ({ stream := some addr, status := r.1.status, format := r.1.format,
         channels := r.1.channels, rate := r.1.rate }, { hw with mOutput := some r.2 })
    else
      ({ stream := none, status := r.1.status, format := r.1.format,
         channels := r.1.channels, rate := r.1.rate },
        (AudioStreamOutALSA.standby r.2 hw).2)

/-- The method `closeOutputStream` for the pointer `out`; the stream taken out of the slot
is destroyed, and its destructor calls `standby()`. -/
def closeOutputStream (out : Nat) (hw : AudioHardware) : AudioHardware :=
  match hw.mOutput with
  | none => hw
  | some o =>
    if o.self ≠ out then hw
    else (AudioStreamOutALSA.standby o { hw with mOutput := none }).2

/-- The method `openInputStream`; `addr` is the address `new` gives the stream object and
`isInputDevice` the answer of `AudioSystem::isInputDevice` for `devices`.  `mInputs` is a
`SortedVector` of pointers, so `add` inserts in the order of the addresses.  A stream whose
`set()` fails is destroyed, and its destructor calls `standby()`. -/
def openInputStream (P : Platform) (addr devices : Nat) (isInputDevice : Bool)
    (pFormat : Option Int) (pChannels pRate : Option Nat) (hw : AudioHardware) :
    OpenResult × AudioHardware :=
  if !isInputDevice then
    ({ stream := none, status := P.BAD_VALUE, format := pFormat, channels := pChannels,
       rate := pRate }, hw)
  else
    let r := AudioStreamInALSA.set P (AudioStreamInALSA.new P addr) devices pFormat
      pChannels pRate
    if r.1.status = NO_ERROR then
      ({ stream := some addr, status := r.1.status, format := r.1.format,
         channels := r.1.channels, rate := r.1.rate },
        { hw with mInputs := hw.mInputs.orderedInsert (fun a b => a.self ≤ b.self) r.2 })
    else
      ({ stream := none, status := r.1.status, format := r.1.format,
         channels := r.1.channels, rate := r.1.rate },
        (AudioStreamInALSA.standby r.2 hw).2)

/-- The output stream that `setMode` holds locked after its first hand-off loop: the
stream of the slot when it is active. -/
def lockedOutput (hw : AudioHardware) : Option AudioStreamOutALSA :=
  match hw.mOutput with
  | none => none
  | some o =>
    if !o.mStandby then some (AudioStreamOutALSA.lock (AudioStreamOutALSA.prepareLock o).2)
    else none

/-- The input stream that `setMode` holds locked after its second hand-off loop, with its
index in `mInputs`: the stream `getInput()` returns. -/
def lockedInput (hw : AudioHardware) : Option (Nat × AudioStreamInALSA) :=
  match hw.getInput with
  | none => none
  | some i =>
    match hw.mInputs[i]? with
    | none => none
    | some st => some (i, AudioStreamInALSA.lock (AudioStreamInALSA.prepareLock st).2)

/-- The statement `if (spOut != 0) spOut->doStandby_l();`. -/
def standbyOut (spOut : Option AudioStreamOutALSA) (hw : AudioHardware) :
    Option AudioStreamOutALSA × AudioHardware :=
  match spOut with
  | none => (none, hw)
  | some o => ((AudioStreamOutALSA.doStandby_l o hw).1, (AudioStreamOutALSA.doStandby_l o hw).2)

/-- The statement `if (spIn != 0) spIn->doStandby_l();`. -/
def standbyIn (spIn : Option (Nat × AudioStreamInALSA)) (hw : AudioHardware) :
    Option (Nat × AudioStreamInALSA) × AudioHardware :=
  match spIn with
  | none => (none, hw)
  | some (i, st) =>
    (some (i, (AudioStreamInALSA.doStandby_l st hw).1), (AudioStreamInALSA.doStandby_l st hw).2)

/-- Writing the stream objects that `setMode` held back to their places in the facade. -/
def storeBack (spOut : Option AudioStreamOutALSA) (spIn : Option (Nat × AudioStreamInALSA))
    (hw : AudioHardware) : AudioHardware :=
  { hw with
    mOutput := match spOut with
      | none => hw.mOutput
      | some o => some o,
    mInputs := match spIn with
      | none => hw.mInputs
      | some (i, st) => hw.mInputs.set i st }

/-- The router calls of `setMode` on entering in-call mode. -/
def enterCallRoutes (volume : ℚ) (r : AudioRouter) : AudioRouter :=
  AudioRouter.setAudioRoute .ROUTE_VOICE_OUT (BIT ENDPOINT_RCV)
    (AudioRouter.setAudioRoute .ROUTE_VOICE_IN (BIT ENDPOINT_MIC_MAIN)
      (AudioRouter.setVoiceVolume volume
        (AudioRouter.setRouteDisable .ROUTE_OUTPUT true
          (AudioRouter.setRouteDisable .ROUTE_INPUT true r))))

/-- The router calls of `setMode` on leaving in-call mode. -/
def leaveCallRoutes (r : AudioRouter) : AudioRouter :=
  AudioRouter.setVoiceVolume 0
    (AudioRouter.setRouteDisable .ROUTE_INPUT false
      (AudioRouter.setRouteDisable .ROUTE_OUTPUT false
        (AudioRouter.setAudioRoute .ROUTE_VOICE_OUT 0
          (AudioRouter.setAudioRoute .ROUTE_VOICE_IN 0 r))))

/-- The method `setMode`, executed without interleaving: both hand-off loops succeed at
their first pass, and the streams held locked are written back when they are unlocked. -/
def setMode (P : Platform) (mode : Int) (hw : AudioHardware) : Int × AudioHardware :=
  let spOut := lockedOutput hw
  let spIn := lockedInput hw
  let b := P.baseSetMode hw.mMode mode
  let hw1 := { hw with mMode := b.2 }
  let goingIntoInCall : Bool := decide (mode = P.MODE_IN_CALL)
  if b.1 ≠ NO_ERROR then (b.1, storeBack spOut spIn hw1)
  else if goingIntoInCall = hw1.mInCallAudioMode then (b.1, storeBack spOut spIn hw1)
  else if goingIntoInCall then
    let a := standbyOut spOut hw1
    let c := standbyIn spIn a.2
    (b.1, storeBack a.1 c.1
      { c.2 with mRouter := enterCallRoutes c.2.mVoiceVolume c.2.mRouter,
                 mInCallAudioMode := true })
  else
    let a := standbyOut spOut { hw1 with mRouter := leaveCallRoutes hw1.mRouter }
    let c := standbyIn spIn a.2
    (b.1, storeBack a.1 c.1 { c.2 with mInCallAudioMode := false })

/-- The method `setMicMute`.  The local `spIn` is declared and never assigned, so the
final `if (spIn != 0) spIn->standby();` sees a null pointer. -/
def setMicMute (state : Bool) (hw : AudioHardware) : Int × AudioHardware :=
  let spIn : Option (Nat × AudioStreamInALSA) := none
  let hw1 := { hw with
    mRouter := AudioRouter.setRouteDisable .ROUTE_INPUT state
      (AudioRouter.setRouteDisable .ROUTE_VOICE_IN state hw.mRouter),
    mMicMute := state }
  match spIn with
  | none => (NO_ERROR, hw1)
  | some (i, st) =>
    (NO_ERROR, { (AudioStreamInALSA.standby st hw1).2 with
      mInputs := (AudioStreamInALSA.standby st hw1).2.mInputs.set i
        (AudioStreamInALSA.standby st hw1).1 })

/-- The method `getMicMute`. -/
def getMicMute (hw : AudioHardware) : Bool := hw.mMicMute

/-- The method `AudioHardware::setVoiceVolume`. -/
def setVoiceVolume (volume : ℚ) (hw : AudioHardware) : Int × AudioHardware :=
  let hw1 := { hw with mVoiceVolume := volume }
  if hw1.mInCallAudioMode then
    (NO_ERROR, { hw1 with mRouter := AudioRouter.setVoiceVolume volume hw1.mRouter })
  else (NO_ERROR, hw1)

/-- The method `AudioHardware::setMasterVolume`. -/
def setMasterVolume (volume : ℚ) (hw : AudioHardware) : Int × AudioHardware :=
  (NO_ERROR, { hw with mRouter := AudioRouter.setMasterVolume volume hw.mRouter })

/-- The method `setIncallPath` (the router exists). -/
def setIncallPath (P : Platform) (device : Nat) (hw : AudioHardware) : Int × AudioHardware :=
  if hw.mMode ≠ P.MODE_IN_CALL then (NO_ERROR, hw)
  else
    let outRoute := getVoiceOutRouteFromDevice P device
    let inRoute := getVoiceInRouteFromDevice P device
    (NO_ERROR, { hw with
      mRouter := AudioRouter.setAudioRoute .ROUTE_VOICE_IN inRoute
        (AudioRouter.setAudioRoute .ROUTE_VOICE_OUT outRoute hw.mRouter) })

/-- One call of the control interface of the facade. -/
inductive Ctl where
  | setMicMute (state : Bool)
  | setMode (mode : Int)
  | setIncallPath (device : Nat)
  | setVoiceVolume (volume : ℚ)
  | setMasterVolume (volume : ℚ)

/-- Execute one control call, dropping its status. -/
def Ctl.exec (P : Platform) : Ctl → AudioHardware → AudioHardware
  | .setMicMute state, hw => (AudioHardware.setMicMute state hw).2
  | .setMode mode, hw => (AudioHardware.setMode P mode hw).2
  | .setIncallPath device, hw => (AudioHardware.setIncallPath P device hw).2
  | .setVoiceVolume volume, hw => (AudioHardware.setVoiceVolume volume hw).2
  | .setMasterVolume volume, hw => (AudioHardware.setMasterVolume volume hw).2

/-- Execute a sequence of control calls, first to last. -/
def runCtl (P : Platform) (calls : List Ctl) (hw : AudioHardware) : AudioHardware :=
  calls.foldl (fun acc c => c.exec P acc) hw

end AudioHardware

/-- The platform the HAL was written for (Android 2.3): the values of the framework
constants, `PCM_PERIOD_SZ_MIN` as the comment of `config.h` gives it (8 * 128 = 1024
frames), the number of set bits for `popCount`, and the framework's
`AudioHardwareBase::setMode`, which rejects a mode outside 0..3 with `BAD_VALUE`, an
unchanged mode with `ALREADY_EXISTS` (-17), and stores any other mode. -/
def gingerbread : Platform :=
  { PCM_PERIOD_SZ_MIN := 128,
    PCM_16_BIT := 1,
    CHANNEL_OUT_STEREO := 0xC,
    CHANNEL_IN_MONO := 0x10,
    CHANNEL_IN_STEREO := 0xC,
    MODE_IN_CALL := 2,
    DEVICE_OUT_EARPIECE := 0x1,
    DEVICE_OUT_SPEAKER := 0x2,
    DEVICE_OUT_WIRED_HEADSET := 0x4,
    DEVICE_OUT_WIRED_HEADPHONE := 0x8,
    DEVICE_OUT_BLUETOOTH_SCO := 0x10,
    DEVICE_OUT_BLUETOOTH_SCO_HEADSET := 0x20,
    DEVICE_OUT_BLUETOOTH_SCO_CARKIT := 0x40,
    DEVICE_IN_BUILTIN_MIC := 0x40000,
    DEVICE_IN_BACK_MIC := 0x800000,
    DEVICE_IN_WIRED_HEADSET := 0x100000,
    DEVICE_IN_BLUETOOTH_SCO_HEADSET := 0x80000,
    DEVICE_IN_VOICE_CALL := 0x400000,
    NO_INIT := -19,
    BAD_VALUE := -22,
    INVALID_OPERATION := -38,
    popCount := fun n => (Nat.digits 2 n).sum,
    baseSetMode := fun cur mode =>
      if mode < 0 ∨ mode ≥ 4 then (-22, cur)
      else if cur = mode then (-17, cur)
      else (0, mode),
    initMode := 0 }

/-- The decimation ratio of a supported capture rate, as the specification gives it. -/
def rateRatio (rate : Nat) : Nat :=
  if rate = 8000 ∨ rate = 11025 then 4 else if rate = 16000 ∨ rate = 22050 then 2 else 1

/-- The seven output device constants that the in-call `switch` statements name. -/
def Platform.outDevices (P : Platform) : List Nat :=
  [ P.DEVICE_OUT_EARPIECE, P.DEVICE_OUT_SPEAKER, P.DEVICE_OUT_WIRED_HEADPHONE,
    P.DEVICE_OUT_WIRED_HEADSET, P.DEVICE_OUT_BLUETOOTH_SCO,
    P.DEVICE_OUT_BLUETOOTH_SCO_HEADSET, P.DEVICE_OUT_BLUETOOTH_SCO_CARKIT ]

/-- The distance between two sample rates. -/
def rateDist (a b : Nat) : Nat := if a ≤ b then b - a else a - b

/-- A facade of the `gingerbread` platform, just constructed on a router whose mixer has
every control, with both kernel PCM devices ready. -/
def freshHardware : AudioHardware :=
  AudioHardware.init gingerbread AudioRouter.fresh .ready .ready

/-- Two facade states that hold the same streams, flags, stored voice volume, mode and
kernel answers: they differ at most in the router and the history of system calls. -/
structure AudioHardware.SameSlots (hw hw' : AudioHardware) : Prop where
  mOutput : hw'.mOutput = hw.mOutput
  mInputs : hw'.mInputs = hw.mInputs
  mMicMute : hw'.mMicMute = hw.mMicMute
  mInCallAudioMode : hw'.mInCallAudioMode = hw.mInCallAudioMode
  mVoiceVolume : hw'.mVoiceVolume = hw.mVoiceVolume
  mMode : hw'.mMode = hw.mMode
  pcmOut : hw'.pcmOut = hw.pcmOut
  pcmIn : hw'.pcmIn = hw.pcmIn

/-- The output stream as `doStandby_l` leaves it. -/
def AudioStreamOutALSA.stoodBy (o : AudioStreamOutALSA) : AudioStreamOutALSA :=
  { o with mStandbyCnt := wrapI32 (o.mStandbyCnt + 1), mStandby := true, mPcm := false }

/-- The input stream as `doStandby_l` leaves it. -/
def AudioStreamInALSA.stoodBy (st : AudioStreamInALSA) : AudioStreamInALSA :=
  { st with mStandbyCnt := wrapI32 (st.mStandbyCnt + 1), mStandby := true, mPcm := false }

/-- At most one input stream of the facade is active (not in standby). -/
def AudioHardware.OneActiveInput (hw : AudioHardware) : Prop :=
  ∀ (i j : Nat) (a b : AudioStreamInALSA), hw.mInputs[i]? = some a → hw.mInputs[j]? = some b →
    a.mStandby = false → b.mStandby = false → i = j

/-- The output slot after a thread that went through the hand-off loop of `setMode` forced
the active output stream to standby. -/
def AudioHardware.forcedOutput (hw : AudioHardware) : Option AudioStreamOutALSA :=
  hw.mOutput.map fun o =>
    if o.mStandby then o else AudioStreamOutALSA.stoodBy { o with mSleepReq := false }

/-- The input streams after a thread that went through the hand-off loop of `setMode`
forced the stream `getInput()` returns to standby. -/
def AudioHardware.forcedInputs (hw : AudioHardware) : List AudioStreamInALSA :=
  match hw.getInput with
  | none => hw.mInputs
  | some i =>
    match hw.mInputs[i]? with
    | none => hw.mInputs
    | some st => hw.mInputs.set i (AudioStreamInALSA.stoodBy { st with mSleepReq := false })

/-- A facade of the `gingerbread` platform with one active output stream (object 1) and
one active input stream (object 2), outside a call. -/
def busyHardware : AudioHardware :=
  { freshHardware with
    mOutput := some { AudioStreamOutALSA.new gingerbread 1 with mPcm := true, mStandby := false },
    mInputs := [{ AudioStreamInALSA.new gingerbread 2 with mPcm := true, mStandby := false }] }

/-- The facade `freshHardware` after `setMode(MODE_IN_CALL)`. -/
def inCallHardware : AudioHardware :=
  (AudioHardware.setMode gingerbread gingerbread.MODE_IN_CALL freshHardware).2

/-- A facade of the `gingerbread` platform whose kernel PCM devices do not open: playback
gives no handle, capture gives a handle that is not ready. -/
def brokenHardware : AudioHardware :=
  AudioHardware.init gingerbread AudioRouter.fresh .null .notReady

/-- The active input stream of `busyHardware`. -/
def busyInput : AudioStreamInALSA :=
  { AudioStreamInALSA.new gingerbread 2 with mPcm := true, mStandby := false }

/-- The duration of the error-path sleep as the specification gives it, computed without
wrap-around from a byte count, a frame size and a sample rate. -/
def specSleep (b f s : Nat) : Nat := b * 1000 / f * 1000 / s

/-! ## The down-sampler and the channel mixer (`DownSampler.cpp`, `ChannelMixer.cpp`) -/

/-- The table `filter_22khz_coeff`. -/
def filter_22khz_coeff : List Int :=
  [ 2089257, 2898328, -5820678, -10484531,
    19038724, 30542725, -50469415, -81505260,
    152544464, 478517512, 478517512, 152544464,
    -81505260, -50469415, 30542725, 19038724,
    -10484531, -5820678, 2898328, 2089257 ]

/-- The macro `NUM_COEFF_22KHZ`; `NELEM` divides two `sizeof`, so its type is `size_t`. -/
def NUM_COEFF_22KHZ : Nat := filter_22khz_coeff.length

/-- The macro `OVERLAP_22KHZ` (a `size_t`). -/
def OVERLAP_22KHZ : Nat := (NUM_COEFF_22KHZ + U32 - 2) % U32

/-- The table `filter_16khz_coeff`. -/
def filter_16khz_coeff : List Int :=
  [ 2057290, -2973608, 1880478, 4362037,
    -14639744, 18523609, -1609189, -38502470,
    78073125, -68353935, -59103896, 617555440,
    617555440, -59103896, -68353935, 78073125,
    -38502470, -1609189, 18523609, -14639744,
    4362037, 1880478, -2973608, 2057290 ]

/-- The macro `NUM_COEFF_16KHZ` (a `size_t`). -/
def NUM_COEFF_16KHZ : Nat := filter_16khz_coeff.length

/-- The macro `OVERLAP_16KHZ` (a `size_t`). -/
def OVERLAP_16KHZ : Nat := (NUM_COEFF_16KHZ + U32 - 1) % U32

abbrev RESAMPLE_16KHZ_SAMPLES_IN : Nat := 441
abbrev RESAMPLE_16KHZ_SAMPLES_OUT : Nat := 320

/-- The function `resample_2_1` on sample counts: its return value and the value it
leaves in `*num_samples_in` (the samples themselves are not represented).  The guard
compares with `(int)NUM_COEFF_22KHZ`; the difference with `OVERLAP_22KHZ` is unsigned. -/
def resample_2_1 (num_samples_in : Int) : Int × Int :=
  if num_samples_in < toI32 NUM_COEFF_22KHZ then (0, num_samples_in)
  else
    let odd_smp : Int := toI32 (toU32 num_samples_in % 2)
    let num_samples : Int :=
      toI32 ((toU32 (wrapI32 (num_samples_in - odd_smp)) + U32 - OVERLAP_22KHZ) % U32)
    (num_samples.tdiv 2, toI32 ((OVERLAP_22KHZ + toU32 odd_smp) % U32))

/-- The function `resample_441_320` on sample counts.  `*num_samples_in - OVERLAP_16KHZ`
has an `int` and a `size_t` operand, so it and the division by 441 are unsigned; the
quotient is then stored in the `int` `num_blocks`. -/
def resample_441_320 (num_samples_in : Int) : Int × Int :=
  let num_blocks : Int :=
    toI32 (((toU32 num_samples_in + U32 - OVERLAP_16KHZ) % U32) / RESAMPLE_16KHZ_SAMPLES_IN)
  if num_blocks < 1 then (0, num_samples_in)
  else
    let samples_consumed : Int := wrapI32 (num_blocks * RESAMPLE_16KHZ_SAMPLES_IN)
    (wrapI32 (RESAMPLE_16KHZ_SAMPLES_OUT * num_blocks),
      wrapI32 (num_samples_in - samples_consumed))

/-- The class `DownSampler` without its sample buffers: `mInTmpBuf` holds the four fill
counts of the work buffers `mTmpBuf[0..3]`. -/
structure DownSampler where
  mStatus : Int
  mSampleRate : Nat
  mChannelCount : Nat
  mFrameCount : Nat
  mOutBufIdx : Nat
  mInTmpBuf : List Int
  deriving DecidableEq, Repr

/-- The constructor `DownSampler::DownSampler` (the four allocations succeed; the fill
counts an unsupported rate leaves uninitialised are 0 here). -/
def DownSampler.new (P : Platform) (outSampleRate channelCount frameCount : Nat) :
    DownSampler :=
  { mStatus :=
      if outSampleRate ≠ 8000 ∧ outSampleRate ≠ 11025 ∧ outSampleRate ≠ 16000 ∧
          outSampleRate ≠ 22050 then P.NO_INIT
      else NO_ERROR,
    mSampleRate := outSampleRate, mChannelCount := channelCount, mFrameCount := frameCount,
    mOutBufIdx := 0, mInTmpBuf := [0, 0, 0, 0] }

/-- The method `DownSampler::initCheck`. -/
def DownSampler.initCheck (d : DownSampler) : Int := d.mStatus

/-- The two resampling steps of the down-sampler. -/
inductive Stage where
  | half
  | ratio441to320
  deriving DecidableEq, Repr

/-- The variables of the inner loop of `DownSampler::getNextBuffer`: the running rate, the
buffer index, the fill counts, and the stages run so far. -/
structure StageState where
  sampleRate : Nat
  bufIdx : Nat
  mInTmpBuf : List Int
  stages : List Stage
  deriving DecidableEq, Repr

/-- How a run of the inner loop ends: normally, with an index outside `mTmpBuf[4]`, or
with more iterations than the bound allows. -/
inductive StageResult where
  | done (s : StageState)
  | outOfBounds
  | outOfFuel
  deriving DecidableEq, Repr

/-- The loop `while (sampleRate > mSampleRate)` of `DownSampler::getNextBuffer`, on the
fill counts; each pass reads `mTmpBuf[bufIdx]`, `mTmpBuf[bufIdx + 1]` and the two fill
counts of those buffers. -/
def stageLoop (mSampleRate mChannelCount : Nat) : Nat → StageState → StageResult
  | 0, _ => .outOfFuel
  | fuel + 1, s =>
    if s.sampleRate > mSampleRate then
      match s.mInTmpBuf[s.bufIdx]?, s.mInTmpBuf[s.bufIdx + 1]? with
      | some samplesIn, some inNext =>
        if 2 * mSampleRate % U32 ≤ s.sampleRate then
          let r := resample_2_1 samplesIn
          let samplesIn1 := if mChannelCount = 2 then (resample_2_1 samplesIn).2 else r.2
          stageLoop mSampleRate mChannelCount fuel
            { sampleRate := s.sampleRate / 2, bufIdx := s.bufIdx + 1,
              mInTmpBuf := (s.mInTmpBuf.set s.bufIdx samplesIn1).set (s.bufIdx + 1)
                (wrapI32 (inNext + r.1)),
              stages := s.stages ++ [.half] }
        else
          let r := resample_441_320 samplesIn
          let samplesIn1 := if mChannelCount = 2 then (resample_441_320 samplesIn).2 else r.2
          stageLoop mSampleRate mChannelCount fuel
            { sampleRate := s.sampleRate * 320 % U32 / 441, bufIdx := s.bufIdx + 1,
              mInTmpBuf := (s.mInTmpBuf.set s.bufIdx samplesIn1).set (s.bufIdx + 1)
                (wrapI32 (inNext + r.1)),
              stages := s.stages ++ [.ratio441to320] }
      | _, _ => .outOfBounds
    else .done s

/-! ## The channel mixer (`ChannelMixer.cpp`) -/

/-- The conversion of an `int` to `short` (`int16_t`) when it is stored. -/
def toI16 (x : Int) : Int := (x + 32768) % 65536 - 32768

/-- The class `ChannelMixer` without its work buffer; `mProvider` tells whether the
pointer is non-null. -/
structure ChannelMixer where
  mStatus : Int
  mProvider : Bool
  mOutChannelCount : Nat
  mChannelCount : Nat
  deriving DecidableEq, Repr

/-- The constructor `ChannelMixer::ChannelMixer` (allocation succeeds). -/
def ChannelMixer.new (P : Platform) (outChannelCount channelCount frameCount : Nat)
    (provider : Bool) : ChannelMixer :=
  { mStatus := if outChannelCount ≠ 1 ∨ channelCount ≠ 2 then P.NO_INIT else NO_ERROR,
    mProvider := provider, mOutChannelCount := outChannelCount,
    mChannelCount := channelCount }

/-- The inline method `initCheck`. -/
def ChannelMixer.initCheck (m : ChannelMixer) : Int := m.mStatus

/-- The loop of `ChannelMixer::getNextBuffer` over `frameCount` frames of the interleaved
input `inp`: `out[0] = (in[0] + in[1]) / 2` with the sum and the division in `int` and the
store in `short`. -/
def mixLoop (frameCount : Nat) (inp : List Int) : List Int :=
  (List.range frameCount).map fun i =>
    toI16 ((inp.getD (2 * i) 0 + inp.getD (2 * i + 1) 0).tdiv 2)

/-- The method `ChannelMixer::getNextBuffer` asked for `frameCount` frames, with the
upstream provider as the function from the frame count requested to its status, the frame
count it delivers and the samples it leaves in the work buffer: the status, the frame
count left in the caller's descriptor and the samples written to the caller's buffer. -/
def ChannelMixer.getNextBuffer (P : Platform) (m : ChannelMixer) (frameCount : Nat)
    (upstream : Nat → Int × Nat × List Int) : Int × Nat × List Int :=
  if !m.mProvider then (P.NO_INIT, frameCount, [])
  else
    let r := upstream frameCount
    if r.1 ≠ 0 then (r.1, frameCount, [])
    else (NO_ERROR, r.2.1, mixLoop r.2.1 r.2.2)

/-- The case labels of the `switch` in `getOutputRouteFromDevice`, in source order. -/
def Platform.outLabels (P : Platform) : List Nat :=
  [ P.DEVICE_OUT_EARPIECE, P.DEVICE_OUT_SPEAKER, P.DEVICE_OUT_WIRED_HEADPHONE,
    P.DEVICE_OUT_WIRED_HEADSET, P.DEVICE_OUT_SPEAKER ||| P.DEVICE_OUT_WIRED_HEADPHONE,
    P.DEVICE_OUT_SPEAKER ||| P.DEVICE_OUT_WIRED_HEADSET, P.DEVICE_OUT_BLUETOOTH_SCO,
    P.DEVICE_OUT_BLUETOOTH_SCO_HEADSET, P.DEVICE_OUT_BLUETOOTH_SCO_CARKIT ]

/-! ## The routing parameter of the streams (`setParameters`) -/

/-- A value of the framework class `AudioParameter` as `getInt` reads it: text that is a
decimal integer, or any other text. -/
inductive ParamValue where
  | number (v : Int)
  | notNumber
  deriving DecidableEq, Repr

/-- What `setParameters` takes from the framework class `AudioParameter`: the entry under
the key `AudioParameter::keyRouting`, if there is one, and the number of entries under
other keys. -/
structure AudioParameter where
  routing : Option ParamValue
  others : Nat
  deriving DecidableEq, Repr

/-- The call `param.getInt(String8(AudioParameter::keyRouting), value)`: the value when the
status is `NO_ERROR`, `none` when the key is absent or its value is not an integer. -/
def AudioParameter.getInt (param : AudioParameter) : Option Int :=
  match param.routing with
  | some (.number v) => some v
  | _ => none

/-- The call `param.remove(String8(AudioParameter::keyRouting))`. -/
def AudioParameter.remove (param : AudioParameter) : AudioParameter :=
  { param with routing := none }

/-- The call `param.size()`. -/
def AudioParameter.size (param : AudioParameter) : Nat :=
  (if param.routing.isSome then 1 else 0) + param.others

/-- The method `AudioStreamOutALSA::setParameters` of a stream that belongs to a facade:
the status, the stream, the facade and the local bag `param` at the end. -/
def AudioStreamOutALSA.setParameters (P : Platform) (o : AudioStreamOutALSA)
    (hw : AudioHardware) (param : AudioParameter) :
    Int × AudioStreamOutALSA × AudioHardware × AudioParameter :=
  let o0 := { o with mSleepReq := false }
  match param.getInt with
  | some device =>
    let r : AudioStreamOutALSA × AudioHardware :=
      if device ≠ 0 then
        let a := if o0.mDevices ≠ toU32 device ∧ hw.mMode ≠ P.MODE_IN_CALL then
            doStandby_l o0 hw
          else (o0, hw)
        let o1 := { a.1 with mDevices := toU32 device }
        if a.2.mMode = P.MODE_IN_CALL then
          (o1, (AudioHardware.setIncallPath P (toU32 device) a.2).2)
        else (o1, a.2)
      else (o0, hw)
    let param1 := param.remove
    (if param1.size ≠ 0 then P.BAD_VALUE else NO_ERROR, r.1, r.2, param1)
  | none => (if param.size ≠ 0 then P.BAD_VALUE else NO_ERROR, o0, hw, param)

/-- The method `AudioStreamInALSA::setParameters` of a stream that belongs to a facade. -/
def AudioStreamInALSA.setParameters (P : Platform) (st : AudioStreamInALSA)
    (hw : AudioHardware) (param : AudioParameter) :
    Int × AudioStreamInALSA × AudioHardware × AudioParameter :=
  let st0 := { st with mSleepReq := false }
  match param.getInt with
  | some value =>
    let r : AudioStreamInALSA × AudioHardware :=
      if value ≠ 0 then
        let a := if st0.mDevices ≠ toU32 value then doStandby_l st0 hw else (st0, hw)
        ({ a.1 with mDevices := toU32 value }, a.2)
      else (st0, hw)
    let param1 := param.remove
    (if param1.size ≠ 0 then P.BAD_VALUE else NO_ERROR, r.1, r.2, param1)
  | none => (if param.size ≠ 0 then P.BAD_VALUE else NO_ERROR, st0, hw, param)

/-! ## Complete operations on a facade and its streams -/

/-- The number of acquisitions minus the number of releases of the wake lock `tag` in a
history of system calls. -/
def wakeBalance (tag : String) (sys : List SysCall) : Int :=
  (sys.count (.acquire_wake_lock tag) : Int) - (sys.count (.release_wake_lock tag) : Int)

/-- The number of input streams of the facade that are not in standby. -/
def AudioHardware.activeInputs (hw : AudioHardware) : Nat :=
  hw.mInputs.countP fun st => !st.mStandby

/-- A provider chain that touches the stream only through the stream's own
`getNextBuffer`, which writes `mReadStatus` and nothing else. -/
def BufferProvider.Wf (prov : BufferProvider) : Prop :=
  ∀ k st n, (prov k st n).2.2 = { st with mReadStatus := (prov k st n).2.2.mReadStatus }

/-- One complete call on the facade or on one of its streams, or a change of the answers
the kernel gives for the two PCM devices.  The output stream is the one in the slot
`mOutput`, an input stream is named by its index in `mInputs`. -/
inductive Op where
  | outWrite (bytes : Nat) (pcmRet errno : Int)
  | outStandby
  | outSetParameters (param : AudioParameter)
  | inRead (i : Nat) (bytes : Nat) (prov : BufferProvider) (fuel : Nat)
  | inStandby (i : Nat)
  | inSetParameters (i : Nat) (param : AudioParameter)
  | setMode (mode : Int)
  | setMicMute (state : Bool)
  | setIncallPath (device : Nat)
  | closeOutputStream (out : Nat)
  | kernel (pcmOut pcmIn : PcmOpen)

/-- The provider chains of the reads of an operation are well-formed. -/
def Op.Wf : Op → Prop
  | .inRead _ _ prov _ => prov.Wf
  | _ => True

/-- Execute one operation; the stream the call was made on is written back to its place in
the facade when the call returns.  A call on a stream that does not exist, and a read
whose loop does not end within its bound, leave the facade as it is. -/
def Op.exec (P : Platform) : Op → AudioHardware → AudioHardware
  | .outWrite bytes pcmRet errno, hw =>
    match hw.mOutput with
    | none => hw
    | some o =>
      { (o.write P hw bytes pcmRet errno).2.2 with
        mOutput := some (o.write P hw bytes pcmRet errno).2.1 }
  | .outStandby, hw =>
    match hw.mOutput with
    | none => hw
    | some o => { (o.standby hw).2 with mOutput := some (o.standby hw).1 }
  | .outSetParameters param, hw =>
    match hw.mOutput with
    | none => hw
    | some o =>
      { (o.setParameters P hw param).2.2.1 with
        mOutput := some (o.setParameters P hw param).2.1 }
  | .inRead i bytes prov fuel, hw =>
    match hw.mInputs[i]? with
    | none => hw
    | some st =>
      match st.read P hw bytes prov fuel with
      | none => hw
      | some r => { r.2.2 with mInputs := r.2.2.mInputs.set i r.2.1 }
  | .inStandby i, hw =>
    match hw.mInputs[i]? with
    | none => hw
    | some st => { (st.standby hw).2 with mInputs := (st.standby hw).2.mInputs.set i (st.standby hw).1 }
  | .inSetParameters i param, hw =>
    match hw.mInputs[i]? with
    | none => hw
    | some st =>
      { (st.setParameters P hw param).2.2.1 with
        mInputs := (st.setParameters P hw param).2.2.1.mInputs.set i
          (st.setParameters P hw param).2.1 }
  | .setMode mode, hw => (AudioHardware.setMode P mode hw).2
  | .setMicMute state, hw => (AudioHardware.setMicMute state hw).2
  | .setIncallPath device, hw => (AudioHardware.setIncallPath P device hw).2
  | .closeOutputStream out, hw => AudioHardware.closeOutputStream out hw
  | .kernel pcmOut pcmIn, hw => { hw with pcmOut := pcmOut, pcmIn := pcmIn }

/-- Execute a sequence of operations, first to last. -/
def runOps (P : Platform) (ops : List Op) (hw : AudioHardware) : AudioHardware :=
  ops.foldl (fun acc op => op.exec P acc) hw

/-- The output half of the wake-lock invariant: the balance of "AudioOutLock" is 1 when
the output stream is active and 0 otherwise, and an active output stream holds its PCM
handle. -/
def AudioHardware.OutSide (hw : AudioHardware) : Prop :=
  wakeBalance "AudioOutLock" hw.sys =
    (match hw.mOutput with
      | some o => if o.mStandby then 0 else 1
      | none => 0) ∧
  ∀ o, hw.mOutput = some o → o.mStandby = false → o.mPcm = true

/-- The input half of the wake-lock invariant: the balance of "AudioInLock", the tag all
input streams share, is the number of active input streams, and an active input stream
holds its PCM handle. -/
def AudioHardware.InSide (hw : AudioHardware) : Prop :=
  wakeBalance "AudioInLock" hw.sys = hw.activeInputs ∧
  ∀ st ∈ hw.mInputs, st.mStandby = false → st.mPcm = true

/-- The wake-lock invariant of a facade. -/
def AudioHardware.Balanced (hw : AudioHardware) : Prop := hw.OutSide ∧ hw.InSide

/-- The facade `hw2` has the slots and kernel answers of `hw`, and its history adds
`dOut` to the balance of "AudioOutLock" and `dIn` to the balance of "AudioInLock". -/
structure AudioHardware.SysFrame (hw hw2 : AudioHardware) (dOut dIn : Int) : Prop where
  mOutput : hw2.mOutput = hw.mOutput
  mInputs : hw2.mInputs = hw.mInputs
  pcmOut : hw2.pcmOut = hw.pcmOut
  pcmIn : hw2.pcmIn = hw.pcmIn
  out : wakeBalance "AudioOutLock" hw2.sys = wakeBalance "AudioOutLock" hw.sys + dOut
  inp : wakeBalance "AudioInLock" hw2.sys = wakeBalance "AudioInLock" hw.sys + dIn

/-- The facade `hw2` has the output slot and kernel answers of `hw`, and its history
adds `dOut` to the balance of "AudioOutLock". -/
structure AudioHardware.OutFrame (hw hw2 : AudioHardware) (dOut : Int) : Prop where
  mOutput : hw2.mOutput = hw.mOutput
  pcmOut : hw2.pcmOut = hw.pcmOut
  pcmIn : hw2.pcmIn = hw.pcmIn
  out : wakeBalance "AudioOutLock" hw2.sys = wakeBalance "AudioOutLock" hw.sys + dOut

/-- The facade `hw2` has the input streams and kernel answers of `hw`, and its
history adds `dIn` to the balance of "AudioInLock". -/
structure AudioHardware.InFrame (hw hw2 : AudioHardware) (dIn : Int) : Prop where
  mInputs : hw2.mInputs = hw.mInputs
  pcmOut : hw2.pcmOut = hw.pcmOut
  pcmIn : hw2.pcmIn = hw.pcmIn
  inp : wakeBalance "AudioInLock" hw2.sys = wakeBalance "AudioInLock" hw.sys + dIn

/-- A facade of the `gingerbread` platform as `openOutputStream` and an input stream
opened by the framework leave it: one output stream (object 1) and one input stream
(object 2), both in standby, and an empty history. -/
def idleHardware : AudioHardware :=
  { freshHardware with
    mOutput := some (AudioStreamOutALSA.new gingerbread 1),
    mInputs := [AudioStreamInALSA.new gingerbread 2] }

/-- A session on `idleHardware`: play, record, enter a call, change the routing of the
output, leave the call, fail a write, and put the input to standby. -/
def sessionOps : List Op :=
  [ .outWrite 4096 0 0, .inRead 0 4096 (rawProvider gingerbread fun _ => 0) 8, .setMode 2,
    .outSetParameters ⟨some (.number 2), 0⟩, .outWrite 4096 0 0, .setMode 0,
    .outWrite 4096 (-1) 5, .inStandby 0 ]

/-- An input stream object at `addr` as `set()` leaves it for the built-in microphone, 16
bit, stereo, 44100 Hz on the `gingerbread` platform: in standby, without mixer and
down-sampler. -/
def openedInput (addr : Nat) : AudioStreamInALSA :=
  { AudioStreamInALSA.new gingerbread addr with
    mDevices := 0x40000, mInputChannels := 0xC, mInputChannelCount := 2, mChannels := 0xC,
    mChannelCount := 2, mBufferSize := 4096, mSampleRate := 44100 }

/-- The facade `freshHardware` after two calls of `openInputStream` for the built-in
microphone (16 bit, stereo, 44100 Hz) that gave the objects 2 and 3. -/
def twoInputHardware : AudioHardware :=
  { freshHardware with mInputs := [openedInput 2, openedInput 3] }

/-- Two reads of 4096 bytes, one on each input stream of `twoInputHardware`. -/
def twoReads : List Op :=
  [ .inRead 0 4096 (rawProvider gingerbread fun _ => 0) 8,
    .inRead 1 4096 (rawProvider gingerbread fun _ => 0) 8 ]

/-! ## The calls made on one stream object -/

/-- A call on the output stream object, by its owner (`write`, `standby`,
`setParameters`) or by a thread that took the stream over (`prepareLock`, `lock`,
`close_l`, `open_l`, `doStandby_l`), or a change of the facade by other calls in between. -/
inductive OutCall where
  | write (bytes : Nat) (pcmRet errno : Int)
  | standby
  | setParameters (param : AudioParameter)
  | wakeUp_l
  | prepareLock
  | lock
  | close_l
  | open_l
  | doStandby_l
  | facade (hw : AudioHardware)

/-- Execute a call on the output stream. -/
def OutCall.exec (P : Platform) :
    OutCall → AudioStreamOutALSA × AudioHardware → AudioStreamOutALSA × AudioHardware
  | .write bytes pcmRet errno, s =>
    ((s.1.write P s.2 bytes pcmRet errno).2.1, (s.1.write P s.2 bytes pcmRet errno).2.2)
  | .standby, s => s.1.standby s.2
  | .setParameters param, s =>
    ((s.1.setParameters P s.2 param).2.1, (s.1.setParameters P s.2 param).2.2.1)
  | .wakeUp_l, s => ((s.1.wakeUp_l P s.2).2.1, (s.1.wakeUp_l P s.2).2.2)
  | .prepareLock, s => (s.1.prepareLock.2, s.2)
  | .lock, s => (s.1.lock, s.2)
  | .close_l, s => s.1.close_l s.2
  | .open_l, s => ((s.1.open_l P s.2).2.1, (s.1.open_l P s.2).2.2)
  | .doStandby_l, s => s.1.doStandby_l s.2
  | .facade hw, s => (s.1, hw)

/-- Whether a call on the output stream reaches `doStandby_l`: always for `doStandby_l` and
`standby`; for `write` when control reaches the label `error` (`wakeUp_l` failed or
`pcm_write` returned non-zero); for `setParameters` when the routing value is a non-zero
integer that differs from `mDevices` outside in-call mode; never otherwise. -/
def OutCall.forcesStandby (P : Platform) :
    OutCall → AudioStreamOutALSA × AudioHardware → Bool
  | .write _ pcmRet _, s =>
    decide ((s.1.wakeUp_l P (if s.1.mSleepReq then s.2.emitSys (.usleep 10000) else s.2)).1 ≠ 0)
      || decide (pcmRet ≠ 0)
  | .standby, _ => true
  | .doStandby_l, _ => true
  | .setParameters param, s =>
    match param.getInt with
    | some v => decide (v ≠ 0 ∧ s.1.mDevices ≠ toU32 v ∧ s.2.mMode ≠ P.MODE_IN_CALL)
    | none => false
  | _, _ => false

/-- Execute a sequence of calls on the output stream, first to last. -/
def runOut (P : Platform) (calls : List OutCall) (s : AudioStreamOutALSA × AudioHardware) :
    AudioStreamOutALSA × AudioHardware :=
  calls.foldl (fun acc c => c.exec P acc) s

/-- The number of calls of a sequence that reach `doStandby_l`, each judged in the state it
starts from. -/
def forcedOut (P : Platform) :
    List OutCall → AudioStreamOutALSA × AudioHardware → Nat
  | [], _ => 0
  | c :: rest, s => (if c.forcesStandby P s then 1 else 0) + forcedOut P rest (c.exec P s)

/-- A call on an input stream object, or a change of the facade by other calls. -/
inductive InCall where
  | read (bytes : Nat) (prov : BufferProvider) (fuel : Nat)
  | standby
  | setParameters (param : AudioParameter)
  | wakeUp_l
  | prepareLock
  | lock
  | close_l
  | open_l
  | doStandby_l
  | getNextBuffer (frameCount : Nat) (rawNull : Bool) (pcmRead : Int)
  | facade (hw : AudioHardware)

/-- The provider chain of a read is well-formed. -/
def InCall.Wf : InCall → Prop
  | .read _ prov _ => prov.Wf
  | _ => True

/-- Execute a call on an input stream; a read whose loop does not end within its bound
leaves the state as it is. -/
def InCall.exec (P : Platform) :
    InCall → AudioStreamInALSA × AudioHardware → AudioStreamInALSA × AudioHardware
  | .read bytes prov fuel, s =>
    match s.1.read P s.2 bytes prov fuel with
    | none => s
    | some r => (r.2.1, r.2.2)
  | .standby, s => s.1.standby s.2
  | .setParameters param, s =>
    ((s.1.setParameters P s.2 param).2.1, (s.1.setParameters P s.2 param).2.2.1)
  | .wakeUp_l, s => ((s.1.wakeUp_l P s.2).2.1, (s.1.wakeUp_l P s.2).2.2)
  | .prepareLock, s => (s.1.prepareLock.2, s.2)
  | .lock, s => (s.1.lock, s.2)
  | .close_l, s => s.1.close_l s.2
  | .open_l, s => ((s.1.open_l P s.2).2.1, (s.1.open_l P s.2).2.2)
  | .doStandby_l, s => s.1.doStandby_l s.2
  | .getNextBuffer frameCount rawNull pcmRead, s =>
    ((s.1.getNextBuffer P frameCount rawNull pcmRead).2.2, s.2)
  | .facade hw, s => (s.1, hw)

/-- Whether a call on an input stream reaches `doStandby_l`: for `read` when control
reaches the label `error` (`wakeUp_l` failed or the last provider call returned
non-zero); for `setParameters` when the routing value is a non-zero integer that differs
from `mDevices`. -/
def InCall.forcesStandby (P : Platform) :
    InCall → AudioStreamInALSA × AudioHardware → Bool
  | .read bytes prov fuel, s =>
    let w := s.1.wakeUp_l P (if s.1.mSleepReq then s.2.emitSys (.usleep 10000) else s.2)
    if w.1 ≠ 0 then true
    else
      match AudioStreamInALSA.readLoop prov (bytes / s.1.frameSize) fuel 0 0
          { w.2.1 with mReadStatus := 0 } with
      | none => false
      | some l => decide (l.2.1 ≠ 0)
  | .standby, _ => true
  | .doStandby_l, _ => true
  | .setParameters param, s =>
    match param.getInt with
    | some v => decide (v ≠ 0 ∧ s.1.mDevices ≠ toU32 v)
    | none => false
  | _, _ => false

/-- Execute a sequence of calls on an input stream, first to last. -/
def runIn (P : Platform) (calls : List InCall) (s : AudioStreamInALSA × AudioHardware) :
    AudioStreamInALSA × AudioHardware :=
  calls.foldl (fun acc c => c.exec P acc) s

/-- The number of calls of a sequence that reach `doStandby_l`. -/
def forcedIn (P : Platform) :
    List InCall → AudioStreamInALSA × AudioHardware → Nat
  | [], _ => 0
  | c :: rest, s => (if c.forcesStandby P s then 1 else 0) + forcedIn P rest (c.exec P s)

/-- Calls on the output stream of `idleHardware`: a write, two `standby()` in a row, a
routing change, and a failed write. -/
def outSession : List OutCall :=
  [ .write 4096 0 0, .standby, .standby, .setParameters ⟨some (.number 2), 0⟩,
    .write 4096 (-1) 5 ]

/-- Calls on the input stream of `idleHardware`: a read, a hand-off by another thread whose
re-open succeeds, and a forced standby. -/
def inSession : List InCall :=
  [ .read 4096 (rawProvider gingerbread fun _ => 0) 8, .prepareLock, .lock, .close_l, .open_l,
    .doStandby_l ]

/-! ## The locking protocol, seen from one thread

The stream and facade methods take and release three kinds of mutex and hand streams over
between threads.  The model below follows one thread through a method: it records the
mutex operations and the calls that change a stream object, in program order.  What other
threads do while the facade lock is released reaches the thread through the values it
reads after it has taken the lock again.  The streams are held through `sp<>` pointers:
when a local pointer that is the last one to its object is given a new value, the
destructor of the stream runs in the thread, and the destructor calls `standby()`. -/

namespace Protocol

/-- A mutex: `mLock` of the output stream object at an address, `mLock` of the input
stream object at an address, or `mLock` of the facade. -/
inductive Mutex where
  | out (a : Nat)
  | inp (a : Nat)
  | hw
  deriving DecidableEq, Repr

/-- One step of the thread: a mutex operation, a call on the stream object that owns the
mutex `m`, or the test `spX == current && cnt == spX->standbyCnt()` on that stream with
its result.  `relock m` is a `lock()` on a mutex the thread holds itself; the mutex is not
recursive, so the call does not return. -/
inductive Act where
  | acquire (m : Mutex)
  | release (m : Mutex)
  | relock (m : Mutex)
  | prepareLock (m : Mutex)
  | recheck (m : Mutex) (ok : Bool)
  | close_l (m : Mutex)
  | open_l (m : Mutex)
  | doStandby_l (m : Mutex)
  deriving DecidableEq, Repr

/-- What a thread that holds the facade lock reads from the facade and its streams: the
pointer `mOutput`, `checkStandby()` and `standbyCnt()` of the output stream objects, the
result of `getInput()`, and `standbyCnt()` of the input stream objects (objects are named
by their addresses); `outShared` and `inShared` tell whether a strong pointer to the object
exists besides the local one of the thread (the slot of the facade, or a local pointer of
another thread). -/
structure View where
  mOutput : Option Nat
  outStandby : Nat → Bool
  outCnt : Nat → Int
  getInput : Option Nat
  inCnt : Nat → Int
  outShared : Nat → Bool
  inShared : Nat → Bool

/-- The views of the successive periods in which the thread holds the facade lock: `env k`
is what it reads after its `k`-th acquisition.  Other threads run between two periods, so
consecutive views are unrelated. -/
abbrev Env := Nat → View

/-- The outcome of a hand-off loop: the steps taken, the stream the local `spIn` or `spOut`
points to at the end (`none` for 0), the number of the current period, and whether the
loop ended: `done` is false when the bound on its passes ran out and when the thread
blocks in a destructor. -/
structure Handoff where
  acts : List Act
  target : Option Nat
  epoch : Nat
  done : Bool
  deriving DecidableEq, Repr

/-- The number of the facade-lock period after a sequence of steps that starts in period
`k`: every acquisition of the facade lock starts a new one. -/
def periodAfter : Nat → List Act → Nat
  | k, [] => k
  | k, .acquire .hw :: rest => periodAfter (k + 1) rest
  | k, _ :: rest => periodAfter k rest

/-- The destructor of the stream that owns `m`, run by a thread that holds the facade lock:
`standby()` takes the lock of the stream and then calls `lock()` on the facade lock. -/
def destroy (m : Mutex) : List Act := [.acquire m, .relock .hw]

/-- The method `standby()` of the stream that owns `m`, called with no lock held (by the
owner, or by the destructor of the stream). -/
def standbyOf (m : Mutex) : List Act :=
  [.acquire m, .acquire .hw, .doStandby_l m, .release .hw, .release m]

/-- The hand-off loop of `AudioStreamOutALSA::wakeUp_l` towards the input stream, entered
in period `e` with the local `spIn`.  After a failed test the assignment
`spIn = mHardware->getInput()` drops the pointer to the stream; when it was the last one,
the destructor runs. -/
def outToIn (env : Env) : Nat → Nat → Option Nat → Handoff
  | _, e, none => ⟨[], none, e, true⟩
  | 0, e, some sp => ⟨[], some sp, e, false⟩
  | fuel + 1, e, some sp =>
    let cnt := (env e).inCnt sp
    let pass := [Act.prepareLock (.inp sp), .release .hw, .acquire (.inp sp), .acquire .hw]
    if (env (e + 1)).getInput = some sp ∧ cnt = (env (e + 1)).inCnt sp then
      ⟨pass ++ [.recheck (.inp sp) true, .close_l (.inp sp)], some sp, e + 1, true⟩
    else if (env (e + 1)).inShared sp then
      let r := outToIn env fuel (e + 1) (env (e + 1)).getInput
      ⟨pass ++ [.recheck (.inp sp) false, .release (.inp sp)] ++ r.acts, r.target, r.epoch, r.done⟩
    else
      ⟨pass ++ [.recheck (.inp sp) false, .release (.inp sp)] ++ destroy (.inp sp), none, e + 1,
        false⟩

/-- The hand-off loop of `AudioStreamInALSA::wakeUp_l` towards the output stream, run by
the input stream at address `self`; the assignment `spOut = mHardware->getOutput()` after
a failed test may run the destructor.  (`spOut.clear()` on a stream in standby drops a
pointer read from the facade in the same period, so it is never the last one.) -/
def inToOut (env : Env) (self : Nat) : Nat → Nat → Option Nat → Handoff
  | _, e, none => ⟨[], none, e, true⟩
  | 0, e, some sp => ⟨[], some sp, e, false⟩
  | fuel + 1, e, some sp =>
    if (env e).outStandby sp then ⟨[], none, e, true⟩
    else
      let cnt := (env e).outCnt sp
      let pass := [Act.prepareLock (.out sp), .release .hw, .release (.inp self),
        .acquire (.out sp), .acquire (.inp self), .acquire .hw]
      if (env (e + 1)).mOutput = some sp ∧ cnt = (env (e + 1)).outCnt sp then
        ⟨pass ++ [.recheck (.out sp) true, .close_l (.out sp)], some sp, e + 1, true⟩
      else if (env (e + 1)).outShared sp then
        let r := inToOut env self fuel (e + 1) (env (e + 1)).mOutput
        ⟨pass ++ [.recheck (.out sp) false, .release (.out sp)] ++ r.acts, r.target, r.epoch, r.done⟩
      else
        ⟨pass ++ [.recheck (.out sp) false, .release (.out sp)] ++ destroy (.out sp), none,
          e + 1, false⟩

/-- The first hand-off loop of `AudioHardware::setMode`, towards the output stream; the
assignment `spOut = mOutput` after a failed test may run the destructor.  (`spOut.clear()`
on a stream in standby drops a pointer read from the facade in the same period, so it is
never the last one.) -/
def modeToOut (env : Env) : Nat → Nat → Option Nat → Handoff
  | _, e, none => ⟨[], none, e, true⟩
  | 0, e, some sp => ⟨[], some sp, e, false⟩
  | fuel + 1, e, some sp =>
    if !(env e).outStandby sp then
      let cnt := (env e).outCnt sp
      let pass := [Act.prepareLock (.out sp), .release .hw, .acquire (.out sp), .acquire .hw]
      if (env (e + 1)).mOutput = some sp ∧ cnt = (env (e + 1)).outCnt sp then
        ⟨pass ++ [.recheck (.out sp) true], some sp, e + 1, true⟩
      else if (env (e + 1)).outShared sp then
        let r := modeToOut env fuel (e + 1) (env (e + 1)).mOutput
        ⟨pass ++ [.recheck (.out sp) false, .release (.out sp)] ++ r.acts, r.target, r.epoch, r.done⟩
      else
        ⟨pass ++ [.recheck (.out sp) false, .release (.out sp)] ++ destroy (.out sp), none,
          e + 1, false⟩
    else ⟨[], none, e, true⟩

/-- The second hand-off loop of `AudioHardware::setMode`, towards the input stream; the
assignment `spIn = getInput()` after a failed test may run the destructor. -/
def modeToIn (env : Env) : Nat → Nat → Option Nat → Handoff
  | _, e, none => ⟨[], none, e, true⟩
  | 0, e, some sp => ⟨[], some sp, e, false⟩
  | fuel + 1, e, some sp =>
    let cnt := (env e).inCnt sp
    let pass := [Act.prepareLock (.inp sp), .release .hw, .acquire (.inp sp), .acquire .hw]
    if (env (e + 1)).getInput = some sp ∧ cnt = (env (e + 1)).inCnt sp then
      ⟨pass ++ [.recheck (.inp sp) true], some sp, e + 1, true⟩
    else if (env (e + 1)).inShared sp then
      let r := modeToIn env fuel (e + 1) (env (e + 1)).getInput
      ⟨pass ++ [.recheck (.inp sp) false, .release (.inp sp)] ++ r.acts, r.target, r.epoch, r.done⟩
    else
      ⟨pass ++ [.recheck (.inp sp) false, .release (.inp sp)] ++ destroy (.inp sp), none, e + 1,
        false⟩

/-- The steps of a method: the steps taken, the number of facade-lock periods so far, and
whether the method ran to its end. -/
structure Run where
  acts : List Act
  epoch : Nat
  done : Bool
  deriving DecidableEq, Repr

/-- The statements after the hand-off loop of a wake-up for the stream taken over:
`open_l()`, `doStandby_l()` when that fails, `unlock()`. -/
def reopen (m : Mutex) (reopenFails : Bool) : List Act :=
  [.open_l m] ++ (if reopenFails then [.doStandby_l m] else []) ++ [.release m]

/-- The method `AudioStreamOutALSA::wakeUp_l` of the stream at address `a`, called with
`mLock` of the stream held, after `e` periods; `mStandby` is the flag it reads and
`reopenFails` whether `spIn->open_l()` fails.  The local `spIn` goes out of scope before the
facade lock is released; a stream it points to then passed the test in this period, so the
facade holds a pointer to it and no destructor runs. -/
def outWakeUp_l (env : Env) (fuel e a : Nat) (mStandby reopenFails : Bool) : Run :=
  if !mStandby then ⟨[], e, true⟩
  else
    let h := outToIn env fuel (e + 1) (env (e + 1)).getInput
    if !h.done then ⟨.acquire .hw :: h.acts, h.epoch, false⟩
    else
      ⟨.acquire .hw :: h.acts ++ [.open_l (.out a)] ++
        (match h.target with
          | none => []
          | some sp => reopen (.inp sp) reopenFails) ++ [.release .hw], h.epoch, true⟩

/-- The method `AudioStreamOutALSA::standby`. -/
def outStandby (e a : Nat) : Run :=
  ⟨[.acquire (.out a), .acquire .hw, .doStandby_l (.out a), .release .hw, .release (.out a)],
    e + 1, true⟩

/-- The method `AudioStreamOutALSA::write`; `failed` tells whether control reaches the
label `error`. -/
def outWrite (env : Env) (fuel e a : Nat) (mStandby reopenFails failed : Bool) : Run :=
  let w := outWakeUp_l env fuel e a mStandby reopenFails
  if !w.done then ⟨.acquire (.out a) :: w.acts, w.epoch, false⟩
  else if failed then
    ⟨.acquire (.out a) :: w.acts ++ [.release (.out a)] ++ (outStandby w.epoch a).acts,
      w.epoch + 1, true⟩
  else ⟨.acquire (.out a) :: w.acts ++ [.release (.out a)], w.epoch, true⟩

/-- The method `AudioStreamOutALSA::setParameters`; `nonZero` tells whether the routing
value is a non-zero integer, `force` whether `doStandby_l()` runs. -/
def outSetParameters (e a : Nat) (nonZero force : Bool) : Run :=
  ⟨[.acquire (.out a)] ++
    (if nonZero then
      [.acquire .hw] ++ (if force then [.doStandby_l (.out a)] else []) ++ [.release .hw]
    else []) ++ [.release (.out a)], (if nonZero then e + 1 else e), true⟩

/-- The method `AudioStreamInALSA::wakeUp_l` of the stream at address `a`.  The local
`spOut` goes out of scope before the facade lock is released; a stream it points to then
passed the test in this period, so the facade holds a pointer to it and no destructor
runs. -/
def inWakeUp_l (env : Env) (fuel e a : Nat) (mStandby reopenFails : Bool) : Run :=
  if !mStandby then ⟨[], e, true⟩
  else
    let h := inToOut env a fuel (e + 1) (env (e + 1)).mOutput
    if !h.done then ⟨.acquire .hw :: h.acts, h.epoch, false⟩
    else
      ⟨.acquire .hw :: h.acts ++
        (match h.target with
          | none => []
          | some sp => reopen (.out sp) reopenFails) ++
        [.open_l (.inp a), .release .hw], h.epoch, true⟩

/-- The method `AudioStreamInALSA::standby`. -/
def inStandby (e a : Nat) : Run :=
  ⟨[.acquire (.inp a), .acquire .hw, .doStandby_l (.inp a), .release .hw, .release (.inp a)],
    e + 1, true⟩

/-- The method `AudioStreamInALSA::read`. -/
def inRead (env : Env) (fuel e a : Nat) (mStandby reopenFails failed : Bool) : Run :=
  let w := inWakeUp_l env fuel e a mStandby reopenFails
  if !w.done then ⟨.acquire (.inp a) :: w.acts, w.epoch, false⟩
  else if failed then
    ⟨.acquire (.inp a) :: w.acts ++ [.release (.inp a)] ++ (inStandby w.epoch a).acts,
      w.epoch + 1, true⟩
  else ⟨.acquire (.inp a) :: w.acts ++ [.release (.inp a)], w.epoch, true⟩

/-- The method `AudioStreamInALSA::setParameters`. -/
def inSetParameters (e a : Nat) (nonZero force : Bool) : Run :=
  ⟨[.acquire (.inp a)] ++
    (if nonZero then
      [.acquire .hw] ++ (if force then [.doStandby_l (.inp a)] else []) ++ [.release .hw]
    else []) ++ [.release (.inp a)], (if nonZero then e + 1 else e), true⟩

/-- The calls `spX->doStandby_l()` of `setMode` for a stream it holds. -/
def forceHeld (m : Option Mutex) : List Act :=
  match m with
  | none => []
  | some x => [.doStandby_l x]

/-- The calls `spX->unlock()` of `setMode` for a stream it holds. -/
def unlockHeld (m : Option Mutex) : List Act :=
  match m with
  | none => []
  | some x => [.release x]

/-- Whether no strong pointer to the stream that owns `m` exists besides the local one. -/
def unshared (v : View) : Mutex → Bool
  | .out t => !v.outShared t
  | .inp t => !v.inShared t
  | .hw => false

/-- The destructor of a local pointer of `setMode` when the call returns: the locals are
destroyed after the facade lock was released, and a stream whose last pointer goes runs
`standby()`. -/
def dropHeld (v : View) (m : Option Mutex) : List Act :=
  match m with
  | none => []
  | some x => if unshared v x then standbyOf x else []

/-- The method `AudioHardware::setMode`; `transition` tells whether the call enters or
leaves in-call mode (the base class accepted the mode and the in-call flag changes).  The
locals are destroyed in the order `lock`, `spIn`, `spOut`. -/
def setMode (env : Env) (fuel e : Nat) (transition : Bool) : Run :=
  let h1 := modeToOut env fuel (e + 1) (env (e + 1)).mOutput
  if !h1.done then ⟨.acquire .hw :: h1.acts, h1.epoch, false⟩
  else
    let h2 := modeToIn env fuel h1.epoch (env h1.epoch).getInput
    if !h2.done then ⟨.acquire .hw :: h1.acts ++ h2.acts, h2.epoch, false⟩
    else
      ⟨.acquire .hw :: h1.acts ++ h2.acts ++
        (if transition then
          forceHeld (h1.target.map Mutex.out) ++ forceHeld (h2.target.map Mutex.inp)
        else []) ++
        unlockHeld (h2.target.map Mutex.inp) ++ unlockHeld (h1.target.map Mutex.out) ++
        [.release .hw] ++ dropHeld (env h2.epoch) (h2.target.map Mutex.inp) ++
        dropHeld (env h2.epoch) (h1.target.map Mutex.out),
        periodAfter h2.epoch (dropHeld (env h2.epoch) (h2.target.map Mutex.inp) ++
          dropHeld (env h2.epoch) (h1.target.map Mutex.out)), true⟩

/-- The method `AudioHardware::setMicMute` (its local `spIn` stays 0). -/
def setMicMute (e : Nat) : Run := ⟨[.acquire .hw, .release .hw], e + 1, true⟩

/-- A call of one thread on a stream at address `a` or on the facade, with the outcomes
that decide its path. -/
inductive Call where
  | outWrite (a : Nat) (mStandby reopenFails failed : Bool)
  | outWakeUp (a : Nat) (mStandby reopenFails : Bool)
  | outStandby (a : Nat)
  | outSetParameters (a : Nat) (nonZero force : Bool)
  | inRead (a : Nat) (mStandby reopenFails failed : Bool)
  | inWakeUp (a : Nat) (mStandby reopenFails : Bool)
  | inStandby (a : Nat)
  | inSetParameters (a : Nat) (nonZero force : Bool)
  | setMode (transition : Bool)
  | setMicMute
  deriving DecidableEq, Repr

/-- The mutexes the thread holds when the call starts: a wake-up is called with the lock
of its stream held, every other call with none. -/
def Call.entry : Call → List Mutex
  | .outWakeUp a _ _ => [.out a]
  | .inWakeUp a _ _ => [.inp a]
  | _ => []

/-- The steps of a call entered after `e` periods. -/
def Call.run (env : Env) (fuel e : Nat) : Call → Run
  | .outWrite a s r f => Protocol.outWrite env fuel e a s r f
  | .outWakeUp a s r => Protocol.outWakeUp_l env fuel e a s r
  | .outStandby a => Protocol.outStandby e a
  | .outSetParameters a n f => Protocol.outSetParameters e a n f
  | .inRead a s r f => Protocol.inRead env fuel e a s r f
  | .inWakeUp a s r => Protocol.inWakeUp_l env fuel e a s r
  | .inStandby a => Protocol.inStandby e a
  | .inSetParameters a n f => Protocol.inSetParameters e a n f
  | .setMode t => Protocol.setMode env fuel e t
  | .setMicMute => Protocol.setMicMute e

/-- Whether a mutex is the lock of an output stream. -/
def Mutex.isOut : Mutex → Bool
  | .out _ => true
  | _ => false

/-- The rule "out, then in, then hw" for taking the mutex `m` while holding `held`: an
output-stream lock is taken holding no input-stream lock and not the facade lock, an
input-stream lock not holding the facade lock. -/
def mayAcquire (held : List Mutex) : Mutex → Bool
  | .out _ => held.all Mutex.isOut
  | .inp _ => !held.contains .hw
  | .hw => true

/-- The mutexes held after a sequence of steps, latest first. -/
def heldAfter : List Mutex → List Act → List Mutex
  | held, [] => held
  | held, .acquire m :: rest => heldAfter (m :: held) rest
  | held, .release m :: rest => heldAfter (held.erase m) rest
  | held, _ :: rest => heldAfter held rest

/-- Whether every acquisition of a sequence of steps obeys the rule, starting with the
mutexes `held`. -/
def lockOrder : List Mutex → List Act → Bool
  | _, [] => true
  | held, .acquire m :: rest => mayAcquire held m && lockOrder (m :: held) rest
  | held, .release m :: rest => lockOrder (held.erase m) rest
  | held, _ :: rest => lockOrder held rest

/-- Whether a step changes the stream object that owns the mutex `m` by closing it,
re-opening it or putting it to standby. -/
def Act.changes (m : Mutex) : Act → Bool
  | .close_l x => x == m
  | .open_l x => x == m
  | .doStandby_l x => x == m
  | _ => false

/-- The stream objects a call belongs to: the stream it is called on. -/
def Call.own : Call → List Mutex
  | .outWrite a _ _ _ => [.out a]
  | .outWakeUp a _ _ => [.out a]
  | .outStandby a => [.out a]
  | .outSetParameters a _ _ => [.out a]
  | .inRead a _ _ _ => [.inp a]
  | .inWakeUp a _ _ => [.inp a]
  | .inStandby a => [.inp a]
  | .inSetParameters a _ _ => [.inp a]
  | .setMode _ => []
  | .setMicMute => []

/-- The test of a hand-off in period `k` on the stream that owns `m`: the stream is the
current one of its role, and its standby counter is the one read in period `k - 1`, before
the facade lock was released. -/
def passed (env : Env) (k : Nat) : Mutex → Bool
  | .out t => decide ((env k).mOutput = some t ∧ (env (k - 1)).outCnt t = (env k).outCnt t)
  | .inp t => decide ((env k).getInput = some t ∧ (env (k - 1)).inCnt t = (env k).inCnt t)
  | .hw => false

/-- Whether every test in a sequence of steps that starts in period `k` reports what the
view of its period says, and is made later than period `e0 + 1`. -/
def rechecks (env : Env) (e0 : Nat) : Nat → List Act → Bool
  | _, [] => true
  | k, .acquire .hw :: rest => rechecks env e0 (k + 1) rest
  | k, .recheck m b :: rest =>
    decide (e0 + 2 ≤ k) && (b == passed env k m) && rechecks env e0 k rest
  | k, _ :: rest => rechecks env e0 k rest

/-- The streams taken over after a sequence of steps: a passed test adds the stream, the
release of its lock removes it. -/
def okAfter : List Mutex → List Act → List Mutex
  | ok, [] => ok
  | ok, .recheck m true :: rest => okAfter (m :: ok) rest
  | ok, .release m :: rest => okAfter (ok.filter (fun x => x != m)) rest
  | ok, _ :: rest => okAfter ok rest

/-- Whether every `close_l`, `open_l` and `doStandby_l` of a sequence of steps is on one of
the streams `own` or on a stream taken over. -/
def guarded (own : List Mutex) : List Mutex → List Act → Bool
  | _, [] => true
  | ok, .recheck m true :: rest => guarded own (m :: ok) rest
  | ok, .release m :: rest => guarded own (ok.filter (fun x => x != m)) rest
  | ok, .close_l m :: rest => (own.contains m || ok.contains m) && guarded own ok rest
  | ok, .open_l m :: rest => (own.contains m || ok.contains m) && guarded own ok rest
  | ok, .doStandby_l m :: rest => (own.contains m || ok.contains m) && guarded own ok rest
  | ok, _ :: rest => guarded own ok rest

/-- The four hand-off loops. -/
inductive Hand where
  | outToIn
  | inToOut (self : Nat)
  | modeToOut
  | modeToIn
  deriving DecidableEq, Repr

/-- The loop of a hand-off. -/
def Hand.run (env : Env) : Hand → Nat → Nat → Option Nat → Handoff
  | .outToIn => Protocol.outToIn env
  | .inToOut self => Protocol.inToOut env self
  | .modeToOut => Protocol.modeToOut env
  | .modeToIn => Protocol.modeToIn env

/-- The lock of the stream at an address a hand-off is directed to. -/
def Hand.lock : Hand → Nat → Mutex
  | .outToIn => Mutex.inp
  | .inToOut _ => Mutex.out
  | .modeToOut => Mutex.out
  | .modeToIn => Mutex.inp

/-- The current stream of the role a hand-off is directed to: `getInput()` resp. the
output stream pointer of the facade. -/
def Hand.current : Hand → View → Option Nat
  | .outToIn => View.getInput
  | .inToOut _ => View.mOutput
  | .modeToOut => View.mOutput
  | .modeToIn => View.getInput

/-- The standby counter `standbyCnt()` of the stream at an address a hand-off is directed
to. -/
def Hand.cnt : Hand → View → Nat → Int
  | .outToIn => View.inCnt
  | .inToOut _ => View.outCnt
  | .modeToOut => View.outCnt
  | .modeToIn => View.inCnt

/-- Whether a hand-off leaves the stream alone because it is in standby already: the test
`checkStandby()` of the two hand-offs towards the output stream. -/
def Hand.idle : Hand → View → Nat → Bool
  | .outToIn => fun _ _ => false
  | .inToOut _ => View.outStandby
  | .modeToOut => View.outStandby
  | .modeToIn => fun _ _ => false

/-- The steps of one pass of a hand-off up to the test: `prepareLock()`, release of the
facade lock (and, in the input wake-up, of the own lock), then the locks in the order
output, input, facade. -/
def Hand.pass : Hand → Nat → List Act
  | .outToIn, sp => [.prepareLock (.inp sp), .release .hw, .acquire (.inp sp), .acquire .hw]
  | .inToOut self, sp => [.prepareLock (.out sp), .release .hw, .release (.inp self),
      .acquire (.out sp), .acquire (.inp self), .acquire .hw]
  | .modeToOut, sp => [.prepareLock (.out sp), .release .hw, .acquire (.out sp), .acquire .hw]
  | .modeToIn, sp => [.prepareLock (.inp sp), .release .hw, .acquire (.inp sp), .acquire .hw]

/-- What a hand-off does to the stream right after a passed test: the two wake-ups close
it, `setMode` leaves it to the code after the loops. -/
def Hand.onPass : Hand → Nat → List Act
  | .outToIn, sp => [.close_l (.inp sp)]
  | .inToOut _, sp => [.close_l (.out sp)]
  | .modeToOut, _ => []
  | .modeToIn, _ => []

/-- Whether the stream that owns `m` is the current stream of its role in a view. -/
def isCurrent (v : View) : Mutex → Bool
  | .out t => v.mOutput == some t
  | .inp t => v.getInput == some t
  | .hw => false

/-- The mutexes held after a hand-off that ended: those held before, and the lock of the
stream taken over right below the facade lock. -/
def heldWith (t : Option Mutex) (T : List Mutex) : List Mutex :=
  match t with
  | none => .hw :: T
  | some m => .hw :: m :: T

/-- Every pointer a hand-off drops in the environment is shared: no destructor runs in
the thread. -/
def Env.Shared (env : Env) : Prop :=
  ∀ k t, (env k).outShared t = true ∧ (env k).inShared t = true

/-- A view in which the output stream at address 7 and the input stream at address 9 are
current and active and held by the facade. -/
def busyView : View :=
  { mOutput := some 7, outStandby := fun _ => false, outCnt := fun _ => 3,
    getInput := some 9, inCnt := fun _ => 5,
    outShared := fun t => t == 7, inShared := fun t => t == 9 }

/-- An environment in which another thread takes input 9 out of the facade and opens input
11 before the thread takes the facade lock for the second time, but has not yet dropped its
own pointer to 9; nothing changes afterwards. -/
def replacedEnv : Env := fun k =>
  if k ≤ 1 then busyView
  else { busyView with getInput := some 11, inShared := fun t => t == 9 || t == 11 }

/-- An environment in which another thread runs `closeInputStream` on input 9 to its end
before the thread takes the facade lock for the second time: `getInput()` returns 0 from
then on, and the local pointer of the thread is the last one to the object. -/
def closedEnv : Env := fun k =>
  if k ≤ 1 then busyView
  else { busyView with getInput := none, inShared := fun _ => false }

/-- An environment in which another thread closes output 7 and opens output 8 while
`setMode`, which holds the lock of output 7 after its first loop, has released the facade
lock in its second loop (between the second and the third period). -/
def swappedEnv : Env := fun k =>
  if k ≤ 2 then busyView
  else { busyView with mOutput := some 8, outStandby := fun t => t == 8,
                       outShared := fun t => t == 8 }

end Protocol

namespace AudioRouter

/-! ## Basic facts -/

theorem and_BIT_eq_zero (m r : Nat) : m &&& BIT r = 0 ↔ m.testBit r = false := by
  unfold BIT
  rw [Nat.one_shiftLeft, Nat.and_two_pow]
  cases h : m.testBit r <;> simp

theorem and_ne_zero_iff_share (a b : Nat) : a &&& b ≠ 0 ↔ shareEndpoint a b := by
  unfold shareEndpoint
  constructor
  · intro h
    by_contra hne
    apply h
    apply Nat.eq_of_testBit_eq
    intro i
    rw [Nat.testBit_and, Nat.zero_testBit]
    cases ha : a.testBit i <;> cases hb : b.testBit i <;> simp
    exact hne ⟨i, ha, hb⟩
  · rintro ⟨e, ha, hb⟩ h
    have := Nat.testBit_and a b e
    rw [h, Nat.zero_testBit, ha, hb] at this
    simp at this

theorem writesOf_append (a b : List Event) : writesOf (a ++ b) = writesOf a ++ writesOf b := by
  simp [writesOf]

theorem callbacksOf_append (a b : List Event) :
    callbacksOf (a ++ b) = callbacksOf a ++ callbacksOf b := by
  simp [callbacksOf]

theorem eventsOf_eq (f : AudioRouter → AudioRouter) (s : AudioRouter) (d : List Event)
    (h : (f s).trace = s.trace ++ d) : eventsOf f s = d := by
  simp [eventsOf, h]

theorem enablePin_eq (p : AudioPinConfig) (s : AudioRouter) :
    enablePin p s = { s with trace := s.trace ++ applyEvents s.mMixer p } := by
  unfold enablePin applyEvents applyWrite emit
  cases h : s.mMixer.hasControl p.ctl <;> simp
  split <;> simp

theorem enablePinConfig_eq (pin : List AudioPinConfig) (s : AudioRouter) :
    enablePinConfig pin s = { s with trace := s.trace ++ enableEvents s.mMixer pin } := by
  induction pin generalizing s with
  | nil => simp [enablePinConfig, enableEvents, pinList]
  | cons p rest ih =>
    unfold enablePinConfig
    by_cases hp : p.type = .TYPE_NONE
    · simp [hp, enableEvents, pinList]
    · simp only [hp, if_false]
      rw [ih, enablePin_eq]
      simp [enableEvents, pinList, hp]

theorem disablePin_eq (p : AudioPinConfig) (s : AudioRouter) :
    disablePin p s = { s with trace := s.trace ++ revertEvents s.mMixer p } := by
  unfold disablePin revertEvents revertWrite emit
  cases h : s.mMixer.hasControl p.ctl <;> simp
  by_cases hm : p.type = .TYPE_MUX
  · simp only [hm, if_true]
    cases p.resetStrValue <;> simp
  · simp only [hm, if_false]
    split <;> simp

theorem findTerminator_eq (pin : List AudioPinConfig) :
    findTerminator pin = (pinList pin).length := by
  induction pin with
  | nil => simp [findTerminator, pinList]
  | cons p rest ih =>
    unfold findTerminator
    by_cases hp : p.type = .TYPE_NONE
    · simp [hp, pinList]
    · simp only [hp, if_false, ih]
      simp [pinList, hp]

theorem take_findTerminator (pin : List AudioPinConfig) :
    pin.take (findTerminator pin) = pinList pin := by
  induction pin with
  | nil => simp [findTerminator, pinList]
  | cons p rest ih =>
    unfold findTerminator
    by_cases hp : p.type = .TYPE_NONE
    · simp [hp, pinList]
    · simp only [hp, if_false, List.take_succ_cons, ih]
      simp [pinList, hp]

theorem findTerminator_le (pin : List AudioPinConfig) : findTerminator pin ≤ pin.length := by
  rw [findTerminator_eq]
  exact (List.takeWhile_sublist _).length_le

theorem disablePinLoop_eq (pin : List AudioPinConfig) (i : Nat) (hi : i < pin.length)
    (s : AudioRouter) :
    disablePinLoop pin i s =
      { s with trace := s.trace ++ (pin.take (i + 1)).reverse.flatMap (revertEvents s.mMixer) } := by
  induction i generalizing s with
  | zero =>
    unfold disablePinLoop
    rw [disablePin_eq]
    cases pin with
    | nil => simp at hi
    | cons p rest => simp
  | succ i ih =>
    unfold disablePinLoop
    rw [ih (by omega), disablePin_eq]
    have h1 : pin[i + 1]? = some (pin[i + 1]) := List.getElem?_eq_getElem hi
    have h2 : pin.take (i + 1 + 1) = pin.take (i + 1) ++ [pin[i + 1]] := by
      rw [List.take_succ (n := i + 1), h1]; rfl
    rw [h2, List.reverse_append]
    simp [List.getD_eq_getElem?_getD, h1]

theorem disablePinConfig_eq (pin : List AudioPinConfig) (s : AudioRouter) :
    disablePinConfig pin s = { s with trace := s.trace ++ disableEvents s.mMixer pin } := by
  unfold disablePinConfig disableEvents
  by_cases h0 : findTerminator pin = 0
  · have : pinList pin = [] := by
      have := findTerminator_eq pin
      rw [h0] at this
      exact List.length_eq_zero.mp this.symm
    simp [h0, this]
  · simp only [h0, if_false]
    have hle := findTerminator_le pin
    rw [disablePinLoop_eq pin _ (by omega)]
    have : findTerminator pin - 1 + 1 = findTerminator pin := by omega
    rw [this, take_findTerminator]

theorem setEndpointVolume_eq (table : List VolumeControl) (mask : Nat) (volume : ℚ)
    (s : AudioRouter) :
    setEndpointVolume table mask volume s =
      { s with trace := s.trace ++ volumeEvents s.mMixer table mask volume } := by
  induction table generalizing s with
  | nil => simp [setEndpointVolume, volumeEvents, volumeList]
  | cons v rest ih =>
    unfold setEndpointVolume
    by_cases hv : v.endpoint = 0
    · simp [hv, volumeEvents, volumeList]
    · simp only [hv, if_false]
      by_cases hb : mask &&& BIT v.endpoint = 0
      · have hb2 := (and_BIT_eq_zero _ _).mp hb
        simp only [hb, if_true]
        rw [ih]
        simp [volumeEvents, volumeList, hv, hb2]
      · have hb2 : mask.testBit v.endpoint = true := by
          cases h : mask.testBit v.endpoint
          · exact absurd ((and_BIT_eq_zero _ _).mpr h) hb
          · rfl
        simp only [hb, if_false]
        rw [ih]
        cases hc : s.mMixer.hasControl v.control <;>
          simp [volumeEvents, volumeList, hv, hb2, hc, emit]

theorem writesOf_volumeEvents (mx : Mixer) (table : List VolumeControl) (mask : Nat)
    (volume : ℚ) :
    writesOf (volumeEvents mx table mask volume) = volumeWritesOn mx table mask volume := by
  unfold volumeEvents volumeWritesOn
  induction ((volumeList table).filter fun v => mask.testBit v.endpoint) with
  | nil => simp [writesOf]
  | cons v rest ih =>
    simp only [List.flatMap_cons, writesOf_append, ih]
    cases hc : mx.hasControl v.control <;> simp [writesOf, isWrite, hc]

theorem writesOf_enableEvents (mx : Mixer) (pin : List AudioPinConfig) :
    writesOf (enableEvents mx pin) = applyListOn mx pin := by
  unfold enableEvents applyListOn
  induction pinList pin with
  | nil => simp [writesOf]
  | cons p rest ih =>
    simp only [List.flatMap_cons, writesOf_append, ih]
    cases hc : mx.hasControl p.ctl <;> simp [writesOf, isWrite, hc, applyEvents, applyWrite]
    split <;> simp [isWrite]

theorem isWrite_revertWrite (p : AudioPinConfig) (e : Event) (h : revertWrite p = some e) :
    isWrite e = true := by
  unfold revertWrite at h
  split at h
  · cases hr : p.resetStrValue with
    | none => simp [hr] at h
    | some v => simp [hr] at h; subst h; rfl
  · split at h
    · simp at h
    · simp at h; subst h; rfl

theorem writesOf_disableEvents (mx : Mixer) (pin : List AudioPinConfig) :
    writesOf (disableEvents mx pin) = revertListOn mx pin := by
  unfold disableEvents revertListOn
  induction (pinList pin).reverse with
  | nil => simp [writesOf]
  | cons p rest ih =>
    simp only [List.flatMap_cons, writesOf_append, ih]
    cases hc : mx.hasControl p.ctl
    · simp [writesOf, isWrite, hc, revertEvents]
    · cases hr : revertWrite p with
      | none => simp [writesOf, isWrite, hc, revertEvents, hr]
      | some e =>
        have := isWrite_revertWrite p e hr
        have hg : isWrite (.getControl p.ctl) = false := rfl
        simp [writesOf, hc, revertEvents, hr, this, hg, List.filter_cons]

theorem callbacksOf_enableEvents (mx : Mixer) (pin : List AudioPinConfig) :
    callbacksOf (enableEvents mx pin) = [] := by
  unfold enableEvents
  induction pinList pin with
  | nil => simp [callbacksOf]
  | cons p rest ih =>
    simp only [List.flatMap_cons, callbacksOf_append, ih]
    cases hc : mx.hasControl p.ctl <;> simp [callbacksOf, hc, applyEvents, applyWrite]
    by_cases hm : p.type = .TYPE_MUX <;> simp [hm]

theorem callbacksOf_revertWrite (p : AudioPinConfig) :
    callbacksOf (revertWrite p).toList = [] := by
  unfold revertWrite
  split
  · cases p.resetStrValue <;> simp [callbacksOf]
  · split <;> simp [callbacksOf]

theorem callbacksOf_disableEvents (mx : Mixer) (pin : List AudioPinConfig) :
    callbacksOf (disableEvents mx pin) = [] := by
  unfold disableEvents
  induction (pinList pin).reverse with
  | nil => simp [callbacksOf]
  | cons p rest ih =>
    simp only [List.flatMap_cons, callbacksOf_append, ih]
    cases hc : mx.hasControl p.ctl
    · simp [callbacksOf, hc, revertEvents]
    · have := callbacksOf_revertWrite p
      simp [hc, revertEvents, callbacksOf_append] 
      simpa [callbacksOf] using this

theorem Frame.refl (a : AudioRouter) : Frame a a :=
  ⟨rfl, rfl, rfl, rfl, rfl, rfl, rfl, List.prefix_refl _⟩

theorem Frame.trans {a b c : AudioRouter} (h1 : Frame a b) (h2 : Frame b c) : Frame a c :=
  ⟨h2.mRoute.trans h1.mRoute, h2.mDisabled.trans h1.mDisabled,
   h2.mPlaybackVolume.trans h1.mPlaybackVolume, h2.mVoiceVol.trans h1.mVoiceVol,
   h2.mMasterVol.trans h1.mMasterVol, h2.mMixer.trans h1.mMixer,
   h2.btPcmReady.trans h1.btPcmReady, h1.trace.trans h2.trace⟩

theorem Frame.of_append (s : AudioRouter) (d : List Event) :
    Frame s { s with trace := s.trace ++ d } :=
  ⟨rfl, rfl, rfl, rfl, rfl, rfl, rfl, List.prefix_append _ _⟩

theorem invoke_trace (f : Callback) (s : AudioRouter) :
    ∃ n pcm, (invoke f s).trace = s.trace ++ [Event.callback f n pcm] := by
  cases f <;> exact ⟨_, _, rfl⟩

theorem invoke_frame (f : Callback) (s : AudioRouter) : Frame s (invoke f s) := by
  cases f <;> exact ⟨rfl, rfl, rfl, rfl, rfl, rfl, rfl, List.prefix_append _ _⟩

theorem writesOf_invoke (f : Callback) (s : AudioRouter) :
    writesOf (invoke f s).trace = writesOf s.trace := by
  obtain ⟨n, pcm, h⟩ := invoke_trace f s
  rw [h, writesOf_append]; simp [writesOf, isWrite]

theorem callbacksOf_invoke (f : Callback) (s : AudioRouter) :
    callbacksOf (invoke f s).trace = callbacksOf s.trace ++ [f] := by
  obtain ⟨n, pcm, h⟩ := invoke_trace f s
  rw [h, callbacksOf_append]; simp [callbacksOf]

theorem endpointsIn_cons_zero (r : AudioRouteConfig) (rest : List AudioRouteConfig)
    (mask : Nat) (h : r.route = 0) : endpointsIn (r :: rest) mask = [] := by
  simp [endpointsIn, routeList, h]

theorem endpointsIn_cons_skip (r : AudioRouteConfig) (rest : List AudioRouteConfig)
    (mask : Nat) (h : r.route ≠ 0) (hb : mask.testBit r.route = false) :
    endpointsIn (r :: rest) mask = endpointsIn rest mask := by
  simp [endpointsIn, routeList, h, hb]

theorem endpointsIn_cons_take (r : AudioRouteConfig) (rest : List AudioRouteConfig)
    (mask : Nat) (h : r.route ≠ 0) (hb : mask.testBit r.route = true) :
    endpointsIn (r :: rest) mask = r :: endpointsIn rest mask := by
  simp [endpointsIn, routeList, h, hb]

theorem testBit_of_and_BIT_ne (m r : Nat) (h : ¬ m &&& BIT r = 0) : m.testBit r = true := by
  cases hb : m.testBit r
  · exact absurd ((and_BIT_eq_zero _ _).mpr hb) h
  · rfl

theorem disableRouteLoop_spec (mask : Nat) (table : List AudioRouteConfig) (s : AudioRouter) :
    Frame s (disableRouteLoop mask table s) ∧
    writesOf (disableRouteLoop mask table s).trace =
      writesOf s.trace ++ revertRouteOn s.mMixer table mask ∧
    callbacksOf (disableRouteLoop mask table s).trace =
      callbacksOf s.trace ++ disableCallbacks table mask := by
  induction table generalizing s with
  | nil => simp [disableRouteLoop, revertRouteOn, disableCallbacks, endpointsIn, routeList,
      Frame.refl]
  | cons r rest ih =>
    unfold disableRouteLoop
    by_cases h0 : r.route = 0
    · simp [h0, revertRouteOn, disableCallbacks, endpointsIn_cons_zero, Frame.refl]
    · simp only [h0, if_false]
      by_cases hb : mask &&& BIT r.route = 0
      · have hb2 := (and_BIT_eq_zero _ _).mp hb
        simp only [hb, if_true]
        simpa [revertRouteOn, disableCallbacks, endpointsIn_cons_skip r rest mask h0 hb2]
          using ih s
      · have hb2 := testBit_of_and_BIT_ne _ _ hb
        simp only [hb, if_false]
        rw [disablePinConfig_eq]
        cases hd : r.disable with
        | none =>
          obtain ⟨f1, f2, f3⟩ := ih { s with trace := s.trace ++ disableEvents s.mMixer r.config }
          refine ⟨(Frame.of_append s _).trans f1, ?_, ?_⟩
          · rw [f2]
            simp [revertRouteOn, endpointsIn_cons_take r rest mask h0 hb2, writesOf_append,
              writesOf_disableEvents]
          · rw [f3]
            simp [disableCallbacks, endpointsIn_cons_take r rest mask h0 hb2,
              callbacksOf_append, callbacksOf_disableEvents, hd]
        | some f =>
          obtain ⟨f1, f2, f3⟩ :=
            ih (invoke f { s with trace := s.trace ++ disableEvents s.mMixer r.config })
          have hf := invoke_frame f { s with trace := s.trace ++ disableEvents s.mMixer r.config }
          refine ⟨((Frame.of_append s _).trans hf).trans f1, ?_, ?_⟩
          · rw [f2, writesOf_invoke, hf.mMixer]
            simp [revertRouteOn, endpointsIn_cons_take r rest mask h0 hb2, writesOf_append,
              writesOf_disableEvents]
          · rw [f3, callbacksOf_invoke]
            simp [disableCallbacks, endpointsIn_cons_take r rest mask h0 hb2,
              callbacksOf_append, callbacksOf_disableEvents, hd]

theorem enableRouteLoop_spec (mask : Nat) (table : List AudioRouteConfig) (s : AudioRouter) :
    Frame s (enableRouteLoop mask table s) ∧
    writesOf (enableRouteLoop mask table s).trace =
      writesOf s.trace ++ applyRouteOn s.mMixer table mask ∧
    callbacksOf (enableRouteLoop mask table s).trace =
      callbacksOf s.trace ++ enableCallbacks table mask := by
  induction table generalizing s with
  | nil => simp [enableRouteLoop, applyRouteOn, enableCallbacks, endpointsIn, routeList,
      Frame.refl]
  | cons r rest ih =>
    unfold enableRouteLoop
    by_cases h0 : r.route = 0
    · simp [h0, applyRouteOn, enableCallbacks, endpointsIn_cons_zero, Frame.refl]
    · simp only [h0, if_false]
      by_cases hb : mask &&& BIT r.route = 0
      · have hb2 := (and_BIT_eq_zero _ _).mp hb
        simp only [hb, if_true]
        simpa [applyRouteOn, enableCallbacks, endpointsIn_cons_skip r rest mask h0 hb2]
          using ih s
      · have hb2 := testBit_of_and_BIT_ne _ _ hb
        simp only [hb, if_false]
        rw [enablePinConfig_eq]
        cases hd : r.enable with
        | none =>
          obtain ⟨f1, f2, f3⟩ := ih { s with trace := s.trace ++ enableEvents s.mMixer r.config }
          refine ⟨(Frame.of_append s _).trans f1, ?_, ?_⟩
          · rw [f2]
            simp [applyRouteOn, endpointsIn_cons_take r rest mask h0 hb2, writesOf_append,
              writesOf_enableEvents]
          · rw [f3]
            simp [enableCallbacks, endpointsIn_cons_take r rest mask h0 hb2,
              callbacksOf_append, callbacksOf_enableEvents, hd]
        | some f =>
          have hf := invoke_frame f s
          obtain ⟨f1, f2, f3⟩ := ih { invoke f s with
            trace := (invoke f s).trace ++ enableEvents (invoke f s).mMixer r.config }
          refine ⟨(hf.trans (Frame.of_append _ _)).trans f1, ?_, ?_⟩
          · rw [f2]
            simp [applyRouteOn, endpointsIn_cons_take r rest mask h0 hb2, writesOf_append,
              writesOf_enableEvents, writesOf_invoke, hf.mMixer]
          · rw [f3]
            simp [enableCallbacks, endpointsIn_cons_take r rest mask h0 hb2,
              callbacksOf_append, callbacksOf_enableEvents, callbacksOf_invoke, hd]

theorem hasControl_of_absent_nil (mx : Mixer) (h : mx.absent = []) (c : String) :
    mx.hasControl c = true := by
  simp [Mixer.hasControl, h]

theorem applyListOn_eq (mx : Mixer) (h : mx.absent = []) (pin : List AudioPinConfig) :
    applyListOn mx pin = applyList pin := by
  simp [applyListOn, applyList, hasControl_of_absent_nil mx h]

theorem revertListOn_eq (mx : Mixer) (h : mx.absent = []) (pin : List AudioPinConfig) :
    revertListOn mx pin = revertList pin := by
  simp [revertListOn, revertList, hasControl_of_absent_nil mx h]

theorem applyRouteOn_eq (mx : Mixer) (h : mx.absent = []) (table : List AudioRouteConfig)
    (mask : Nat) : applyRouteOn mx table mask = applyRoute table mask := by
  simp [applyRouteOn, applyRoute, applyListOn_eq mx h]

theorem revertRouteOn_eq (mx : Mixer) (h : mx.absent = []) (table : List AudioRouteConfig)
    (mask : Nat) : revertRouteOn mx table mask = revertRoute table mask := by
  simp [revertRouteOn, revertRoute, revertListOn_eq mx h]

theorem volumeWritesOn_eq (mx : Mixer) (h : mx.absent = []) (table : List VolumeControl)
    (mask : Nat) (volume : ℚ) :
    volumeWritesOn mx table mask volume = volumeWrites table mask volume := by
  simp [volumeWritesOn, volumeWrites, hasControl_of_absent_nil mx h]

theorem writesOf_muteEvents (s : AudioRouter) : writesOf (muteEvents s) = muteWritesOn s := by
  simp [muteEvents, muteWritesOn, writesOf_append, writesOf_volumeEvents]

theorem muteWritesOn_eq (s : AudioRouter) (h : s.mMixer.absent = []) :
    muteWritesOn s = muteWrites s := by
  simp [muteWritesOn, muteWrites, volumeWritesOn_eq _ h]

theorem callbacksOf_volumeEvents (mx : Mixer) (table : List VolumeControl) (mask : Nat)
    (volume : ℚ) : callbacksOf (volumeEvents mx table mask volume) = [] := by
  unfold volumeEvents
  induction ((volumeList table).filter fun v => mask.testBit v.endpoint) with
  | nil => simp [callbacksOf]
  | cons v rest ih =>
    simp only [List.flatMap_cons, callbacksOf_append, ih]
    cases hc : mx.hasControl v.control <;> simp [callbacksOf, hc]

theorem callbacksOf_muteEvents (s : AudioRouter) : callbacksOf (muteEvents s) = [] := by
  simp [muteEvents, callbacksOf_append, callbacksOf_volumeEvents]

theorem callbacksOf_rebalanceEvents (s : AudioRouter) :
    callbacksOf (rebalanceEvents s) = [] := by
  unfold rebalanceEvents
  have hn : callbacksOf [] = [] := rfl
  simp only [callbacksOf_append, callbacksOf_volumeEvents]
  split <;> split <;> simp [hn, callbacksOf_volumeEvents]

theorem muteOutputs_eq (s : AudioRouter) :
    muteOutputs s = { s with trace := s.trace ++ muteEvents s } := by
  unfold muteOutputs muteEvents
  simp only [setEndpointVolume_eq]
  simp

theorem updateVolume_eq (s : AudioRouter) :
    updateVolume s =
      { s with mPlaybackVolume := (volumeFactors s).1,
               trace := s.trace ++ rebalanceEvents s } := by
  unfold updateVolume rebalanceEvents
  simp only [setEndpointVolume_eq]
  by_cases h : (volumeFactors s).1 ≤ s.mPlaybackVolume
  · have h2 : ¬ (volumeFactors s).1 > s.mPlaybackVolume := not_lt.mpr h
    simp [h, h2]
  · have h2 : (volumeFactors s).1 > s.mPlaybackVolume := not_le.mp h
    simp [h, h2]

theorem rebalanceEvents_congr (a b : AudioRouter) (h1 : a.mRoute = b.mRoute)
    (h2 : a.mPlaybackVolume = b.mPlaybackVolume) (h3 : a.mVoiceVol = b.mVoiceVol)
    (h4 : a.mMasterVol = b.mMasterVol) (h5 : a.mMixer = b.mMixer) :
    rebalanceEvents a = rebalanceEvents b := by
  have hv : volumeFactors a = volumeFactors b := by
    simp [volumeFactors, h1, h3, h4]
  simp [rebalanceEvents, hv, h1, h2, h5]

theorem writesOf_eventsOf (f : AudioRouter → AudioRouter) (s : AudioRouter) (x : List Event)
    (hpre : s.trace <+: (f s).trace) (h : writesOf (f s).trace = writesOf s.trace ++ x) :
    writesOf (eventsOf f s) = x := by
  obtain ⟨d, hd⟩ := hpre
  have he : eventsOf f s = d := eventsOf_eq f s d hd.symm
  rw [← hd, writesOf_append] at h
  rw [he]
  exact List.append_cancel_left h

theorem callbacksOf_eventsOf (f : AudioRouter → AudioRouter) (s : AudioRouter)
    (x : List Callback) (hpre : s.trace <+: (f s).trace)
    (h : callbacksOf (f s).trace = callbacksOf s.trace ++ x) :
    callbacksOf (eventsOf f s) = x := by
  obtain ⟨d, hd⟩ := hpre
  have he : eventsOf f s = d := eventsOf_eq f s d hd.symm
  rw [← hd, callbacksOf_append] at h
  rw [he]
  exact List.append_cancel_left h

theorem reroute_spec (type : RouteType) (route : Nat) (s : AudioRouter) :
    Keeps s (reroute type route s) (Function.update s.mRoute type route) s.mDisabled
      s.mPlaybackVolume ∧
    writesOf (reroute type route s).trace =
      writesOf s.trace ++ (revertRouteOn s.mMixer (routeTables type) (s.mRoute type) ++
        applyRouteOn s.mMixer (routeTables type) route) ∧
    callbacksOf (reroute type route s).trace =
      callbacksOf s.trace ++ (disableCallbacks (routeTables type) (s.mRoute type) ++
        enableCallbacks (routeTables type) route) := by
  obtain ⟨d1, d2, d3⟩ := disableRouteLoop_spec (s.mRoute type) (routeTables type) s
  have e := enableRouteLoop_spec route (routeTables type)
    { disableRoute type s with
      mRoute := Function.update (disableRoute type s).mRoute type route }
  have hr : ({ disableRoute type s with
      mRoute := Function.update (disableRoute type s).mRoute type route } : AudioRouter).mRoute
      type = route := by simp
  unfold reroute enableRoute
  rw [hr]
  obtain ⟨e1, e2, e3⟩ := e
  unfold disableRoute at e1 e2 e3 ⊢
  refine ⟨⟨?_, ?_, ?_, ?_, ?_, ?_, ?_, ?_⟩, ?_, ?_⟩
  · rw [e1.mRoute]; simp [d1.mRoute]
  · rw [e1.mDisabled]; exact d1.mDisabled
  · rw [e1.mPlaybackVolume]; exact d1.mPlaybackVolume
  · rw [e1.mVoiceVol]; exact d1.mVoiceVol
  · rw [e1.mMasterVol]; exact d1.mMasterVol
  · rw [e1.mMixer]; exact d1.mMixer
  · rw [e1.btPcmReady]; exact d1.btPcmReady
  · exact d1.trace.trans e1.trace
  · rw [e2]; simp only []; rw [d2, d1.mMixer, List.append_assoc]
  · rw [e3]; simp only []; rw [d3, List.append_assoc]

theorem setAudioRoute_enabled (type : RouteType) (route : Nat) (s : AudioRouter)
    (hen : s.mDisabled type = false) :
    setAudioRoute type route s =
      if isOut type then updateVolume (reroute type route (muteOutputs s))
      else reroute type route s := by
  unfold setAudioRoute reroute
  simp only [hen]
  cases isOut type <;> simp

theorem setAudioRoute_spec (type : RouteType) (route : Nat) (s : AudioRouter)
    (hen : s.mDisabled type = false) :
    Keeps s (setAudioRoute type route s) (Function.update s.mRoute type route) s.mDisabled
      (if isOut type then (volumeFactors (withRoute s type route)).1
        else s.mPlaybackVolume) ∧
    writesOf (setAudioRoute type route s).trace =
      writesOf s.trace ++ ((if isOut type then muteWritesOn s else []) ++
        revertRouteOn s.mMixer (routeTables type) (s.mRoute type) ++
        applyRouteOn s.mMixer (routeTables type) route ++
        (if isOut type then rebalanceWrites (withRoute s type route) else [])) ∧
    callbacksOf (setAudioRoute type route s).trace =
      callbacksOf s.trace ++ (disableCallbacks (routeTables type) (s.mRoute type) ++
        enableCallbacks (routeTables type) route) := by
  rw [setAudioRoute_enabled type route s hen]
  by_cases hout : isOut type = true
  · simp only [hout, if_true]
    obtain ⟨k, w, c⟩ := reroute_spec type route (muteOutputs s)
    have hmF : Frame s (muteOutputs s) := by
      rw [muteOutputs_eq]; exact Frame.of_append _ _
    have hmt : (muteOutputs s).trace = s.trace ++ muteEvents s := by
      rw [muteOutputs_eq]
    rw [hmF.mRoute, hmF.mMixer, hmt] at w
    rw [hmF.mRoute, hmt] at c
    have kr := k.mRoute
    rw [hmF.mRoute] at kr
    have hcongr : rebalanceEvents (reroute type route (muteOutputs s)) =
        rebalanceEvents (withRoute s type route) :=
      rebalanceEvents_congr _ _ (by rw [kr]; rfl)
        (by rw [k.mPlaybackVolume, hmF.mPlaybackVolume]; rfl)
        (by rw [k.mVoiceVol, hmF.mVoiceVol]; rfl) (by rw [k.mMasterVol, hmF.mMasterVol]; rfl)
        (by rw [k.mMixer, hmF.mMixer]; rfl)
    have hv : volumeFactors (reroute type route (muteOutputs s)) =
        volumeFactors (withRoute s type route) := by
      simp [volumeFactors, kr, k.mVoiceVol, k.mMasterVol, hmF.mVoiceVol, hmF.mMasterVol,
        withRoute]
    rw [updateVolume_eq]
    refine ⟨⟨?_, ?_, ?_, ?_, ?_, ?_, ?_, ?_⟩, ?_, ?_⟩
    · exact kr
    · exact k.mDisabled.trans hmF.mDisabled
    · exact congrArg Prod.fst hv
    · exact k.mVoiceVol.trans hmF.mVoiceVol
    · exact k.mMasterVol.trans hmF.mMasterVol
    · exact k.mMixer.trans hmF.mMixer
    · exact k.btPcmReady.trans hmF.btPcmReady
    · exact (hmF.trace.trans k.trace).trans (List.prefix_append _ _)
    · simp only [writesOf_append, w, writesOf_muteEvents, hcongr, rebalanceWrites,
        List.append_assoc]
    · simp only [callbacksOf_append, c, callbacksOf_muteEvents, callbacksOf_rebalanceEvents,
        List.append_nil, List.append_assoc]
  · simp only [hout]
    simpa using reroute_spec type route s

theorem setAudioRoute_disabled_eq (type : RouteType) (route : Nat) (s : AudioRouter)
    (hdis : s.mDisabled type = true) :
    setAudioRoute type route s = withRoute s type route := by
  simp [setAudioRoute, hdis, withRoute]

theorem setRouteDisable_same_eq (type : RouteType) (d : Bool) (s : AudioRouter)
    (h : s.mDisabled type = d) : setRouteDisable type d s = s := by
  simp [setRouteDisable, h]

theorem setRouteDisable_flag (type : RouteType) (d : Bool) (s : AudioRouter) :
    (setRouteDisable type d s).mDisabled type = d := by
  unfold setRouteDisable
  by_cases h : s.mDisabled type = d
  · simp [h]
  · simp [h]

theorem setRouteDisable_true_spec (type : RouteType) (s : AudioRouter)
    (hen : s.mDisabled type = false) :
    Keeps s (setRouteDisable type true s) s.mRoute (Function.update s.mDisabled type true)
      s.mPlaybackVolume ∧
    writesOf (setRouteDisable type true s).trace =
      writesOf s.trace ++ revertRouteOn s.mMixer (routeTables type) (s.mRoute type) ∧
    callbacksOf (setRouteDisable type true s).trace =
      callbacksOf s.trace ++ disableCallbacks (routeTables type) (s.mRoute type) := by
  obtain ⟨d1, d2, d3⟩ := disableRouteLoop_spec (s.mRoute type) (routeTables type) s
  have he : setRouteDisable type true s =
      { disableRoute type s with
        mDisabled := Function.update (disableRoute type s).mDisabled type true } := by
    simp [setRouteDisable, hen]
  rw [he]
  unfold disableRoute
  refine ⟨⟨d1.mRoute, ?_, d1.mPlaybackVolume, d1.mVoiceVol, d1.mMasterVol, d1.mMixer,
    d1.btPcmReady, d1.trace⟩, d2, d3⟩
  simp [d1.mDisabled]

theorem setRouteDisable_false_spec (type : RouteType) (s : AudioRouter)
    (hdis : s.mDisabled type = true) :
    Keeps s (setRouteDisable type false s) s.mRoute (Function.update s.mDisabled type false)
      (if isOut type then (volumeFactors s).1 else s.mPlaybackVolume) ∧
    writesOf (setRouteDisable type false s).trace =
      writesOf s.trace ++ ((if isOut type then muteWritesOn s else []) ++
        applyRouteOn s.mMixer (routeTables type) (s.mRoute type) ++
        (if isOut type then rebalanceWrites s else [])) ∧
    callbacksOf (setRouteDisable type false s).trace =
      callbacksOf s.trace ++ enableCallbacks (routeTables type) (s.mRoute type) := by
  by_cases hout : isOut type = true
  · have he : setRouteDisable type false s =
        { updateVolume (enableRoute type (muteOutputs s)) with
          mDisabled := Function.update
            (updateVolume (enableRoute type (muteOutputs s))).mDisabled type false } := by
      simp [setRouteDisable, hdis, hout]
    have hmF : Frame s (muteOutputs s) := by
      rw [muteOutputs_eq]; exact Frame.of_append _ _
    have hmt : (muteOutputs s).trace = s.trace ++ muteEvents s := by
      rw [muteOutputs_eq]
    obtain ⟨e1, e2, e3⟩ :=
      enableRouteLoop_spec ((muteOutputs s).mRoute type) (routeTables type) (muteOutputs s)
    rw [hmF.mMixer, hmt] at e2
    rw [hmt] at e3
    rw [hmF.mRoute] at e2 e3
    have hfold : enableRouteLoop (s.mRoute type) (routeTables type) (muteOutputs s) =
        enableRoute type (muteOutputs s) := by
      unfold enableRoute; rw [hmF.mRoute]
    rw [hmF.mRoute, hfold] at e1
    rw [hfold] at e2 e3
    have k := e1.trans (Frame.refl _)
    have hcongr : rebalanceEvents (enableRoute type (muteOutputs s)) = rebalanceEvents s :=
      rebalanceEvents_congr _ _ (by rw [k.mRoute, hmF.mRoute])
        (by rw [k.mPlaybackVolume, hmF.mPlaybackVolume])
        (by rw [k.mVoiceVol, hmF.mVoiceVol]) (by rw [k.mMasterVol, hmF.mMasterVol])
        (by rw [k.mMixer, hmF.mMixer])
    have hv : volumeFactors (enableRoute type (muteOutputs s)) = volumeFactors s := by
      simp [volumeFactors, k.mRoute, hmF.mRoute, k.mVoiceVol, k.mMasterVol, hmF.mVoiceVol,
        hmF.mMasterVol]
    rw [he, updateVolume_eq]
    simp only [hout, if_true]
    refine ⟨⟨?_, ?_, ?_, ?_, ?_, ?_, ?_, ?_⟩, ?_, ?_⟩
    · exact k.mRoute.trans hmF.mRoute
    · simp [k.mDisabled, hmF.mDisabled]
    · exact congrArg Prod.fst hv
    · exact k.mVoiceVol.trans hmF.mVoiceVol
    · exact k.mMasterVol.trans hmF.mMasterVol
    · exact k.mMixer.trans hmF.mMixer
    · exact k.btPcmReady.trans hmF.btPcmReady
    · exact (hmF.trace.trans k.trace).trans (List.prefix_append _ _)
    · simp only [writesOf_append, e2, writesOf_muteEvents, hcongr, rebalanceWrites,
        List.append_assoc]
    · simp only [callbacksOf_append, e3, callbacksOf_muteEvents, callbacksOf_rebalanceEvents,
        List.append_nil, List.append_assoc]
  · have he : setRouteDisable type false s =
        { enableRoute type s with
          mDisabled := Function.update (enableRoute type s).mDisabled type false } := by
      simp [setRouteDisable, hdis, hout]
    obtain ⟨e1, e2, e3⟩ := enableRouteLoop_spec (s.mRoute type) (routeTables type) s
    rw [he]
    unfold enableRoute
    simp only [hout]
    refine ⟨⟨e1.mRoute, ?_, e1.mPlaybackVolume, e1.mVoiceVol, e1.mMasterVol, e1.mMixer,
      e1.btPcmReady, e1.trace⟩, ?_, e3⟩
    · simp [e1.mDisabled]
    · simpa using e2

theorem init_eq (mx : Mixer) (r : Bool) :
    init mx r =
      { mRoute := fun _ => 0, mDisabled := fun _ => false, mPlaybackVolume := 1,
        mVoiceVol := 0, mMasterVol := 0, mMixer := mx, bluetoothInRefCnt := 0,
        bluetoothOutRefCnt := 0, btPcmReady := r,
        trace := enableEvents mx initialPinConfig } := by
  unfold init
  rw [enablePinConfig_eq]
  simp

/-! ## The claims -/

/-- C1: for a category `C` that is not disabled, with every mixer control present, the
mixer writes of `setAudioRoute(C, M2)` are exactly: the pin lists of the endpoints of the
current mask reverted (endpoints in table order, each list from its last entry to its
first, entries without a reset value skipped), then the pin lists of the endpoints of `M2`
applied (endpoints in table order, each list first to last); for OUTPUT and VOICE_OUT this
is preceded by the zero-gain writes on the endpoint volume controls of the current OUTPUT
and VOICE_OUT masks and followed by the volume rebalance writes, and for INPUT and VOICE_IN
there is no volume write.  Afterwards the stored mask of `C` is `M2`. -/
theorem setAudioRoute_write_sequence (C : RouteType) (M2 : Nat) (s : AudioRouter)
    (hen : s.mDisabled C = false) (hall : s.mMixer.absent = []) :
    writesOf (eventsOf (setAudioRoute C M2) s) =
      (if isOut C then muteWrites s else []) ++
      revertRoute (routeTables C) (s.mRoute C) ++
      applyRoute (routeTables C) M2 ++
      (if isOut C then rebalanceWrites (withRoute s C M2) else []) ∧
    (setAudioRoute C M2 s).mRoute C = M2 := by
  obtain ⟨k, w, _⟩ := setAudioRoute_spec C M2 s hen
  refine ⟨?_, by rw [k.mRoute]; simp⟩
  rw [writesOf_eventsOf _ _ _ k.trace w, muteWritesOn_eq s hall, revertRouteOn_eq _ hall,
    applyRouteOn_eq _ hall]

theorem setAudioRoute_write_sequence_witness :
    writesOf (eventsOf (setAudioRoute .ROUTE_OUTPUT (BIT ENDPOINT_SPK)) fresh) =
      (if isOut .ROUTE_OUTPUT then muteWrites fresh else []) ++
      revertRoute (routeTables .ROUTE_OUTPUT) (fresh.mRoute .ROUTE_OUTPUT) ++
      applyRoute (routeTables .ROUTE_OUTPUT) (BIT ENDPOINT_SPK) ++
      (if isOut .ROUTE_OUTPUT then
        rebalanceWrites (withRoute fresh .ROUTE_OUTPUT (BIT ENDPOINT_SPK)) else []) ∧
    (setAudioRoute .ROUTE_OUTPUT (BIT ENDPOINT_SPK) fresh).mRoute .ROUTE_OUTPUT =
      BIT ENDPOINT_SPK :=
  setAudioRoute_write_sequence .ROUTE_OUTPUT (BIT ENDPOINT_SPK) fresh
    (by simp [fresh, init_eq]) (by simp [fresh, init_eq])

/-- C2: when the disabled flag of `C` is set, `setAudioRoute(C, M)` appends nothing to the
history (no mixer lookup, no mixer write, no callback) and only replaces the stored mask
of `C` by `M`: the masks of the other categories, all disabled flags, the stored volumes
and the Bluetooth counts are unchanged. -/
theorem setAudioRoute_disabled_stores_only (C : RouteType) (M : Nat) (s : AudioRouter)
    (hdis : s.mDisabled C = true) :
    setAudioRoute C M s = { s with mRoute := Function.update s.mRoute C M } ∧
    eventsOf (setAudioRoute C M) s = [] ∧
    (setAudioRoute C M s).mRoute C = M ∧
    (∀ D, D ≠ C → (setAudioRoute C M s).mRoute D = s.mRoute D) ∧
    (setAudioRoute C M s).mDisabled = s.mDisabled ∧
    (setAudioRoute C M s).mPlaybackVolume = s.mPlaybackVolume ∧
    (setAudioRoute C M s).mVoiceVol = s.mVoiceVol ∧
    (setAudioRoute C M s).mMasterVol = s.mMasterVol := by
  have h := setAudioRoute_disabled_eq C M s hdis
  rw [h]
  refine ⟨rfl, ?_, ?_, ?_, rfl, rfl, rfl, rfl⟩
  · exact eventsOf_eq _ _ [] (by rw [h]; simp [withRoute])
  · simp [withRoute]
  · intro D hD
    simp [withRoute, Function.update_noteq hD]

theorem setAudioRoute_disabled_stores_only_witness :
    setAudioRoute .ROUTE_INPUT 2 (setRouteDisable .ROUTE_INPUT true fresh) =
      { setRouteDisable .ROUTE_INPUT true fresh with
        mRoute := Function.update (setRouteDisable .ROUTE_INPUT true fresh).mRoute
          .ROUTE_INPUT 2 } :=
  (setAudioRoute_disabled_stores_only .ROUTE_INPUT 2 (setRouteDisable .ROUTE_INPUT true fresh)
    (setRouteDisable_flag _ _ _)).1

/-- C3: when the disabled flag of `C` already equals `d`, `setRouteDisable(C, d)` leaves
the whole state, history included, unchanged: no mixer write and no callback.  In
particular the second of two consecutive calls `setRouteDisable(C, true)` appends
nothing, whatever state the first one started from. -/
theorem setRouteDisable_same_is_noop (C : RouteType) (d : Bool) (s : AudioRouter)
    (h : s.mDisabled C = d) :
    setRouteDisable C d s = s ∧
    eventsOf (setRouteDisable C d) s = [] ∧
    ∀ t : AudioRouter,
      setRouteDisable C true (setRouteDisable C true t) = setRouteDisable C true t ∧
      eventsOf (setRouteDisable C true) (setRouteDisable C true t) = [] := by
  refine ⟨setRouteDisable_same_eq C d s h, ?_, ?_⟩
  · exact eventsOf_eq _ _ [] (by rw [setRouteDisable_same_eq C d s h]; simp)
  · intro t
    have h2 := setRouteDisable_same_eq C true _ (setRouteDisable_flag C true t)
    exact ⟨h2, eventsOf_eq _ _ [] (by rw [h2]; simp)⟩

theorem setRouteDisable_same_is_noop_witness :
    setRouteDisable .ROUTE_OUTPUT false fresh = fresh :=
  (setRouteDisable_same_is_noop .ROUTE_OUTPUT false fresh (by simp [fresh, init_eq])).1

/-- C4 (as amended): for an enabled category `C` with stored mask `M`,
`setRouteDisable(C, true)` reverts the pin configurations of every endpoint of `M` (in
table order, each list last entry to first) and the callbacks it runs are the
disable-callbacks of the endpoints of `M` that have callbacks; the stored mask is kept and
the category ends disabled. -/
theorem setRouteDisable_true_reverts (C : RouteType) (s : AudioRouter)
    (hen : s.mDisabled C = false) :
    writesOf (eventsOf (setRouteDisable C true) s) =
      revertRouteOn s.mMixer (routeTables C) (s.mRoute C) ∧
    callbacksOf (eventsOf (setRouteDisable C true) s) =
      disableCallbacks (routeTables C) (s.mRoute C) ∧
    (setRouteDisable C true s).mRoute = s.mRoute ∧
    (setRouteDisable C true s).mDisabled C = true := by
  obtain ⟨k, w, c⟩ := setRouteDisable_true_spec C s hen
  exact ⟨writesOf_eventsOf _ _ _ k.trace w, callbacksOf_eventsOf _ _ _ k.trace c, k.mRoute,
    setRouteDisable_flag C true s⟩

theorem btOutputRouter_enabled : btOutputRouter.mDisabled .ROUTE_OUTPUT = false := by
  have h : fresh.mDisabled .ROUTE_OUTPUT = false := by simp [fresh, init_eq]
  obtain ⟨k, _, _⟩ := setAudioRoute_spec .ROUTE_OUTPUT (BIT ENDPOINT_BT) fresh h
  unfold btOutputRouter
  rw [k.mDisabled]; exact h

theorem btOutputRouter_mask : btOutputRouter.mRoute .ROUTE_OUTPUT = BIT ENDPOINT_BT := by
  have h : fresh.mDisabled .ROUTE_OUTPUT = false := by simp [fresh, init_eq]
  obtain ⟨k, _, _⟩ := setAudioRoute_spec .ROUTE_OUTPUT (BIT ENDPOINT_BT) fresh h
  unfold btOutputRouter
  rw [k.mRoute]; simp

theorem setRouteDisable_true_reverts_witness :
    btOutputRouter.mDisabled .ROUTE_OUTPUT = false ∧
    callbacksOf (eventsOf (setRouteDisable .ROUTE_OUTPUT true) btOutputRouter) =
      disableCallbacks (routeTables .ROUTE_OUTPUT) (btOutputRouter.mRoute .ROUTE_OUTPUT) :=
  ⟨btOutputRouter_enabled,
   (setRouteDisable_true_reverts .ROUTE_OUTPUT btOutputRouter btOutputRouter_enabled).2.1⟩

/-- C4 (as stated) fails: with OUTPUT enabled and routed to the Bluetooth endpoint, whose
enable-callback is `bluetoothOutOpen`, the call `setRouteDisable(OUTPUT, true)` runs
`bluetoothOutClose`, the disable-callback, and not the enable-callback. -/
theorem setRouteDisable_true_enable_callback_counterexample :
    btOutputRouter.mDisabled .ROUTE_OUTPUT = false ∧
    btOutputRouter.mRoute .ROUTE_OUTPUT = BIT ENDPOINT_BT ∧
    enableCallbacks (routeTables .ROUTE_OUTPUT) (btOutputRouter.mRoute .ROUTE_OUTPUT) =
      [Callback.bluetoothOutOpen] ∧
    callbacksOf (eventsOf (setRouteDisable .ROUTE_OUTPUT true) btOutputRouter) =
      [Callback.bluetoothOutClose] ∧
    callbacksOf (eventsOf (setRouteDisable .ROUTE_OUTPUT true) btOutputRouter) ≠
      enableCallbacks (routeTables .ROUTE_OUTPUT) (btOutputRouter.mRoute .ROUTE_OUTPUT) := by
  obtain ⟨k, _, c⟩ := setRouteDisable_true_spec .ROUTE_OUTPUT btOutputRouter
    btOutputRouter_enabled
  have hc := callbacksOf_eventsOf _ _ _ k.trace c
  rw [hc, btOutputRouter_mask]
  refine ⟨btOutputRouter_enabled, rfl, by decide, by decide, by decide⟩

theorem withRoute_self (s : AudioRouter) (type : RouteType) :
    withRoute s type (s.mRoute type) = s := by
  simp [withRoute]

theorem stageMasks_eq (type : RouteType) (masks : List Nat) (s : AudioRouter)
    (hdis : s.mDisabled type = true) :
    stageMasks type masks s = withRoute s type (masks.getLast?.getD (s.mRoute type)) := by
  induction masks generalizing s with
  | nil => simp [stageMasks, withRoute_self]
  | cons m rest ih =>
    have h1 : stageMasks type (m :: rest) s = stageMasks type rest (withRoute s type m) := by
      simp [stageMasks, setAudioRoute_disabled_eq type m s hdis]
    rw [h1, ih (withRoute s type m) (by simpa [withRoute] using hdis)]
    simp [withRoute, List.getLast?_cons]

/-- C5: for a category `C` that is disabled, whatever masks were stored by `setAudioRoute`
calls while it was disabled (the stored mask `M` is the last of them), the call
`setRouteDisable(C, false)` makes no revert write: its mixer writes are the pin lists of the
endpoints of `M` applied in table order, each first entry to last, preceded for OUTPUT and
VOICE_OUT by the zero-gain mute writes and followed by the volume rebalance writes, with no
volume write for INPUT and VOICE_IN.  The stored mask stays `M` and `C` ends enabled. -/
theorem setRouteDisable_false_replays (C : RouteType) (masks : List Nat) (s : AudioRouter)
    (hdis : s.mDisabled C = true) :
    (stageMasks C masks s).trace = s.trace ∧
    (stageMasks C masks s).mRoute C = masks.getLast?.getD (s.mRoute C) ∧
    writesOf (eventsOf (setRouteDisable C false) (stageMasks C masks s)) =
      (if isOut C then muteWritesOn (stageMasks C masks s) else []) ++
      applyRouteOn s.mMixer (routeTables C) ((stageMasks C masks s).mRoute C) ++
      (if isOut C then rebalanceWrites (stageMasks C masks s) else []) ∧
    (setRouteDisable C false (stageMasks C masks s)).mRoute = (stageMasks C masks s).mRoute ∧
    (setRouteDisable C false (stageMasks C masks s)).mDisabled C = false := by
  have hs := stageMasks_eq C masks s hdis
  have hd : (stageMasks C masks s).mDisabled C = true := by rw [hs]; simpa [withRoute] using hdis
  have hm : (stageMasks C masks s).mMixer = s.mMixer := by rw [hs]; rfl
  obtain ⟨k, w, _⟩ := setRouteDisable_false_spec C (stageMasks C masks s) hd
  refine ⟨by rw [hs]; rfl, by rw [hs]; simp [withRoute], ?_, k.mRoute,
    setRouteDisable_flag C false _⟩
  rw [writesOf_eventsOf _ _ _ k.trace w, hm]

theorem inputOffRouter_disabled : inputOffRouter.mDisabled .ROUTE_INPUT = true :=
  setRouteDisable_flag _ _ _

theorem setRouteDisable_false_replays_witness :
    inputOffRouter.mDisabled .ROUTE_INPUT = true ∧
    (stageMasks .ROUTE_INPUT [BIT ENDPOINT_MIC_MAIN, BIT ENDPOINT_MIC_SUB]
      inputOffRouter).mRoute .ROUTE_INPUT =
      [BIT ENDPOINT_MIC_MAIN, BIT ENDPOINT_MIC_SUB].getLast?.getD
        (inputOffRouter.mRoute .ROUTE_INPUT) :=
  ⟨inputOffRouter_disabled,
   (setRouteDisable_false_replays .ROUTE_INPUT [BIT ENDPOINT_MIC_MAIN, BIT ENDPOINT_MIC_SUB]
      inputOffRouter inputOffRouter_disabled).2.1⟩

theorem isCallback_false_edgeOk (e : Event) (h : isCallback e = false) : edgeOk e = true := by
  cases e <;> simp_all [isCallback, edgeOk]

theorem applyEvents_not_callback (mx : Mixer) (p : AudioPinConfig) :
    ∀ e ∈ applyEvents mx p, isCallback e = false := by
  intro e he
  unfold applyEvents applyWrite at he
  cases hc : mx.hasControl p.ctl <;> simp [hc] at he
  · subst he; rfl
  · rcases he with he | he
    · subst he; rfl
    · by_cases hm : p.type = .TYPE_MUX <;> simp [hm] at he <;> subst he <;> rfl

theorem revertEvents_not_callback (mx : Mixer) (p : AudioPinConfig) :
    ∀ e ∈ revertEvents mx p, isCallback e = false := by
  intro e he
  unfold revertEvents at he
  cases hc : mx.hasControl p.ctl <;> simp [hc] at he
  · subst he; rfl
  · rcases he with he | he
    · subst he; rfl
    · have hw := isWrite_revertWrite p e he
      cases e <;> simp_all [isWrite, isCallback]

theorem enableEvents_not_callback (mx : Mixer) (pin : List AudioPinConfig) :
    ∀ e ∈ enableEvents mx pin, isCallback e = false := by
  intro e he
  simp only [enableEvents, List.mem_flatMap] at he
  obtain ⟨p, _, hp⟩ := he
  exact applyEvents_not_callback mx p e hp

theorem disableEvents_not_callback (mx : Mixer) (pin : List AudioPinConfig) :
    ∀ e ∈ disableEvents mx pin, isCallback e = false := by
  intro e he
  simp only [disableEvents, List.mem_flatMap] at he
  obtain ⟨p, _, hp⟩ := he
  exact revertEvents_not_callback mx p e hp

theorem volumeEvents_not_callback (mx : Mixer) (table : List VolumeControl) (mask : Nat)
    (volume : ℚ) : ∀ e ∈ volumeEvents mx table mask volume, isCallback e = false := by
  intro e he
  simp only [volumeEvents, List.mem_flatMap] at he
  obtain ⟨v, _, hv⟩ := he
  cases hc : mx.hasControl v.control <;> simp [hc] at hv
  · subst hv; rfl
  · rcases hv with hv | hv <;> subst hv <;> rfl

theorem muteEvents_not_callback (s : AudioRouter) :
    ∀ e ∈ muteEvents s, isCallback e = false := by
  intro e he
  simp only [muteEvents, List.mem_append] at he
  rcases he with he | he <;> exact volumeEvents_not_callback _ _ _ _ e he

theorem rebalanceEvents_not_callback (s : AudioRouter) :
    ∀ e ∈ rebalanceEvents s, isCallback e = false := by
  intro e he
  simp only [rebalanceEvents, List.mem_append] at he
  rcases he with ((he | he) | he) | he
  · split at he
    · exact volumeEvents_not_callback _ _ _ _ e he
    · simp at he
  · exact volumeEvents_not_callback _ _ _ _ e he
  · exact volumeEvents_not_callback _ _ _ _ e he
  · split at he
    · exact volumeEvents_not_callback _ _ _ _ e he
    · simp at he

theorem AllOk_append {a b : List Event} (ha : AllOk a) (hb : AllOk b) : AllOk (a ++ b) := by
  intro e he
  rcases List.mem_append.mp he with h | h
  · exact ha e h
  · exact hb e h

theorem AllOk_of_not_callback {t : List Event} (h : ∀ e ∈ t, isCallback e = false) :
    AllOk t := fun e he => isCallback_false_edgeOk e (h e he)

theorem invoke_event (f : Callback) (s : AudioRouter) :
    ∃ pcm, (invoke f s).trace = s.trace ++ [Event.callback f (refCntOf f s) pcm] ∧
      edgeOk (Event.callback f (refCntOf f s) pcm) = true ∧
      refCntOf f (invoke f s) = refCntOf f s + (if isOpenCallback f then 1 else -1) := by
  cases f
  · refine ⟨_, rfl, ?_, rfl⟩
    simp only [edgeOk, isOpenCallback, refCntOf, pcmOf, if_true]
    by_cases h : s.bluetoothInRefCnt = 0
    · cases hr : s.btPcmReady <;> simp [h]
    · have h2 : ¬ s.bluetoothInRefCnt + 1 = 1 := by omega
      simp [h, h2]
  · refine ⟨_, rfl, ?_, by simp [refCntOf, invoke, bluetoothInClose, isOpenCallback]; rfl⟩
    simp only [edgeOk, isOpenCallback, refCntOf, pcmOf]
    by_cases h : s.bluetoothInRefCnt = 1
    · simp [h]
    · have h2 : ¬ s.bluetoothInRefCnt - 1 = 0 := by omega
      simp [h, h2]
  · refine ⟨_, rfl, ?_, rfl⟩
    simp only [edgeOk, isOpenCallback, refCntOf, pcmOf, if_true]
    by_cases h : s.bluetoothOutRefCnt = 0
    · cases hr : s.btPcmReady <;> simp [h]
    · have h2 : ¬ s.bluetoothOutRefCnt + 1 = 1 := by omega
      simp [h, h2]
  · refine ⟨_, rfl, ?_, by simp [refCntOf, invoke, bluetoothOutClose, isOpenCallback]; rfl⟩
    simp only [edgeOk, isOpenCallback, refCntOf, pcmOf]
    by_cases h : s.bluetoothOutRefCnt = 1
    · simp [h]
    · have h2 : ¬ s.bluetoothOutRefCnt - 1 = 0 := by omega
      simp [h, h2]

theorem invoke_ok (f : Callback) (s : AudioRouter) (h : AllOk s.trace) :
    AllOk (invoke f s).trace := by
  obtain ⟨pcm, ht, hok, _⟩ := invoke_event f s
  rw [ht]
  refine AllOk_append h ?_
  intro e he
  simp at he
  subst he
  exact hok

theorem disableRouteLoop_ok (mask : Nat) (table : List AudioRouteConfig) (s : AudioRouter)
    (h : AllOk s.trace) : AllOk (disableRouteLoop mask table s).trace := by
  induction table generalizing s with
  | nil => simpa [disableRouteLoop] using h
  | cons r rest ih =>
    unfold disableRouteLoop
    by_cases h0 : r.route = 0
    · simpa [h0] using h
    · simp only [h0, if_false]
      by_cases hb : mask &&& BIT r.route = 0
      · simp only [hb, if_true]; exact ih s h
      · simp only [hb, if_false]
        have h1 : AllOk (disablePinConfig r.config s).trace := by
          rw [disablePinConfig_eq]
          exact AllOk_append h (AllOk_of_not_callback (disableEvents_not_callback _ _))
        cases hd : r.disable with
        | none => exact ih _ h1
        | some f => exact ih _ (invoke_ok f _ h1)

theorem enableRouteLoop_ok (mask : Nat) (table : List AudioRouteConfig) (s : AudioRouter)
    (h : AllOk s.trace) : AllOk (enableRouteLoop mask table s).trace := by
  induction table generalizing s with
  | nil => simpa [enableRouteLoop] using h
  | cons r rest ih =>
    unfold enableRouteLoop
    by_cases h0 : r.route = 0
    · simpa [h0] using h
    · simp only [h0, if_false]
      by_cases hb : mask &&& BIT r.route = 0
      · simp only [hb, if_true]; exact ih s h
      · simp only [hb, if_false]
        apply ih
        rw [enablePinConfig_eq]
        refine AllOk_append ?_ (AllOk_of_not_callback (enableEvents_not_callback _ _))
        cases hd : r.enable with
        | none => exact h
        | some f => exact invoke_ok f _ h

theorem muteOutputs_ok (s : AudioRouter) (h : AllOk s.trace) : AllOk (muteOutputs s).trace := by
  rw [muteOutputs_eq]
  exact AllOk_append h (AllOk_of_not_callback (muteEvents_not_callback s))

theorem updateVolume_ok (s : AudioRouter) (h : AllOk s.trace) :
    AllOk (updateVolume s).trace := by
  rw [updateVolume_eq]
  exact AllOk_append h (AllOk_of_not_callback (rebalanceEvents_not_callback s))

theorem reroute_ok (type : RouteType) (route : Nat) (s : AudioRouter) (h : AllOk s.trace) :
    AllOk (reroute type route s).trace := by
  unfold reroute enableRoute
  apply enableRouteLoop_ok
  exact disableRouteLoop_ok _ _ _ h

theorem setAudioRoute_ok (type : RouteType) (route : Nat) (s : AudioRouter)
    (h : AllOk s.trace) : AllOk (setAudioRoute type route s).trace := by
  cases hd : s.mDisabled type
  · rw [setAudioRoute_enabled type route s hd]
    cases isOut type
    · simpa using reroute_ok type route s h
    · simpa using updateVolume_ok _ (reroute_ok type route _ (muteOutputs_ok s h))
  · rw [setAudioRoute_disabled_eq type route s hd]
    exact h

theorem setRouteDisable_ok (type : RouteType) (d : Bool) (s : AudioRouter)
    (h : AllOk s.trace) : AllOk (setRouteDisable type d s).trace := by
  unfold setRouteDisable
  by_cases hs : s.mDisabled type = d
  · simpa [hs] using h
  · simp only [hs, if_false]
    cases d
    · cases isOut type
      · simpa [enableRoute] using enableRouteLoop_ok _ _ s h
      · simpa [enableRoute] using
          updateVolume_ok _ (enableRouteLoop_ok _ _ _ (muteOutputs_ok s h))
    · simpa [disableRoute] using disableRouteLoop_ok _ _ s h

theorem run_snoc (calls : List Call) (c : Call) (s : AudioRouter) :
    run (calls ++ [c]) s = c.exec (run calls s) := by
  simp [run, List.foldl_append]

theorem run_ok (calls : List Call) (s : AudioRouter) (h : AllOk s.trace) :
    AllOk (run calls s).trace := by
  induction calls using List.reverseRecOn with
  | nil => simpa [run] using h
  | append_singleton cs c ih =>
    rw [run_snoc]
    cases c with
    | setAudioRoute t r => exact setAudioRoute_ok t r _ ih
    | setRouteDisable t d => exact setRouteDisable_ok t d _ ih

theorem init_ok (mx : Mixer) (r : Bool) : AllOk (init mx r).trace := by
  rw [init_eq]
  exact AllOk_of_not_callback (enableEvents_not_callback _ _)

/-- C6: in the history of every sequence of `setAudioRoute` and `setRouteDisable` calls on
a freshly constructed router, a callback invocation opens a Bluetooth PCM exactly when it
is the open helper of that PCM entered with its reference count at 0 (taking it to 1),
closes it exactly when it is the close helper of that PCM entered with the count at 1
(taking it to 0), and makes no PCM call at all when an open helper is entered with count 1
or a close helper with count 2.  Each helper is entered with the count of its own PCM
(capture for the In helpers, playback for the Out helpers) and moves that count by one. -/
theorem bluetooth_pcm_edges (mx : Mixer) (r : Bool) (calls : List Call) :
    (∀ e ∈ (run calls (init mx r)).trace, ∀ f n pcm, e = Event.callback f n pcm → ∀ h,
      (PcmOp.pcm_open h ∈ pcm ↔ (isOpenCallback f = true ∧ pcmOf f = h ∧ n = 0)) ∧
      (PcmOp.pcm_close h ∈ pcm ↔ (isOpenCallback f = false ∧ pcmOf f = h ∧ n = 1)) ∧
      ((isOpenCallback f = true ∧ n = 1) ∨ (isOpenCallback f = false ∧ n = 2) → pcm = [])) ∧
    (∀ (f : Callback) (s : AudioRouter), ∃ pcm,
      eventsOf (invoke f) s = [Event.callback f (refCntOf f s) pcm] ∧
      refCntOf f (invoke f s) = refCntOf f s + (if isOpenCallback f then 1 else -1)) := by
  constructor
  · intro e he f n pcm hf h
    have hok := run_ok calls (init mx r) (init_ok mx r) e he
    subst hf
    simp only [edgeOk] at hok
    cases ho : isOpenCallback f
    · simp only [ho] at hok
      by_cases h1 : n = 1
      · simp [h1] at hok
        subst hok
        simp [h1]
        exact eq_comm
      · simp [h1] at hok
        simp [hok, h1]
    · simp only [ho, if_true] at hok
      by_cases h0 : n = 0
      · simp [h0] at hok
        rcases hok with hok | hok <;> subst hok <;> simp [h0] <;> exact eq_comm
      · simp [h0] at hok
        simp [hok, h0]
  · intro f s
    obtain ⟨pcm, ht, _, hc⟩ := invoke_event f s
    exact ⟨pcm, eventsOf_eq _ _ _ ht, hc⟩

theorem toRaw_eq_of_bounds (q : ℚ) (n : Nat) (h1 : (n : ℚ) ≤ q) (h2 : q < n + 1) :
    toRaw q = n := by
  unfold toRaw
  have : ⌊q⌋ = (n : ℤ) := by
    rw [Int.floor_eq_iff]
    exact ⟨by exact_mod_cast h1, by exact_mod_cast h2⟩
  rw [this]
  simp

theorem volumeFactors_shared_gt (s : AudioRouter)
    (hs : shareEndpoint (s.mRoute .ROUTE_OUTPUT) (s.mRoute .ROUTE_VOICE_OUT))
    (hv : s.mVoiceVol > s.mMasterVol) :
    volumeFactors s = (s.mMasterVol / s.mVoiceVol, s.mVoiceVol, s.mVoiceVol) := by
  have h := (and_ne_zero_iff_share _ _).mpr hs
  simp [volumeFactors, h, hv]

theorem volumeFactors_shared_le (s : AudioRouter)
    (hs : shareEndpoint (s.mRoute .ROUTE_OUTPUT) (s.mRoute .ROUTE_VOICE_OUT))
    (hv : s.mVoiceVol ≤ s.mMasterVol) :
    volumeFactors s = (1, s.mVoiceVol, s.mVoiceVol) := by
  have h := (and_ne_zero_iff_share _ _).mpr hs
  have hv2 : ¬ s.mMasterVol < s.mVoiceVol := not_lt.mpr hv
  simp [volumeFactors, h, hv2]

theorem volumeFactors_disjoint (s : AudioRouter)
    (hs : ¬ shareEndpoint (s.mRoute .ROUTE_OUTPUT) (s.mRoute .ROUTE_VOICE_OUT)) :
    volumeFactors s = (1, s.mMasterVol, s.mVoiceVol) := by
  have h : s.mRoute .ROUTE_OUTPUT &&& s.mRoute .ROUTE_VOICE_OUT = 0 := by
    by_contra hne
    exact hs ((and_ne_zero_iff_share _ _).mp hne)
  simp [volumeFactors, h]

theorem speakerCall_shares (m v : ℚ) :
    shareEndpoint ((speakerCall m v).mRoute .ROUTE_OUTPUT)
      ((speakerCall m v).mRoute .ROUTE_VOICE_OUT) :=
  ⟨ENDPOINT_SPK, by simp [speakerCall, isOut]; decide, by simp [speakerCall, isOut]; decide⟩

/-- C7: over exact rationals, with `m` the master volume, `v` the voice volume and `O`, `V`
the OUTPUT and VOICE_OUT masks, `updateVolume` computes (playback factor, OUTPUT endpoint
level, VOICE_OUT endpoint level) as `(m / v, v, v)` when `O` and `V` share an endpoint and
`v > m`, as `(1, v, v)` when they share an endpoint and `v ≤ m`, and as `(1, m, v)` when
they share no endpoint; it passes the two levels to the endpoint volume controls of `O` and
of `V`, and it stores the factor as the remembered playback volume.  Sharing, `m = 0.8`,
`v = 0.3` gives factor 1 and level 0.3; sharing, `m = 0.3`, `v = 0.8` gives factor 0.375. -/
theorem updateVolume_balance (s : AudioRouter) :
    (shareEndpoint (s.mRoute .ROUTE_OUTPUT) (s.mRoute .ROUTE_VOICE_OUT) →
      s.mVoiceVol > s.mMasterVol →
      volumeFactors s = (s.mMasterVol / s.mVoiceVol, s.mVoiceVol, s.mVoiceVol)) ∧
    (shareEndpoint (s.mRoute .ROUTE_OUTPUT) (s.mRoute .ROUTE_VOICE_OUT) →
      s.mVoiceVol ≤ s.mMasterVol →
      volumeFactors s = (1, s.mVoiceVol, s.mVoiceVol)) ∧
    (¬ shareEndpoint (s.mRoute .ROUTE_OUTPUT) (s.mRoute .ROUTE_VOICE_OUT) →
      volumeFactors s = (1, s.mMasterVol, s.mVoiceVol)) ∧
    (updateVolume s).mPlaybackVolume = (volumeFactors s).1 ∧
    eventsOf updateVolume s = rebalanceEvents s ∧
    volumeFactors (speakerCall (4 / 5) (3 / 10)) = (1, 3 / 10, 3 / 10) ∧
    volumeFactors (speakerCall (3 / 10) (4 / 5)) = (3 / 8, 4 / 5, 4 / 5) := by
  refine ⟨volumeFactors_shared_gt s, volumeFactors_shared_le s, volumeFactors_disjoint s,
    by rw [updateVolume_eq], eventsOf_eq _ _ _ (by rw [updateVolume_eq]), ?_, ?_⟩
  · rw [volumeFactors_shared_le _ (speakerCall_shares _ _) (by simp [speakerCall]; norm_num)]
    rfl
  · rw [volumeFactors_shared_gt _ (speakerCall_shares _ _) (by simp [speakerCall]; norm_num)]
    simp [speakerCall]; norm_num

theorem updateVolume_balance_witness :
    shareEndpoint ((speakerCall (3 / 10) (4 / 5)).mRoute .ROUTE_OUTPUT)
      ((speakerCall (3 / 10) (4 / 5)).mRoute .ROUTE_VOICE_OUT) ∧
    (speakerCall (3 / 10) (4 / 5)).mVoiceVol > (speakerCall (3 / 10) (4 / 5)).mMasterVol ∧
    volumeFactors (speakerCall (3 / 10) (4 / 5)) =
      ((speakerCall (3 / 10) (4 / 5)).mMasterVol / (speakerCall (3 / 10) (4 / 5)).mVoiceVol,
        (speakerCall (3 / 10) (4 / 5)).mVoiceVol, (speakerCall (3 / 10) (4 / 5)).mVoiceVol) :=
  ⟨speakerCall_shares _ _, by simp [speakerCall]; norm_num,
   (updateVolume_balance (speakerCall (3 / 10) (4 / 5))).1 (speakerCall_shares _ _)
     (by simp [speakerCall]; norm_num)⟩

theorem volumeEvents_eq_flatMap (mx : Mixer) (table : List VolumeControl) (mask : Nat)
    (volume : ℚ) :
    volumeEvents mx table mask volume =
      ((volumeList table).filter fun v => mask.testBit v.endpoint).flatMap
        (volumeStep mx volume) := rfl

theorem ctlValue_append (a b : List Event) (c : String) :
    ctlValue (a ++ b) c = (ctlValue b c).or (ctlValue a c) := by
  simp [ctlValue, List.reverse_append, List.find?_append]

theorem ctlValue_none_of_not_written (t : List Event) (c : String)
    (h : ∀ e ∈ t, writtenCtl e ≠ some c) : ctlValue t c = none := by
  unfold ctlValue
  rw [List.find?_eq_none]
  intro e he
  have := h e (List.mem_reverse.mp he)
  simpa using this

theorem volumeStep_written (mx : Mixer) (volume : ℚ) (v : VolumeControl) (e : Event)
    (he : e ∈ volumeStep mx volume v) (c : String) (hc : writtenCtl e = some c) :
    c = v.control := by
  unfold volumeStep at he
  cases hh : mx.hasControl v.control <;> simp [hh] at he
  · subst he; simp [writtenCtl] at hc
  · rcases he with he | he <;> subst he <;> simp [writtenCtl] at hc
    exact hc.symm

theorem volumeEvents_pathVolCtrls (mx : Mixer) (mask : Nat) (volume : ℚ) :
    volumeEvents mx pathVolCtrls mask volume = [] := by
  have h : volumeList pathVolCtrls = [] := by decide
  simp [volumeEvents, h]

theorem rebalanceEvents_eq (s : AudioRouter) :
    rebalanceEvents s =
      volumeEvents s.mMixer endpointVolCtrls (s.mRoute .ROUTE_OUTPUT) (volumeFactors s).2.1 ++
      volumeEvents s.mMixer endpointVolCtrls (s.mRoute .ROUTE_VOICE_OUT)
        (volumeFactors s).2.2 := by
  simp [rebalanceEvents, volumeEvents_pathVolCtrls]

theorem volumeEvents_written (mx : Mixer) (table : List VolumeControl) (mask : Nat)
    (volume : ℚ) (e : Event) (he : e ∈ volumeEvents mx table mask volume) (c : String)
    (hc : writtenCtl e = some c) : c ∈ (volumeList table).map fun v => v.control := by
  rw [volumeEvents_eq_flatMap] at he
  obtain ⟨w, hwm, hew⟩ := List.mem_flatMap.mp he
  have := volumeStep_written mx volume w e hew c hc
  exact List.mem_map.mpr ⟨w, (List.mem_filter.mp hwm).1, this.symm⟩

/-- C9, evaluated on the code: the claimed write of the OUTPUT path gain never happens.
The table `pathVolCtrls` starts with the entry keyed `ROUTE_INPUT`, whose value 0 is the
terminator test of the loop of `setEndpointVolume`, so a pass over that table does nothing
in any state; no event of `updateVolume` writes "Master Playback Volume"; and with OUTPUT
and VOICE_OUT on the speaker, master volume 0.3 and voice volume 0.8, where the claimed raw
value is 86, the writes of `updateVolume` are the two speaker level writes only. -/
theorem updateVolume_never_writes_path_gain :
    (∀ (mask : Nat) (volume : ℚ) (s : AudioRouter),
      setEndpointVolume pathVolCtrls mask volume s = s) ∧
    (∀ (s : AudioRouter), ∀ e ∈ eventsOf updateVolume s,
      writtenCtl e ≠ some "Master Playback Volume") ∧
    (volumeFactors (speakerCall (3 / 10) (4 / 5))).1 = 3 / 8 ∧
    toRaw ((3 / 8 : ℚ) * (231 : Nat)) = 86 ∧
    writesOf (eventsOf updateVolume (speakerCall (3 / 10) (4 / 5))) =
      [Event.ctlSet "MAX9877 Amp Speaker Playback Volume" 22,
       Event.ctlSet "MAX9877 Amp Speaker Playback Volume" 22] := by
  refine ⟨?_, ?_, ?_, ?_, ?_⟩
  · intro mask volume s
    rfl
  · intro s e he hw
    rw [eventsOf_eq updateVolume s (rebalanceEvents s) (by rw [updateVolume_eq]),
      rebalanceEvents_eq] at he
    have hmem : "Master Playback Volume" ∈
        (volumeList endpointVolCtrls).map fun v => v.control := by
      rcases List.mem_append.mp he with h | h
      · exact volumeEvents_written _ _ _ _ e h _ hw
      · exact volumeEvents_written _ _ _ _ e h _ hw
    revert hmem
    decide
  · rw [volumeFactors_shared_gt _ (speakerCall_shares _ _) (by simp [speakerCall]; norm_num)]
    simp [speakerCall]; norm_num
  · have := toRaw_eq_of_bounds ((3 / 8 : ℚ) * (231 : Nat)) 86 (by norm_num) (by norm_num)
    simpa using this
  · rw [eventsOf_eq updateVolume _ (rebalanceEvents _) (by rw [updateVolume_eq]),
      rebalanceEvents_eq, writesOf_append, writesOf_volumeEvents, writesOf_volumeEvents,
      volumeFactors_shared_gt _ (speakerCall_shares _ _) (by simp [speakerCall]; norm_num)]
    have h22 : toRaw ((4 / 5 : ℚ) * (28 : Nat)) = 22 := by
      have := toRaw_eq_of_bounds ((4 / 5 : ℚ) * (28 : Nat)) 22 (by norm_num) (by norm_num)
      simpa using this
    have hf : ∀ t, isOut t = true →
        (volumeList endpointVolCtrls).filter
          (fun v => ((speakerCall (3 / 10) (4 / 5)).mRoute t).testBit v.endpoint) =
        [VOLUME_CONTROL ENDPOINT_SPK "MAX9877 Amp Speaker Playback Volume" 28] := by
      intro t ht
      simp only [speakerCall, ht, if_true]
      decide
    simp only [volumeWritesOn, hf _ (rfl : isOut .ROUTE_OUTPUT = true),
      hf _ (rfl : isOut .ROUTE_VOICE_OUT = true)]
    have hc : ∀ c, fresh.mMixer.hasControl c = true := fun c => by
      simp [fresh, init_eq, Mixer.hasControl]
    simp [hc, VOLUME_CONTROL, speakerCall]
    simpa using h22

theorem ctlValue_writesOf (t : List Event) (c : String) :
    ctlValue t c = ctlValue (writesOf t) c := by
  unfold ctlValue writesOf
  rw [← List.filter_reverse]
  induction t.reverse with
  | nil => rfl
  | cons e rest ih =>
    by_cases hw : isWrite e = true
    · rw [List.filter_cons_of_pos hw]
      simp only [List.find?_cons]
      rw [ih]
    · have hw2 : isWrite e = false := by simpa using hw
      have hn : (writtenCtl e == some c) = false := by
        cases e <;> simp_all [isWrite, writtenCtl]
      rw [List.filter_cons_of_neg hw, List.find?_cons, hn, ih]

theorem ctlValue_isSome_of_mem (t : List Event) (c : String) (e : Event) (he : e ∈ t)
    (hw : writtenCtl e = some c) : (ctlValue t c).isSome = true := by
  unfold ctlValue
  rw [List.find?_isSome]
  exact ⟨e, List.mem_reverse.mpr he, by simp [hw]⟩

theorem writtenCtl_applyWrite (p : AudioPinConfig) : writtenCtl (applyWrite p) = some p.ctl := by
  unfold applyWrite
  split <;> rfl

theorem writtenCtl_revertWrite (p : AudioPinConfig) (e : Event) (h : revertWrite p = some e) :
    writtenCtl e = some p.ctl := by
  unfold revertWrite at h
  split at h
  · cases hr : p.resetStrValue with
    | none => simp [hr] at h
    | some v => simp [hr] at h; subst h; rfl
  · split at h
    · simp at h
    · simp at h; subst h; rfl

theorem endpointsIn_subset (table : List AudioRouteConfig) (mask : Nat) (r : AudioRouteConfig)
    (h : r ∈ endpointsIn table mask) : r ∈ routeList table :=
  (List.mem_filter.mp h).1

theorem applyRouteOn_written (mx : Mixer) (table : List AudioRouteConfig) (mask : Nat)
    (e : Event) (he : e ∈ applyRouteOn mx table mask) (c : String)
    (hc : writtenCtl e = some c) : c ∈ tableControls table := by
  simp only [applyRouteOn, applyListOn, List.mem_flatMap, List.mem_map, List.mem_filter] at he
  obtain ⟨r, hr, p, ⟨hp, _⟩, hpe⟩ := he
  subst hpe
  rw [writtenCtl_applyWrite] at hc
  simp only [tableControls, List.mem_flatMap, List.mem_map]
  exact ⟨r, endpointsIn_subset _ _ _ hr, p, hp, Option.some.inj hc⟩

theorem revertRouteOn_written (mx : Mixer) (table : List AudioRouteConfig) (mask : Nat)
    (e : Event) (he : e ∈ revertRouteOn mx table mask) (c : String)
    (hc : writtenCtl e = some c) : c ∈ tableControls table := by
  simp only [revertRouteOn, revertListOn, List.mem_flatMap, List.mem_filterMap,
    List.mem_filter, List.mem_reverse] at he
  obtain ⟨r, hr, p, ⟨hp, _⟩, hpe⟩ := he
  rw [writtenCtl_revertWrite p e hpe] at hc
  simp only [tableControls, List.mem_flatMap, List.mem_map]
  exact ⟨r, endpointsIn_subset _ _ _ hr, p, hp, Option.some.inj hc⟩

theorem ctlValue_applyRouteOn_none (mx : Mixer) (table : List AudioRouteConfig) (mask : Nat)
    (c : String) (h : c ∉ tableControls table) :
    ctlValue (applyRouteOn mx table mask) c = none :=
  ctlValue_none_of_not_written _ _ fun e he hw => h (applyRouteOn_written _ _ _ e he c hw)

theorem ctlValue_revertRouteOn_none (mx : Mixer) (table : List AudioRouteConfig) (mask : Nat)
    (c : String) (h : c ∉ tableControls table) :
    ctlValue (revertRouteOn mx table mask) c = none :=
  ctlValue_none_of_not_written _ _ fun e he hw => h (revertRouteOn_written _ _ _ e he c hw)

theorem mem_of_mem_writesOf (t : List Event) (e : Event) (h : e ∈ writesOf t) : e ∈ t :=
  (List.mem_filter.mp h).1

theorem ctlValue_volumeWritesOn_none (mx : Mixer) (mask : Nat) (volume : ℚ) (c : String)
    (h : c ∉ volumeNames) : ctlValue (volumeWritesOn mx endpointVolCtrls mask volume) c = none := by
  rw [← writesOf_volumeEvents]
  apply ctlValue_none_of_not_written
  intro e he hw
  exact h (volumeEvents_written _ _ _ _ e (mem_of_mem_writesOf _ _ he) c hw)

theorem ctlValue_muteWritesOn_none (s : AudioRouter) (c : String) (h : c ∉ volumeNames) :
    ctlValue (muteWritesOn s) c = none := by
  unfold muteWritesOn
  rw [ctlValue_append, ctlValue_volumeWritesOn_none _ _ _ _ h,
    ctlValue_volumeWritesOn_none _ _ _ _ h]
  rfl

theorem ctlValue_rebalanceWrites_none (s : AudioRouter) (c : String) (h : c ∉ volumeNames) :
    ctlValue (rebalanceWrites s) c = none := by
  unfold rebalanceWrites
  rw [rebalanceEvents_eq, writesOf_append, writesOf_volumeEvents, writesOf_volumeEvents,
    ctlValue_append, ctlValue_volumeWritesOn_none _ _ _ _ h,
    ctlValue_volumeWritesOn_none _ _ _ _ h]
  rfl

theorem ctlValue_if_none (b : Bool) (t : List Event) (c : String) (h : ctlValue t c = none) :
    ctlValue (if b = true then t else []) c = none := by
  cases b
  · rfl
  · simpa using h

theorem ctlValue_setAudioRoute (type : RouteType) (route : Nat) (s : AudioRouter)
    (hen : s.mDisabled type = false) (c : String) (hv : c ∉ volumeNames) :
    ctlValue (setAudioRoute type route s).trace c =
      (ctlValue (applyRouteOn s.mMixer (routeTables type) route) c).or
        ((ctlValue (revertRouteOn s.mMixer (routeTables type) (s.mRoute type)) c).or
          (ctlValue s.trace c)) := by
  obtain ⟨_, w, _⟩ := setAudioRoute_spec type route s hen
  rw [ctlValue_writesOf, w, ctlValue_append, ctlValue_append, ctlValue_append, ctlValue_append,
    ctlValue_if_none _ _ _ (ctlValue_rebalanceWrites_none _ c hv),
    ctlValue_if_none _ _ _ (ctlValue_muteWritesOn_none s c hv), ← ctlValue_writesOf]
  cases ctlValue (applyRouteOn s.mMixer (routeTables type) route) c <;>
    cases ctlValue (revertRouteOn s.mMixer (routeTables type) (s.mRoute type)) c <;> rfl

theorem ctlValue_setRouteDisable_true (type : RouteType) (s : AudioRouter)
    (hen : s.mDisabled type = false) (c : String) :
    ctlValue (setRouteDisable type true s).trace c =
      (ctlValue (revertRouteOn s.mMixer (routeTables type) (s.mRoute type)) c).or
        (ctlValue s.trace c) := by
  obtain ⟨_, w, _⟩ := setRouteDisable_true_spec type s hen
  rw [ctlValue_writesOf, w, ctlValue_append, ← ctlValue_writesOf]

theorem ctlValue_setRouteDisable_false (type : RouteType) (s : AudioRouter)
    (hdis : s.mDisabled type = true) (c : String) (hv : c ∉ volumeNames) :
    ctlValue (setRouteDisable type false s).trace c =
      (ctlValue (applyRouteOn s.mMixer (routeTables type) (s.mRoute type)) c).or
        (ctlValue s.trace c) := by
  obtain ⟨_, w, _⟩ := setRouteDisable_false_spec type s hdis
  rw [ctlValue_writesOf, w, ctlValue_append, ctlValue_append, ctlValue_append,
    ctlValue_if_none _ _ _ (ctlValue_rebalanceWrites_none _ c hv),
    ctlValue_if_none _ _ _ (ctlValue_muteWritesOn_none s c hv), ← ctlValue_writesOf]
  cases ctlValue (applyRouteOn s.mMixer (routeTables type) (s.mRoute type)) c <;> rfl

theorem namedControls_subset (table : List AudioRouteConfig) (mask : Nat) (c : String)
    (h : c ∈ namedControls table mask) : c ∈ tableControls table := by
  simp only [namedControls, List.mem_flatMap] at h
  obtain ⟨r, hr, hc⟩ := h
  simp only [tableControls, List.mem_flatMap]
  exact ⟨r, endpointsIn_subset _ _ _ hr, hc⟩

theorem tableControls_not_volume (C : RouteType) :
    ∀ c ∈ tableControls (routeTables C), c ∉ volumeNames := by
  cases C <;> decide

theorem namedControls_zero (table : List AudioRouteConfig) : namedControls table 0 = [] := by
  simp [namedControls, endpointsIn]

theorem ctlValue_applyRoute_isSome (table : List AudioRouteConfig) (mask : Nat) (c : String)
    (h : c ∈ namedControls table mask) :
    (ctlValue (applyRoute table mask) c).isSome = true := by
  simp only [namedControls, List.mem_flatMap, List.mem_map] at h
  obtain ⟨r, hr, p, hp, hpc⟩ := h
  apply ctlValue_isSome_of_mem _ _ (applyWrite p)
  · simp only [applyRoute, applyList, List.mem_flatMap, List.mem_map]
    exact ⟨r, hr, p, hp, rfl⟩
  · rw [writtenCtl_applyWrite, hpc]

theorem or_of_isSome {α : Type} (x y : Option α) (h : x.isSome = true) : x.or y = x := by
  cases x with
  | none => simp at h
  | some a => rfl

theorem exec_frame (call : Call) (s : AudioRouter) :
    (call.exec s).mMixer = s.mMixer ∧
    ∀ C, C ≠ call.type →
      (call.exec s).mRoute C = s.mRoute C ∧ (call.exec s).mDisabled C = s.mDisabled C := by
  cases call with
  | setAudioRoute t r =>
    simp only [Call.exec, Call.type]
    cases hd : s.mDisabled t
    · obtain ⟨k, _, _⟩ := setAudioRoute_spec t r s hd
      refine ⟨k.mMixer, fun C hC => ⟨?_, by rw [k.mDisabled]⟩⟩
      rw [k.mRoute, Function.update_noteq hC]
    · rw [setAudioRoute_disabled_eq t r s hd]
      refine ⟨rfl, fun C hC => ⟨?_, rfl⟩⟩
      simp [withRoute, Function.update_noteq hC]
  | setRouteDisable t d =>
    simp only [Call.exec, Call.type]
    by_cases hs : s.mDisabled t = d
    · rw [setRouteDisable_same_eq t d s hs]
      exact ⟨rfl, fun C _ => ⟨rfl, rfl⟩⟩
    · cases d
      · have hd : s.mDisabled t = true := by simpa using hs
        obtain ⟨k, _, _⟩ := setRouteDisable_false_spec t s hd
        refine ⟨k.mMixer, fun C hC => ⟨by rw [k.mRoute], ?_⟩⟩
        rw [k.mDisabled, Function.update_noteq hC]
      · have hd : s.mDisabled t = false := by simpa using hs
        obtain ⟨k, _, _⟩ := setRouteDisable_true_spec t s hd
        refine ⟨k.mMixer, fun C hC => ⟨by rw [k.mRoute], ?_⟩⟩
        rw [k.mDisabled, Function.update_noteq hC]

theorem ctlValue_exec_other (call : Call) (s : AudioRouter) (c : String)
    (hv : c ∉ volumeNames) (hno : c ∉ tableControls (routeTables call.type)) :
    ctlValue (call.exec s).trace c = ctlValue s.trace c := by
  cases call with
  | setAudioRoute t r =>
    simp only [Call.exec, Call.type] at hno ⊢
    cases hd : s.mDisabled t
    · rw [ctlValue_setAudioRoute t r s hd c hv, ctlValue_applyRouteOn_none _ _ _ _ hno,
        ctlValue_revertRouteOn_none _ _ _ _ hno]
      rfl
    · rw [setAudioRoute_disabled_eq t r s hd]
      rfl
  | setRouteDisable t d =>
    simp only [Call.exec, Call.type] at hno ⊢
    by_cases hs : s.mDisabled t = d
    · rw [setRouteDisable_same_eq t d s hs]
    · cases d
      · have hd : s.mDisabled t = true := by simpa using hs
        rw [ctlValue_setRouteDisable_false t s hd c hv, ctlValue_applyRouteOn_none _ _ _ _ hno]
        rfl
      · have hd : s.mDisabled t = false := by simpa using hs
        rw [ctlValue_setRouteDisable_true t s hd c, ctlValue_revertRouteOn_none _ _ _ _ hno]
        rfl

theorem exec_pinInv_apply (C : RouteType) (c : String) (e : Call) (s : AudioRouter)
    (hall : s.mMixer.absent = []) (ht : e.type = C)
    (heff : ∀ d, e = .setRouteDisable C d → s.mDisabled C ≠ d) : PinInv C c (e.exec s) := by
  intro hen hc
  have hv : c ∉ volumeNames :=
    tableControls_not_volume C c (namedControls_subset _ _ _ hc)
  cases e with
  | setAudioRoute t r =>
    simp only [Call.type] at ht
    subst ht
    simp only [Call.exec] at hen hc ⊢
    cases hd : s.mDisabled t
    · obtain ⟨k, _, _⟩ := setAudioRoute_spec t r s hd
      have hm : (setAudioRoute t r s).mRoute t = r := by rw [k.mRoute]; simp
      rw [hm] at hc
      unfold PinStateAt
      rw [hm, ctlValue_setAudioRoute t r s hd c hv, applyRouteOn_eq _ hall,
        or_of_isSome _ _ (ctlValue_applyRoute_isSome _ _ _ hc)]
    · rw [setAudioRoute_disabled_eq t r s hd] at hen
      simp [withRoute, hd] at hen
  | setRouteDisable t d =>
    simp only [Call.type] at ht
    subst ht
    simp only [Call.exec] at hen hc ⊢
    have hs : s.mDisabled t ≠ d := heff d rfl
    cases d
    · have hd : s.mDisabled t = true := by simpa using hs
      obtain ⟨k, _, _⟩ := setRouteDisable_false_spec t s hd
      rw [k.mRoute] at hc
      unfold PinStateAt
      rw [k.mRoute, ctlValue_setRouteDisable_false t s hd c hv, applyRouteOn_eq _ hall,
        or_of_isSome _ _ (ctlValue_applyRoute_isSome _ _ _ hc)]
    · rw [setRouteDisable_flag] at hen
      simp at hen

theorem exec_pinInv_keep (C : RouteType) (c : String) (call : Call) (s : AudioRouter)
    (hall : s.mMixer.absent = [])
    (hkeep : call.type ≠ C → ctlValue (call.exec s).trace c = ctlValue s.trace c)
    (hinv : PinInv C c s) : PinInv C c (call.exec s) := by
  by_cases hCt : call.type = C
  · by_cases heff : ∀ d, call = .setRouteDisable C d → s.mDisabled C ≠ d
    · exact exec_pinInv_apply C c call s hall hCt heff
    · push_neg at heff
      obtain ⟨d, hcall, hd⟩ := heff
      subst hcall
      simp only [Call.exec]
      rw [setRouteDisable_same_eq C d s hd]
      exact hinv
  · intro hen hc
    have hCt2 : C ≠ call.type := fun h => hCt h.symm
    obtain ⟨_, hf⟩ := exec_frame call s
    obtain ⟨hr, hdd⟩ := hf C hCt2
    rw [hdd] at hen
    rw [hr] at hc
    unfold PinStateAt
    rw [hr, hkeep hCt]
    exact hinv hen hc

theorem run_mMixer (calls : List Call) (s : AudioRouter) : (run calls s).mMixer = s.mMixer := by
  induction calls using List.reverseRecOn with
  | nil => rfl
  | append_singleton cs c0 ih => rw [run_snoc, (exec_frame c0 _).1, ih]

theorem run_nil (s : AudioRouter) : run [] s = s := rfl

theorem run_append (a b : List Call) (s : AudioRouter) :
    run (a ++ b) s = run b (run a s) := by
  simp [run, List.foldl_append]

theorem init_pinInv (C : RouteType) (c : String) (mx : Mixer) (r : Bool) :
    PinInv C c (init mx r) := by
  intro _ hc
  simp [init_eq, namedControls_zero] at hc

theorem run_pinInv_keep (C : RouteType) (c : String) (s0 : AudioRouter) (post : List Call)
    (hall : s0.mMixer.absent = []) (h0 : PinInv C c s0)
    (hpost : ∀ post1 d post2, post = post1 ++ d :: post2 → d.type ≠ C →
      ctlValue (d.exec (run post1 s0)).trace c = ctlValue (run post1 s0).trace c) :
    PinInv C c (run post s0) := by
  induction post using List.reverseRecOn with
  | nil => exact h0
  | append_singleton cs c0 ih =>
    rw [run_snoc]
    have i1 := ih (fun post1 d post2 h hd =>
      hpost post1 d (post2 ++ [c0]) (by rw [h]; simp) hd)
    exact exec_pinInv_keep C c c0 _ (by rw [run_mMixer]; exact hall)
      (fun hd => hpost cs c0 [] rfl hd) i1


theorem fresh_eq :
    fresh =
      { mRoute := fun _ => 0, mDisabled := fun _ => false, mPlaybackVolume := 1,
        mVoiceVol := 0, mMasterVol := 0, mMixer := { absent := [], failing := [] },
        bluetoothInRefCnt := 0, bluetoothOutRefCnt := 0, btPcmReady := true,
        trace := enableEvents { absent := [], failing := [] } initialPinConfig } :=
  init_eq _ _

theorem run_enabled_of_no_disable (calls : List Call) (s : AudioRouter)
    (hcalls : ∀ call ∈ calls, call.isRoute = true)
    (hs : ∀ t, s.mDisabled t = false) : ∀ t, (run calls s).mDisabled t = false := by
  induction calls using List.reverseRecOn with
  | nil => simpa [run] using hs
  | append_singleton cs c0 ih =>
    rw [run_snoc]
    have ih2 := ih (fun call hcall => hcalls call (List.mem_append_left _ hcall))
    cases c0 with
    | setAudioRoute t0 r0 =>
      intro t
      obtain ⟨k, _, _⟩ := setAudioRoute_spec t0 r0 _ (ih2 t0)
      simp only [Call.exec]
      rw [k.mDisabled]
      exact ih2 t
    | setRouteDisable t0 d0 =>
      have := hcalls (Call.setRouteDisable t0 d0) (by simp)
      simp [Call.isRoute] at this

theorem fresh_enabled (t : RouteType) : fresh.mDisabled t = false := by
  simp [fresh_eq]

theorem earpieceCalls_enabled (t : RouteType) :
    (run earpieceCalls fresh).mDisabled t = false :=
  run_enabled_of_no_disable _ _ (by decide) fresh_enabled t

theorem earpieceCalls_state :
    (run earpieceCalls fresh).mRoute .ROUTE_OUTPUT = BIT ENDPOINT_RCV ∧
    ctlValue (run earpieceCalls fresh).trace "Earpiece Switch" =
      some (Event.ctlSet "Earpiece Switch" 0) := by
  have e1 : ∀ t, (run [Call.setAudioRoute .ROUTE_OUTPUT (BIT ENDPOINT_RCV)] fresh).mDisabled t
      = false := run_enabled_of_no_disable _ _ (by decide) fresh_enabled
  have e2 : ∀ t, (run [Call.setAudioRoute .ROUTE_OUTPUT (BIT ENDPOINT_RCV),
      Call.setAudioRoute .ROUTE_VOICE_OUT (BIT ENDPOINT_RCV)] fresh).mDisabled t = false :=
    run_enabled_of_no_disable _ _ (by decide) fresh_enabled
  obtain ⟨k1, _, _⟩ := setAudioRoute_spec .ROUTE_OUTPUT (BIT ENDPOINT_RCV) fresh
    (fresh_enabled _)
  obtain ⟨k2, _, _⟩ := setAudioRoute_spec .ROUTE_VOICE_OUT (BIT ENDPOINT_RCV) _
    (e1 .ROUTE_VOICE_OUT)
  obtain ⟨k3, _, _⟩ := setAudioRoute_spec .ROUTE_VOICE_OUT 0 _ (e2 .ROUTE_VOICE_OUT)
  have hv := ctlValue_setAudioRoute .ROUTE_VOICE_OUT 0 _ (e2 .ROUTE_VOICE_OUT)
    "Earpiece Switch" (by decide)
  simp only [run, List.foldl, Call.exec] at k1 k2 k3 hv e1 e2
  have hmx : (setAudioRoute .ROUTE_VOICE_OUT (BIT ENDPOINT_RCV)
      (setAudioRoute .ROUTE_OUTPUT (BIT ENDPOINT_RCV) fresh)).mMixer =
      { absent := [], failing := [] } := by
    rw [k2.mMixer, k1.mMixer, fresh_eq]
  have hr2 : (setAudioRoute .ROUTE_VOICE_OUT (BIT ENDPOINT_RCV)
      (setAudioRoute .ROUTE_OUTPUT (BIT ENDPOINT_RCV) fresh)).mRoute .ROUTE_VOICE_OUT =
      BIT ENDPOINT_RCV := by
    rw [k2.mRoute]; simp
  constructor
  · simp only [earpieceCalls, run, List.foldl, Call.exec]
    rw [k3.mRoute, k2.mRoute, k1.mRoute]
    simp [Function.update]
  · simp only [earpieceCalls, run, List.foldl, Call.exec]
    rw [hv, hmx, hr2]
    have ha : ctlValue (applyRouteOn { absent := [], failing := [] }
        (routeTables .ROUTE_VOICE_OUT) 0) "Earpiece Switch" = none := by decide
    have hb : ctlValue (revertRouteOn { absent := [], failing := [] }
        (routeTables .ROUTE_VOICE_OUT) (BIT ENDPOINT_RCV)) "Earpiece Switch" =
        some (Event.ctlSet "Earpiece Switch" 0) := by decide
    rw [ha, hb]
    rfl

/-- C10 (as stated) fails: after media is routed to the earpiece, a call is routed to the
earpiece and the call route is cleared, OUTPUT is enabled with the earpiece in its mask and
"Earpiece Switch" is named in its pin list, yet the control holds 0 (the revert of the
VOICE_OUT list, which names the same control) where applying the OUTPUT pin list gives 1. -/
theorem pin_state_shared_control_counterexample :
    (run earpieceCalls fresh).mDisabled .ROUTE_OUTPUT = false ∧
    "Earpiece Switch" ∈ namedControls (routeTables .ROUTE_OUTPUT)
      ((run earpieceCalls fresh).mRoute .ROUTE_OUTPUT) ∧
    ctlValue (run earpieceCalls fresh).trace "Earpiece Switch" =
      some (Event.ctlSet "Earpiece Switch" 0) ∧
    ctlValue (applyRoute (routeTables .ROUTE_OUTPUT)
      ((run earpieceCalls fresh).mRoute .ROUTE_OUTPUT)) "Earpiece Switch" =
      some (Event.ctlSet "Earpiece Switch" 1) ∧
    ¬ PinState (run earpieceCalls fresh) .ROUTE_OUTPUT := by
  obtain ⟨hm, hv⟩ := earpieceCalls_state
  have hn : "Earpiece Switch" ∈ namedControls (routeTables .ROUTE_OUTPUT) (BIT ENDPOINT_RCV) := by
    decide
  have ha : ctlValue (applyRoute (routeTables .ROUTE_OUTPUT) (BIT ENDPOINT_RCV))
      "Earpiece Switch" = some (Event.ctlSet "Earpiece Switch" 1) := by decide
  refine ⟨earpieceCalls_enabled _, by rw [hm]; exact hn, hv, by rw [hm]; exact ha, ?_⟩
  intro h
  have h1 := h "Earpiece Switch" (by rw [hm]; exact hn)
  unfold PinStateAt at h1
  rw [hv, hm, ha] at h1
  revert h1
  decide

theorem run_quiet_frame (C : RouteType) (s0 : AudioRouter) (post : List Call)
    (hq : ∀ post1 d post2, post = post1 ++ d :: post2 → d.type = C →
      ∃ b, d = .setRouteDisable C b ∧ (run post1 s0).mDisabled C = b) :
    (run post s0).mRoute C = s0.mRoute C ∧ (run post s0).mDisabled C = s0.mDisabled C ∧
      ∀ c, (∀ post1 d post2, post = post1 ++ d :: post2 → d.type ≠ C →
        ctlValue (d.exec (run post1 s0)).trace c = ctlValue (run post1 s0).trace c) →
        ctlValue (run post s0).trace c = ctlValue s0.trace c := by
  induction post using List.reverseRecOn with
  | nil => exact ⟨rfl, rfl, fun _ _ => rfl⟩
  | append_singleton cs c0 ih =>
    rw [run_snoc]
    obtain ⟨i1, i2, i3⟩ := ih (fun post1 d post2 h hd =>
      hq post1 d (post2 ++ [c0]) (by rw [h]; simp) hd)
    by_cases hC : c0.type = C
    · obtain ⟨b, hb, hfl⟩ := hq cs c0 [] rfl hC
      subst hb
      simp only [Call.exec]
      rw [setRouteDisable_same_eq C b _ hfl]
      refine ⟨i1, i2, fun c hk => i3 c (fun post1 d post2 h hd => ?_)⟩
      exact hk post1 d (post2 ++ [Call.setRouteDisable C b]) (by rw [h]; simp) hd
    · obtain ⟨hr, hd⟩ := (exec_frame c0 (run cs s0)).2 C (fun h => hC h.symm)
      refine ⟨hr.trans i1, hd.trans i2, fun c hk => ?_⟩
      rw [hk cs c0 [] rfl hC]
      exact i3 c (fun post1 d post2 h hd => hk post1 d (post2 ++ [c0]) (by rw [h]; simp) hd)

/-- C10 (as amended): in every state reached from a freshly constructed router by
`setAudioRoute` and `setRouteDisable` calls, on a mixer where every control exists and every
write succeeds, for every category `C` that is not disabled and every control `c` named in
the pin lists of the enabled endpoints of `C`, with the calls split after a call on `C`
that took effect (a `setAudioRoute` on `C`, or a `setRouteDisable` on `C` that changed its
flag; `pre` ends with it, or is empty): when no call on another category among the later
calls `post` has changed the value of `c` (calls on `C` may occur in `post` as well), the
value held by `c` equals the result of applying those endpoints' pin lists in table order,
first entry to last; and when `pre` ends with the last call on `C` that took effect (the
calls on `C` in `post` are `setRouteDisable` calls that repeat its flag), the value held by
`c` equals that result exactly when it is the value `c` held right after `pre`. -/
theorem pin_state_invariant (C : RouteType) (c : String) (mx : Mixer) (r : Bool)
    (pre post : List Call) (hall : mx.absent = []) (_hok : mx.failing = [])
    (hstart : pre = [] ∨ ∃ pre1 e, pre = pre1 ++ [e] ∧ e.type = C ∧
      ∀ d, e = .setRouteDisable C d → (run pre1 (init mx r)).mDisabled C ≠ d)
    (hen : (run (pre ++ post) (init mx r)).mDisabled C = false)
    (hc : c ∈ namedControls (routeTables C) ((run (pre ++ post) (init mx r)).mRoute C)) :
    ((∀ post1 d post2, post = post1 ++ d :: post2 → d.type ≠ C →
        ctlValue (d.exec (run (pre ++ post1) (init mx r))).trace c =
          ctlValue (run (pre ++ post1) (init mx r)).trace c) →
      ctlValue (run (pre ++ post) (init mx r)).trace c =
        ctlValue (applyRoute (routeTables C) ((run (pre ++ post) (init mx r)).mRoute C)) c) ∧
    ((∀ post1 d post2, post = post1 ++ d :: post2 → d.type = C →
        ∃ b, d = .setRouteDisable C b ∧ (run (pre ++ post1) (init mx r)).mDisabled C = b) →
      (ctlValue (run (pre ++ post) (init mx r)).trace c =
          ctlValue (applyRoute (routeTables C) ((run (pre ++ post) (init mx r)).mRoute C)) c ↔
        ctlValue (run (pre ++ post) (init mx r)).trace c =
          ctlValue (run pre (init mx r)).trace c)) := by
  have hm : ∀ l, (run l (init mx r)).mMixer.absent = [] := by
    intro l
    rw [run_mMixer]
    simp [init_eq, hall]
  have h0 : PinInv C c (run pre (init mx r)) := by
    rcases hstart with hp | ⟨pre1, e, hp, ht, heff⟩
    · rw [hp, run_nil]
      exact init_pinInv C c mx r
    · rw [hp, run_snoc]
      exact exec_pinInv_apply C c e _ (hm pre1) ht heff
  constructor
  · intro hpost
    have h1 := run_pinInv_keep C c (run pre (init mx r)) post (hm pre) h0
      (fun post1 d post2 h hd => by
        have := hpost post1 d post2 h hd
        rwa [run_append] at this)
    rw [← run_append] at h1
    exact h1 hen hc
  · intro hq
    obtain ⟨f1, f2, _⟩ := run_quiet_frame C (run pre (init mx r)) post
      (fun post1 d post2 h hd => by
        have := hq post1 d post2 h hd
        rwa [run_append] at this)
    rw [← run_append] at f1 f2
    have hp := h0 (by rw [← f2]; exact hen) (by rw [← f1]; exact hc)
    unfold PinStateAt at hp
    rw [f1, ← hp]

theorem clearThenEarpiece_state :
    (∀ t, (run (clearThenEarpiece ++ [Call.setAudioRoute .ROUTE_INPUT (BIT ENDPOINT_MIC_MAIN)])
      fresh).mDisabled t = false) ∧
    (run (clearThenEarpiece ++ [Call.setAudioRoute .ROUTE_INPUT (BIT ENDPOINT_MIC_MAIN)])
      fresh).mRoute .ROUTE_OUTPUT = BIT ENDPOINT_RCV := by
  have e1 : ∀ t, (run [Call.setAudioRoute .ROUTE_VOICE_OUT 0] fresh).mDisabled t = false :=
    run_enabled_of_no_disable _ _ (by decide) fresh_enabled
  have e2 : ∀ t, (run clearThenEarpiece fresh).mDisabled t = false :=
    run_enabled_of_no_disable _ _ (by decide) fresh_enabled
  refine ⟨run_enabled_of_no_disable _ _ (by decide) fresh_enabled, ?_⟩
  obtain ⟨k1, _, _⟩ := setAudioRoute_spec .ROUTE_VOICE_OUT 0 fresh (fresh_enabled _)
  obtain ⟨k2, _, _⟩ := setAudioRoute_spec .ROUTE_OUTPUT (BIT ENDPOINT_RCV) _
    (e1 .ROUTE_OUTPUT)
  obtain ⟨k3, _, _⟩ := setAudioRoute_spec .ROUTE_INPUT (BIT ENDPOINT_MIC_MAIN) _
    (e2 .ROUTE_INPUT)
  simp only [clearThenEarpiece, run, List.foldl, Call.exec] at k1 k2 k3
  simp only [clearThenEarpiece, run, List.foldl, Call.exec, List.cons_append, List.nil_append]
  rw [k3.mRoute, k2.mRoute]
  simp [Function.update]

theorem pin_state_invariant_witness :
    ctlValue (run (clearThenEarpiece ++
        [Call.setAudioRoute .ROUTE_INPUT (BIT ENDPOINT_MIC_MAIN)])
        (init { absent := [], failing := [] } true)).trace "Earpiece Switch" =
      ctlValue (applyRoute (routeTables .ROUTE_OUTPUT)
        ((run (clearThenEarpiece ++ [Call.setAudioRoute .ROUTE_INPUT (BIT ENDPOINT_MIC_MAIN)])
          (init { absent := [], failing := [] } true)).mRoute .ROUTE_OUTPUT))
        "Earpiece Switch" :=
  (pin_state_invariant .ROUTE_OUTPUT "Earpiece Switch" { absent := [], failing := [] } true
    clearThenEarpiece [Call.setAudioRoute .ROUTE_INPUT (BIT ENDPOINT_MIC_MAIN)] rfl rfl
    (Or.inr ⟨[Call.setAudioRoute .ROUTE_VOICE_OUT 0],
      Call.setAudioRoute .ROUTE_OUTPUT (BIT ENDPOINT_RCV), rfl, rfl,
      fun d h => by cases h⟩)
    (clearThenEarpiece_state.1 _)
    (by
      have h := clearThenEarpiece_state.2
      unfold fresh at h
      rw [h]
      decide)).1
    (fun post1 d post2 h _ => by
      have hd : d = Call.setAudioRoute .ROUTE_INPUT (BIT ENDPOINT_MIC_MAIN) ∧ post1 = [] := by
        cases post1 with
        | nil =>
          simp only [List.nil_append, List.cons.injEq] at h
          exact ⟨h.1.symm, rfl⟩
        | cons x rest =>
          simp only [List.cons_append, List.cons.injEq] at h
          have h2 := h.2
          cases rest <;> simp at h2
      obtain ⟨rfl, rfl⟩ := hd
      exact ctlValue_exec_other _ _ _ (by decide) (by decide))

theorem lookupsOf_flatMap_applyEvents (mx : Mixer) (l : List AudioPinConfig) :
    lookupsOf (l.flatMap (applyEvents mx)) = l.map fun p => p.ctl := by
  induction l with
  | nil => rfl
  | cons p rest ih =>
    have h : lookupsOf (applyEvents mx p) = [p.ctl] := by
      unfold applyEvents applyWrite lookupsOf
      cases mx.hasControl p.ctl <;> simp
      by_cases hm : p.type = .TYPE_MUX <;> simp [hm]
    have happ : ∀ a b, lookupsOf (a ++ b) = lookupsOf a ++ lookupsOf b := by
      intro a b; simp [lookupsOf]
    rw [List.flatMap_cons, happ, h, ih]
    rfl

theorem lookupsOf_flatMap_revertEvents (mx : Mixer) (l : List AudioPinConfig) :
    lookupsOf (l.flatMap (revertEvents mx)) = l.map fun p => p.ctl := by
  induction l with
  | nil => rfl
  | cons p rest ih =>
    have h : lookupsOf (revertEvents mx p) = [p.ctl] := by
      unfold revertEvents
      cases mx.hasControl p.ctl
      · simp [lookupsOf]
      · cases hr : revertWrite p with
        | none => simp [lookupsOf]
        | some e =>
          have hw := isWrite_revertWrite p e hr
          cases e <;> simp_all [lookupsOf, isWrite]
    have happ : ∀ a b, lookupsOf (a ++ b) = lookupsOf a ++ lookupsOf b := by
      intro a b; simp [lookupsOf]
    rw [List.flatMap_cons, happ, h, ih]
    rfl

/-- C11: for every pin list and every mixer (whatever controls are absent from it and
whatever writes fail on it), `enablePinConfig` looks up every entry of the list in list
order and issues the apply write for exactly the entries whose control exists, in list
order; `disablePinConfig` looks up every entry in reverse list order and issues the reset
write for exactly the entries whose control exists and that have a reset value, in reverse
list order.  An absent control or a failed write therefore never stops the entries after
it from being processed. -/
theorem pinConfig_skips_only_absent_controls (pin : List AudioPinConfig) (s : AudioRouter) :
    lookupsOf (eventsOf (enablePinConfig pin) s) = (pinList pin).map (fun p => p.ctl) ∧
    writesOf (eventsOf (enablePinConfig pin) s) =
      ((pinList pin).filter fun p => s.mMixer.hasControl p.ctl).map applyWrite ∧
    lookupsOf (eventsOf (disablePinConfig pin) s) =
      (pinList pin).reverse.map (fun p => p.ctl) ∧
    writesOf (eventsOf (disablePinConfig pin) s) =
      ((pinList pin).reverse.filter fun p => s.mMixer.hasControl p.ctl).filterMap
        revertWrite := by
  have he : eventsOf (enablePinConfig pin) s = enableEvents s.mMixer pin :=
    eventsOf_eq _ _ _ (by rw [enablePinConfig_eq])
  have hd : eventsOf (disablePinConfig pin) s = disableEvents s.mMixer pin :=
    eventsOf_eq _ _ _ (by rw [disablePinConfig_eq])
  rw [he, hd]
  exact ⟨lookupsOf_flatMap_applyEvents _ _, writesOf_enableEvents _ _,
    lookupsOf_flatMap_revertEvents _ _, writesOf_disableEvents _ _⟩

theorem setAudioRoute_fields (type : RouteType) (route : Nat) (s : AudioRouter) :
    (setAudioRoute type route s).mRoute = Function.update s.mRoute type route ∧
    (setAudioRoute type route s).mDisabled = s.mDisabled ∧
    (setAudioRoute type route s).mVoiceVol = s.mVoiceVol ∧
    (setAudioRoute type route s).mMasterVol = s.mMasterVol ∧
    (setAudioRoute type route s).mMixer = s.mMixer := by
  cases hd : s.mDisabled type
  · obtain ⟨k, _, _⟩ := setAudioRoute_spec type route s hd
    exact ⟨k.mRoute, k.mDisabled, k.mVoiceVol, k.mMasterVol, k.mMixer⟩
  · rw [setAudioRoute_disabled_eq type route s hd]
    exact ⟨rfl, rfl, rfl, rfl, rfl⟩

theorem setRouteDisable_fields (type : RouteType) (d : Bool) (s : AudioRouter) :
    (setRouteDisable type d s).mRoute = s.mRoute ∧
    (setRouteDisable type d s).mDisabled = Function.update s.mDisabled type d ∧
    (setRouteDisable type d s).mVoiceVol = s.mVoiceVol ∧
    (setRouteDisable type d s).mMasterVol = s.mMasterVol ∧
    (setRouteDisable type d s).mMixer = s.mMixer := by
  by_cases hs : s.mDisabled type = d
  · rw [setRouteDisable_same_eq type d s hs]
    refine ⟨rfl, ?_, rfl, rfl, rfl⟩
    rw [← hs, Function.update_eq_self]
  · cases d
    · have hd : s.mDisabled type = true := by simpa using hs
      obtain ⟨k, _, _⟩ := setRouteDisable_false_spec type s hd
      exact ⟨k.mRoute, k.mDisabled, k.mVoiceVol, k.mMasterVol, k.mMixer⟩
    · have hd : s.mDisabled type = false := by simpa using hs
      obtain ⟨k, _, _⟩ := setRouteDisable_true_spec type s hd
      exact ⟨k.mRoute, k.mDisabled, k.mVoiceVol, k.mMasterVol, k.mMixer⟩

theorem setVoiceVolume_fields (volume : ℚ) (s : AudioRouter) :
    (setVoiceVolume volume s).mRoute = s.mRoute ∧
    (setVoiceVolume volume s).mDisabled = s.mDisabled ∧
    (setVoiceVolume volume s).mVoiceVol = volume ∧
    (setVoiceVolume volume s).mMasterVol = s.mMasterVol ∧
    (setVoiceVolume volume s).mMixer = s.mMixer := by
  unfold setVoiceVolume
  rw [updateVolume_eq]
  exact ⟨rfl, rfl, rfl, rfl, rfl⟩

theorem setMasterVolume_fields (volume : ℚ) (s : AudioRouter) :
    (setMasterVolume volume s).mRoute = s.mRoute ∧
    (setMasterVolume volume s).mDisabled = s.mDisabled ∧
    (setMasterVolume volume s).mVoiceVol = s.mVoiceVol ∧
    (setMasterVolume volume s).mMasterVol = volume ∧
    (setMasterVolume volume s).mMixer = s.mMixer := by
  unfold setMasterVolume
  rw [updateVolume_eq]
  exact ⟨rfl, rfl, rfl, rfl, rfl⟩

theorem replay_append (a b : List Event) (c : Int × Int) :
    replay (a ++ b) c = (replay a c).bind (replay b) := by
  induction a generalizing c with
  | nil => rfl
  | cons e t ih =>
    cases e with
    | callback f n pcm =>
      simp only [List.cons_append, replay]
      split_ifs
      · exact ih _
      · rfl
    | _ => simpa [replay] using ih c

theorem replay_plain (t : List Event) (c : Int × Int) (h : ∀ e ∈ t, isCallback e = false) :
    replay t c = some c := by
  induction t with
  | nil => rfl
  | cons e t ih =>
    have he := h e (List.mem_cons_self _ _)
    have ht := ih fun x hx => h x (List.mem_cons_of_mem _ hx)
    cases e <;> simp_all [replay, isCallback]

theorem replay_snoc_plain (t d : List Event) (c c2 : Int × Int) (h : replay t c = some c2)
    (hd : ∀ e ∈ d, isCallback e = false) : replay (t ++ d) c = some c2 := by
  rw [replay_append, h]
  exact replay_plain d c2 hd

theorem cnts_invoke (f : Callback) (s : AudioRouter) : cnts (invoke f s) = cntStep f (cnts s) := by
  cases f <;> rfl

theorem refCntOf_eq_cntOf (f : Callback) (s : AudioRouter) : refCntOf f s = cntOf f (cnts s) := by
  cases f <;> rfl

theorem replay_invoke (f : Callback) (s : AudioRouter) (c : Int × Int)
    (h : replay s.trace c = some (cnts s))
    (hf : isOpenCallback f = true ∨ 1 ≤ cntOf f (cnts s)) :
    replay (invoke f s).trace c = some (cnts (invoke f s)) := by
  obtain ⟨pcm, ht, -, -⟩ := invoke_event f s
  rw [ht, replay_append, h, cnts_invoke, refCntOf_eq_cntOf]
  simp [replay, hf]

theorem safeSteps_cons (f : Callback) (t : List Callback) (c c2 : Int × Int)
    (h : safeSteps (f :: t) c = some c2) :
    (isOpenCallback f = true ∨ 1 ≤ cntOf f c) ∧ safeSteps t (cntStep f c) = some c2 := by
  unfold safeSteps at h
  split_ifs at h with hc
  exact ⟨hc, h⟩

theorem disableRouteLoop_replay (mask : Nat) (table : List AudioRouteConfig) (s : AudioRouter)
    (c0 c2 : Int × Int) (h : replay s.trace c0 = some (cnts s))
    (hs : safeSteps (disableCallbacks table mask) (cnts s) = some c2) :
    replay (disableRouteLoop mask table s).trace c0 = some c2 ∧
      cnts (disableRouteLoop mask table s) = c2 := by
  induction table generalizing s with
  | nil =>
    have e : c2 = cnts s := by
      simpa [disableCallbacks, endpointsIn, routeList, safeSteps] using hs.symm
    subst e
    exact ⟨h, rfl⟩
  | cons r rest ih =>
    unfold disableRouteLoop
    by_cases h0 : r.route = 0
    · have e : c2 = cnts s := by
        simpa [disableCallbacks, endpointsIn_cons_zero r rest mask h0, safeSteps] using hs.symm
      subst e
      rw [if_pos h0]
      exact ⟨h, rfl⟩
    · simp only [h0, if_false]
      by_cases hb : mask &&& BIT r.route = 0
      · have hb2 := (and_BIT_eq_zero _ _).mp hb
        simp only [hb, if_true]
        apply ih s h
        simpa [disableCallbacks, endpointsIn_cons_skip r rest mask h0 hb2] using hs
      · have hb2 := testBit_of_and_BIT_ne _ _ hb
        simp only [hb, if_false]
        rw [disablePinConfig_eq]
        have h1 : replay (s.trace ++ disableEvents s.mMixer r.config) c0 = some (cnts s) :=
          replay_snoc_plain _ _ _ _ h (disableEvents_not_callback _ _)
        cases hd : r.disable with
        | none =>
          apply ih { s with trace := s.trace ++ disableEvents s.mMixer r.config } h1
          simpa [disableCallbacks, endpointsIn_cons_take r rest mask h0 hb2, hd] using hs
        | some f =>
          have hs2 : safeSteps (f :: disableCallbacks rest mask) (cnts s) = some c2 := by
            simpa [disableCallbacks, endpointsIn_cons_take r rest mask h0 hb2, hd] using hs
          obtain ⟨hok, hrest⟩ := safeSteps_cons _ _ _ _ hs2
          apply ih (invoke f { s with trace := s.trace ++ disableEvents s.mMixer r.config })
          · exact replay_invoke f { s with trace := s.trace ++ disableEvents s.mMixer r.config }
              c0 h1 hok
          · rw [cnts_invoke]
            exact hrest

theorem enableRouteLoop_replay (mask : Nat) (table : List AudioRouteConfig) (s : AudioRouter)
    (c0 c2 : Int × Int) (h : replay s.trace c0 = some (cnts s))
    (hs : safeSteps (enableCallbacks table mask) (cnts s) = some c2) :
    replay (enableRouteLoop mask table s).trace c0 = some c2 ∧
      cnts (enableRouteLoop mask table s) = c2 := by
  induction table generalizing s with
  | nil =>
    have e : c2 = cnts s := by
      simpa [enableCallbacks, endpointsIn, routeList, safeSteps] using hs.symm
    subst e
    exact ⟨h, rfl⟩
  | cons r rest ih =>
    unfold enableRouteLoop
    by_cases h0 : r.route = 0
    · have e : c2 = cnts s := by
        simpa [enableCallbacks, endpointsIn_cons_zero r rest mask h0, safeSteps] using hs.symm
      subst e
      rw [if_pos h0]
      exact ⟨h, rfl⟩
    · simp only [h0, if_false]
      by_cases hb : mask &&& BIT r.route = 0
      · have hb2 := (and_BIT_eq_zero _ _).mp hb
        simp only [hb, if_true]
        apply ih s h
        simpa [enableCallbacks, endpointsIn_cons_skip r rest mask h0 hb2] using hs
      · have hb2 := testBit_of_and_BIT_ne _ _ hb
        simp only [hb, if_false]
        cases hd : r.enable with
        | none =>
          dsimp only
          rw [enablePinConfig_eq]
          apply ih { s with trace := s.trace ++ enableEvents s.mMixer r.config }
            (replay_snoc_plain _ _ _ _ h (enableEvents_not_callback _ _))
          simpa [enableCallbacks, endpointsIn_cons_take r rest mask h0 hb2, hd] using hs
        | some f =>
          have hs2 : safeSteps (f :: enableCallbacks rest mask) (cnts s) = some c2 := by
            simpa [enableCallbacks, endpointsIn_cons_take r rest mask h0 hb2, hd] using hs
          obtain ⟨hok, hrest⟩ := safeSteps_cons _ _ _ _ hs2
          dsimp only
          rw [enablePinConfig_eq]
          apply ih { invoke f s with
            trace := (invoke f s).trace ++ enableEvents (invoke f s).mMixer r.config }
          · exact replay_snoc_plain _ _ _ _ (replay_invoke f s c0 h hok)
              (enableEvents_not_callback _ _)
          · show safeSteps (enableCallbacks rest mask) (cnts (invoke f s)) = some c2
            rw [cnts_invoke]
            exact hrest

theorem disableCallbacks_routeTables (C : RouteType) (mask : Nat) :
    disableCallbacks (routeTables C) mask =
      if mask.testBit (btEndpoint C) = true then [closeCb C] else [] := by
  cases C <;>
    simp [disableCallbacks, endpointsIn, routeList, routeTables, inputRouteConfigs,
      outputRouteConfigs, voiceInRouteConfigs, voiceOutRouteConfigs, ROUTE_CONFIG,
      ROUTE_CONFIG_CALLBACKS, ROUTE_CONFIG_TERMINATOR, List.filter_cons, btEndpoint, closeCb,
      isOut] <;>
    split_ifs <;> simp_all

theorem enableCallbacks_routeTables (C : RouteType) (mask : Nat) :
    enableCallbacks (routeTables C) mask =
      if mask.testBit (btEndpoint C) = true then [openCb C] else [] := by
  cases C <;>
    simp [enableCallbacks, endpointsIn, routeList, routeTables, inputRouteConfigs,
      outputRouteConfigs, voiceInRouteConfigs, voiceOutRouteConfigs, ROUTE_CONFIG,
      ROUTE_CONFIG_CALLBACKS, ROUTE_CONFIG_TERMINATOR, List.filter_cons, btEndpoint, openCb,
      isOut] <;>
    split_ifs <;> simp_all

/-- The counts after a close helper of the category ran when the mask holds its endpoint. -/
theorem disableRoute_bt (C : RouteType) (s : AudioRouter) (c0 : Int × Int)
    (h : replay s.trace c0 = some (cnts s))
    (hpos : (s.mRoute C).testBit (btEndpoint C) = true → 1 ≤ cntOf (closeCb C) (cnts s)) :
    replay (disableRoute C s).trace c0 = some (cnts (disableRoute C s)) ∧
    cnts (disableRoute C s) =
      (if (s.mRoute C).testBit (btEndpoint C) = true then cntStep (closeCb C) (cnts s)
        else cnts s) := by
  unfold disableRoute
  have key := disableRouteLoop_replay (s.mRoute C) (routeTables C) s c0
    (if (s.mRoute C).testBit (btEndpoint C) = true then cntStep (closeCb C) (cnts s)
      else cnts s) h (by
      rw [disableCallbacks_routeTables]
      by_cases hb : (s.mRoute C).testBit (btEndpoint C) = true
      · rw [if_pos hb, if_pos hb]
        simp [safeSteps, hpos hb]
      · rw [if_neg hb, if_neg hb]
        rfl)
  exact ⟨by rw [key.2]; exact key.1, key.2⟩

theorem enableRoute_bt (C : RouteType) (s : AudioRouter) (c0 : Int × Int)
    (h : replay s.trace c0 = some (cnts s)) :
    replay (enableRoute C s).trace c0 = some (cnts (enableRoute C s)) ∧
    cnts (enableRoute C s) =
      (if (s.mRoute C).testBit (btEndpoint C) = true then cntStep (openCb C) (cnts s)
        else cnts s) := by
  unfold enableRoute
  have key := enableRouteLoop_replay (s.mRoute C) (routeTables C) s c0
    (if (s.mRoute C).testBit (btEndpoint C) = true then cntStep (openCb C) (cnts s)
      else cnts s) h (by
      rw [enableCallbacks_routeTables]
      by_cases hb : (s.mRoute C).testBit (btEndpoint C) = true
      · rw [if_pos hb, if_pos hb]
        have ho : isOpenCallback (openCb C) = true := by cases C <;> rfl
        simp [safeSteps, ho]
      · rw [if_neg hb, if_neg hb]
        rfl)
  exact ⟨by rw [key.2]; exact key.1, key.2⟩

theorem disableRoute_mRoute (C : RouteType) (s : AudioRouter) :
    (disableRoute C s).mRoute = s.mRoute ∧ (disableRoute C s).mDisabled = s.mDisabled :=
  ⟨(disableRouteLoop_spec _ _ s).1.mRoute, (disableRouteLoop_spec _ _ s).1.mDisabled⟩

theorem enableRoute_mRoute (C : RouteType) (s : AudioRouter) :
    (enableRoute C s).mRoute = s.mRoute ∧ (enableRoute C s).mDisabled = s.mDisabled :=
  ⟨(enableRouteLoop_spec _ _ s).1.mRoute, (enableRouteLoop_spec _ _ s).1.mDisabled⟩

theorem reroute_bt (C : RouteType) (route : Nat) (s : AudioRouter) (c0 : Int × Int)
    (h : replay s.trace c0 = some (cnts s))
    (hpos : (s.mRoute C).testBit (btEndpoint C) = true → 1 ≤ cntOf (closeCb C) (cnts s)) :
    replay (reroute C route s).trace c0 = some (cnts (reroute C route s)) ∧
    cnts (reroute C route s) =
      (if route.testBit (btEndpoint C) = true then
        cntStep (openCb C)
          (if (s.mRoute C).testBit (btEndpoint C) = true then cntStep (closeCb C) (cnts s)
            else cnts s)
      else
        (if (s.mRoute C).testBit (btEndpoint C) = true then cntStep (closeCb C) (cnts s)
          else cnts s)) := by
  obtain ⟨d1, d2⟩ := disableRoute_bt C s c0 h hpos
  unfold reroute
  have e := enableRoute_bt C
    { disableRoute C s with mRoute := Function.update (disableRoute C s).mRoute C route } c0 d1
  refine ⟨e.1, ?_⟩
  rw [e.2]
  simp only [Function.update_same]
  exact congrArg₂ _ rfl rfl |>.trans (by
    show (if route.testBit (btEndpoint C) = true then
        cntStep (openCb C) (cnts (disableRoute C s)) else cnts (disableRoute C s)) = _
    rw [d2])

theorem setAudioRoute_bt (C : RouteType) (route : Nat) (s : AudioRouter) (c0 : Int × Int)
    (h : replay s.trace c0 = some (cnts s))
    (hpos : s.mDisabled C = false → (s.mRoute C).testBit (btEndpoint C) = true →
      1 ≤ cntOf (closeCb C) (cnts s)) :
    replay (setAudioRoute C route s).trace c0 = some (cnts (setAudioRoute C route s)) ∧
    cnts (setAudioRoute C route s) =
      (if s.mDisabled C = true then cnts s
      else if route.testBit (btEndpoint C) = true then
        cntStep (openCb C)
          (if (s.mRoute C).testBit (btEndpoint C) = true then cntStep (closeCb C) (cnts s)
            else cnts s)
      else
        (if (s.mRoute C).testBit (btEndpoint C) = true then cntStep (closeCb C) (cnts s)
          else cnts s)) := by
  cases hd : s.mDisabled C
  · rw [setAudioRoute_enabled C route s hd, if_neg (show ¬ (false = true) from Bool.false_ne_true)]
    cases ho : isOut C
    · simp only [Bool.false_eq_true, if_false]
      exact reroute_bt C route s c0 h (hpos hd)
    · simp only [if_true]
      rw [updateVolume_eq, muteOutputs_eq]
      have r := reroute_bt C route { s with trace := s.trace ++ muteEvents s } c0
        (replay_snoc_plain _ _ _ _ h (muteEvents_not_callback s)) (hpos hd)
      exact ⟨replay_snoc_plain _ _ _ _ r.1 (rebalanceEvents_not_callback _), r.2⟩
  · rw [setAudioRoute_disabled_eq C route s hd, if_pos rfl]
    exact ⟨h, rfl⟩

theorem setRouteDisable_bt (C : RouteType) (d : Bool) (s : AudioRouter) (c0 : Int × Int)
    (h : replay s.trace c0 = some (cnts s))
    (hpos : s.mDisabled C = false → (s.mRoute C).testBit (btEndpoint C) = true →
      1 ≤ cntOf (closeCb C) (cnts s)) :
    replay (setRouteDisable C d s).trace c0 = some (cnts (setRouteDisable C d s)) ∧
    cnts (setRouteDisable C d s) =
      (if s.mDisabled C = d then cnts s
      else if (s.mRoute C).testBit (btEndpoint C) = true then
        (if d = true then cntStep (closeCb C) (cnts s) else cntStep (openCb C) (cnts s))
      else cnts s) := by
  by_cases hs : s.mDisabled C = d
  · rw [setRouteDisable_same_eq C d s hs, if_pos hs]
    exact ⟨h, rfl⟩
  · rw [if_neg hs]
    unfold setRouteDisable
    rw [if_neg hs]
    cases d
    · have hd : s.mDisabled C = true := by simpa using hs
      simp only [Bool.false_eq_true, if_false]
      cases ho : isOut C
      · simp only [Bool.false_eq_true, if_false]
        have e := enableRoute_bt C s c0 h
        refine ⟨e.1, ?_⟩
        show cnts (enableRoute C s) = _
        rw [e.2]
      · simp only [if_true]
        rw [updateVolume_eq, muteOutputs_eq]
        have e := enableRoute_bt C { s with trace := s.trace ++ muteEvents s } c0
          (replay_snoc_plain _ _ _ _ h (muteEvents_not_callback s))
        refine ⟨replay_snoc_plain _ _ _ _ e.1 (rebalanceEvents_not_callback _), ?_⟩
        exact e.2
    · have hd : s.mDisabled C = false := by simpa using hs
      simp only [if_true]
      have e := disableRoute_bt C s c0 h (hpos hd)
      refine ⟨e.1, ?_⟩
      show cnts (disableRoute C s) = _
      rw [e.2]

theorem btUse_nonneg (s : AudioRouter) (C : RouteType) : 0 ≤ btUse s C ∧ btUse s C ≤ 1 := by
  unfold btUse
  split_ifs <;> omega

theorem btUse_congr (s s2 : AudioRouter) (C : RouteType) (hr : s2.mRoute C = s.mRoute C)
    (hd : s2.mDisabled C = s.mDisabled C) : btUse s2 C = btUse s C := by
  unfold btUse
  rw [hr, hd]

theorem BtInv.close_pos (s : AudioRouter) (h : BtInv s) (C : RouteType)
    (hd : s.mDisabled C = false) (hb : (s.mRoute C).testBit (btEndpoint C) = true) :
    1 ≤ cntOf (closeCb C) (cnts s) := by
  have hu : btUse s C = 1 := by
    unfold btUse
    rw [if_pos ⟨hd, hb⟩]
  have h1 := btUse_nonneg s .ROUTE_INPUT
  have h2 := btUse_nonneg s .ROUTE_VOICE_IN
  have h3 := btUse_nonneg s .ROUTE_OUTPUT
  have h4 := btUse_nonneg s .ROUTE_VOICE_OUT
  have hc := h.capture
  have hp := h.playback
  cases C <;> simp only [cntOf, closeCb, isOut, pcmOf, cnts] <;> simp <;> omega

theorem btUse_update_same (s s2 : AudioRouter) (C : RouteType) (route : Nat)
    (hr : s2.mRoute = Function.update s.mRoute C route) (hd : s2.mDisabled = s.mDisabled) :
    btUse s2 C =
      (if s.mDisabled C = false ∧ route.testBit (btEndpoint C) = true then 1 else 0) := by
  unfold btUse
  rw [hr, hd, Function.update_same]

theorem btUse_update_other (s s2 : AudioRouter) (C D : RouteType) (route : Nat) (hne : D ≠ C)
    (hr : s2.mRoute = Function.update s.mRoute C route) (hd : s2.mDisabled = s.mDisabled) :
    btUse s2 D = btUse s D := by
  unfold btUse
  rw [hr, hd, Function.update_noteq hne]

theorem btUse_flag_same (s s2 : AudioRouter) (C : RouteType) (d : Bool)
    (hr : s2.mRoute = s.mRoute) (hd : s2.mDisabled = Function.update s.mDisabled C d) :
    btUse s2 C =
      (if d = false ∧ (s.mRoute C).testBit (btEndpoint C) = true then 1 else 0) := by
  unfold btUse
  rw [hr, hd, Function.update_same]

theorem btUse_flag_other (s s2 : AudioRouter) (C D : RouteType) (d : Bool) (hne : D ≠ C)
    (hr : s2.mRoute = s.mRoute) (hd : s2.mDisabled = Function.update s.mDisabled C d) :
    btUse s2 D = btUse s D := by
  unfold btUse
  rw [hr, hd, Function.update_noteq hne]

theorem BtInv.setAudioRoute_inv (C : RouteType) (route : Nat) (s : AudioRouter) (h : BtInv s) :
    BtInv (setAudioRoute C route s) := by
  obtain ⟨k1, k2⟩ := setAudioRoute_bt C route s (0, 0) h.sound (h.close_pos s C)
  obtain ⟨fr, fd, -⟩ := setAudioRoute_fields C route s
  have hc := h.capture
  have hp := h.playback
  have hD : ∀ D, btUse (setAudioRoute C route s) D =
      if D = C then
        (if s.mDisabled C = false ∧ route.testBit (btEndpoint C) = true then 1 else 0)
      else btUse s D := by
    intro D
    by_cases hne : D = C
    · subst hne
      rw [if_pos rfl]
      exact btUse_update_same s _ D route fr fd
    · rw [if_neg hne]
      exact btUse_update_other s _ C D route hne fr fd
  have e1 : (setAudioRoute C route s).bluetoothInRefCnt = (cnts (setAudioRoute C route s)).1 :=
    rfl
  have e2 : (setAudioRoute C route s).bluetoothOutRefCnt = (cnts (setAudioRoute C route s)).2 :=
    rfl
  have hu : btUse s C =
      (if s.mDisabled C = false ∧ (s.mRoute C).testBit (btEndpoint C) = true then 1 else 0) :=
    rfl
  refine ⟨k1, ?_, ?_⟩
  · rw [e1, k2, hD, hD]
    clear k1 k2 fr fd e1 e2 hD h
    generalize (s.mRoute C).testBit (btEndpoint C) = b at hu ⊢
    generalize route.testBit (btEndpoint C) = n
    generalize s.mDisabled C = d at hu ⊢
    cases C <;> cases d <;> cases b <;> cases n <;>
      simp [cntStep, openCb, closeCb, isOut, cnts] at hu ⊢ <;> omega
  · rw [e2, k2, hD, hD]
    clear k1 k2 fr fd e1 e2 hD h
    generalize (s.mRoute C).testBit (btEndpoint C) = b at hu ⊢
    generalize route.testBit (btEndpoint C) = n
    generalize s.mDisabled C = d at hu ⊢
    cases C <;> cases d <;> cases b <;> cases n <;>
      simp [cntStep, openCb, closeCb, isOut, cnts] at hu ⊢ <;> omega

theorem BtInv.setRouteDisable_inv (C : RouteType) (d : Bool) (s : AudioRouter) (h : BtInv s) :
    BtInv (setRouteDisable C d s) := by
  obtain ⟨k1, k2⟩ := setRouteDisable_bt C d s (0, 0) h.sound (h.close_pos s C)
  obtain ⟨fr, fd, -⟩ := setRouteDisable_fields C d s
  have hc := h.capture
  have hp := h.playback
  have hD : ∀ D, btUse (setRouteDisable C d s) D =
      if D = C then
        (if d = false ∧ (s.mRoute C).testBit (btEndpoint C) = true then 1 else 0)
      else btUse s D := by
    intro D
    by_cases hne : D = C
    · subst hne
      rw [if_pos rfl]
      exact btUse_flag_same s _ D d fr fd
    · rw [if_neg hne]
      exact btUse_flag_other s _ C D d hne fr fd
  have e1 : (setRouteDisable C d s).bluetoothInRefCnt = (cnts (setRouteDisable C d s)).1 := rfl
  have e2 : (setRouteDisable C d s).bluetoothOutRefCnt = (cnts (setRouteDisable C d s)).2 :=
    rfl
  have hu : btUse s C =
      (if s.mDisabled C = false ∧ (s.mRoute C).testBit (btEndpoint C) = true then 1 else 0) :=
    rfl
  refine ⟨k1, ?_, ?_⟩
  · rw [e1, k2, hD, hD]
    clear k1 k2 fr fd e1 e2 hD h
    generalize (s.mRoute C).testBit (btEndpoint C) = b at hu ⊢
    generalize s.mDisabled C = d0 at hu ⊢
    cases C <;> cases d0 <;> cases b <;> cases d <;>
      simp [cntStep, openCb, closeCb, isOut, cnts] at hu ⊢ <;> omega
  · rw [e2, k2, hD, hD]
    clear k1 k2 fr fd e1 e2 hD h
    generalize (s.mRoute C).testBit (btEndpoint C) = b at hu ⊢
    generalize s.mDisabled C = d0 at hu ⊢
    cases C <;> cases d0 <;> cases b <;> cases d <;>
      simp [cntStep, openCb, closeCb, isOut, cnts] at hu ⊢ <;> omega

theorem BtInv.init_inv (mx : Mixer) (r : Bool) : BtInv (init mx r) := by
  rw [init_eq]
  exact ⟨replay_plain _ _ (enableEvents_not_callback _ _), by simp [btUse], by simp [btUse]⟩

theorem BtInv.run_inv (calls : List Call) (s : AudioRouter) (h : BtInv s) :
    BtInv (run calls s) := by
  induction calls using List.reverseRecOn with
  | nil => simpa [run] using h
  | append_singleton cs c ih =>
    rw [run_snoc]
    cases c with
    | setAudioRoute t r => exact BtInv.setAudioRoute_inv t r _ ih
    | setRouteDisable t d => exact BtInv.setRouteDisable_inv t d _ ih

theorem btUsers_pair (s : AudioRouter) (e : Nat) (A B : RouteType) :
    (btUsers s e [A, B] : Int) =
      (if s.mDisabled A = false ∧ (s.mRoute A).testBit e = true then 1 else 0) +
      (if s.mDisabled B = false ∧ (s.mRoute B).testBit e = true then 1 else 0) := by
  simp only [btUsers, List.filter_cons, List.filter_nil, Bool.and_eq_true, Bool.not_eq_true']
  split_ifs <;> simp

theorem netOpens_cons_plain (p : BtPcm) (e : Event) (t : List Event)
    (h : isCallback e = false) : netOpens p (e :: t) = netOpens p t := by
  cases e <;> simp_all [netOpens, callbacksOf, isCallback]

theorem netOpens_cons_callback (p : BtPcm) (f : Callback) (n : Int) (pcm : List PcmOp)
    (t : List Event) :
    netOpens p (Event.callback f n pcm :: t) =
      netOpens p t +
        (if pcmOf f = p then (if isOpenCallback f = true then 1 else -1) else 0) := by
  cases f <;> cases p <;>
    simp [netOpens, callbacksOf, pcmOf, isOpenCallback, List.filter_cons] <;> omega

theorem replay_cons_plain (e : Event) (t : List Event) (c : Int × Int)
    (h : isCallback e = false) : replay (e :: t) c = replay t c := by
  cases e <;> simp_all [replay, isCallback]

theorem isCallback_true (e : Event) (h : isCallback e = true) :
    ∃ f n pcm, e = Event.callback f n pcm := by
  cases e <;> simp_all [isCallback]

theorem replay_net (t : List Event) (c c2 : Int × Int) (h : replay t c = some c2) :
    c2.1 = c.1 + netOpens .bluetoothInPcm t ∧ c2.2 = c.2 + netOpens .bluetoothOutPcm t ∧
      (0 ≤ c.1 → 0 ≤ c.2 → 0 ≤ c2.1 ∧ 0 ≤ c2.2) := by
  induction t generalizing c with
  | nil =>
    simp only [replay, Option.some.injEq] at h
    subst h
    exact ⟨by simp [netOpens, callbacksOf], by simp [netOpens, callbacksOf],
      fun a b => ⟨a, b⟩⟩
  | cons e t ih =>
    cases hcb : isCallback e
    · rw [replay_cons_plain _ _ _ hcb] at h
      rw [netOpens_cons_plain _ _ _ hcb, netOpens_cons_plain _ _ _ hcb]
      exact ih _ h
    · obtain ⟨f, n, pcm, rfl⟩ := isCallback_true e hcb
      simp only [replay] at h
      split_ifs at h with hc
      obtain ⟨i1, i2, i3⟩ := ih _ h
      rw [netOpens_cons_callback, netOpens_cons_callback]
      obtain ⟨hn, hpos⟩ := hc
      subst hn
      cases f <;> simp [cntStep, cntOf, pcmOf, isOpenCallback] at i1 i2 i3 hpos ⊢ <;>
        refine ⟨by omega, by omega, fun h1 h2 => i3 (by omega) (by omega)⟩

theorem replay_take (t : List Event) (c c2 : Int × Int) (h : replay t c = some c2) (k : Nat) :
    ∃ c1, replay (t.take k) c = some c1 := by
  have e : replay (t.take k ++ t.drop k) c = some c2 := by rw [List.take_append_drop]; exact h
  rw [replay_append] at e
  cases hr : replay (t.take k) c with
  | none => rw [hr] at e; cases e
  | some c1 => exact ⟨c1, rfl⟩

theorem replay_close_pos (t : List Event) (c c2 : Int × Int) (h : replay t c = some c2)
    (f : Callback) (n : Int) (pcm : List PcmOp) (hm : Event.callback f n pcm ∈ t)
    (hf : isOpenCallback f = false) : 1 ≤ n := by
  induction t generalizing c with
  | nil => cases hm
  | cons e t ih =>
    cases hcb : isCallback e
    · rw [replay_cons_plain _ _ _ hcb] at h
      rcases List.mem_cons.mp hm with he | he
      · rw [← he] at hcb
        cases hcb
      · exact ih _ h he
    · obtain ⟨g, m, q, rfl⟩ := isCallback_true e hcb
      simp only [replay] at h
      split_ifs at h with hc
      rcases List.mem_cons.mp hm with he | he
      · cases he
        rcases hc.2 with ho | ho
        · rw [hf] at ho; cases ho
        · exact ho
      · exact ih _ h he

/-- C29: in every router state reached from a freshly constructed router by
`setAudioRoute` and `setRouteDisable` calls, `bluetoothInRefCnt` is the number of
categories among INPUT and VOICE_IN that are not disabled and whose mask contains MIC_BT,
and `bluetoothOutRefCnt` the number of categories among OUTPUT and VOICE_OUT that are not
disabled and whose mask contains BT; both counts lie between 0 and 2 and equal the number
of open invocations minus the number of close invocations for their PCM in the history; in
every prefix of the history no PCM has more close than open invocations, and every close
helper was entered with a count of at least 1. -/
theorem bluetooth_counts_track_routes (mx : Mixer) (r : Bool) (calls : List Call) :
    ((run calls (init mx r)).bluetoothInRefCnt =
      btUsers (run calls (init mx r)) ENDPOINT_MIC_BT [.ROUTE_INPUT, .ROUTE_VOICE_IN]) ∧
    ((run calls (init mx r)).bluetoothOutRefCnt =
      btUsers (run calls (init mx r)) ENDPOINT_BT [.ROUTE_OUTPUT, .ROUTE_VOICE_OUT]) ∧
    (0 ≤ (run calls (init mx r)).bluetoothInRefCnt ∧
      (run calls (init mx r)).bluetoothInRefCnt ≤ 2 ∧
      0 ≤ (run calls (init mx r)).bluetoothOutRefCnt ∧
      (run calls (init mx r)).bluetoothOutRefCnt ≤ 2) ∧
    (netOpens .bluetoothInPcm (run calls (init mx r)).trace =
        (run calls (init mx r)).bluetoothInRefCnt ∧
      netOpens .bluetoothOutPcm (run calls (init mx r)).trace =
        (run calls (init mx r)).bluetoothOutRefCnt) ∧
    (∀ (p : BtPcm) (k : Nat), 0 ≤ netOpens p ((run calls (init mx r)).trace.take k)) ∧
    (∀ (f : Callback) (n : Int) (pcm : List PcmOp),
      Event.callback f n pcm ∈ (run calls (init mx r)).trace → isOpenCallback f = false →
      1 ≤ n) := by
  have inv := BtInv.run_inv calls _ (BtInv.init_inv mx r)
  have hc := inv.capture
  have hp := inv.playback
  have b1 := btUse_nonneg (run calls (init mx r)) .ROUTE_INPUT
  have b2 := btUse_nonneg (run calls (init mx r)) .ROUTE_VOICE_IN
  have b3 := btUse_nonneg (run calls (init mx r)) .ROUTE_OUTPUT
  have b4 := btUse_nonneg (run calls (init mx r)) .ROUTE_VOICE_OUT
  have hn := replay_net _ _ _ inv.sound
  refine ⟨?_, ?_, ⟨by omega, by omega, by omega, by omega⟩, ⟨?_, ?_⟩, ?_, ?_⟩
  · rw [btUsers_pair]
    exact hc
  · rw [btUsers_pair]
    exact hp
  · have := hn.1
    simp only [cnts] at this
    omega
  · have := hn.2.1
    simp only [cnts] at this
    omega
  · intro p k
    obtain ⟨c1, h1⟩ := replay_take _ _ _ inv.sound k
    have h2 := replay_net _ _ _ h1
    have h3 := h2.2.2 (le_refl 0) (le_refl 0)
    cases p
    · have := h2.1
      simp only at this
      omega
    · have := h2.2.1
      simp only at this
      omega
  · intro f n pcm hm hf
    exact replay_close_pos _ _ _ inv.sound f n pcm hm hf

end AudioRouter

/-! ## Facts about the streams and the facade -/

theorem getBufferSize_small (P : Platform) (rate : Nat) (c : Int) (hc : c = 1 ∨ c = 2)
    (hsmall : AUDIO_HW_IN_PERIOD_SZ P * 4 < U32) :
    getBufferSize P rate c =
      AUDIO_HW_IN_PERIOD_SZ P * c.toNat * 2 /
        (if rate = 8000 ∨ rate = 11025 then 4 else if rate = 16000 ∨ rate = 22050 then 2
          else 1) := by
  unfold getBufferSize
  simp only [U32, SIZEOF_INT16] at *
  have e1 : (1 : Int).toNat = 1 := rfl
  have e2 : (2 : Int).toNat = 2 := rfl
  have h1 : ((AUDIO_HW_IN_PERIOD_SZ P : Int) * c % (2 ^ 32 : Nat)).toNat =
      AUDIO_HW_IN_PERIOD_SZ P * c.toNat := by
    rcases hc with rfl | rfl
    · rw [e1]; omega
    · rw [e2]; omega
  rw [h1]
  have h2 : AUDIO_HW_IN_PERIOD_SZ P * c.toNat * 2 % 2 ^ 32 =
      AUDIO_HW_IN_PERIOD_SZ P * c.toNat * 2 := by
    rcases hc with rfl | rfl
    · rw [e1]; omega
    · rw [e2]; omega
  rw [h2]

/-- C12: with `P` the capture period size in frames (`AUDIO_HW_IN_PERIOD_SZ`, small enough
that four times it fits `size_t`), `getInputBufferSize(r, f, c)` is `P * c * 2 / ratio(r)`
when `f` is 16-bit PCM, `c` is 1 or 2 and `r` is one of 8000, 11025, 16000, 22050, 44100,
with ratio 4 for 8000 and 11025, 2 for 16000 and 22050 and 1 for 44100; it is 0 for every
other triple.  On the platform with `P = 1024`: (16000, PCM_16_BIT, 2) gives
1024 * 2 * 2 / 2, (44100, PCM_16_BIT, 2) gives 1024 * 2 * 2, and the rate 12000 gives 0. -/
theorem getInputBufferSize_spec (P : Platform) (r : Nat) (f c : Int)
    (hsmall : AUDIO_HW_IN_PERIOD_SZ P * 4 < U32) :
    (f = P.PCM_16_BIT → (c = 1 ∨ c = 2) → r ∈ inputSamplingRates →
      getInputBufferSize P r f c = AUDIO_HW_IN_PERIOD_SZ P * c.toNat * 2 / rateRatio r) ∧
    (¬ (f = P.PCM_16_BIT ∧ (c = 1 ∨ c = 2) ∧ r ∈ inputSamplingRates) →
      getInputBufferSize P r f c = 0) ∧
    getInputBufferSize gingerbread 16000 gingerbread.PCM_16_BIT 2 = 1024 * 2 * 2 / 2 ∧
    getInputBufferSize gingerbread 44100 gingerbread.PCM_16_BIT 2 = 1024 * 2 * 2 ∧
    getInputBufferSize gingerbread 12000 gingerbread.PCM_16_BIT 2 = 0 := by
  refine ⟨?_, ?_, by decide, by decide, by decide⟩
  · intro hf hc hr
    have hc2 : ¬ (c < 1 ∨ c > 2) := by omega
    have hr2 : r = 8000 ∨ r = 11025 ∨ r = 16000 ∨ r = 22050 ∨ r = 44100 := by
      simpa [inputSamplingRates] using hr
    unfold getInputBufferSize
    simp only [hf, ne_eq, not_true_eq_false, if_false, hc2, hr2, if_true]
    rw [getBufferSize_small P r c hc hsmall]
    rfl
  · intro h
    unfold getInputBufferSize
    by_cases hf : f = P.PCM_16_BIT
    · by_cases hc : c < 1 ∨ c > 2
      · simp [hf, hc]
      · have hc1 : c = 1 ∨ c = 2 := by omega
        have hr : ¬ (r = 8000 ∨ r = 11025 ∨ r = 16000 ∨ r = 22050 ∨ r = 44100) := by
          intro hr
          exact h ⟨hf, hc1, by simpa [inputSamplingRates] using hr⟩
        simp only [hf, ne_eq, not_true_eq_false, if_false, hc, hr]
    · simp [hf]

theorem getInputBufferSize_spec_witness :
    AUDIO_HW_IN_PERIOD_SZ gingerbread * 4 < U32 ∧
    getInputBufferSize gingerbread 22050 gingerbread.PCM_16_BIT 1 =
      AUDIO_HW_IN_PERIOD_SZ gingerbread * (1 : Int).toNat * 2 / rateRatio 22050 :=
  ⟨by decide,
   (getInputBufferSize_spec gingerbread 22050 gingerbread.PCM_16_BIT 1 (by decide)).1 rfl
     (Or.inl rfl) (by decide)⟩

theorem AudioStreamOutALSA.out_doStandby_l_fst (o : AudioStreamOutALSA) (hw : AudioHardware) :
    (AudioStreamOutALSA.doStandby_l o hw).1 = o.stoodBy := by
  obtain ⟨self, mPcm, mStandby, d, c, r, b, n, q⟩ := o
  cases mPcm <;> cases mStandby <;> rfl

theorem AudioStreamOutALSA.out_doStandby_l_snd (o : AudioStreamOutALSA) (hw : AudioHardware) :
    AudioHardware.SameSlots hw (AudioStreamOutALSA.doStandby_l o hw).2 ∧
    (AudioStreamOutALSA.doStandby_l o hw).2.mRouter =
      AudioRouter.setAudioRoute .ROUTE_OUTPUT 0 hw.mRouter := by
  obtain ⟨self, mPcm, mStandby, d, c, r, b, n, q⟩ := o
  cases mPcm <;> cases mStandby <;> exact ⟨⟨rfl, rfl, rfl, rfl, rfl, rfl, rfl, rfl⟩, rfl⟩

theorem AudioStreamInALSA.in_doStandby_l_fst (st : AudioStreamInALSA) (hw : AudioHardware) :
    (AudioStreamInALSA.doStandby_l st hw).1 = st.stoodBy := by
  obtain ⟨self, mPcm, mStandby, d, ic, c, icc, cc, r, b, ds, cm, rs, n, q⟩ := st
  cases mPcm <;> cases mStandby <;> rfl

theorem AudioStreamInALSA.in_doStandby_l_snd (st : AudioStreamInALSA) (hw : AudioHardware) :
    AudioHardware.SameSlots hw (AudioStreamInALSA.doStandby_l st hw).2 ∧
    (AudioStreamInALSA.doStandby_l st hw).2.mRouter = hw.mRouter := by
  obtain ⟨self, mPcm, mStandby, d, ic, c, icc, cc, r, b, ds, cm, rs, n, q⟩ := st
  cases mPcm <;> cases mStandby <;> exact ⟨⟨rfl, rfl, rfl, rfl, rfl, rfl, rfl, rfl⟩, rfl⟩

theorem AudioHardware.getInput_some (hw : AudioHardware) (i : Nat)
    (h : hw.getInput = some i) :
    ∃ st, hw.mInputs[i]? = some st ∧ st.mStandby = false := by
  unfold AudioHardware.getInput at h
  rw [List.findIdx?_eq_some_iff_getElem] at h
  obtain ⟨hi, hp, _⟩ := h
  exact ⟨hw.mInputs[i], by simp [hi], by simpa using hp⟩

theorem AudioHardware.getInput_none (hw : AudioHardware) (h : hw.getInput = none) :
    ∀ st ∈ hw.mInputs, st.mStandby = true := by
  unfold AudioHardware.getInput at h
  rw [List.findIdx?_eq_none_iff] at h
  intro st hst
  simpa using h st hst

namespace AudioHardware

theorem SameSlots.slots_refl (hw : AudioHardware) : SameSlots hw hw :=
  ⟨rfl, rfl, rfl, rfl, rfl, rfl, rfl, rfl⟩

theorem SameSlots.slots_trans {a b c : AudioHardware} (h1 : SameSlots a b) (h2 : SameSlots b c) :
    SameSlots a c :=
  ⟨h2.mOutput.trans h1.mOutput, h2.mInputs.trans h1.mInputs, h2.mMicMute.trans h1.mMicMute,
   h2.mInCallAudioMode.trans h1.mInCallAudioMode, h2.mVoiceVolume.trans h1.mVoiceVolume,
   h2.mMode.trans h1.mMode, h2.pcmOut.trans h1.pcmOut, h2.pcmIn.trans h1.pcmIn⟩

theorem standbyOut_fst (spOut : Option AudioStreamOutALSA) (hw : AudioHardware) :
    (standbyOut spOut hw).1 = spOut.map AudioStreamOutALSA.stoodBy := by
  cases spOut with
  | none => rfl
  | some o => simp [standbyOut, AudioStreamOutALSA.out_doStandby_l_fst]

theorem standbyOut_snd (spOut : Option AudioStreamOutALSA) (hw : AudioHardware) :
    SameSlots hw (standbyOut spOut hw).2 ∧
    ((standbyOut spOut hw).2.mRouter = hw.mRouter ∨
     (standbyOut spOut hw).2.mRouter = AudioRouter.setAudioRoute .ROUTE_OUTPUT 0 hw.mRouter) := by
  cases spOut with
  | none => exact ⟨SameSlots.slots_refl hw, Or.inl rfl⟩
  | some o =>
    exact ⟨(AudioStreamOutALSA.out_doStandby_l_snd o hw).1,
      Or.inr (AudioStreamOutALSA.out_doStandby_l_snd o hw).2⟩

theorem standbyIn_fst (spIn : Option (Nat × AudioStreamInALSA)) (hw : AudioHardware) :
    (standbyIn spIn hw).1 = spIn.map fun p => (p.1, AudioStreamInALSA.stoodBy p.2) := by
  cases spIn with
  | none => rfl
  | some p => obtain ⟨i, st⟩ := p; simp [standbyIn, AudioStreamInALSA.in_doStandby_l_fst]

theorem standbyIn_snd (spIn : Option (Nat × AudioStreamInALSA)) (hw : AudioHardware) :
    SameSlots hw (standbyIn spIn hw).2 ∧ (standbyIn spIn hw).2.mRouter = hw.mRouter := by
  cases spIn with
  | none => exact ⟨SameSlots.slots_refl hw, rfl⟩
  | some p => obtain ⟨i, st⟩ := p; exact AudioStreamInALSA.in_doStandby_l_snd st hw

theorem storeBack_mOutput (hw : AudioHardware) :
    (match (lockedOutput hw).map AudioStreamOutALSA.stoodBy with
      | none => hw.mOutput
      | some o => some o) = forcedOutput hw := by
  unfold lockedOutput forcedOutput
  cases ho : hw.mOutput with
  | none => rfl
  | some o =>
    cases hs : o.mStandby <;>
      simp [hs, AudioStreamOutALSA.lock, AudioStreamOutALSA.prepareLock]

theorem storeBack_mInputs (hw : AudioHardware) :
    (match (lockedInput hw).map (fun p => (p.1, AudioStreamInALSA.stoodBy p.2)) with
      | none => hw.mInputs
      | some (i, st) => hw.mInputs.set i st) = forcedInputs hw := by
  unfold lockedInput forcedInputs
  cases hg : hw.getInput with
  | none => rfl
  | some i =>
    simp only []
    cases hi : hw.mInputs[i]? with
    | none => rfl
    | some st => rfl

theorem enterCallRoutes_fields (volume : ℚ) (r : AudioRouter) :
    (enterCallRoutes volume r).mDisabled =
      Function.update (Function.update r.mDisabled .ROUTE_INPUT true) .ROUTE_OUTPUT true ∧
    (enterCallRoutes volume r).mVoiceVol = volume ∧
    (enterCallRoutes volume r).mRoute =
      Function.update (Function.update r.mRoute .ROUTE_VOICE_IN (BIT ENDPOINT_MIC_MAIN))
        .ROUTE_VOICE_OUT (BIT ENDPOINT_RCV) := by
  unfold enterCallRoutes
  refine ⟨?_, ?_, ?_⟩
  · rw [(AudioRouter.setAudioRoute_fields _ _ _).2.1, (AudioRouter.setAudioRoute_fields _ _ _).2.1,
      (AudioRouter.setVoiceVolume_fields _ _).2.1, (AudioRouter.setRouteDisable_fields _ _ _).2.1,
      (AudioRouter.setRouteDisable_fields _ _ _).2.1]
  · rw [(AudioRouter.setAudioRoute_fields _ _ _).2.2.1,
      (AudioRouter.setAudioRoute_fields _ _ _).2.2.1,
      (AudioRouter.setVoiceVolume_fields _ _).2.2.1]
  · rw [(AudioRouter.setAudioRoute_fields _ _ _).1, (AudioRouter.setAudioRoute_fields _ _ _).1,
      (AudioRouter.setVoiceVolume_fields _ _).1, (AudioRouter.setRouteDisable_fields _ _ _).1,
      (AudioRouter.setRouteDisable_fields _ _ _).1]

theorem leaveCallRoutes_fields (r : AudioRouter) :
    (leaveCallRoutes r).mDisabled =
      Function.update (Function.update r.mDisabled .ROUTE_OUTPUT false) .ROUTE_INPUT false ∧
    (leaveCallRoutes r).mVoiceVol = 0 ∧
    (leaveCallRoutes r).mRoute =
      Function.update (Function.update r.mRoute .ROUTE_VOICE_IN 0) .ROUTE_VOICE_OUT 0 := by
  unfold leaveCallRoutes
  refine ⟨?_, ?_, ?_⟩
  · rw [(AudioRouter.setVoiceVolume_fields _ _).2.1, (AudioRouter.setRouteDisable_fields _ _ _).2.1,
      (AudioRouter.setRouteDisable_fields _ _ _).2.1,
      (AudioRouter.setAudioRoute_fields _ _ _).2.1, (AudioRouter.setAudioRoute_fields _ _ _).2.1]
  · exact (AudioRouter.setVoiceVolume_fields _ _).2.2.1
  · rw [(AudioRouter.setVoiceVolume_fields _ _).1, (AudioRouter.setRouteDisable_fields _ _ _).1,
      (AudioRouter.setRouteDisable_fields _ _ _).1,
      (AudioRouter.setAudioRoute_fields _ _ _).1, (AudioRouter.setAudioRoute_fields _ _ _).1]

end AudioHardware

namespace AudioHardware

theorem setMode_enter_eq (P : Platform) (mode : Int) (hw : AudioHardware)
    (hb : (P.baseSetMode hw.mMode mode).1 = NO_ERROR) (hm : mode = P.MODE_IN_CALL)
    (hc : hw.mInCallAudioMode = false) :
    setMode P mode hw =
      (NO_ERROR,
        storeBack (standbyOut (lockedOutput hw)
            { hw with mMode := (P.baseSetMode hw.mMode mode).2 }).1
          (standbyIn (lockedInput hw) (standbyOut (lockedOutput hw)
            { hw with mMode := (P.baseSetMode hw.mMode mode).2 }).2).1
          { (standbyIn (lockedInput hw) (standbyOut (lockedOutput hw)
              { hw with mMode := (P.baseSetMode hw.mMode mode).2 }).2).2 with
            mRouter := enterCallRoutes
              (standbyIn (lockedInput hw) (standbyOut (lockedOutput hw)
                { hw with mMode := (P.baseSetMode hw.mMode mode).2 }).2).2.mVoiceVolume
              (standbyIn (lockedInput hw) (standbyOut (lockedOutput hw)
                { hw with mMode := (P.baseSetMode hw.mMode mode).2 }).2).2.mRouter,
            mInCallAudioMode := true }) := by
  subst hm
  unfold setMode
  simp [hb, hc]

theorem setMode_leave_eq (P : Platform) (mode : Int) (hw : AudioHardware)
    (hb : (P.baseSetMode hw.mMode mode).1 = NO_ERROR) (hm : mode ≠ P.MODE_IN_CALL)
    (hc : hw.mInCallAudioMode = true) :
    setMode P mode hw =
      (NO_ERROR,
        storeBack (standbyOut (lockedOutput hw)
            { hw with mMode := (P.baseSetMode hw.mMode mode).2,
                      mRouter := leaveCallRoutes hw.mRouter }).1
          (standbyIn (lockedInput hw) (standbyOut (lockedOutput hw)
            { hw with mMode := (P.baseSetMode hw.mMode mode).2,
                      mRouter := leaveCallRoutes hw.mRouter }).2).1
          { (standbyIn (lockedInput hw) (standbyOut (lockedOutput hw)
              { hw with mMode := (P.baseSetMode hw.mMode mode).2,
                        mRouter := leaveCallRoutes hw.mRouter }).2).2 with
            mInCallAudioMode := false }) := by
  unfold setMode
  simp [hb, hm, hc]

end AudioHardware

namespace AudioHardware

theorem storeBack_standby (hw h0 h1 h2 : AudioHardware) (ho : h2.mOutput = hw.mOutput)
    (hi : h2.mInputs = hw.mInputs) :
    (storeBack (standbyOut (lockedOutput hw) h0).1 (standbyIn (lockedInput hw) h1).1 h2).mOutput
      = forcedOutput hw ∧
    (storeBack (standbyOut (lockedOutput hw) h0).1 (standbyIn (lockedInput hw) h1).1 h2).mInputs
      = forcedInputs hw := by
  unfold storeBack
  simp only [standbyOut_fst, standbyIn_fst, ho, hi]
  exact ⟨storeBack_mOutput hw, storeBack_mInputs hw⟩

theorem setMode_enter_fields (P : Platform) (mode : Int) (hw : AudioHardware)
    (hb : (P.baseSetMode hw.mMode mode).1 = NO_ERROR) (hm : mode = P.MODE_IN_CALL)
    (hc : hw.mInCallAudioMode = false) :
    (setMode P mode hw).1 = NO_ERROR ∧
    (setMode P mode hw).2.mMode = (P.baseSetMode hw.mMode mode).2 ∧
    (setMode P mode hw).2.mInCallAudioMode = true ∧
    (setMode P mode hw).2.mMicMute = hw.mMicMute ∧
    (setMode P mode hw).2.mVoiceVolume = hw.mVoiceVolume ∧
    (setMode P mode hw).2.mOutput = forcedOutput hw ∧
    (setMode P mode hw).2.mInputs = forcedInputs hw ∧
    (setMode P mode hw).2.mRouter.mDisabled =
      Function.update (Function.update hw.mRouter.mDisabled .ROUTE_INPUT true)
        .ROUTE_OUTPUT true ∧
    (setMode P mode hw).2.mRouter.mVoiceVol = hw.mVoiceVolume ∧
    (setMode P mode hw).2.mRouter.mRoute .ROUTE_VOICE_IN = BIT ENDPOINT_MIC_MAIN ∧
    (setMode P mode hw).2.mRouter.mRoute .ROUTE_VOICE_OUT = BIT ENDPOINT_RCV := by
  rw [setMode_enter_eq P mode hw hb hm hc]
  generalize hh0 : ({ hw with mMode := (P.baseSetMode hw.mMode mode).2 } : AudioHardware) = h0
  have hA := standbyOut_snd (lockedOutput hw) h0
  have hC := standbyIn_snd (lockedInput hw) (standbyOut (lockedOutput hw) h0).2
  have hE := enterCallRoutes_fields
    (standbyIn (lockedInput hw) (standbyOut (lockedOutput hw) h0).2).2.mVoiceVolume
    (standbyIn (lockedInput hw) (standbyOut (lockedOutput hw) h0).2).2.mRouter
  have hs0 : h0.mMode = (P.baseSetMode hw.mMode mode).2 ∧ h0.mMicMute = hw.mMicMute ∧
      h0.mVoiceVolume = hw.mVoiceVolume ∧ h0.mRouter = hw.mRouter ∧
      h0.mOutput = hw.mOutput ∧ h0.mInputs = hw.mInputs := by
    subst hh0; exact ⟨rfl, rfl, rfl, rfl, rfl, rfl⟩
  have hAC := hA.1.slots_trans hC.1
  have hd : (standbyIn (lockedInput hw) (standbyOut (lockedOutput hw) h0).2).2.mRouter.mDisabled
      = hw.mRouter.mDisabled := by
    rw [hC.2]
    rcases hA.2 with h | h
    · rw [h, hs0.2.2.2.1]
    · rw [h, (AudioRouter.setAudioRoute_fields _ _ _).2.1, hs0.2.2.2.1]
  refine ⟨rfl, ?_, rfl, ?_, ?_, ?_, ?_, ?_, ?_, ?_, ?_⟩
  · exact hAC.mMode.trans hs0.1
  · exact hAC.mMicMute.trans hs0.2.1
  · exact hAC.mVoiceVolume.trans hs0.2.2.1
  · exact (storeBack_standby hw h0 (standbyOut (lockedOutput hw) h0).2 _ (hAC.mOutput.trans hs0.2.2.2.2.1)
      (hAC.mInputs.trans hs0.2.2.2.2.2)).1
  · exact (storeBack_standby hw h0 (standbyOut (lockedOutput hw) h0).2 _ (hAC.mOutput.trans hs0.2.2.2.2.1)
      (hAC.mInputs.trans hs0.2.2.2.2.2)).2
  · show (enterCallRoutes _ _).mDisabled = _
    rw [hE.1, hd]
  · show (enterCallRoutes _ _).mVoiceVol = _
    rw [hE.2.1]
    exact hAC.mVoiceVolume.trans hs0.2.2.1
  · show (enterCallRoutes _ _).mRoute _ = _
    rw [hE.2.2]
    simp
  · show (enterCallRoutes _ _).mRoute _ = _
    rw [hE.2.2]
    simp

theorem setMode_leave_fields (P : Platform) (mode : Int) (hw : AudioHardware)
    (hb : (P.baseSetMode hw.mMode mode).1 = NO_ERROR) (hm : mode ≠ P.MODE_IN_CALL)
    (hc : hw.mInCallAudioMode = true) :
    (setMode P mode hw).1 = NO_ERROR ∧
    (setMode P mode hw).2.mMode = (P.baseSetMode hw.mMode mode).2 ∧
    (setMode P mode hw).2.mInCallAudioMode = false ∧
    (setMode P mode hw).2.mMicMute = hw.mMicMute ∧
    (setMode P mode hw).2.mVoiceVolume = hw.mVoiceVolume ∧
    (setMode P mode hw).2.mOutput = forcedOutput hw ∧
    (setMode P mode hw).2.mInputs = forcedInputs hw ∧
    (setMode P mode hw).2.mRouter.mDisabled =
      Function.update (Function.update hw.mRouter.mDisabled .ROUTE_OUTPUT false)
        .ROUTE_INPUT false ∧
    (setMode P mode hw).2.mRouter.mVoiceVol = 0 ∧
    (setMode P mode hw).2.mRouter.mRoute .ROUTE_VOICE_IN = 0 ∧
    (setMode P mode hw).2.mRouter.mRoute .ROUTE_VOICE_OUT = 0 := by
  rw [setMode_leave_eq P mode hw hb hm hc]
  have hL := leaveCallRoutes_fields hw.mRouter
  generalize hh0 : ({ hw with mMode := (P.baseSetMode hw.mMode mode).2,
                              mRouter := leaveCallRoutes hw.mRouter } : AudioHardware) = h0
  have hA := standbyOut_snd (lockedOutput hw) h0
  have hC := standbyIn_snd (lockedInput hw) (standbyOut (lockedOutput hw) h0).2
  have hs0 : h0.mMode = (P.baseSetMode hw.mMode mode).2 ∧ h0.mMicMute = hw.mMicMute ∧
      h0.mVoiceVolume = hw.mVoiceVolume ∧ h0.mRouter = leaveCallRoutes hw.mRouter ∧
      h0.mOutput = hw.mOutput ∧ h0.mInputs = hw.mInputs := by
    subst hh0; exact ⟨rfl, rfl, rfl, rfl, rfl, rfl⟩
  have hAC := hA.1.slots_trans hC.1
  have hr : (standbyIn (lockedInput hw) (standbyOut (lockedOutput hw) h0).2).2.mRouter.mDisabled
        = (leaveCallRoutes hw.mRouter).mDisabled ∧
      (standbyIn (lockedInput hw) (standbyOut (lockedOutput hw) h0).2).2.mRouter.mVoiceVol
        = (leaveCallRoutes hw.mRouter).mVoiceVol ∧
      (standbyIn (lockedInput hw) (standbyOut (lockedOutput hw) h0).2).2.mRouter.mRoute
          .ROUTE_VOICE_IN = (leaveCallRoutes hw.mRouter).mRoute .ROUTE_VOICE_IN ∧
      (standbyIn (lockedInput hw) (standbyOut (lockedOutput hw) h0).2).2.mRouter.mRoute
          .ROUTE_VOICE_OUT = (leaveCallRoutes hw.mRouter).mRoute .ROUTE_VOICE_OUT := by
    rw [hC.2]
    rcases hA.2 with h | h
    · rw [h, hs0.2.2.2.1]
      exact ⟨rfl, rfl, rfl, rfl⟩
    · rw [h, (AudioRouter.setAudioRoute_fields _ _ _).2.1,
        (AudioRouter.setAudioRoute_fields _ _ _).2.2.1,
        (AudioRouter.setAudioRoute_fields _ _ _).1, hs0.2.2.2.1]
      simp
  refine ⟨rfl, ?_, rfl, ?_, ?_, ?_, ?_, ?_, ?_, ?_, ?_⟩
  · exact hAC.mMode.trans hs0.1
  · exact hAC.mMicMute.trans hs0.2.1
  · exact hAC.mVoiceVolume.trans hs0.2.2.1
  · exact (storeBack_standby hw h0 (standbyOut (lockedOutput hw) h0).2 _ (hAC.mOutput.trans hs0.2.2.2.2.1)
      (hAC.mInputs.trans hs0.2.2.2.2.2)).1
  · exact (storeBack_standby hw h0 (standbyOut (lockedOutput hw) h0).2 _ (hAC.mOutput.trans hs0.2.2.2.2.1)
      (hAC.mInputs.trans hs0.2.2.2.2.2)).2
  · exact hr.1.trans hL.1
  · exact hr.2.1.trans hL.2.1
  · refine hr.2.2.1.trans ?_
    rw [hL.2.2]
    simp
  · refine hr.2.2.2.trans ?_
    rw [hL.2.2]
    simp

end AudioHardware

namespace AudioHardware

theorem forcedOutput_standby (hw : AudioHardware) (o : AudioStreamOutALSA)
    (h : forcedOutput hw = some o) : o.mStandby = true := by
  unfold forcedOutput at h
  cases ho : hw.mOutput with
  | none => simp [ho] at h
  | some o0 =>
    simp only [ho, Option.map_some', Option.some.injEq] at h
    cases hs : o0.mStandby
    · simp only [hs] at h
      rw [← h]; rfl
    · simp only [hs, if_true] at h
      rw [← h]; exact hs

theorem forcedOutput_active (hw : AudioHardware) (o : AudioStreamOutALSA)
    (h : hw.mOutput = some o) (ha : o.mStandby = false) :
    forcedOutput hw = some (AudioStreamOutALSA.stoodBy { o with mSleepReq := false }) := by
  unfold forcedOutput
  simp [h, ha]

theorem forcedInputs_getInput (hw : AudioHardware) (i : Nat) (h : hw.getInput = some i) :
    ∃ st, hw.mInputs[i]? = some st ∧ st.mStandby = false ∧
      (forcedInputs hw)[i]? = some (AudioStreamInALSA.stoodBy { st with mSleepReq := false }) := by
  obtain ⟨st, hi, hs⟩ := getInput_some hw i h
  refine ⟨st, hi, hs, ?_⟩
  unfold forcedInputs
  simp only [h, hi]
  have hlt : i < hw.mInputs.length := by
    by_contra hc
    rw [List.getElem?_eq_none (by omega)] at hi
    cases hi
  simp [List.getElem?_set, hlt]

theorem forcedInputs_other (hw : AudioHardware) (j : Nat) (h : hw.getInput ≠ some j) :
    (forcedInputs hw)[j]? = hw.mInputs[j]? := by
  unfold forcedInputs
  cases hg : hw.getInput with
  | none => simp only []
  | some i =>
    cases hi : hw.mInputs[i]? with
    | none => simp only [hi]
    | some st =>
      have hij : i ≠ j := fun e => h (by rw [hg, e])
      simp only [hi]
      rw [List.getElem?_set_ne hij]

theorem forcedInputs_standby (hw : AudioHardware) (hone : OneActiveInput hw) :
    ∀ st ∈ forcedInputs hw, st.mStandby = true := by
  intro x hx
  cases hg : hw.getInput with
  | none =>
    unfold forcedInputs at hx
    simp only [hg] at hx
    exact getInput_none hw hg x hx
  | some i =>
    obtain ⟨st, hi, hs⟩ := getInput_some hw i hg
    unfold forcedInputs at hx
    simp only [hg, hi] at hx
    obtain ⟨j, hj⟩ := List.mem_iff_getElem?.mp hx
    rw [List.getElem?_set] at hj
    by_cases hij : i = j
    · simp only [hij, if_true] at hj
      split at hj
      · cases hj; rfl
      · cases hj
    · simp only [hij, if_false] at hj
      cases hxs : x.mStandby
      · exact absurd (hone i j st x hi hj hs hxs) hij
      · rfl

end AudioHardware

/-- C14, amended: when the base class accepts the mode change, a `setMode` call that enters
in-call mode from a non-in-call state ends with the INPUT and OUTPUT categories disabled,
the router voice volume equal to the voice volume the facade stored last, the VOICE_IN mask
equal to {MIC_MAIN} and the VOICE_OUT mask equal to {RCV}; a call that leaves in-call mode
ends with both voice masks 0, the router voice volume 0 and INPUT and OUTPUT enabled.  In
both cases the output stream is in standby afterwards, an output stream that was active
and the first active input stream, the one `getInput()` returned, have no PCM handle, are
in standby and have their standby counter advanced by one (as a 32-bit `int`); every other
input stream is left as it was, so all input streams are in standby when at most one was
active. -/
theorem setMode_call_transitions (P : Platform) (mode : Int) (hw : AudioHardware)
    (hb : (P.baseSetMode hw.mMode mode).1 = NO_ERROR) :
    (mode = P.MODE_IN_CALL → hw.mInCallAudioMode = false →
      (AudioHardware.setMode P mode hw).2.mRouter.mDisabled .ROUTE_INPUT = true ∧
      (AudioHardware.setMode P mode hw).2.mRouter.mDisabled .ROUTE_OUTPUT = true ∧
      (AudioHardware.setMode P mode hw).2.mRouter.mVoiceVol = hw.mVoiceVolume ∧
      (AudioHardware.setMode P mode hw).2.mRouter.mRoute .ROUTE_VOICE_IN =
        BIT ENDPOINT_MIC_MAIN ∧
      (AudioHardware.setMode P mode hw).2.mRouter.mRoute .ROUTE_VOICE_OUT =
        BIT ENDPOINT_RCV) ∧
    (mode ≠ P.MODE_IN_CALL → hw.mInCallAudioMode = true →
      (AudioHardware.setMode P mode hw).2.mRouter.mRoute .ROUTE_VOICE_IN = 0 ∧
      (AudioHardware.setMode P mode hw).2.mRouter.mRoute .ROUTE_VOICE_OUT = 0 ∧
      (AudioHardware.setMode P mode hw).2.mRouter.mVoiceVol = 0 ∧
      (AudioHardware.setMode P mode hw).2.mRouter.mDisabled .ROUTE_INPUT = false ∧
      (AudioHardware.setMode P mode hw).2.mRouter.mDisabled .ROUTE_OUTPUT = false) ∧
    ((mode = P.MODE_IN_CALL ∧ hw.mInCallAudioMode = false) ∨
        (mode ≠ P.MODE_IN_CALL ∧ hw.mInCallAudioMode = true) →
      (∀ o, (AudioHardware.setMode P mode hw).2.mOutput = some o → o.mStandby = true) ∧
      (∀ o, hw.mOutput = some o → o.mStandby = false →
        ∃ o1, (AudioHardware.setMode P mode hw).2.mOutput = some o1 ∧ o1.self = o.self ∧
          o1.mStandby = true ∧ o1.mPcm = false ∧
          o1.mStandbyCnt = wrapI32 (o.mStandbyCnt + 1)) ∧
      (∀ i, hw.getInput = some i →
        ∃ st st1, hw.mInputs[i]? = some st ∧ st.mStandby = false ∧
          (AudioHardware.setMode P mode hw).2.mInputs[i]? = some st1 ∧ st1.self = st.self ∧
          st1.mStandby = true ∧ st1.mPcm = false ∧
          st1.mStandbyCnt = wrapI32 (st.mStandbyCnt + 1)) ∧
      (∀ j, hw.getInput ≠ some j →
        (AudioHardware.setMode P mode hw).2.mInputs[j]? = hw.mInputs[j]?) ∧
      (hw.OneActiveInput →
        ∀ st ∈ (AudioHardware.setMode P mode hw).2.mInputs, st.mStandby = true)) := by
  refine ⟨?_, ?_, ?_⟩
  · intro hm hc
    obtain ⟨_, _, _, _, _, _, _, hd, hv, hi, ho⟩ :=
      AudioHardware.setMode_enter_fields P mode hw hb hm hc
    refine ⟨?_, ?_, hv, hi, ho⟩
    · rw [hd]; simp
    · rw [hd]; simp
  · intro hm hc
    obtain ⟨_, _, _, _, _, _, _, hd, hv, hi, ho⟩ :=
      AudioHardware.setMode_leave_fields P mode hw hb hm hc
    refine ⟨hi, ho, hv, ?_, ?_⟩
    · rw [hd]; simp
    · rw [hd]; simp
  · intro h
    have hoi : (AudioHardware.setMode P mode hw).2.mOutput = hw.forcedOutput ∧
        (AudioHardware.setMode P mode hw).2.mInputs = hw.forcedInputs := by
      rcases h with ⟨hm, hc⟩ | ⟨hm, hc⟩
      · obtain ⟨_, _, _, _, _, h1, h2, _⟩ :=
          AudioHardware.setMode_enter_fields P mode hw hb hm hc
        exact ⟨h1, h2⟩
      · obtain ⟨_, _, _, _, _, h1, h2, _⟩ :=
          AudioHardware.setMode_leave_fields P mode hw hb hm hc
        exact ⟨h1, h2⟩
    rw [hoi.1, hoi.2]
    refine ⟨fun o ho => AudioHardware.forcedOutput_standby hw o ho, ?_, ?_,
      fun j hj => AudioHardware.forcedInputs_other hw j hj,
      fun hone => AudioHardware.forcedInputs_standby hw hone⟩
    · intro o ho ha
      exact ⟨_, AudioHardware.forcedOutput_active hw o ho ha, rfl, rfl, rfl, rfl⟩
    · intro i hi
      obtain ⟨st, h1, h2, h3⟩ := AudioHardware.forcedInputs_getInput hw i hi
      exact ⟨st, _, h1, h2, h3, rfl, rfl, rfl, rfl⟩

theorem setMode_call_transitions_witness :
    (gingerbread.baseSetMode busyHardware.mMode 2).1 = NO_ERROR ∧
    busyHardware.OneActiveInput ∧
    (∀ o, (AudioHardware.setMode gingerbread 2 busyHardware).2.mOutput = some o →
      o.mStandby = true) ∧
    (∀ st ∈ (AudioHardware.setMode gingerbread 2 busyHardware).2.mInputs,
      st.mStandby = true) ∧
    (AudioHardware.setMode gingerbread 2 busyHardware).2.mRouter.mRoute .ROUTE_VOICE_OUT =
      BIT ENDPOINT_RCV :=
  have hone : busyHardware.OneActiveInput := by
    intro i j a b hi hj _ _
    have h1 : busyHardware.mInputs.length = 1 := rfl
    have hi1 : i < busyHardware.mInputs.length := by
      by_contra hc
      rw [List.getElem?_eq_none (by omega)] at hi
      cases hi
    have hj1 : j < busyHardware.mInputs.length := by
      by_contra hc
      rw [List.getElem?_eq_none (by omega)] at hj
      cases hj
    omega
  have h := setMode_call_transitions gingerbread 2 busyHardware (by decide)
  ⟨by decide, hone, (h.2.2 (Or.inl ⟨rfl, rfl⟩)).1, (h.2.2 (Or.inl ⟨rfl, rfl⟩)).2.2.2.2 hone,
    (h.1 rfl rfl).2.2.2.2⟩

/-- The claim C14 fails for a facade with two active input streams: after
`openInputStream` twice and a read on each stream, the objects 2 and 3 are both active;
`setMode(MODE_IN_CALL)` is accepted, enters in-call mode and forces the stream
`getInput()` returns, object 2, to standby, while object 3 stays active with its PCM
handle open. -/
theorem setMode_second_input_counterexample :
    (gingerbread.baseSetMode (runOps gingerbread twoReads twoInputHardware).mMode 2).1
      = NO_ERROR ∧
    (runOps gingerbread twoReads twoInputHardware).mInCallAudioMode = false ∧
    ((runOps gingerbread twoReads twoInputHardware).mInputs.map
      fun st => (st.self, st.mStandby)) = [(2, false), (3, false)] ∧
    (AudioHardware.setMode gingerbread 2
      (runOps gingerbread twoReads twoInputHardware)).2.mInCallAudioMode = true ∧
    ((AudioHardware.setMode gingerbread 2
      (runOps gingerbread twoReads twoInputHardware)).2.mInputs.map
      fun st => (st.self, st.mStandby, st.mPcm)) = [(2, true, false), (3, false, true)] ∧
    ¬ (∀ st ∈ (AudioHardware.setMode gingerbread 2
      (runOps gingerbread twoReads twoInputHardware)).2.mInputs, st.mStandby = true) := by
  have h : ((AudioHardware.setMode gingerbread 2
      (runOps gingerbread twoReads twoInputHardware)).2.mInputs.map
      fun st => (st.self, st.mStandby, st.mPcm)) = [(2, true, false), (3, false, true)] := rfl
  refine ⟨rfl, rfl, rfl, rfl, h, ?_⟩
  intro hall
  have h2 : ∀ x ∈ ((AudioHardware.setMode gingerbread 2
      (runOps gingerbread twoReads twoInputHardware)).2.mInputs.map
      fun st => (st.self, st.mStandby, st.mPcm)), x.2.1 = true := by
    intro x hx
    obtain ⟨st, hst, rfl⟩ := List.mem_map.mp hx
    exact hall st hst
  rw [h] at h2
  have h3 := h2 (3, false, true) (by simp)
  cases h3

theorem AudioStreamOutALSA.standby_mOutput (o : AudioStreamOutALSA) (hw : AudioHardware) :
    (AudioStreamOutALSA.standby o hw).2.mOutput = hw.mOutput :=
  (AudioStreamOutALSA.out_doStandby_l_snd { o with mSleepReq := false } hw).1.mOutput

theorem AudioHardware.openOutputStream_default (P : Platform) (addr devices : Nat)
    (pFormat : Option Int) (pChannels pRate : Option Nat) (hw : AudioHardware)
    (hn : hw.mOutput = none) (hF : pFormat = none ∨ pFormat = some 0)
    (hC : pChannels = none ∨ pChannels = some 0) (hR : pRate = none ∨ pRate = some 0) :
    (AudioHardware.openOutputStream P addr devices pFormat pChannels pRate hw).1.stream =
      some addr ∧
    (AudioHardware.openOutputStream P addr devices pFormat pChannels pRate hw).1.status =
      NO_ERROR ∧
    ∃ o, (AudioHardware.openOutputStream P addr devices pFormat pChannels pRate hw).2.mOutput =
      some o ∧ o.self = addr ∧ o.mStandby = true := by
  unfold AudioHardware.openOutputStream
  rw [hn]
  rcases hF with rfl | rfl <;> rcases hC with rfl | rfl <;> rcases hR with rfl | rfl <;>
    simp [AudioStreamOutALSA.set, AudioStreamOutALSA.new]

/-- C13: `openOutputStream` returns no stream with status `INVALID_OPERATION` and leaves
the facade unchanged whenever an output stream is already open; with no output open and
default (absent or zero) parameters it succeeds and fills the output slot with the new
stream; after `closeOutputStream` of the open stream the slot is empty and a further open
with default parameters succeeds again; `closeOutputStream` of any handle other than the
open stream leaves the facade unchanged. -/
theorem openOutputStream_exclusive (P : Platform) (addr devices : Nat)
    (pFormat : Option Int) (pChannels pRate : Option Nat) (hw : AudioHardware) :
    (hw.mOutput ≠ none →
      AudioHardware.openOutputStream P addr devices pFormat pChannels pRate hw =
        ({ stream := none, status := P.INVALID_OPERATION, format := pFormat,
           channels := pChannels, rate := pRate }, hw)) ∧
    (hw.mOutput = none → (pFormat = none ∨ pFormat = some 0) →
      (pChannels = none ∨ pChannels = some 0) → (pRate = none ∨ pRate = some 0) →
      (AudioHardware.openOutputStream P addr devices pFormat pChannels pRate hw).1.stream =
        some addr ∧
      (AudioHardware.openOutputStream P addr devices pFormat pChannels pRate hw).1.status =
        NO_ERROR ∧
      ∃ o, (AudioHardware.openOutputStream P addr devices pFormat pChannels pRate
        hw).2.mOutput = some o ∧ o.self = addr ∧ o.mStandby = true) ∧
    (∀ o, hw.mOutput = some o → (pFormat = none ∨ pFormat = some 0) →
      (pChannels = none ∨ pChannels = some 0) → (pRate = none ∨ pRate = some 0) →
      (AudioHardware.closeOutputStream o.self hw).mOutput = none ∧
      (AudioHardware.openOutputStream P addr devices pFormat pChannels pRate
        (AudioHardware.closeOutputStream o.self hw)).1.stream = some addr ∧
      (AudioHardware.openOutputStream P addr devices pFormat pChannels pRate
        (AudioHardware.closeOutputStream o.self hw)).1.status = NO_ERROR ∧
      ∃ o1, (AudioHardware.openOutputStream P addr devices pFormat pChannels pRate
        (AudioHardware.closeOutputStream o.self hw)).2.mOutput = some o1 ∧ o1.self = addr ∧
        o1.mStandby = true) ∧
    (∀ out, (∀ o, hw.mOutput = some o → o.self ≠ out) →
      AudioHardware.closeOutputStream out hw = hw) := by
  refine ⟨?_, ?_, ?_, ?_⟩
  · intro h
    unfold AudioHardware.openOutputStream
    cases ho : hw.mOutput with
    | none => exact absurd ho h
    | some o => rfl
  · intro hn hF hC hR
    exact AudioHardware.openOutputStream_default P addr devices pFormat pChannels pRate hw
      hn hF hC hR
  · intro o ho hF hC hR
    have hc : (AudioHardware.closeOutputStream o.self hw).mOutput = none := by
      unfold AudioHardware.closeOutputStream
      simp only [ho, ne_eq, not_true_eq_false, if_false]
      rw [AudioStreamOutALSA.standby_mOutput]
    exact ⟨hc, AudioHardware.openOutputStream_default P addr devices pFormat pChannels pRate
      _ hc hF hC hR⟩
  · intro out h
    unfold AudioHardware.closeOutputStream
    cases ho : hw.mOutput with
    | none => rfl
    | some o => simp [h o ho]

theorem openOutputStream_exclusive_witness :
    freshHardware.mOutput = none ∧
    (AudioHardware.openOutputStream gingerbread 1 gingerbread.DEVICE_OUT_SPEAKER none none
      none freshHardware).1.stream = some 1 ∧
    busyHardware.mOutput ≠ none ∧
    (AudioHardware.openOutputStream gingerbread 7 gingerbread.DEVICE_OUT_SPEAKER none none
      none busyHardware).1.stream = none ∧
    (AudioHardware.openOutputStream gingerbread 7 gingerbread.DEVICE_OUT_SPEAKER none none
      none (AudioHardware.closeOutputStream 1 busyHardware)).1.stream = some 7 :=
  ⟨rfl,
   ((openOutputStream_exclusive gingerbread 1 gingerbread.DEVICE_OUT_SPEAKER none none none
      freshHardware).2.1 rfl (Or.inl rfl) (Or.inl rfl) (Or.inl rfl)).1,
   by simp [busyHardware],
   by rw [(openOutputStream_exclusive gingerbread 7 gingerbread.DEVICE_OUT_SPEAKER none none
      none busyHardware).1 (by simp [busyHardware])],
   ((openOutputStream_exclusive gingerbread 7 gingerbread.DEVICE_OUT_SPEAKER none none none
      busyHardware).2.2.1 _ rfl (Or.inl rfl) (Or.inl rfl) (Or.inl rfl)).2.1⟩

/-- C15: outside in-call mode `setIncallPath(d)` returns the facade, and with it the router
and its record of mixer writes, unchanged; in in-call mode it sets the VOICE_OUT mask to
{RCV} for the earpiece, {AMP, SPK} for the speaker, {AMP, HP} for wired headphone and wired
headset, {BT} for each of the three Bluetooth SCO devices and 0 for any other value, and
the VOICE_IN mask to {MIC_MAIN} for earpiece and wired headphone, {MIC_SUB} for the
speaker, {MIC_HP} for the wired headset, {MIC_BT} for the SCO devices and 0 otherwise (the
seven device constants are pairwise distinct, as the labels of a `switch` are). -/
theorem setIncallPath_masks (P : Platform) (d : Nat) (hw : AudioHardware) :
    (hw.mMode ≠ P.MODE_IN_CALL → AudioHardware.setIncallPath P d hw = (NO_ERROR, hw)) ∧
    (hw.mMode = P.MODE_IN_CALL → P.outDevices.Nodup →
      (d = P.DEVICE_OUT_EARPIECE →
        (AudioHardware.setIncallPath P d hw).2.mRouter.mRoute .ROUTE_VOICE_OUT =
          BIT ENDPOINT_RCV ∧
        (AudioHardware.setIncallPath P d hw).2.mRouter.mRoute .ROUTE_VOICE_IN =
          BIT ENDPOINT_MIC_MAIN) ∧
      (d = P.DEVICE_OUT_SPEAKER →
        (AudioHardware.setIncallPath P d hw).2.mRouter.mRoute .ROUTE_VOICE_OUT =
          BIT ENDPOINT_AMP ||| BIT ENDPOINT_SPK ∧
        (AudioHardware.setIncallPath P d hw).2.mRouter.mRoute .ROUTE_VOICE_IN =
          BIT ENDPOINT_MIC_SUB) ∧
      (d = P.DEVICE_OUT_WIRED_HEADPHONE →
        (AudioHardware.setIncallPath P d hw).2.mRouter.mRoute .ROUTE_VOICE_OUT =
          BIT ENDPOINT_AMP ||| BIT ENDPOINT_HP ∧
        (AudioHardware.setIncallPath P d hw).2.mRouter.mRoute .ROUTE_VOICE_IN =
          BIT ENDPOINT_MIC_MAIN) ∧
      (d = P.DEVICE_OUT_WIRED_HEADSET →
        (AudioHardware.setIncallPath P d hw).2.mRouter.mRoute .ROUTE_VOICE_OUT =
          BIT ENDPOINT_AMP ||| BIT ENDPOINT_HP ∧
        (AudioHardware.setIncallPath P d hw).2.mRouter.mRoute .ROUTE_VOICE_IN =
          BIT ENDPOINT_MIC_HP) ∧
      (d = P.DEVICE_OUT_BLUETOOTH_SCO ∨ d = P.DEVICE_OUT_BLUETOOTH_SCO_HEADSET ∨
          d = P.DEVICE_OUT_BLUETOOTH_SCO_CARKIT →
        (AudioHardware.setIncallPath P d hw).2.mRouter.mRoute .ROUTE_VOICE_OUT =
          BIT ENDPOINT_BT ∧
        (AudioHardware.setIncallPath P d hw).2.mRouter.mRoute .ROUTE_VOICE_IN =
          BIT ENDPOINT_MIC_BT) ∧
      (d ∉ P.outDevices →
        (AudioHardware.setIncallPath P d hw).2.mRouter.mRoute .ROUTE_VOICE_OUT = 0 ∧
        (AudioHardware.setIncallPath P d hw).2.mRouter.mRoute .ROUTE_VOICE_IN = 0)) := by
  refine ⟨?_, ?_⟩
  · intro h
    unfold AudioHardware.setIncallPath
    rw [if_pos h]
  · intro hm hnd
    have e : (AudioHardware.setIncallPath P d hw).2.mRouter.mRoute .ROUTE_VOICE_OUT =
          getVoiceOutRouteFromDevice P d ∧
        (AudioHardware.setIncallPath P d hw).2.mRouter.mRoute .ROUTE_VOICE_IN =
          getVoiceInRouteFromDevice P d := by
      unfold AudioHardware.setIncallPath
      simp only [hm, ne_eq, not_true_eq_false, if_false]
      rw [(AudioRouter.setAudioRoute_fields _ _ _).1, (AudioRouter.setAudioRoute_fields _ _ _).1]
      simp
    rw [e.1, e.2]
    have hnr := List.nodup_reverse.mpr hnd
    simp only [Platform.outDevices, List.nodup_cons, List.mem_cons, List.mem_singleton,
      List.not_mem_nil, or_false, not_or, List.nodup_nil, and_true, List.reverse_cons,
      List.reverse_nil, List.nil_append, List.cons_append, not_false_eq_true] at hnd hnr
    unfold getVoiceOutRouteFromDevice getVoiceInRouteFromDevice
    refine ⟨?_, ?_, ?_, ?_, ?_, ?_⟩
    · rintro rfl
      simp [hnd, hnr]
    · rintro rfl
      simp [hnd, hnr]
    · rintro rfl
      simp [hnd, hnr]
    · rintro rfl
      simp [hnd, hnr]
    · intro h
      rcases h with rfl | rfl | rfl <;> simp [hnd, hnr]
    · intro h
      simp only [Platform.outDevices, List.mem_cons, List.mem_singleton, List.not_mem_nil,
        or_false, not_or] at h
      simp [h]

theorem setIncallPath_masks_witness :
    inCallHardware.mMode = gingerbread.MODE_IN_CALL ∧ gingerbread.outDevices.Nodup ∧
    (AudioHardware.setIncallPath gingerbread gingerbread.DEVICE_OUT_SPEAKER
      inCallHardware).2.mRouter.mRoute .ROUTE_VOICE_OUT = BIT ENDPOINT_AMP ||| BIT ENDPOINT_SPK ∧
    (AudioHardware.setIncallPath gingerbread gingerbread.DEVICE_OUT_SPEAKER
      inCallHardware).2.mRouter.mRoute .ROUTE_VOICE_IN = BIT ENDPOINT_MIC_SUB :=
  have hm : inCallHardware.mMode = gingerbread.MODE_IN_CALL :=
    (AudioHardware.setMode_enter_fields gingerbread gingerbread.MODE_IN_CALL freshHardware
      (by decide) rfl rfl).2.1
  have hn : gingerbread.outDevices.Nodup := by decide
  ⟨hm, hn,
    ((setIncallPath_masks gingerbread gingerbread.DEVICE_OUT_SPEAKER inCallHardware).2 hm
      hn).2.1 rfl⟩

theorem AudioHardware.setMicMute_fields (state : Bool) (hw : AudioHardware) :
    (AudioHardware.setMicMute state hw).1 = NO_ERROR ∧
    (AudioHardware.setMicMute state hw).2.mMicMute = state ∧
    (AudioHardware.setMicMute state hw).2.mRouter.mDisabled =
      Function.update (Function.update hw.mRouter.mDisabled .ROUTE_VOICE_IN state)
        .ROUTE_INPUT state ∧
    (AudioHardware.setMicMute state hw).2.mMode = hw.mMode ∧
    (AudioHardware.setMicMute state hw).2.mInCallAudioMode = hw.mInCallAudioMode ∧
    (AudioHardware.setMicMute state hw).2.mInputs = hw.mInputs ∧
    (AudioHardware.setMicMute state hw).2.mOutput = hw.mOutput ∧
    (AudioHardware.setMicMute state hw).2.sys = hw.sys := by
  refine ⟨rfl, rfl, ?_, rfl, rfl, rfl, rfl, rfl⟩
  show (AudioRouter.setRouteDisable _ _ _).mDisabled = _
  rw [(AudioRouter.setRouteDisable_fields _ _ _).2.1,
    (AudioRouter.setRouteDisable_fields _ _ _).2.1]

/-- C16: the statement fails for the code.  `setMicMute(true)` does leave both the
VOICE_IN and the INPUT category disabled, but `setMode` re-enables INPUT when a call ends
without looking at the mic-mute flag: after `setMicMute(true)`, `setMode(MODE_IN_CALL)`,
`setMode(MODE_NORMAL)` on a new facade the flag is on and the INPUT category is enabled. -/
theorem micMute_lost_when_call_ends :
    (∀ hw : AudioHardware,
      (AudioHardware.setMicMute true hw).2.mMicMute = true ∧
      (AudioHardware.setMicMute true hw).2.mRouter.mDisabled .ROUTE_VOICE_IN = true ∧
      (AudioHardware.setMicMute true hw).2.mRouter.mDisabled .ROUTE_INPUT = true) ∧
    (AudioHardware.runCtl gingerbread [.setMicMute true, .setMode 2, .setMode 0]
      freshHardware).mMicMute = true ∧
    (AudioHardware.runCtl gingerbread [.setMicMute true, .setMode 2, .setMode 0]
      freshHardware).mRouter.mDisabled .ROUTE_INPUT = false ∧
    (AudioHardware.runCtl gingerbread [.setMicMute true, .setMode 2, .setMode 0]
      freshHardware).mRouter.mDisabled .ROUTE_VOICE_IN = true := by
  refine ⟨?_, ?_⟩
  · intro hw
    obtain ⟨_, h1, h2, _⟩ := AudioHardware.setMicMute_fields true hw
    refine ⟨h1, ?_, ?_⟩
    · rw [h2]; simp
    · rw [h2]; simp
  · have e : AudioHardware.runCtl gingerbread [.setMicMute true, .setMode 2, .setMode 0]
        freshHardware =
        (AudioHardware.setMode gingerbread 0 (AudioHardware.setMode gingerbread 2
          (AudioHardware.setMicMute true freshHardware).2).2).2 := rfl
    rw [e]
    obtain ⟨_, m1, d1, _⟩ := AudioHardware.setMicMute_fields true freshHardware
    obtain ⟨_, o2, c2, m2, _, _, _, d2, _⟩ :=
      AudioHardware.setMode_enter_fields gingerbread 2
        (AudioHardware.setMicMute true freshHardware).2 (by decide) rfl rfl
    have hb : (gingerbread.baseSetMode (AudioHardware.setMode gingerbread 2
        (AudioHardware.setMicMute true freshHardware).2).2.mMode 0).1 = NO_ERROR := by
      rw [o2]; decide
    obtain ⟨_, _, _, m3, _, _, _, d3, _⟩ :=
      AudioHardware.setMode_leave_fields gingerbread 0
        (AudioHardware.setMode gingerbread 2 (AudioHardware.setMicMute true freshHardware).2).2
        hb (by decide) c2
    refine ⟨by rw [m3, m2, m1], ?_, ?_⟩
    · rw [d3]; simp
    · rw [d3, d2, d1]; simp

/-- C17: the statement fails for the code.  In `setMicMute` the local `spIn` is never
assigned, so no stream is put into standby: the call leaves every stream object and the
history of driver and wake-lock calls as they were, and on a facade with one active input
stream that stream is still active afterwards, with its PCM handle open and its standby
counter not incremented. -/
theorem setMicMute_leaves_input_active :
    (∀ (state : Bool) (hw : AudioHardware),
      (AudioHardware.setMicMute state hw).2.mInputs = hw.mInputs ∧
      (AudioHardware.setMicMute state hw).2.mOutput = hw.mOutput ∧
      (AudioHardware.setMicMute state hw).2.sys = hw.sys) ∧
    busyHardware.getInput = some 0 ∧
    (∃ st, busyHardware.mInputs[0]? = some st ∧
      (AudioHardware.setMicMute true busyHardware).2.mInputs[0]? = some st ∧
      st.mStandby = false ∧ st.mPcm = true) ∧
    (AudioHardware.setMicMute true busyHardware).2.getInput = some 0 := by
  refine ⟨fun state hw => ?_, by decide, ⟨_, rfl, rfl, rfl, rfl⟩, by decide⟩
  obtain ⟨_, _, _, _, _, h1, h2, h3⟩ := AudioHardware.setMicMute_fields state hw
  exact ⟨h1, h2, h3⟩

theorem absDelta_small (r rate : Nat) (hr : r < 2 ^ 31) (hrate : rate < 2 ^ 31) :
    absDelta r rate = rateDist r rate := by
  unfold absDelta rateDist
  simp only [U32]
  split_ifs <;> omega

theorem rateDist_cases (a b : Nat) :
    (a ≤ b ∧ rateDist a b = b - a) ∨ (b < a ∧ rateDist a b = a - b) := by
  unfold rateDist
  split_ifs <;> omega

theorem rateLoop_small (r : Nat) (hr : r < 2 ^ 31) :
    rateLoop r inputSamplingRates 0xffffffff 0 =
      if rateDist r 8000 > 0xffffffff then 0
      else if rateDist r 11025 > rateDist r 8000 then 1
      else if rateDist r 16000 > rateDist r 11025 then 2
      else if rateDist r 22050 > rateDist r 16000 then 3
      else if rateDist r 44100 > rateDist r 22050 then 4
      else 5 := by
  have h1 := absDelta_small r 8000 hr (by norm_num)
  have h2 := absDelta_small r 11025 hr (by norm_num)
  have h3 := absDelta_small r 16000 hr (by norm_num)
  have h4 := absDelta_small r 22050 hr (by norm_num)
  have h5 := absDelta_small r 44100 hr (by norm_num)
  unfold inputSamplingRates
  simp only [rateLoop, h1, h2, h3, h4, h5]

theorem getInputSampleRate_nearest (r : Nat) (hr : r < 2 ^ 31) :
    getInputSampleRate r ∈ inputSamplingRates ∧
    ∀ s ∈ inputSamplingRates, rateDist r (getInputSampleRate r) ≤ rateDist r s := by
  unfold getInputSampleRate
  rw [rateLoop_small r hr]
  have e0 : inputSamplingRates.getD (0 - 1) 0 = 8000 := rfl
  have e1 : inputSamplingRates.getD (1 - 1) 0 = 8000 := rfl
  have e2 : inputSamplingRates.getD (2 - 1) 0 = 11025 := rfl
  have e3 : inputSamplingRates.getD (3 - 1) 0 = 16000 := rfl
  have e4 : inputSamplingRates.getD (4 - 1) 0 = 22050 := rfl
  have e5 : inputSamplingRates.getD (5 - 1) 0 = 44100 := rfl
  have hall : ∀ c : Nat, (c ∈ inputSamplingRates ∧ ∀ s ∈ inputSamplingRates,
      rateDist r c ≤ rateDist r s) ↔
      ((c = 8000 ∨ c = 11025 ∨ c = 16000 ∨ c = 22050 ∨ c = 44100) ∧
        rateDist r c ≤ rateDist r 8000 ∧ rateDist r c ≤ rateDist r 11025 ∧
        rateDist r c ≤ rateDist r 16000 ∧ rateDist r c ≤ rateDist r 22050 ∧
        rateDist r c ≤ rateDist r 44100) := by
    intro c
    simp [inputSamplingRates]
  have d1 := rateDist_cases r 8000
  have d2 := rateDist_cases r 11025
  have d3 := rateDist_cases r 16000
  have d4 := rateDist_cases r 22050
  have d5 := rateDist_cases r 44100
  split_ifs with h1 h2 h3 h4 h5
  · rw [e0, hall]; omega
  · rw [e1, hall]; omega
  · rw [e2, hall]; omega
  · rw [e3, hall]; omega
  · rw [e4, hall]; omega
  · rw [e5, hall]; omega

theorem getInputSampleRate_mem (r : Nat) : getInputSampleRate r ∈ inputSamplingRates := by
  have hlt : ¬ absDelta r 8000 > 0xffffffff := by
    have : absDelta r 8000 < U32 := Nat.mod_lt _ (by norm_num)
    simp only [U32] at this
    omega
  unfold getInputSampleRate inputSamplingRates
  simp only [rateLoop, hlt, if_false]
  split_ifs <;> simp [List.getD]

theorem getInputSampleRate_supported (r : Nat) (hr : r ∈ inputSamplingRates) :
    getInputSampleRate r = r := by
  revert r
  decide

theorem AudioStreamInALSA.set_rate (P : Platform) (st : AudioStreamInALSA)
    (devices channels r : Nat) :
    (r ∈ inputSamplingRates →
      (AudioStreamInALSA.set P st devices (some P.PCM_16_BIT) (some channels)
        (some r)).1.rate = some r) ∧
    (r ∉ inputSamplingRates →
      AudioStreamInALSA.set P st devices (some P.PCM_16_BIT) (some channels) (some r) =
        ({ status := P.BAD_VALUE, format := some P.PCM_16_BIT, channels := some channels,
           rate := some (getInputSampleRate r) }, st)) := by
  refine ⟨?_, ?_⟩
  · intro hr
    unfold AudioStreamInALSA.set
    dsimp only
    rw [if_neg (not_not.mpr rfl), getInputSampleRate_supported r hr,
      if_neg (not_not.mpr rfl)]
    split_ifs <;> rfl
  · intro hr
    have hne : getInputSampleRate r ≠ r := fun h => hr (h ▸ getInputSampleRate_mem r)
    unfold AudioStreamInALSA.set
    dsimp only
    rw [if_neg (not_not.mpr rfl), if_pos hne]

/-- C18: the statement holds for requested rates below 2^31 and fails above.  For a
valid format, `set()` accepts each of the five supported rates unchanged and answers every
other rate with `BAD_VALUE` and a supported rate, which for a request below 2^31 is one
nearest to it.  The distance is computed by `abs` on the wrapped 32-bit difference, so for
the request 4294967295 the rate written back is 8000, although 44100 is nearer. -/
theorem getInputSampleRate_wraps :
    (∀ (P : Platform) (st : AudioStreamInALSA) (devices channels r : Nat),
      (r ∈ inputSamplingRates →
        (AudioStreamInALSA.set P st devices (some P.PCM_16_BIT) (some channels)
          (some r)).1.rate = some r) ∧
      (r ∉ inputSamplingRates →
        AudioStreamInALSA.set P st devices (some P.PCM_16_BIT) (some channels) (some r) =
          ({ status := P.BAD_VALUE, format := some P.PCM_16_BIT, channels := some channels,
             rate := some (getInputSampleRate r) }, st) ∧
        getInputSampleRate r ∈ inputSamplingRates ∧
        (r < 2 ^ 31 →
          ∀ s ∈ inputSamplingRates, rateDist r (getInputSampleRate r) ≤ rateDist r s))) ∧
    (4294967295 ∉ inputSamplingRates ∧ 4294967295 < U32 ∧
      (AudioStreamInALSA.set gingerbread (AudioStreamInALSA.new gingerbread 1)
        gingerbread.DEVICE_IN_BUILTIN_MIC (some gingerbread.PCM_16_BIT)
        (some gingerbread.CHANNEL_IN_STEREO) (some 4294967295)).1 =
        { status := gingerbread.BAD_VALUE, format := some gingerbread.PCM_16_BIT,
          channels := some gingerbread.CHANNEL_IN_STEREO, rate := some 8000 } ∧
      rateDist 4294967295 44100 < rateDist 4294967295 8000) := by
  refine ⟨fun P st devices channels r => ⟨?_, fun hr => ⟨?_, ?_, fun hlt => ?_⟩⟩,
    by decide, by decide, by decide, by decide⟩
  · exact (AudioStreamInALSA.set_rate P st devices channels r).1
  · exact (AudioStreamInALSA.set_rate P st devices channels r).2 hr
  · exact getInputSampleRate_mem r
  · exact (getInputSampleRate_nearest r hlt).2

namespace AudioStreamOutALSA

theorem out_open_l_fst (P : Platform) (o : AudioStreamOutALSA) (hw : AudioHardware) :
    (open_l P o hw).2.1 = { o with mPcm := decide (hw.pcmOut = .ready) } ∧
    (open_l P o hw).2.2.pcmOut = hw.pcmOut ∧ (open_l P o hw).2.2.pcmIn = hw.pcmIn ∧
    (open_l P o hw).2.2.mInputs = hw.mInputs ∧ (open_l P o hw).2.2.mOutput = hw.mOutput := by
  unfold open_l
  cases hp : hw.pcmOut
  · exact ⟨rfl, hp, rfl, rfl, rfl⟩
  · exact ⟨rfl, hp, rfl, rfl, rfl⟩
  · by_cases hm : hw.mMode ≠ P.MODE_IN_CALL
    · dsimp only
      rw [if_pos hm]; exact ⟨rfl, hp, rfl, rfl, rfl⟩
    · dsimp only
      rw [if_neg hm]; exact ⟨rfl, hp, rfl, rfl, rfl⟩

theorem out_close_l_snd (o : AudioStreamOutALSA) (hw : AudioHardware) :
    (close_l o hw).1 = { o with mPcm := false } ∧
    (close_l o hw).2.pcmOut = hw.pcmOut ∧ (close_l o hw).2.pcmIn = hw.pcmIn ∧
    (close_l o hw).2.mInputs = hw.mInputs ∧ (close_l o hw).2.mOutput = hw.mOutput := by
  obtain ⟨self, mPcm, mStandby, d, c, r, b, n, q⟩ := o
  cases mPcm <;> exact ⟨rfl, rfl, rfl, rfl, rfl⟩

theorem out_wakeUpEnd_fst (o : AudioStreamOutALSA) (hw : AudioHardware) :
    (wakeUpEnd o hw).1 = (if o.mPcm then 0 else -1) ∧
    (wakeUpEnd o hw).2.1 = (if o.mPcm then { o with mStandby := false } else o) := by
  unfold wakeUpEnd
  cases o.mPcm <;> exact ⟨rfl, rfl⟩

end AudioStreamOutALSA

namespace AudioStreamInALSA

theorem in_open_l_fst (P : Platform) (st : AudioStreamInALSA) (hw : AudioHardware) :
    (open_l P st hw).2.1 = { st with mPcm := decide (hw.pcmIn = .ready) } ∧
    (open_l P st hw).2.2.pcmOut = hw.pcmOut ∧ (open_l P st hw).2.2.pcmIn = hw.pcmIn ∧
    (open_l P st hw).2.2.mInputs = hw.mInputs ∧ (open_l P st hw).2.2.mOutput = hw.mOutput := by
  unfold open_l
  cases hp : hw.pcmIn <;> exact ⟨rfl, rfl, hp, rfl, rfl⟩

theorem in_close_l_snd (st : AudioStreamInALSA) (hw : AudioHardware) :
    (close_l st hw).1 = { st with mPcm := false } ∧
    (close_l st hw).2.pcmOut = hw.pcmOut ∧ (close_l st hw).2.pcmIn = hw.pcmIn ∧
    (close_l st hw).2.mInputs = hw.mInputs ∧ (close_l st hw).2.mOutput = hw.mOutput := by
  obtain ⟨self, mPcm, mStandby, d, ic, c, icc, cc, r, b, ds, cm, rs, n, q⟩ := st
  cases mPcm <;> exact ⟨rfl, rfl, rfl, rfl, rfl⟩

theorem in_wakeUpEnd_fst (st : AudioStreamInALSA) (hw : AudioHardware) :
    (wakeUpEnd st hw).1 = (if st.mPcm then 0 else -1) ∧
    (wakeUpEnd st hw).2.1 = (if st.mPcm then { st with mStandby := false } else st) := by
  unfold wakeUpEnd
  cases st.mPcm <;> exact ⟨rfl, rfl⟩

end AudioStreamInALSA

/-- The stream and status `wakeUp_l` of an output stream in standby leaves: the PCM handle
is there exactly when the kernel device opened, and only then the stream is active. -/
theorem AudioStreamOutALSA.out_wakeUp_l_standby (P : Platform) (o : AudioStreamOutALSA)
    (hw : AudioHardware) (hs : o.mStandby = true) :
    (AudioStreamOutALSA.wakeUp_l P o hw).1 =
      (if hw.pcmOut = .ready then 0 else -1) ∧
    (AudioStreamOutALSA.wakeUp_l P o hw).2.1 =
      { o with mPcm := decide (hw.pcmOut = .ready),
               mStandby := !decide (hw.pcmOut = .ready) } := by
  have key : ∀ h1 : AudioHardware, h1.pcmOut = hw.pcmOut → ∀ h2 : AudioHardware,
      (AudioStreamOutALSA.wakeUpEnd (AudioStreamOutALSA.open_l P o h1).2.1 h2).1 =
        (if hw.pcmOut = .ready then 0 else -1) ∧
      (AudioStreamOutALSA.wakeUpEnd (AudioStreamOutALSA.open_l P o h1).2.1 h2).2.1 =
        { o with mPcm := decide (hw.pcmOut = .ready),
                 mStandby := !decide (hw.pcmOut = .ready) } := by
    intro h1 e h2
    rw [(AudioStreamOutALSA.out_wakeUpEnd_fst _ _).1, (AudioStreamOutALSA.out_wakeUpEnd_fst _ _).2,
      (AudioStreamOutALSA.out_open_l_fst P o h1).1, e]
    obtain ⟨self, mPcm, mStandby, d, c, r, b, n, q⟩ := o
    simp only at hs
    subst hs
    cases hw.pcmOut <;> simp
  unfold AudioStreamOutALSA.wakeUp_l
  simp only [hs, Bool.not_true, Bool.false_eq_true, if_false]
  cases hg : (hw.emitSys (.acquire_wake_lock "AudioOutLock")).getInput with
  | none => exact key (hw.emitSys (.acquire_wake_lock "AudioOutLock")) rfl _
  | some i =>
    dsimp only
    cases hi : (hw.emitSys (.acquire_wake_lock "AudioOutLock")).mInputs[i]? with
    | none => exact key (hw.emitSys (.acquire_wake_lock "AudioOutLock")) rfl _
    | some spIn =>
      exact key (AudioStreamInALSA.close_l
          (AudioStreamInALSA.lock (AudioStreamInALSA.prepareLock spIn).2)
          (hw.emitSys (.acquire_wake_lock "AudioOutLock"))).2
        (AudioStreamInALSA.in_close_l_snd _ _).2.1 _

/-- The stream and status `wakeUp_l` of an input stream in standby leaves. -/
theorem AudioStreamInALSA.in_wakeUp_l_standby (P : Platform) (st : AudioStreamInALSA)
    (hw : AudioHardware) (hs : st.mStandby = true) :
    (AudioStreamInALSA.wakeUp_l P st hw).1 =
      (if hw.pcmIn = .ready then 0 else -1) ∧
    (AudioStreamInALSA.wakeUp_l P st hw).2.1 =
      { st with mPcm := decide (hw.pcmIn = .ready),
                mStandby := !decide (hw.pcmIn = .ready) } := by
  have key : ∀ h1 : AudioHardware, h1.pcmIn = hw.pcmIn → ∀ h2 : AudioHardware,
      (AudioStreamInALSA.wakeUpEnd (AudioStreamInALSA.open_l P st h1).2.1 h2).1 =
        (if hw.pcmIn = .ready then 0 else -1) ∧
      (AudioStreamInALSA.wakeUpEnd (AudioStreamInALSA.open_l P st h1).2.1 h2).2.1 =
        { st with mPcm := decide (hw.pcmIn = .ready),
                  mStandby := !decide (hw.pcmIn = .ready) } := by
    intro h1 e h2
    rw [(AudioStreamInALSA.in_wakeUpEnd_fst _ _).1, (AudioStreamInALSA.in_wakeUpEnd_fst _ _).2,
      (AudioStreamInALSA.in_open_l_fst P st h1).1, e]
    obtain ⟨self, mPcm, mStandby, d, ic, c, icc, cc, r, b, ds, cm, rs, n, q⟩ := st
    simp only at hs
    subst hs
    cases hw.pcmIn <;> simp
  unfold AudioStreamInALSA.wakeUp_l
  simp only [hs, Bool.not_true, Bool.false_eq_true, if_false]
  cases ho : (hw.emitSys (.acquire_wake_lock "AudioInLock")).mOutput with
  | none => exact key (hw.emitSys (.acquire_wake_lock "AudioInLock")) rfl _
  | some spOut =>
    dsimp only
    cases hso : spOut.mStandby with
    | true =>
      simp only [if_true]
      exact key (hw.emitSys (.acquire_wake_lock "AudioInLock")) rfl _
    | false =>
      simp only [Bool.false_eq_true, if_false]
      refine key _ ?_ _
      show (ite _ _ _ : AudioStreamOutALSA × AudioHardware).2.pcmIn = _
      split_ifs
      · rw [(AudioStreamOutALSA.out_doStandby_l_snd _ _).1.pcmIn,
          (AudioStreamOutALSA.out_open_l_fst _ _ _).2.2.1,
          (AudioStreamOutALSA.out_close_l_snd _ _).2.2.1]
        rfl
      · show (AudioStreamOutALSA.open_l _ _ _).2.2.pcmIn = _
        rw [(AudioStreamOutALSA.out_open_l_fst _ _ _).2.2.1,
          (AudioStreamOutALSA.out_close_l_snd _ _).2.2.1]
        rfl

theorem AudioStreamOutALSA.out_standby_fst (o : AudioStreamOutALSA) (hw : AudioHardware) :
    (AudioStreamOutALSA.standby o hw).1 =
      AudioStreamOutALSA.stoodBy { o with mSleepReq := false } :=
  AudioStreamOutALSA.out_doStandby_l_fst _ hw

theorem AudioStreamInALSA.in_standby_fst (st : AudioStreamInALSA) (hw : AudioHardware) :
    (AudioStreamInALSA.standby st hw).1 =
      AudioStreamInALSA.stoodBy { st with mSleepReq := false } :=
  AudioStreamInALSA.in_doStandby_l_fst _ hw

theorem AudioStreamOutALSA.write_open_failure (P : Platform) (o : AudioStreamOutALSA)
    (hw : AudioHardware) (bytes : Nat) (pcmRet errno : Int) (hs : o.mStandby = true)
    (hp : hw.pcmOut ≠ .ready) :
    (AudioStreamOutALSA.write P o hw bytes pcmRet errno).1 = .status P.NO_INIT ∧
    (AudioStreamOutALSA.write P o hw bytes pcmRet errno).2.1.mStandby = true ∧
    (AudioStreamOutALSA.write P o hw bytes pcmRet errno).2.1.mPcm = false := by
  have hw0 : (if o.mSleepReq then hw.emitSys (.usleep 10000) else hw).pcmOut = hw.pcmOut := by
    split_ifs <;> rfl
  have hW := AudioStreamOutALSA.out_wakeUp_l_standby P o
    (if o.mSleepReq then hw.emitSys (.usleep 10000) else hw) hs
  rw [hw0, if_neg hp] at hW
  have hne : (AudioStreamOutALSA.wakeUp_l P o
      (if o.mSleepReq then hw.emitSys (.usleep 10000) else hw)).1 ≠ 0 := by
    rw [hW.1]; decide
  unfold AudioStreamOutALSA.write
  simp only [hne, ne_eq, not_false_eq_true, if_true]
  unfold AudioStreamOutALSA.writeError
  refine ⟨rfl, ?_, ?_⟩
  · show (AudioStreamOutALSA.standby _ _).1.mStandby = true
    rw [AudioStreamOutALSA.out_standby_fst]; rfl
  · show (AudioStreamOutALSA.standby _ _).1.mPcm = false
    rw [AudioStreamOutALSA.out_standby_fst]; rfl

theorem AudioStreamInALSA.read_open_failure_status (P : Platform) (st : AudioStreamInALSA)
    (hw : AudioHardware) (bytes : Nat) (prov : BufferProvider) (fuel : Nat)
    (hs : st.mStandby = true) (hp : hw.pcmIn ≠ .ready) :
    ∃ res, AudioStreamInALSA.read P st hw bytes prov fuel = some res ∧
      res.1 = .status P.NO_INIT ∧ res.2.1.mStandby = true ∧ res.2.1.mPcm = false := by
  have hw0 : (if st.mSleepReq then hw.emitSys (.usleep 10000) else hw).pcmIn = hw.pcmIn := by
    split_ifs <;> rfl
  have hW := AudioStreamInALSA.in_wakeUp_l_standby P st
    (if st.mSleepReq then hw.emitSys (.usleep 10000) else hw) hs
  rw [hw0, if_neg hp] at hW
  have hne : (AudioStreamInALSA.wakeUp_l P st
      (if st.mSleepReq then hw.emitSys (.usleep 10000) else hw)).1 ≠ 0 := by
    rw [hW.1]; decide
  unfold AudioStreamInALSA.read
  simp only [hne, ne_eq, not_false_eq_true, if_true]
  refine ⟨_, rfl, ?_⟩
  unfold AudioStreamInALSA.readError
  refine ⟨rfl, ?_, ?_⟩
  · show (AudioStreamInALSA.standby _ _).1.mStandby = true
    rw [AudioStreamInALSA.in_standby_fst]; rfl
  · show (AudioStreamInALSA.standby _ _).1.mPcm = false
    rw [AudioStreamInALSA.in_standby_fst]; rfl

/-- C19: for an output or input stream in standby whose kernel PCM device cannot be opened
(no handle, or a handle that is not ready), `write` resp. `read` returns a negative error
status (`NO_INIT`, which is negative) instead of a byte count, and on return the stream is
in standby with no PCM handle. -/
theorem io_open_failure (P : Platform) (hneg : P.NO_INIT < 0) :
    (∀ (o : AudioStreamOutALSA) (hw : AudioHardware) (bytes : Nat) (pcmRet errno : Int),
      o.mStandby = true → hw.pcmOut ≠ .ready →
      (∃ e : Int, e < 0 ∧
        (AudioStreamOutALSA.write P o hw bytes pcmRet errno).1 = .status e) ∧
      (AudioStreamOutALSA.write P o hw bytes pcmRet errno).2.1.mStandby = true ∧
      (AudioStreamOutALSA.write P o hw bytes pcmRet errno).2.1.mPcm = false) ∧
    (∀ (st : AudioStreamInALSA) (hw : AudioHardware) (bytes : Nat) (prov : BufferProvider)
        (fuel : Nat),
      st.mStandby = true → hw.pcmIn ≠ .ready →
      ∃ res, AudioStreamInALSA.read P st hw bytes prov fuel = some res ∧
        (∃ e : Int, e < 0 ∧ res.1 = .status e) ∧
        res.2.1.mStandby = true ∧ res.2.1.mPcm = false) := by
  refine ⟨?_, ?_⟩
  · intro o hw bytes pcmRet errno hs hp
    obtain ⟨h1, h2, h3⟩ :=
      AudioStreamOutALSA.write_open_failure P o hw bytes pcmRet errno hs hp
    exact ⟨⟨P.NO_INIT, hneg, h1⟩, h2, h3⟩
  · intro st hw bytes prov fuel hs hp
    obtain ⟨res, h0, h1, h2, h3⟩ :=
      AudioStreamInALSA.read_open_failure_status P st hw bytes prov fuel hs hp
    exact ⟨res, h0, ⟨P.NO_INIT, hneg, h1⟩, h2, h3⟩

theorem io_open_failure_witness :
    gingerbread.NO_INIT < 0 ∧
    (AudioStreamOutALSA.write gingerbread (AudioStreamOutALSA.new gingerbread 1)
      brokenHardware 4096 0 0).2.1.mStandby = true ∧
    (∃ res, AudioStreamInALSA.read gingerbread (AudioStreamInALSA.new gingerbread 2)
      brokenHardware 4096 (rawProvider gingerbread fun _ => 0) 8 = some res ∧
      (∃ e : Int, e < 0 ∧ res.1 = .status e) ∧ res.2.1.mStandby = true ∧
      res.2.1.mPcm = false) :=
  ⟨by decide,
   ((io_open_failure gingerbread (by decide)).1 (AudioStreamOutALSA.new gingerbread 1)
      brokenHardware 4096 0 0 rfl (by decide)).2.1,
   (io_open_failure gingerbread (by decide)).2 (AudioStreamInALSA.new gingerbread 2)
      brokenHardware 4096 (rawProvider gingerbread fun _ => 0) 8 rfl (by decide)⟩

theorem sleepTime_eq_specSleep (b f s : Nat) (h1 : b * 1000 < U32)
    (h2 : b * 1000 / f * 1000 < U32) : sleepTime b f s = specSleep b f s := by
  unfold sleepTime specSleep
  rw [Nat.mod_eq_of_lt h1, Nat.mod_eq_of_lt h2]

theorem AudioStreamOutALSA.out_wakeUp_l_shape (P : Platform) (o : AudioStreamOutALSA)
    (hw : AudioHardware) :
    (AudioStreamOutALSA.wakeUp_l P o hw).2.1.mChannels = o.mChannels ∧
    (AudioStreamOutALSA.wakeUp_l P o hw).2.1.mSampleRate = o.mSampleRate := by
  cases hs : o.mStandby
  · unfold AudioStreamOutALSA.wakeUp_l
    simp [hs]
  · rw [(AudioStreamOutALSA.out_wakeUp_l_standby P o hw hs).2]
    exact ⟨rfl, rfl⟩

theorem AudioStreamInALSA.in_wakeUp_l_shape (P : Platform) (st : AudioStreamInALSA)
    (hw : AudioHardware) :
    (AudioStreamInALSA.wakeUp_l P st hw).2.1.mChannelCount = st.mChannelCount ∧
    (AudioStreamInALSA.wakeUp_l P st hw).2.1.mSampleRate = st.mSampleRate := by
  cases hs : st.mStandby
  · unfold AudioStreamInALSA.wakeUp_l
    simp [hs]
  · rw [(AudioStreamInALSA.in_wakeUp_l_standby P st hw hs).2]
    exact ⟨rfl, rfl⟩

theorem AudioStreamOutALSA.writeError_spec (P : Platform) (status : Int) (bytes : Nat)
    (o : AudioStreamOutALSA) (hw : AudioHardware) :
    (AudioStreamOutALSA.writeError P status bytes o hw).1 = .status status ∧
    (AudioStreamOutALSA.writeError P status bytes o hw).2.1 =
      AudioStreamOutALSA.stoodBy { o with mSleepReq := false } ∧
    (AudioStreamOutALSA.writeError P status bytes o hw).2.2.sys.getLast? =
      some (.usleep (sleepTime bytes (P.popCount o.mChannels * SIZEOF_INT16) o.mSampleRate)) := by
  refine ⟨rfl, AudioStreamOutALSA.out_standby_fst _ _, ?_⟩
  unfold AudioStreamOutALSA.writeError
  simp [AudioHardware.emitSys, AudioStreamOutALSA.frameSize, AudioStreamOutALSA.out_standby_fst,
    AudioStreamOutALSA.stoodBy]

theorem AudioStreamInALSA.readError_spec (status : Int) (bytes : Nat)
    (st : AudioStreamInALSA) (hw : AudioHardware) :
    (AudioStreamInALSA.readError status bytes st hw).1 = .status status ∧
    (AudioStreamInALSA.readError status bytes st hw).2.1 =
      AudioStreamInALSA.stoodBy { st with mSleepReq := false } ∧
    (AudioStreamInALSA.readError status bytes st hw).2.2.sys.getLast? =
      some (.usleep (sleepTime bytes (st.mChannelCount * SIZEOF_INT16 % U32) st.mSampleRate)) := by
  refine ⟨rfl, AudioStreamInALSA.in_standby_fst _ _, ?_⟩
  unfold AudioStreamInALSA.readError
  simp [AudioHardware.emitSys, AudioStreamInALSA.frameSize, AudioStreamInALSA.in_standby_fst,
    AudioStreamInALSA.stoodBy]

theorem AudioStreamOutALSA.write_failure (P : Platform) (o : AudioStreamOutALSA)
    (hw : AudioHardware) (bytes : Nat) (pcmRet errno : Int)
    (hf : ∃ e, (AudioStreamOutALSA.write P o hw bytes pcmRet errno).1 = .status e) :
    (AudioStreamOutALSA.write P o hw bytes pcmRet errno).2.1.mStandby = true ∧
    (AudioStreamOutALSA.write P o hw bytes pcmRet errno).2.1.mPcm = false ∧
    (AudioStreamOutALSA.write P o hw bytes pcmRet errno).2.2.sys.getLast? =
      some (.usleep (sleepTime bytes (AudioStreamOutALSA.frameSize P o) o.mSampleRate)) := by
  obtain ⟨e, he⟩ := hf
  have hsh := AudioStreamOutALSA.out_wakeUp_l_shape P o
    (if o.mSleepReq then hw.emitSys (.usleep 10000) else hw)
  unfold AudioStreamOutALSA.write at he ⊢
  dsimp only at he ⊢
  generalize (if o.mSleepReq then hw.emitSys (.usleep 10000) else hw) = hw0 at he hsh ⊢
  split_ifs at he ⊢ with h1 h2
  · obtain ⟨_, a2, a3⟩ := AudioStreamOutALSA.writeError_spec P P.NO_INIT bytes
      (AudioStreamOutALSA.wakeUp_l P o hw0).2.1 (AudioStreamOutALSA.wakeUp_l P o hw0).2.2
    rw [a2, a3, hsh.1, hsh.2]
    exact ⟨rfl, rfl, rfl⟩
  · obtain ⟨_, a2, a3⟩ := AudioStreamOutALSA.writeError_spec P (-errno) bytes
      (AudioStreamOutALSA.wakeUp_l P o hw0).2.1 (AudioStreamOutALSA.wakeUp_l P o hw0).2.2
    rw [a2, a3, hsh.1, hsh.2]
    exact ⟨rfl, rfl, rfl⟩

theorem gingerbread_popCount_stereo : gingerbread.popCount 0xC = 2 := by
  simp [gingerbread]

theorem AudioStreamInALSA.set_builtin (addr : Nat) :
    AudioStreamInALSA.set gingerbread (AudioStreamInALSA.new gingerbread addr) 0x40000 (some 1)
      (some 0xC) (some 44100) = (⟨0, some 1, some 0xC, some 44100⟩, openedInput addr) := by
  have hp2 : gingerbread.popCount 12 = 2 := gingerbread_popCount_stereo
  have hr : getInputSampleRate 44100 = 44100 := by decide
  have hb : getBufferSize gingerbread 44100 ((2 : Nat) : Int) = 4096 := by decide
  have h16 : gingerbread.PCM_16_BIT = 1 := rfl
  have hst : gingerbread.CHANNEL_IN_STEREO = 12 := rfl
  have hmo : gingerbread.CHANNEL_IN_MONO = 16 := rfl
  unfold AudioStreamInALSA.set
  simp only [hr, h16, hst, hmo, hp2, hb, ne_eq, not_true_eq_false, if_false,
    AUDIO_HW_IN_SAMPLERATE, NO_ERROR]
  simp [openedInput, AudioStreamInALSA.new, hst, NO_ERROR, AUDIO_HW_IN_SAMPLERATE]

/-- The facade `twoInputHardware` is what two calls of `openInputStream` make of the facade
`freshHardware`. -/
theorem twoInputHardware_opened :
    twoInputHardware =
      (AudioHardware.openInputStream gingerbread 3 0x40000 true (some 1) (some 0xC) (some 44100)
        (AudioHardware.openInputStream gingerbread 2 0x40000 true (some 1) (some 0xC)
          (some 44100) freshHardware).2).2 := by
  unfold AudioHardware.openInputStream
  simp only [AudioStreamInALSA.set_builtin, Bool.not_true, Bool.false_eq_true, if_false,
    if_true, NO_ERROR]
  rfl

theorem AudioStreamInALSA.read_open_failure (P : Platform) (st : AudioStreamInALSA)
    (hw : AudioHardware) (bytes : Nat) (prov : BufferProvider) (fuel : Nat)
    (hs : st.mStandby = true) (hp : hw.pcmIn ≠ .ready) :
    ∃ res, AudioStreamInALSA.read P st hw bytes prov fuel = some res ∧
      res.1 = .status P.NO_INIT ∧ res.2.1.mStandby = true ∧
      res.2.2.sys.getLast? =
        some (.usleep (sleepTime bytes (AudioStreamInALSA.frameSize st) st.mSampleRate)) := by
  have hw0 : (if st.mSleepReq then hw.emitSys (.usleep 10000) else hw).pcmIn = hw.pcmIn := by
    split_ifs <;> rfl
  have hW := AudioStreamInALSA.in_wakeUp_l_standby P st
    (if st.mSleepReq then hw.emitSys (.usleep 10000) else hw) hs
  have hsh := AudioStreamInALSA.in_wakeUp_l_shape P st
    (if st.mSleepReq then hw.emitSys (.usleep 10000) else hw)
  rw [hw0, if_neg hp] at hW
  have hne : (AudioStreamInALSA.wakeUp_l P st
      (if st.mSleepReq then hw.emitSys (.usleep 10000) else hw)).1 ≠ 0 := by
    rw [hW.1]; decide
  unfold AudioStreamInALSA.read
  simp only [hne, ne_eq, not_false_eq_true, if_true]
  refine ⟨_, rfl, ?_⟩
  obtain ⟨a1, a2, a3⟩ := AudioStreamInALSA.readError_spec P.NO_INIT bytes
    (AudioStreamInALSA.wakeUp_l P st
      (if st.mSleepReq then hw.emitSys (.usleep 10000) else hw)).2.1
    (AudioStreamInALSA.wakeUp_l P st
      (if st.mSleepReq then hw.emitSys (.usleep 10000) else hw)).2.2
  rw [a1, a2, a3, hsh.1, hsh.2]
  exact ⟨rfl, rfl, rfl⟩

theorem AudioStreamInALSA.read_transfer_failure (P : Platform) (st : AudioStreamInALSA)
    (hw : AudioHardware) (bytes : Nat) (pcmReads : Nat → Int) (fuel : Nat)
    (hs : st.mStandby = false) (hpcm : st.mPcm = true) (hret : pcmReads 0 ≠ 0)
    (hfr : 0 < bytes / AudioStreamInALSA.frameSize st) :
    ∃ res, AudioStreamInALSA.read P st hw bytes (rawProvider P pcmReads) (fuel + 1) =
        some res ∧
      res.1 = .status (pcmReads 0) ∧ res.2.1.mStandby = true ∧
      res.2.2.sys.getLast? = some (.usleep 0) := by
  have hw1 : ∀ h0 : AudioHardware, AudioStreamInALSA.wakeUp_l P st h0 = (0, st, h0) := by
    intro h0
    unfold AudioStreamInALSA.wakeUp_l
    simp [hs]
  have hfr0 : ¬ bytes / AudioStreamInALSA.frameSize st = 0 := by omega
  have hloop : AudioStreamInALSA.readLoop (rawProvider P pcmReads)
      (bytes / AudioStreamInALSA.frameSize st) (fuel + 1) 0 0 { st with mReadStatus := 0 } =
      some (0, pcmReads 0, { st with mReadStatus := pcmReads 0 }) := by
    unfold AudioStreamInALSA.readLoop rawProvider AudioStreamInALSA.getNextBuffer
    simp [hpcm, hret, hfr0]
  unfold AudioStreamInALSA.read
  simp only [hw1, ne_eq, not_true_eq_false, if_false, hloop]
  simp only [hret, if_false]
  refine ⟨_, rfl, ?_⟩
  obtain ⟨a1, a2, a3⟩ := AudioStreamInALSA.readError_spec (pcmReads 0)
    (0 * AudioStreamInALSA.frameSize { st with mReadStatus := pcmReads 0 } % U32)
    { st with mReadStatus := pcmReads 0 }
    (if st.mSleepReq then hw.emitSys (.usleep 10000) else hw)
  rw [a1, a2, a3]
  refine ⟨rfl, rfl, ?_⟩
  simp [sleepTime]

/-- C20: the statement holds for `write` and for a `read` whose device cannot be opened,
and fails for a `read` whose driver transfer returns an error.  A failing `write` leaves
the stream in standby and sleeps `((b * 1000 / f) * 1000) / s` microseconds in 32-bit
arithmetic, which is floor(floor(b * 1000 / f) * 1000 / s) when the products fit 32 bits,
and so does a `read` of a stream in standby whose device does not open.  But `read`
overwrites `bytes` with the number of bytes transferred before it tests the result, so
when the first transfer of an active stream fails the sleep lasts 0 microseconds whatever
byte count was requested. -/
theorem error_sleep_duration (P : Platform) :
    (∀ (o : AudioStreamOutALSA) (hw : AudioHardware) (bytes : Nat) (pcmRet errno : Int),
      (∃ e, (AudioStreamOutALSA.write P o hw bytes pcmRet errno).1 = .status e) →
      (AudioStreamOutALSA.write P o hw bytes pcmRet errno).2.1.mStandby = true ∧
      (AudioStreamOutALSA.write P o hw bytes pcmRet errno).2.2.sys.getLast? =
        some (.usleep (sleepTime bytes (AudioStreamOutALSA.frameSize P o) o.mSampleRate))) ∧
    (∀ b f s : Nat, b * 1000 < U32 → b * 1000 / f * 1000 < U32 →
      sleepTime b f s = specSleep b f s) ∧
    (∀ (st : AudioStreamInALSA) (hw : AudioHardware) (bytes : Nat) (prov : BufferProvider)
        (fuel : Nat), st.mStandby = true → hw.pcmIn ≠ .ready →
      ∃ res, AudioStreamInALSA.read P st hw bytes prov fuel = some res ∧
        res.2.1.mStandby = true ∧
        res.2.2.sys.getLast? =
          some (.usleep (sleepTime bytes (AudioStreamInALSA.frameSize st) st.mSampleRate))) ∧
    (∀ (st : AudioStreamInALSA) (hw : AudioHardware) (bytes : Nat) (pcmReads : Nat → Int)
        (fuel : Nat), st.mStandby = false → st.mPcm = true → pcmReads 0 ≠ 0 →
        0 < bytes / AudioStreamInALSA.frameSize st →
      ∃ res, AudioStreamInALSA.read P st hw bytes (rawProvider P pcmReads) (fuel + 1) =
          some res ∧
        res.1 = .status (pcmReads 0) ∧ res.2.1.mStandby = true ∧
        res.2.2.sys.getLast? = some (.usleep 0)) := by
  refine ⟨?_, ?_, ?_, ?_⟩
  · intro o hw bytes pcmRet errno hf
    obtain ⟨h1, _, h3⟩ := AudioStreamOutALSA.write_failure P o hw bytes pcmRet errno hf
    exact ⟨h1, h3⟩
  · intro b f s h1 h2
    exact sleepTime_eq_specSleep b f s h1 h2
  · intro st hw bytes prov fuel hs hp
    obtain ⟨res, h1, _, h3, h4⟩ :=
      AudioStreamInALSA.read_open_failure P st hw bytes prov fuel hs hp
    exact ⟨res, h1, h3, h4⟩
  · intro st hw bytes pcmReads fuel hs hpcm hret hfr
    exact AudioStreamInALSA.read_transfer_failure P st hw bytes pcmReads fuel hs hpcm hret hfr

theorem error_sleep_duration_witness :
    AudioStreamInALSA.frameSize busyInput = 4 ∧ busyInput.mSampleRate = 44100 ∧
    specSleep 4096 4 44100 = 23219 ∧
    (∃ res, AudioStreamInALSA.read gingerbread busyInput busyHardware 4096
        (rawProvider gingerbread fun _ => -5) 1 = some res ∧
      res.1 = .status (-5) ∧ res.2.1.mStandby = true ∧
      res.2.2.sys.getLast? = some (.usleep 0)) ∧
    (AudioStreamOutALSA.write gingerbread (AudioStreamOutALSA.new gingerbread 1)
      brokenHardware 4096 0 0).2.2.sys.getLast? = some (.usleep 23219) :=
  have hsl : sleepTime 4096 (AudioStreamOutALSA.frameSize gingerbread
      (AudioStreamOutALSA.new gingerbread 1)) (AudioStreamOutALSA.new gingerbread 1).mSampleRate
      = 23219 := by
    show sleepTime 4096 (gingerbread.popCount 0xC * SIZEOF_INT16) 44100 = 23219
    rw [gingerbread_popCount_stereo]
    decide
  ⟨by decide, rfl, by decide,
   (error_sleep_duration gingerbread).2.2.2 busyInput busyHardware 4096 (fun _ => -5) 0 rfl rfl
     (by decide) (by decide),
   hsl ▸ ((error_sleep_duration gingerbread).1 (AudioStreamOutALSA.new gingerbread 1)
     brokenHardware 4096 0 0
     ⟨gingerbread.NO_INIT, (AudioStreamOutALSA.write_open_failure gingerbread
       (AudioStreamOutALSA.new gingerbread 1) brokenHardware 4096 0 0 rfl (by decide)).1⟩).2⟩

theorem toU32_of_nonneg (n : Int) (h0 : 0 ≤ n) (h1 : n < 2 ^ 32) : (toU32 n : Int) = n := by
  unfold toU32
  simp only [U32]
  omega

theorem toI32_of_lt (u : Nat) (h : u < 2 ^ 31) : toI32 u = u := by
  unfold toI32
  simp only [U32]
  have : u % 2 ^ 32 = u := Nat.mod_eq_of_lt (by omega)
  rw [this, if_pos h]

theorem wrapI32_of_nonneg (n : Int) (h0 : 0 ≤ n) (h1 : n < 2 ^ 31) : wrapI32 n = n := by
  unfold wrapI32
  have h := toU32_of_nonneg n h0 (by omega)
  rw [toI32_of_lt _ (by omega), h]

theorem resample_441_320_counts (n : Int) (h0 : 23 ≤ n) (h1 : n < 2 ^ 31) :
    (n < 464 → resample_441_320 n = (0, n)) ∧
    (464 ≤ n → resample_441_320 n = (320 * ((n - 23) / 441), n - 441 * ((n - 23) / 441))) := by
  have hO : OVERLAP_16KHZ = 23 := by decide
  have hu := toU32_of_nonneg n (by omega) (by omega)
  have e1 : ((toU32 n + U32 - 23) % U32 : Nat) = toU32 n - 23 := by
    simp only [U32]; omega
  have e2 : toI32 ((toU32 n - 23) / 441) = (n - 23) / 441 := by
    rw [toI32_of_lt _ (by omega)]; omega
  refine ⟨fun h => ?_, fun h => ?_⟩
  · unfold resample_441_320
    simp only [hO, e1, e2]
    rw [if_pos (by omega)]
  · unfold resample_441_320
    simp only [hO, e1, e2]
    rw [if_neg (by omega)]
    have hk0 : 1 ≤ (n - 23) / 441 := by omega
    have hk1 : 441 * ((n - 23) / 441) ≤ n - 23 := by omega
    have w1 : wrapI32 ((n - 23) / 441 * (441 : Nat)) = 441 * ((n - 23) / 441) := by
      rw [wrapI32_of_nonneg _ (by push_cast; omega) (by push_cast; omega)]
      push_cast; ring
    have w2 : wrapI32 ((320 : Nat) * ((n - 23) / 441)) = 320 * ((n - 23) / 441) := by
      rw [wrapI32_of_nonneg _ (by push_cast; omega) (by push_cast; omega)]
      push_cast; ring
    rw [w1, w2, wrapI32_of_nonneg _ (by omega) (by omega)]

/-- The counts the down-sampler hands to `resample_441_320` are not below 23: a period of
1024 frames leaves 503 samples after one 2:1 stage and 242 after two, and a call with at
least 23 samples leaves at least 23 in its buffer for the next call. -/
theorem resample_441_320_keeps_overlap :
    (resample_2_1 1024).1 = 503 ∧ (resample_2_1 503).1 = 242 ∧
    (∀ n : Int, 23 ≤ n → n < 2 ^ 31 → 23 ≤ (resample_441_320 n).2) := by
  refine ⟨by decide, by decide, ?_⟩
  intro n h1 h2
  have h := resample_441_320_counts n h1 h2
  by_cases hn : n < 464
  · rw [h.1 hn]; exact h1
  · rw [h.2 (by omega)]
    show 23 ≤ n - 441 * ((n - 23) / 441)
    omega

theorem stageLoop_unfold (m ch fuel rate idx : Nat) (buf : List Int) (st : List Stage) :
    stageLoop m ch (fuel + 1) ⟨rate, idx, buf, st⟩ =
      if rate > m then
        match buf[idx]?, buf[idx + 1]? with
        | some samplesIn, some inNext =>
          if 2 * m % U32 ≤ rate then
            stageLoop m ch fuel ⟨rate / 2, idx + 1,
              (buf.set idx (if ch = 2 then (resample_2_1 samplesIn).2
                else (resample_2_1 samplesIn).2)).set (idx + 1)
                (wrapI32 (inNext + (resample_2_1 samplesIn).1)), st ++ [.half]⟩
          else
            stageLoop m ch fuel ⟨rate * 320 % U32 / 441, idx + 1,
              (buf.set idx (if ch = 2 then (resample_441_320 samplesIn).2
                else (resample_441_320 samplesIn).2)).set (idx + 1)
                (wrapI32 (inNext + (resample_441_320 samplesIn).1)), st ++ [.ratio441to320]⟩
        | _, _ => .outOfBounds
      else .done ⟨rate, idx, buf, st⟩ := by
  rw [stageLoop]

theorem stageLoop_22050 (ch fuel : Nat) (a b c d : Int) :
    ∃ s, stageLoop 22050 ch (fuel + 4)
        { sampleRate := 44100, bufIdx := 0, mInTmpBuf := [a, b, c, d], stages := [] } =
        .done s ∧ s.sampleRate = 22050 ∧ s.stages = [.half] ∧ s.bufIdx = 1 ∧
        s.mInTmpBuf.length = 4 := by
  have e0 : (44100 : Nat) / 2 = 22050 := by decide
  have c0 : (44100 : Nat) > 22050 := by decide
  have k0 : 2 * 22050 % U32 ≤ 44100 := by decide
  have cz : ¬ (22050 : Nat) > 22050 := by decide
  rw [stageLoop_unfold, if_pos c0]
  simp only [List.set_cons_zero, List.set_cons_succ, List.getElem?_cons_zero,
    List.getElem?_cons_succ, Nat.zero_add, Nat.reduceAdd, if_pos k0, e0]
  rw [stageLoop_unfold, if_neg cz]
  exact ⟨_, rfl, rfl, rfl, rfl, rfl⟩

theorem stageLoop_16000 (ch fuel : Nat) (a b c d : Int) :
    ∃ s, stageLoop 16000 ch (fuel + 4)
        { sampleRate := 44100, bufIdx := 0, mInTmpBuf := [a, b, c, d], stages := [] } =
        .done s ∧ s.sampleRate = 16000 ∧ s.stages = [.half, .ratio441to320] ∧ s.bufIdx = 2 ∧
        s.mInTmpBuf.length = 4 := by
  have e0 : (44100 : Nat) / 2 = 22050 := by decide
  have c0 : (44100 : Nat) > 16000 := by decide
  have k0 : 2 * 16000 % U32 ≤ 44100 := by decide
  have e1 : (22050 : Nat) * 320 % U32 / 441 = 16000 := by decide
  have c1 : (22050 : Nat) > 16000 := by decide
  have k1 : ¬ 2 * 16000 % U32 ≤ 22050 := by decide
  have cz : ¬ (16000 : Nat) > 16000 := by decide
  rw [stageLoop_unfold, if_pos c0]
  simp only [List.set_cons_zero, List.set_cons_succ, List.getElem?_cons_zero,
    List.getElem?_cons_succ, Nat.zero_add, Nat.reduceAdd, if_pos k0, e0]
  rw [stageLoop_unfold, if_pos c1]
  simp only [List.set_cons_zero, List.set_cons_succ, List.getElem?_cons_zero,
    List.getElem?_cons_succ, Nat.zero_add, Nat.reduceAdd, if_neg k1, e1]
  rw [stageLoop_unfold, if_neg cz]
  exact ⟨_, rfl, rfl, rfl, rfl, rfl⟩

theorem stageLoop_11025 (ch fuel : Nat) (a b c d : Int) :
    ∃ s, stageLoop 11025 ch (fuel + 4)
        { sampleRate := 44100, bufIdx := 0, mInTmpBuf := [a, b, c, d], stages := [] } =
        .done s ∧ s.sampleRate = 11025 ∧ s.stages = [.half, .half] ∧ s.bufIdx = 2 ∧
        s.mInTmpBuf.length = 4 := by
  have e0 : (44100 : Nat) / 2 = 22050 := by decide
  have c0 : (44100 : Nat) > 11025 := by decide
  have k0 : 2 * 11025 % U32 ≤ 44100 := by decide
  have e1 : (22050 : Nat) / 2 = 11025 := by decide
  have c1 : (22050 : Nat) > 11025 := by decide
  have k1 : 2 * 11025 % U32 ≤ 22050 := by decide
  have cz : ¬ (11025 : Nat) > 11025 := by decide
  rw [stageLoop_unfold, if_pos c0]
  simp only [List.set_cons_zero, List.set_cons_succ, List.getElem?_cons_zero,
    List.getElem?_cons_succ, Nat.zero_add, Nat.reduceAdd, if_pos k0, e0]
  rw [stageLoop_unfold, if_pos c1]
  simp only [List.set_cons_zero, List.set_cons_succ, List.getElem?_cons_zero,
    List.getElem?_cons_succ, Nat.zero_add, Nat.reduceAdd, if_pos k1, e1]
  rw [stageLoop_unfold, if_neg cz]
  exact ⟨_, rfl, rfl, rfl, rfl, rfl⟩

theorem stageLoop_8000 (ch fuel : Nat) (a b c d : Int) :
    ∃ s, stageLoop 8000 ch (fuel + 4)
        { sampleRate := 44100, bufIdx := 0, mInTmpBuf := [a, b, c, d], stages := [] } =
        .done s ∧ s.sampleRate = 8000 ∧ s.stages = [.half, .half, .ratio441to320] ∧ s.bufIdx = 3 ∧
        s.mInTmpBuf.length = 4 := by
  have e0 : (44100 : Nat) / 2 = 22050 := by decide
  have c0 : (44100 : Nat) > 8000 := by decide
  have k0 : 2 * 8000 % U32 ≤ 44100 := by decide
  have e1 : (22050 : Nat) / 2 = 11025 := by decide
  have c1 : (22050 : Nat) > 8000 := by decide
  have k1 : 2 * 8000 % U32 ≤ 22050 := by decide
  have e2 : (11025 : Nat) * 320 % U32 / 441 = 8000 := by decide
  have c2 : (11025 : Nat) > 8000 := by decide
  have k2 : ¬ 2 * 8000 % U32 ≤ 11025 := by decide
  have cz : ¬ (8000 : Nat) > 8000 := by decide
  rw [stageLoop_unfold, if_pos c0]
  simp only [List.set_cons_zero, List.set_cons_succ, List.getElem?_cons_zero,
    List.getElem?_cons_succ, Nat.zero_add, Nat.reduceAdd, if_pos k0, e0]
  rw [stageLoop_unfold, if_pos c1]
  simp only [List.set_cons_zero, List.set_cons_succ, List.getElem?_cons_zero,
    List.getElem?_cons_succ, Nat.zero_add, Nat.reduceAdd, if_pos k1, e1]
  rw [stageLoop_unfold, if_pos c2]
  simp only [List.set_cons_zero, List.set_cons_succ, List.getElem?_cons_zero,
    List.getElem?_cons_succ, Nat.zero_add, Nat.reduceAdd, if_neg k2, e2]
  rw [stageLoop_unfold, if_neg cz]
  exact ⟨_, rfl, rfl, rfl, rfl, rfl⟩

/-- C27: for each supported target rate the stage loop of the down-sampler, started at
44100 with buffer index 0 and any fill counts in its four work buffers, ends normally with
the running rate equal to the target, after the stages [2:1] for 22050, [2:1, 441:320] for
16000, [2:1, 2:1] for 11025 and [2:1, 2:1, 441:320] for 8000; it runs at most three stages,
ends with a buffer index of at most 3 and never reads or writes a buffer outside
`mTmpBuf[0..3]`.  The constructor reports `NO_ERROR` for these four rates and `NO_INIT`
for every other rate. -/
theorem downSampler_stage_sequences (P : Platform) (ch fc fuel : Nat) (buf : List Int)
    (hlen : buf.length = 4) (hfuel : 4 ≤ fuel) :
    (∃ s, stageLoop 22050 ch fuel ⟨44100, 0, buf, []⟩ = .done s ∧ s.sampleRate = 22050 ∧
      s.stages = [.half] ∧ s.bufIdx = 1 ∧ s.mInTmpBuf.length = 4) ∧
    (∃ s, stageLoop 16000 ch fuel ⟨44100, 0, buf, []⟩ = .done s ∧ s.sampleRate = 16000 ∧
      s.stages = [.half, .ratio441to320] ∧ s.bufIdx = 2 ∧ s.mInTmpBuf.length = 4) ∧
    (∃ s, stageLoop 11025 ch fuel ⟨44100, 0, buf, []⟩ = .done s ∧ s.sampleRate = 11025 ∧
      s.stages = [.half, .half] ∧ s.bufIdx = 2 ∧ s.mInTmpBuf.length = 4) ∧
    (∃ s, stageLoop 8000 ch fuel ⟨44100, 0, buf, []⟩ = .done s ∧ s.sampleRate = 8000 ∧
      s.stages = [.half, .half, .ratio441to320] ∧ s.bufIdx = 3 ∧
      s.mInTmpBuf.length = 4) ∧
    (∀ t, (t = 22050 ∨ t = 16000 ∨ t = 11025 ∨ t = 8000) →
      (DownSampler.new P t ch fc).initCheck = NO_ERROR) ∧
    (∀ t, ¬ (t = 22050 ∨ t = 16000 ∨ t = 11025 ∨ t = 8000) →
      (DownSampler.new P t ch fc).initCheck = P.NO_INIT) := by
  obtain ⟨n, rfl⟩ : ∃ n, fuel = n + 4 := ⟨fuel - 4, by omega⟩
  obtain ⟨a, b, c, d, rfl⟩ : ∃ a b c d, buf = [a, b, c, d] := by
    match buf, hlen with
    | [a, b, c, d], _ => exact ⟨a, b, c, d, rfl⟩
  refine ⟨stageLoop_22050 ch n a b c d, stageLoop_16000 ch n a b c d,
    stageLoop_11025 ch n a b c d, stageLoop_8000 ch n a b c d, ?_, ?_⟩
  · intro t ht
    unfold DownSampler.initCheck DownSampler.new
    dsimp only
    rw [if_neg (by omega)]
  · intro t ht
    unfold DownSampler.initCheck DownSampler.new
    dsimp only
    rw [if_pos (by omega)]

theorem downSampler_stage_sequences_witness :
    ([1024, 0, 0, 0] : List Int).length = 4 ∧ 4 ≤ 4 ∧
    ∃ s, stageLoop 8000 2 4 ⟨44100, 0, [1024, 0, 0, 0], []⟩ = .done s ∧
      s.sampleRate = 8000 ∧ s.stages = [.half, .half, .ratio441to320] ∧ s.bufIdx = 3 ∧
      s.mInTmpBuf.length = 4 :=
  ⟨rfl, le_refl 4,
    (downSampler_stage_sequences gingerbread 2 1024 4 [1024, 0, 0, 0] rfl (le_refl 4)).2.2.2.1⟩

theorem tdiv_two_avg (l r : Int) (hl : -32768 ≤ l ∧ l ≤ 32767) (hr : -32768 ≤ r ∧ r ≤ 32767) :
    min l r ≤ (l + r).tdiv 2 ∧ (l + r).tdiv 2 ≤ max l r ∧
      -32768 ≤ (l + r).tdiv 2 ∧ (l + r).tdiv 2 ≤ 32767 := by
  rcases le_or_lt 0 (l + r) with h | h
  · rw [Int.tdiv_eq_ediv h (by decide)]
    omega
  · have e : (l + r).tdiv 2 = -((-(l + r)) / 2) := by
      rw [← Int.tdiv_eq_ediv (by omega) (by decide), Int.neg_tdiv, neg_neg]
    rw [e]
    omega

theorem toI16_of_range (x : Int) (h : -32768 ≤ x ∧ x ≤ 32767) : toI16 x = x := by
  unfold toI16
  omega

theorem getD_range (samples : List Int) (h : ∀ x ∈ samples, -32768 ≤ x ∧ x ≤ 32767) (k : Nat) :
    -32768 ≤ samples.getD k 0 ∧ samples.getD k 0 ≤ 32767 := by
  rw [List.getD_eq_getElem?_getD]
  rcases lt_or_le k samples.length with hk | hk
  · rw [List.getElem?_eq_getElem hk]
    exact h _ (List.getElem_mem _)
  · rw [List.getElem?_eq_none hk]
    exact ⟨by decide, by decide⟩

theorem mixLoop_length (n : Nat) (inp : List Int) : (mixLoop n inp).length = n := by
  simp [mixLoop]

theorem mixLoop_getD (n : Nat) (inp : List Int) (i : Nat) (hi : i < n) :
    (mixLoop n inp).getD i 0 = toI16 ((inp.getD (2 * i) 0 + inp.getD (2 * i + 1) 0).tdiv 2) := by
  simp [mixLoop, List.getD_eq_getElem?_getD, hi]

/-- C28: the channel mixer's constructor reports `NO_ERROR` for 2 input channels and 1
output channel and `NO_INIT` for every other pair of channel counts; when the upstream
provider delivers `n` stereo frames of 16-bit samples, `getNextBuffer` returns `NO_ERROR`
with `n` frames and writes exactly `n` samples, sample `i` being `(L_i + R_i) / 2` with the
division truncating toward zero, which lies between the smaller and the larger of the two
and in the 16-bit range; and a non-zero upstream status is returned unchanged. -/
theorem channelMixer_average (P : Platform) :
    (∀ out ch fc prov,
      (out = 1 ∧ ch = 2 → (ChannelMixer.new P out ch fc prov).initCheck = NO_ERROR) ∧
      (¬ (out = 1 ∧ ch = 2) → (ChannelMixer.new P out ch fc prov).initCheck = P.NO_INIT)) ∧
    (∀ (m : ChannelMixer) (req n : Nat) (samples : List Int)
        (up : Nat → Int × Nat × List Int),
      m.mProvider = true → up req = (0, n, samples) →
      (∀ x ∈ samples, -32768 ≤ x ∧ x ≤ 32767) →
      (m.getNextBuffer P req up).1 = NO_ERROR ∧ (m.getNextBuffer P req up).2.1 = n ∧
      (m.getNextBuffer P req up).2.2.length = n ∧
      ∀ i < n,
        (m.getNextBuffer P req up).2.2.getD i 0 =
          (samples.getD (2 * i) 0 + samples.getD (2 * i + 1) 0).tdiv 2 ∧
        min (samples.getD (2 * i) 0) (samples.getD (2 * i + 1) 0) ≤
          (m.getNextBuffer P req up).2.2.getD i 0 ∧
        (m.getNextBuffer P req up).2.2.getD i 0 ≤
          max (samples.getD (2 * i) 0) (samples.getD (2 * i + 1) 0) ∧
        -32768 ≤ (m.getNextBuffer P req up).2.2.getD i 0 ∧
        (m.getNextBuffer P req up).2.2.getD i 0 ≤ 32767) ∧
    (∀ (m : ChannelMixer) (req : Nat) (up : Nat → Int × Nat × List Int),
      m.mProvider = true → (up req).1 ≠ 0 →
      (m.getNextBuffer P req up).1 = (up req).1) ∧
    mixLoop 3 [-3, 0, 32767, 32767, -32768, -32768] = [-1, 32767, -32768] := by
  refine ⟨?_, ?_, ?_, by decide⟩
  · intro out ch fc prov
    unfold ChannelMixer.initCheck ChannelMixer.new
    dsimp only
    constructor
    · intro h
      rw [if_neg (by omega)]
    · intro h
      rw [if_pos (by omega)]
  · intro m req n samples up hp hu hr
    have e : m.getNextBuffer P req up = (NO_ERROR, n, mixLoop n samples) := by
      unfold ChannelMixer.getNextBuffer
      simp [hp, hu]
    rw [e]
    refine ⟨rfl, rfl, mixLoop_length _ _, ?_⟩
    intro i hi
    have ha := tdiv_two_avg _ _ (getD_range samples hr (2 * i)) (getD_range samples hr (2 * i + 1))
    show (mixLoop n samples).getD i 0 = _ ∧ _ ≤ (mixLoop n samples).getD i 0 ∧
      (mixLoop n samples).getD i 0 ≤ _ ∧ _ ≤ (mixLoop n samples).getD i 0 ∧
      (mixLoop n samples).getD i 0 ≤ _
    rw [mixLoop_getD n samples i hi, toI16_of_range _ ⟨ha.2.2.1, ha.2.2.2⟩]
    exact ⟨rfl, ha⟩
  · intro m req up hp hu
    unfold ChannelMixer.getNextBuffer
    simp [hp, hu]

theorem getOutputRouteFromDevice_table (P : Platform) (hnd : P.outLabels.Nodup) (d : Nat) :
    (d = P.DEVICE_OUT_EARPIECE → getOutputRouteFromDevice P d = BIT ENDPOINT_RCV) ∧
    (d = P.DEVICE_OUT_SPEAKER →
      getOutputRouteFromDevice P d = BIT ENDPOINT_AMP ||| BIT ENDPOINT_SPK) ∧
    (d = P.DEVICE_OUT_WIRED_HEADPHONE ∨ d = P.DEVICE_OUT_WIRED_HEADSET →
      getOutputRouteFromDevice P d = BIT ENDPOINT_AMP ||| BIT ENDPOINT_HP) ∧
    (d = (P.DEVICE_OUT_SPEAKER ||| P.DEVICE_OUT_WIRED_HEADPHONE) ∨
        d = (P.DEVICE_OUT_SPEAKER ||| P.DEVICE_OUT_WIRED_HEADSET) →
      getOutputRouteFromDevice P d =
        BIT ENDPOINT_AMP ||| BIT ENDPOINT_SPK ||| BIT ENDPOINT_HP) ∧
    (d = P.DEVICE_OUT_BLUETOOTH_SCO ∨ d = P.DEVICE_OUT_BLUETOOTH_SCO_HEADSET ∨
        d = P.DEVICE_OUT_BLUETOOTH_SCO_CARKIT →
      getOutputRouteFromDevice P d = BIT ENDPOINT_BT) ∧
    (d ∉ P.outLabels → getOutputRouteFromDevice P d = 0) := by
  have hnr := List.nodup_reverse.mpr hnd
  simp only [Platform.outLabels, List.nodup_cons, List.mem_cons, List.mem_singleton,
    List.not_mem_nil, or_false, not_or, List.nodup_nil, and_true, List.reverse_cons,
    List.reverse_nil, List.nil_append, List.cons_append, not_false_eq_true] at hnd hnr
  unfold getOutputRouteFromDevice
  refine ⟨?_, ?_, ?_, ?_, ?_, ?_⟩
  · rintro rfl
    simp [hnd, hnr]
  · rintro rfl
    simp [hnd, hnr]
  · intro h
    rcases h with rfl | rfl <;> simp [hnd, hnr]
  · intro h
    rcases h with rfl | rfl <;> simp [hnd, hnr]
  · intro h
    rcases h with rfl | rfl | rfl <;> simp [hnd, hnr]
  · intro h
    simp only [Platform.outLabels, List.mem_cons, List.mem_singleton, List.not_mem_nil,
      or_false, not_or] at h
    simp [h]

theorem AudioStreamOutALSA.open_l_router (P : Platform) (o : AudioStreamOutALSA)
    (hw : AudioHardware) :
    (hw.pcmOut = .ready →
      (open_l P o hw).1 = NO_ERROR ∧ (open_l P o hw).2.1.mPcm = true ∧
      (hw.mMode ≠ P.MODE_IN_CALL →
        (open_l P o hw).2.2.mRouter =
          AudioRouter.setAudioRoute .ROUTE_OUTPUT (getOutputRouteFromDevice P o.mDevices)
            hw.mRouter) ∧
      (hw.mMode = P.MODE_IN_CALL → (open_l P o hw).2.2.mRouter = hw.mRouter)) ∧
    (hw.pcmOut ≠ .ready →
      (open_l P o hw).1 = P.NO_INIT ∧ (open_l P o hw).2.1.mPcm = false ∧
      (open_l P o hw).2.2.mRouter = hw.mRouter) := by
  unfold open_l
  cases hp : hw.pcmOut
  · exact ⟨fun h => (by cases h), fun _ => ⟨rfl, rfl, rfl⟩⟩
  · exact ⟨fun h => (by cases h), fun _ => ⟨rfl, rfl, rfl⟩⟩
  · refine ⟨fun _ => ?_, fun h => absurd rfl h⟩
    by_cases hm : hw.mMode ≠ P.MODE_IN_CALL
    · dsimp only
      rw [if_pos hm]
      exact ⟨rfl, rfl, fun _ => rfl, fun h => absurd h hm⟩
    · dsimp only
      rw [if_neg hm]
      exact ⟨rfl, rfl, fun h => absurd h hm, fun _ => rfl⟩

/-- C25: an open of the output PCM device that succeeds outside in-call mode sets the
OUTPUT mask to the endpoint set of the stream's device value (RCV for the earpiece, AMP and
SPK for the speaker, AMP and HP for wired headphone or headset, AMP, SPK and HP for the
speaker combined with either, BT for the three SCO devices and 0 for any other value, the
case labels being pairwise distinct); in in-call mode the open leaves the router and so the
OUTPUT mask untouched; every `doStandby_l` and `standby` of the output stream sets the
OUTPUT mask to 0, and `doStandby_l` and `standby` of an input stream leave the router and
so the INPUT mask unchanged. -/
theorem output_mask_tracks_stream (P : Platform) (o : AudioStreamOutALSA)
    (st : AudioStreamInALSA) (hw : AudioHardware) :
    (hw.pcmOut = .ready → hw.mMode ≠ P.MODE_IN_CALL →
      (AudioStreamOutALSA.open_l P o hw).1 = NO_ERROR ∧
      (AudioStreamOutALSA.open_l P o hw).2.2.mRouter.mRoute .ROUTE_OUTPUT =
        getOutputRouteFromDevice P o.mDevices) ∧
    (P.outLabels.Nodup →
      (o.mDevices = P.DEVICE_OUT_EARPIECE →
        getOutputRouteFromDevice P o.mDevices = BIT ENDPOINT_RCV) ∧
      (o.mDevices = P.DEVICE_OUT_SPEAKER →
        getOutputRouteFromDevice P o.mDevices = BIT ENDPOINT_AMP ||| BIT ENDPOINT_SPK) ∧
      (o.mDevices = P.DEVICE_OUT_WIRED_HEADPHONE ∨ o.mDevices = P.DEVICE_OUT_WIRED_HEADSET →
        getOutputRouteFromDevice P o.mDevices = BIT ENDPOINT_AMP ||| BIT ENDPOINT_HP) ∧
      (o.mDevices = (P.DEVICE_OUT_SPEAKER ||| P.DEVICE_OUT_WIRED_HEADPHONE) ∨
          o.mDevices = (P.DEVICE_OUT_SPEAKER ||| P.DEVICE_OUT_WIRED_HEADSET) →
        getOutputRouteFromDevice P o.mDevices =
          BIT ENDPOINT_AMP ||| BIT ENDPOINT_SPK ||| BIT ENDPOINT_HP) ∧
      (o.mDevices = P.DEVICE_OUT_BLUETOOTH_SCO ∨
          o.mDevices = P.DEVICE_OUT_BLUETOOTH_SCO_HEADSET ∨
          o.mDevices = P.DEVICE_OUT_BLUETOOTH_SCO_CARKIT →
        getOutputRouteFromDevice P o.mDevices = BIT ENDPOINT_BT) ∧
      (o.mDevices ∉ P.outLabels → getOutputRouteFromDevice P o.mDevices = 0)) ∧
    (hw.mMode = P.MODE_IN_CALL →
      (AudioStreamOutALSA.open_l P o hw).2.2.mRouter = hw.mRouter ∧
      (AudioStreamOutALSA.open_l P o hw).2.2.mRouter.mRoute .ROUTE_OUTPUT =
        hw.mRouter.mRoute .ROUTE_OUTPUT) ∧
    (AudioStreamOutALSA.doStandby_l o hw).1.mStandby = true ∧
    (AudioStreamOutALSA.doStandby_l o hw).2.mRouter.mRoute .ROUTE_OUTPUT = 0 ∧
    (AudioStreamOutALSA.standby o hw).2.mRouter.mRoute .ROUTE_OUTPUT = 0 ∧
    (AudioStreamInALSA.doStandby_l st hw).1.mStandby = true ∧
    (AudioStreamInALSA.doStandby_l st hw).2.mRouter = hw.mRouter ∧
    (AudioStreamInALSA.standby st hw).2.mRouter = hw.mRouter ∧
    (AudioStreamInALSA.doStandby_l st hw).2.mRouter.mRoute .ROUTE_INPUT =
      hw.mRouter.mRoute .ROUTE_INPUT := by
  have hz : ∀ o : AudioStreamOutALSA,
      (AudioStreamOutALSA.doStandby_l o hw).2.mRouter.mRoute .ROUTE_OUTPUT = 0 := by
    intro o
    rw [(AudioStreamOutALSA.out_doStandby_l_snd o hw).2,
      (AudioRouter.setAudioRoute_fields _ _ _).1, Function.update_same]
  refine ⟨?_, fun h => getOutputRouteFromDevice_table P h o.mDevices, ?_, ?_, hz o, hz _, ?_,
    (AudioStreamInALSA.in_doStandby_l_snd st hw).2,
    (AudioStreamInALSA.in_doStandby_l_snd _ hw).2, ?_⟩
  · intro hp hm
    obtain ⟨h1, _, h3, _⟩ := (AudioStreamOutALSA.open_l_router P o hw).1 hp
    rw [h3 hm, (AudioRouter.setAudioRoute_fields _ _ _).1, Function.update_same]
    exact ⟨h1, rfl⟩
  · intro hm
    have e : (AudioStreamOutALSA.open_l P o hw).2.2.mRouter = hw.mRouter := by
      by_cases hp : hw.pcmOut = .ready
      · exact ((AudioStreamOutALSA.open_l_router P o hw).1 hp).2.2.2 hm
      · exact ((AudioStreamOutALSA.open_l_router P o hw).2 hp).2.2
    exact ⟨e, by rw [e]⟩
  · rw [AudioStreamOutALSA.out_doStandby_l_fst]; rfl
  · rw [AudioStreamInALSA.in_doStandby_l_fst]; rfl
  · rw [(AudioStreamInALSA.in_doStandby_l_snd st hw).2]

theorem gingerbread_outLabels_nodup : gingerbread.outLabels.Nodup := by decide

theorem toU32_natCast (n : Nat) (h : n < U32) : toU32 (n : Int) = n := by
  unfold toU32
  have : ((n : Int) % ((U32 : Nat) : Int)) = (n : Int) := Int.emod_eq_of_lt (by omega) (by omega)
  rw [this]
  rfl

theorem AudioParameter.getInt_number (o : Nat) (v : Int) :
    AudioParameter.getInt ⟨some (.number v), o⟩ = some v := rfl

theorem AudioParameter.getInt_none (param : AudioParameter)
    (h : ∀ v, param.routing ≠ some (.number v)) : param.getInt = none := by
  obtain ⟨r, o⟩ := param
  match r, h with
  | none, _ => rfl
  | some .notNumber, _ => rfl
  | some (.number v), h => exact absurd rfl (h v)

theorem AudioParameter.size_remove (param : AudioParameter) :
    param.remove.size = param.others := by
  simp [AudioParameter.remove, AudioParameter.size]

theorem AudioParameter.size_eq_zero (param : AudioParameter) :
    param.size = 0 ↔ param.routing = none ∧ param.others = 0 := by
  obtain ⟨r, o⟩ := param
  cases r <;> simp [AudioParameter.size]

theorem AudioStreamOutALSA.out_setParameters_number (P : Platform) (o : AudioStreamOutALSA)
    (hw : AudioHardware) (n : Nat) (v : Int) :
    setParameters P o hw ⟨some (.number v), n⟩ =
      (if n ≠ 0 then P.BAD_VALUE else NO_ERROR,
        (if v ≠ 0 then
          (if o.mDevices ≠ toU32 v ∧ hw.mMode ≠ P.MODE_IN_CALL then
            { (stoodBy { o with mSleepReq := false }) with mDevices := toU32 v }
          else { o with mSleepReq := false, mDevices := toU32 v })
        else { o with mSleepReq := false }),
        (if v ≠ 0 then
          (if hw.mMode = P.MODE_IN_CALL then (AudioHardware.setIncallPath P (toU32 v) hw).2
          else if o.mDevices ≠ toU32 v then (doStandby_l { o with mSleepReq := false } hw).2
          else hw)
        else hw),
        ⟨none, n⟩) := by
  unfold setParameters
  rw [AudioParameter.getInt_number]
  dsimp only
  have es : (AudioParameter.remove ⟨some (.number v), n⟩) = ⟨none, n⟩ := rfl
  have ez : AudioParameter.size ⟨none, n⟩ = n := by simp [AudioParameter.size]
  rw [es, ez]
  by_cases hv : v ≠ 0
  · simp only [hv, if_true, ne_eq, not_false_eq_true]
    by_cases hm : hw.mMode = P.MODE_IN_CALL
    · simp [hm]
    · by_cases hd : o.mDevices = toU32 v
      · simp [hm, hd]
      · have hs := (out_doStandby_l_snd { o with mSleepReq := false } hw).1.mMode
        have hm2 : ¬ (doStandby_l { o with mSleepReq := false } hw).2.mMode =
            P.MODE_IN_CALL := by
          rw [hs]; exact hm
        simp [hm, hd, hm2, out_doStandby_l_fst]
  · have hv0 : v = 0 := not_not.mp hv
    simp [hv0]

theorem AudioStreamInALSA.in_setParameters_number (P : Platform) (st : AudioStreamInALSA)
    (hw : AudioHardware) (n : Nat) (v : Int) :
    setParameters P st hw ⟨some (.number v), n⟩ =
      (if n ≠ 0 then P.BAD_VALUE else NO_ERROR,
        (if v ≠ 0 then
          (if st.mDevices ≠ toU32 v then
            { (stoodBy { st with mSleepReq := false }) with mDevices := toU32 v }
          else { st with mSleepReq := false, mDevices := toU32 v })
        else { st with mSleepReq := false }),
        (if v ≠ 0 ∧ st.mDevices ≠ toU32 v then (doStandby_l { st with mSleepReq := false } hw).2
        else hw),
        ⟨none, n⟩) := by
  unfold setParameters
  rw [AudioParameter.getInt_number]
  dsimp only
  have es : (AudioParameter.remove ⟨some (.number v), n⟩) = ⟨none, n⟩ := rfl
  have ez : AudioParameter.size ⟨none, n⟩ = n := by simp [AudioParameter.size]
  rw [es, ez]
  by_cases hv : v ≠ 0
  · by_cases hd : st.mDevices = toU32 v
    · simp [hv, hd]
    · simp [hv, hd, in_doStandby_l_fst]
  · have hv0 : v = 0 := not_not.mp hv
    simp [hv0]

theorem AudioStreamOutALSA.out_setParameters_other (P : Platform) (o : AudioStreamOutALSA)
    (hw : AudioHardware) (param : AudioParameter) (h : ∀ v, param.routing ≠ some (.number v)) :
    setParameters P o hw param =
      (if param.size ≠ 0 then P.BAD_VALUE else NO_ERROR, { o with mSleepReq := false }, hw,
        param) := by
  unfold setParameters
  rw [AudioParameter.getInt_none param h]

theorem AudioStreamInALSA.in_setParameters_other (P : Platform) (st : AudioStreamInALSA)
    (hw : AudioHardware) (param : AudioParameter) (h : ∀ v, param.routing ≠ some (.number v)) :
    setParameters P st hw param =
      (if param.size ≠ 0 then P.BAD_VALUE else NO_ERROR, { st with mSleepReq := false }, hw,
        param) := by
  unfold setParameters
  rw [AudioParameter.getInt_none param h]

/-- C26, amended: for every parameter bag, `setParameters` of an output or input stream
returns `NO_ERROR` exactly when the bag holds no key other than a routing key with an
integer value, and `BAD_VALUE` otherwise.  A routing key with integer value `v` is always
removed from the bag; when `v` is non-zero the stream's device becomes `v` (as
`uint32_t`), whatever the status, and when `v` is 0 the stream, apart from the cleared
`mSleepReq`, and the facade are unchanged.  The stream is forced to standby exactly when
`v` is non-zero, differs from the previous device and, for the output stream, the mode is
not in-call; in in-call mode the output stream forwards a non-zero `v` to `setIncallPath`.
A bag without an integer routing value changes neither stream nor facade. -/
theorem setParameters_routing (P : Platform) (o : AudioStreamOutALSA)
    (st : AudioStreamInALSA) (hw : AudioHardware) (param : AudioParameter) :
    ((param.others = 0 ∧ param.routing ≠ some .notNumber →
        (o.setParameters P hw param).1 = NO_ERROR ∧
        (st.setParameters P hw param).1 = NO_ERROR) ∧
      (¬ (param.others = 0 ∧ param.routing ≠ some .notNumber) →
        (o.setParameters P hw param).1 = P.BAD_VALUE ∧
        (st.setParameters P hw param).1 = P.BAD_VALUE)) ∧
    (∀ v : Int, param.routing = some (.number v) →
      ((o.setParameters P hw param).2.2.2 = ⟨none, param.others⟩ ∧
        (st.setParameters P hw param).2.2.2 = ⟨none, param.others⟩) ∧
      (0 ≤ v → v < 2 ^ 32 → (toU32 v : Int) = v) ∧
      (v ≠ 0 →
        (o.setParameters P hw param).2.1.mDevices = toU32 v ∧
        (st.setParameters P hw param).2.1.mDevices = toU32 v) ∧
      (v = 0 →
        (o.setParameters P hw param).2.1 = { o with mSleepReq := false } ∧
        (o.setParameters P hw param).2.2.1 = hw ∧
        (st.setParameters P hw param).2.1 = { st with mSleepReq := false } ∧
        (st.setParameters P hw param).2.2.1 = hw) ∧
      (v ≠ 0 ∧ o.mDevices ≠ toU32 v ∧ hw.mMode ≠ P.MODE_IN_CALL →
        (o.setParameters P hw param).2.1 =
          { (AudioStreamOutALSA.stoodBy { o with mSleepReq := false }) with
            mDevices := toU32 v } ∧
        (o.setParameters P hw param).2.2.1 =
          (AudioStreamOutALSA.doStandby_l { o with mSleepReq := false } hw).2 ∧
        (o.setParameters P hw param).2.1.mStandbyCnt = wrapI32 (o.mStandbyCnt + 1) ∧
        (o.setParameters P hw param).2.1.mStandby = true) ∧
      (¬ (v ≠ 0 ∧ o.mDevices ≠ toU32 v ∧ hw.mMode ≠ P.MODE_IN_CALL) →
        (o.setParameters P hw param).2.1.mStandbyCnt = o.mStandbyCnt ∧
        (o.setParameters P hw param).2.1.mStandby = o.mStandby ∧
        (o.setParameters P hw param).2.1.mPcm = o.mPcm ∧
        (hw.mMode ≠ P.MODE_IN_CALL → (o.setParameters P hw param).2.2.1 = hw)) ∧
      (v ≠ 0 → hw.mMode = P.MODE_IN_CALL →
        (o.setParameters P hw param).2.2.1 =
          (AudioHardware.setIncallPath P (toU32 v) hw).2) ∧
      (v ≠ 0 ∧ st.mDevices ≠ toU32 v →
        (st.setParameters P hw param).2.1 =
          { (AudioStreamInALSA.stoodBy { st with mSleepReq := false }) with
            mDevices := toU32 v } ∧
        (st.setParameters P hw param).2.2.1 =
          (AudioStreamInALSA.doStandby_l { st with mSleepReq := false } hw).2 ∧
        (st.setParameters P hw param).2.1.mStandbyCnt = wrapI32 (st.mStandbyCnt + 1) ∧
        (st.setParameters P hw param).2.1.mStandby = true) ∧
      (¬ (v ≠ 0 ∧ st.mDevices ≠ toU32 v) →
        (st.setParameters P hw param).2.1.mStandbyCnt = st.mStandbyCnt ∧
        (st.setParameters P hw param).2.1.mStandby = st.mStandby ∧
        (st.setParameters P hw param).2.1.mPcm = st.mPcm ∧
        (st.setParameters P hw param).2.2.1 = hw)) ∧
    ((∀ v : Int, param.routing ≠ some (.number v)) →
      (o.setParameters P hw param).2 = ({ o with mSleepReq := false }, hw, param) ∧
      (st.setParameters P hw param).2 = ({ st with mSleepReq := false }, hw, param)) := by
  refine ⟨?_, ?_, ?_⟩
  · obtain ⟨r, n⟩ := param
    match r with
    | some (.number v) =>
      rw [AudioStreamOutALSA.out_setParameters_number, AudioStreamInALSA.in_setParameters_number]
      constructor
      · rintro ⟨h, -⟩
        dsimp only at h
        simp [h]
      · intro h
        have hn : n ≠ 0 := fun e => h ⟨e, by simp⟩
        simp [hn]
    | some .notNumber =>
      rw [AudioStreamOutALSA.out_setParameters_other _ _ _ _ (by simp),
        AudioStreamInALSA.in_setParameters_other _ _ _ _ (by simp)]
      constructor
      · rintro ⟨-, h⟩
        exact absurd rfl h
      · intro _
        simp [AudioParameter.size]
    | none =>
      rw [AudioStreamOutALSA.out_setParameters_other _ _ _ _ (by simp),
        AudioStreamInALSA.in_setParameters_other _ _ _ _ (by simp)]
      constructor
      · rintro ⟨h, -⟩
        dsimp only at h
        simp [AudioParameter.size, h]
      · intro h
        have hn : n ≠ 0 := fun e => h ⟨e, by simp⟩
        simp [AudioParameter.size, hn]
  · intro v hv
    obtain ⟨r, n⟩ := param
    dsimp only at hv
    subst hv
    rw [AudioStreamOutALSA.out_setParameters_number, AudioStreamInALSA.in_setParameters_number]
    dsimp only
    refine ⟨⟨rfl, rfl⟩, ?_, ?_, ?_, ?_, ?_, ?_, ?_, ?_⟩
    · intro h0 h1
      unfold toU32
      have : v % ((U32 : Nat) : Int) = v := Int.emod_eq_of_lt h0 (by simpa using h1)
      rw [this]
      exact Int.toNat_of_nonneg h0
    · intro h
      rw [if_pos h, if_pos h]
      constructor <;> split_ifs <;> rfl
    · intro h
      rw [if_neg (not_not.mpr h), if_neg (not_not.mpr h), if_neg (not_not.mpr h),
        if_neg (fun k => k.1 h)]
      exact ⟨rfl, rfl, rfl, rfl⟩
    · rintro ⟨h1, h2, h3⟩
      rw [if_pos h1, if_pos h1, if_pos ⟨h2, h3⟩, if_neg h3, if_pos h2]
      exact ⟨rfl, rfl, rfl, rfl⟩
    · intro h
      by_cases h1 : v ≠ 0
      · rw [if_pos h1, if_pos h1, if_neg (fun k => h ⟨h1, k.1, k.2⟩)]
        refine ⟨rfl, rfl, rfl, ?_⟩
        intro hm
        rw [if_neg hm, if_neg (fun k => h ⟨h1, k, hm⟩)]
      · rw [if_neg h1, if_neg h1]
        exact ⟨rfl, rfl, rfl, fun _ => rfl⟩
    · intro h1 hm
      rw [if_pos h1, if_pos hm]
    · rintro ⟨h1, h2⟩
      rw [if_pos h1, if_pos h2, if_pos ⟨h1, h2⟩]
      exact ⟨rfl, rfl, rfl, rfl⟩
    · intro h
      rw [if_neg h]
      by_cases h1 : v ≠ 0
      · rw [if_pos h1, if_neg (fun k => h ⟨h1, k⟩)]
        exact ⟨rfl, rfl, rfl, rfl⟩
      · rw [if_neg h1]
        exact ⟨rfl, rfl, rfl, rfl⟩
  · intro h
    rw [AudioStreamOutALSA.out_setParameters_other _ _ _ _ h,
      AudioStreamInALSA.in_setParameters_other _ _ _ _ h]
    exact ⟨rfl, rfl⟩

/-- The claim C26 fails for a bag whose only entry is a routing key with a value that is
not an integer: no key other than the routing key is there, `getInt` fails, the key is not
removed, and both streams answer `BAD_VALUE` (-22), not `NO_ERROR`. -/
theorem setParameters_text_routing_counterexample :
    (⟨some .notNumber, 0⟩ : AudioParameter).others = 0 ∧
    ((AudioStreamOutALSA.new gingerbread 1).setParameters gingerbread freshHardware
      ⟨some .notNumber, 0⟩).1 = -22 ∧
    ((AudioStreamInALSA.new gingerbread 2).setParameters gingerbread freshHardware
      ⟨some .notNumber, 0⟩).1 = -22 ∧
    ((AudioStreamOutALSA.new gingerbread 1).setParameters gingerbread freshHardware
      ⟨some .notNumber, 0⟩).1 ≠ NO_ERROR ∧
    ((AudioStreamInALSA.new gingerbread 2).setParameters gingerbread freshHardware
      ⟨some .notNumber, 0⟩).1 ≠ NO_ERROR :=
  ⟨rfl, rfl, rfl, by decide, by decide⟩

theorem wakeBalance_append (tag : String) (a b : List SysCall) :
    wakeBalance tag (a ++ b) = wakeBalance tag a + wakeBalance tag b := by
  simp only [wakeBalance, List.count_append, Nat.cast_add]
  omega

namespace AudioHardware

theorem SysFrame.frame_refl (hw : AudioHardware) : SysFrame hw hw 0 0 :=
  ⟨rfl, rfl, rfl, rfl, by simp, by simp⟩

theorem SysFrame.frame_trans {a b c : AudioHardware} {d1 e1 d2 e2 : Int}
    (h1 : SysFrame a b d1 e1) (h2 : SysFrame b c d2 e2) : SysFrame a c (d1 + d2) (e1 + e2) :=
  ⟨h2.mOutput.trans h1.mOutput, h2.mInputs.trans h1.mInputs, h2.pcmOut.trans h1.pcmOut,
    h2.pcmIn.trans h1.pcmIn,
    by rw [h2.out, h1.out]; omega, by rw [h2.inp, h1.inp]; omega⟩

theorem SysFrame.frame_cast {a b : AudioHardware} {d1 e1 d2 e2 : Int} (h : SysFrame a b d1 e1)
    (hd : d1 = d2) (he : e1 = e2) : SysFrame a b d2 e2 := by
  subst hd; subst he; exact h

theorem emitSys_frame (hw : AudioHardware) (c : SysCall) :
    SysFrame hw (hw.emitSys c) (wakeBalance "AudioOutLock" [c]) (wakeBalance "AudioInLock" [c]) :=
  ⟨rfl, rfl, rfl, rfl, wakeBalance_append _ _ _, wakeBalance_append _ _ _⟩

theorem setAudioRoute_frame (type : RouteType) (route : Nat) (hw : AudioHardware) :
    SysFrame hw (hw.setAudioRoute type route) 0 0 :=
  ⟨rfl, rfl, rfl, rfl, by simp [setAudioRoute], by simp [setAudioRoute]⟩

end AudioHardware

theorem AudioStreamOutALSA.out_close_l_frame (o : AudioStreamOutALSA) (hw : AudioHardware) :
    AudioHardware.SysFrame hw (close_l o hw).2 0 0 := by
  unfold close_l
  cases o.mPcm
  · exact AudioHardware.setAudioRoute_frame _ _ hw
  · exact ((AudioHardware.setAudioRoute_frame _ _ hw).frame_trans
      (AudioHardware.emitSys_frame _ _)).frame_cast (by decide) (by decide)

theorem AudioStreamOutALSA.out_open_l_frame (P : Platform) (o : AudioStreamOutALSA)
    (hw : AudioHardware) : AudioHardware.SysFrame hw (open_l P o hw).2.2 0 0 := by
  unfold open_l
  have h1 := AudioHardware.emitSys_frame hw (.pcm_open .PCM_OUT)
  cases hp : hw.pcmOut
  · exact h1.frame_cast (by decide) (by decide)
  · exact (h1.frame_trans (AudioHardware.emitSys_frame _ (.pcm_close .PCM_OUT))).frame_cast
      (by decide) (by decide)
  · dsimp only
    split_ifs
    · exact (h1.frame_trans (AudioHardware.setAudioRoute_frame _ _ _)).frame_cast
        (by decide) (by decide)
    · exact h1.frame_cast (by decide) (by decide)

theorem AudioStreamOutALSA.out_doStandby_l_frame (o : AudioStreamOutALSA) (hw : AudioHardware) :
    AudioHardware.SysFrame hw (doStandby_l o hw).2 (if o.mStandby then 0 else -1) 0 := by
  unfold doStandby_l
  cases hs : o.mStandby
  · simp only [Bool.not_false, if_true, Bool.false_eq_true, if_false]
    exact ((AudioHardware.emitSys_frame hw _).frame_trans (out_close_l_frame _ _)).frame_cast
      (by decide) (by decide)
  · simp only [Bool.not_true, Bool.false_eq_true, if_false, if_true]
    exact out_close_l_frame _ _

theorem AudioStreamOutALSA.out_wakeUpEnd_frame (o : AudioStreamOutALSA) (hw : AudioHardware) :
    AudioHardware.SysFrame hw (wakeUpEnd o hw).2.2 (if o.mPcm then 0 else -1) 0 := by
  unfold wakeUpEnd
  cases o.mPcm
  · exact (AudioHardware.emitSys_frame hw _).frame_cast (by decide) (by decide)
  · exact AudioHardware.SysFrame.frame_refl hw

theorem AudioStreamInALSA.in_close_l_frame (st : AudioStreamInALSA) (hw : AudioHardware) :
    AudioHardware.SysFrame hw (close_l st hw).2 0 0 := by
  unfold close_l
  cases st.mPcm
  · exact AudioHardware.SysFrame.frame_refl hw
  · exact (AudioHardware.emitSys_frame _ _).frame_cast (by decide) (by decide)

theorem AudioStreamInALSA.in_open_l_frame (P : Platform) (st : AudioStreamInALSA)
    (hw : AudioHardware) : AudioHardware.SysFrame hw (open_l P st hw).2.2 0 0 := by
  unfold open_l
  have h1 := AudioHardware.emitSys_frame hw (.pcm_open .PCM_IN)
  cases hp : hw.pcmIn
  · exact h1.frame_cast (by decide) (by decide)
  · exact (h1.frame_trans (AudioHardware.emitSys_frame _ (.pcm_close .PCM_IN))).frame_cast
      (by decide) (by decide)
  · exact (h1.frame_trans (AudioHardware.setAudioRoute_frame _ _ _)).frame_cast
      (by decide) (by decide)

theorem AudioStreamInALSA.in_doStandby_l_frame (st : AudioStreamInALSA) (hw : AudioHardware) :
    AudioHardware.SysFrame hw (doStandby_l st hw).2 0 (if st.mStandby then 0 else -1) := by
  unfold doStandby_l
  cases hs : st.mStandby
  · simp only [Bool.not_false, if_true, Bool.false_eq_true, if_false]
    exact ((AudioHardware.emitSys_frame hw _).frame_trans (in_close_l_frame _ _)).frame_cast
      (by decide) (by decide)
  · simp only [Bool.not_true, Bool.false_eq_true, if_false, if_true]
    exact in_close_l_frame _ _

theorem AudioStreamInALSA.in_wakeUpEnd_frame (st : AudioStreamInALSA) (hw : AudioHardware) :
    AudioHardware.SysFrame hw (wakeUpEnd st hw).2.2 0 (if st.mPcm then 0 else -1) := by
  unfold wakeUpEnd
  cases st.mPcm
  · exact (AudioHardware.emitSys_frame hw _).frame_cast (by decide) (by decide)
  · exact AudioHardware.SysFrame.frame_refl hw

namespace AudioHardware

theorem SysFrame.toOut {a b : AudioHardware} {d e : Int} (h : SysFrame a b d e) :
    OutFrame a b d := ⟨h.mOutput, h.pcmOut, h.pcmIn, h.out⟩

theorem SysFrame.toIn {a b : AudioHardware} {d e : Int} (h : SysFrame a b d e) :
    InFrame a b e := ⟨h.mInputs, h.pcmOut, h.pcmIn, h.inp⟩

theorem OutFrame.out_trans {a b c : AudioHardware} {d1 d2 : Int} (h1 : OutFrame a b d1)
    (h2 : OutFrame b c d2) : OutFrame a c (d1 + d2) :=
  ⟨h2.mOutput.trans h1.mOutput, h2.pcmOut.trans h1.pcmOut, h2.pcmIn.trans h1.pcmIn, by rw [h2.out, h1.out]; omega⟩

theorem InFrame.in_trans {a b c : AudioHardware} {d1 d2 : Int} (h1 : InFrame a b d1)
    (h2 : InFrame b c d2) : InFrame a c (d1 + d2) :=
  ⟨h2.mInputs.trans h1.mInputs, h2.pcmOut.trans h1.pcmOut, h2.pcmIn.trans h1.pcmIn, by rw [h2.inp, h1.inp]; omega⟩

theorem OutFrame.out_cast {a b : AudioHardware} {d1 d2 : Int} (h : OutFrame a b d1)
    (hd : d1 = d2) : OutFrame a b d2 := by
  subst hd; exact h

theorem InFrame.in_cast {a b : AudioHardware} {d1 d2 : Int} (h : InFrame a b d1)
    (hd : d1 = d2) : InFrame a b d2 := by
  subst hd; exact h

theorem OutFrame.set_inputs (hw : AudioHardware) (l : List AudioStreamInALSA) :
    OutFrame hw { hw with mInputs := l } 0 := ⟨rfl, rfl, rfl, by simp⟩

theorem InFrame.set_output (hw : AudioHardware) (o : Option AudioStreamOutALSA) :
    InFrame hw { hw with mOutput := o } 0 := ⟨rfl, rfl, rfl, by simp⟩

theorem InSide.in_of_frame {a b : AudioHardware} (h : InSide a) (f : InFrame a b 0) : InSide b := by
  unfold InSide activeInputs at h ⊢
  rw [f.inp, f.mInputs]
  exact ⟨by simpa using h.1, h.2⟩

theorem OutSide.out_of_frame {a b : AudioHardware} (h : OutSide a) (f : OutFrame a b 0) :
    OutSide b := by
  unfold OutSide at h ⊢
  rw [f.out, f.mOutput]
  exact ⟨by simpa using h.1, h.2⟩

end AudioHardware

theorem mem_of_getElem_some {α : Type} {l : List α} {i : Nat} {a : α} (h : l[i]? = some a) :
    a ∈ l := by
  obtain ⟨hlt, rfl⟩ := List.getElem?_eq_some.mp h
  exact List.getElem_mem _

theorem countP_set_active (l : List AudioStreamInALSA) (i : Nat) (st x : AudioStreamInALSA)
    (h : l[i]? = some st) :
    (((l.set i x).countP fun s => !s.mStandby : Nat) : Int) =
      (l.countP fun s => !s.mStandby : Nat) + (if x.mStandby then 0 else 1) -
        (if st.mStandby then 0 else 1) := by
  induction l generalizing i with
  | nil => simp at h
  | cons a t ih =>
    cases i with
    | zero =>
      simp only [List.getElem?_cons_zero, Option.some.injEq] at h
      subst h
      simp only [List.set_cons_zero, List.countP_cons]
      cases a.mStandby <;> cases x.mStandby <;> simp
    | succ n =>
      simp only [List.getElem?_cons_succ] at h
      have := ih n h
      simp only [List.set_cons_succ, List.countP_cons]
      push_cast
      omega

namespace AudioHardware

/-- Writing an input stream back to its place keeps the input half of the invariant when
the balance moved with the stream's state. -/
theorem InSide.in_store {a b : AudioHardware} {d : Int} (h : InSide a) (f : InFrame a b d)
    (i : Nat) (st x : AudioStreamInALSA) (hi : a.mInputs[i]? = some st)
    (hd : d = (if x.mStandby then 0 else 1) - (if st.mStandby then 0 else 1))
    (hx : x.mStandby = false → x.mPcm = true) :
    InSide { b with mInputs := b.mInputs.set i x } := by
  unfold InSide activeInputs at h ⊢
  refine ⟨?_, ?_⟩
  · show wakeBalance "AudioInLock" b.sys = _
    rw [f.inp, f.mInputs, h.1, countP_set_active _ i st x hi, hd]
    omega
  · intro y hy
    rcases List.mem_or_eq_of_mem_set hy with hm | rfl
    · exact h.2 y (f.mInputs ▸ hm)
    · exact hx

/-- Writing the output stream back to its slot keeps the output half of the invariant
when the balance moved with the stream's state. -/
theorem OutSide.out_store {a b : AudioHardware} {d : Int} (h : OutSide a) (f : OutFrame a b d)
    (o x : AudioStreamOutALSA) (ho : a.mOutput = some o)
    (hd : d = (if x.mStandby then 0 else 1) - (if o.mStandby then 0 else 1))
    (hx : x.mStandby = false → x.mPcm = true) :
    OutSide { b with mOutput := some x } := by
  unfold OutSide at h ⊢
  refine ⟨?_, ?_⟩
  · show wakeBalance "AudioOutLock" b.sys = _
    rw [f.out, h.1, ho, hd]
    simp only
    omega
  · intro y hy
    simp only [Option.some.injEq] at hy
    subst hy
    exact hx

end AudioHardware

theorem AudioStreamInALSA.in_open_l_status (P : Platform) (st : AudioStreamInALSA)
    (hw : AudioHardware) :
    (open_l P st hw).1 = (if hw.pcmIn = .ready then NO_ERROR else P.NO_INIT) := by
  unfold open_l
  cases hw.pcmIn <;> rfl

theorem AudioStreamOutALSA.out_open_l_status (P : Platform) (o : AudioStreamOutALSA)
    (hw : AudioHardware) :
    (open_l P o hw).1 = (if hw.pcmOut = .ready then NO_ERROR else P.NO_INIT) := by
  unfold open_l
  cases hw.pcmOut
  · rfl
  · rfl
  · dsimp only
    rw [if_pos rfl]
    split_ifs <;> rfl

/-- Re-opening an active input stream after a hand-off, and forcing it to standby when
the open fails. -/
theorem AudioStreamInALSA.in_reopen (P : Platform) (hP : P.NO_INIT ≠ NO_ERROR)
    (x : AudioStreamInALSA) (hx : x.mStandby = false) (hw : AudioHardware) :
    AudioHardware.SysFrame hw
      (if (open_l P x hw).1 ≠ NO_ERROR then doStandby_l (open_l P x hw).2.1 (open_l P x hw).2.2
        else ((open_l P x hw).2.1, (open_l P x hw).2.2)).2 0
      ((if (if (open_l P x hw).1 ≠ NO_ERROR then
          doStandby_l (open_l P x hw).2.1 (open_l P x hw).2.2
        else ((open_l P x hw).2.1, (open_l P x hw).2.2)).1.mStandby then 0 else 1) - 1) ∧
    ((if (open_l P x hw).1 ≠ NO_ERROR then doStandby_l (open_l P x hw).2.1 (open_l P x hw).2.2
        else ((open_l P x hw).2.1, (open_l P x hw).2.2)).1.mStandby = false →
      (if (open_l P x hw).1 ≠ NO_ERROR then doStandby_l (open_l P x hw).2.1 (open_l P x hw).2.2
        else ((open_l P x hw).2.1, (open_l P x hw).2.2)).1.mPcm = true) := by
  have fo := in_open_l_frame P x hw
  have es := in_open_l_status P x hw
  have e1 := (in_open_l_fst P x hw).1
  by_cases hr : hw.pcmIn = .ready
  · rw [if_pos hr] at es
    have hn : ¬ (open_l P x hw).1 ≠ NO_ERROR := not_not.mpr es
    rw [if_neg hn, e1]
    simp only [hx, hr, decide_True, Bool.false_eq_true, if_false]
    exact ⟨fo.frame_cast rfl (by decide), fun _ => trivial⟩
  · rw [if_neg hr] at es
    have hn : (open_l P x hw).1 ≠ NO_ERROR := by rw [es]; exact hP
    rw [if_pos hn, in_doStandby_l_fst]
    have fd := in_doStandby_l_frame (open_l P x hw).2.1 (open_l P x hw).2.2
    have hs : (open_l P x hw).2.1.mStandby = false := by rw [e1]; exact hx
    rw [hs] at fd
    refine ⟨(fo.frame_trans fd).frame_cast (by decide) ?_, ?_⟩
    · simp [stoodBy]
    · intro h
      simp [stoodBy] at h

/-- The facade after `wakeUp_l` of the output stream: the balance of "AudioOutLock" grows
by one exactly when a stream in standby opened its device, and the input half of the
invariant is kept by the hand-off. -/
theorem AudioStreamOutALSA.out_wakeUp_l_frame (P : Platform) (hP : P.NO_INIT ≠ NO_ERROR)
    (o : AudioStreamOutALSA) (hw : AudioHardware) :
    AudioHardware.OutFrame hw (wakeUp_l P o hw).2.2
      (if o.mStandby then (if hw.pcmOut = .ready then 1 else 0) else 0) ∧
    (hw.InSide → (wakeUp_l P o hw).2.2.InSide) := by
  unfold wakeUp_l
  cases hs : o.mStandby
  · simp only [Bool.not_false, if_true]
    exact ⟨(AudioHardware.SysFrame.frame_refl hw).toOut.out_cast (by simp), fun h => h⟩
  · simp only [Bool.not_true, Bool.false_eq_true, if_false, if_true]
    have f1 := AudioHardware.emitSys_frame hw (.acquire_wake_lock "AudioOutLock")
    have plain : AudioHardware.OutFrame hw
          (wakeUpEnd (open_l P o (hw.emitSys (.acquire_wake_lock "AudioOutLock"))).2.1
            (open_l P o (hw.emitSys (.acquire_wake_lock "AudioOutLock"))).2.2).2.2
          (if hw.pcmOut = .ready then 1 else 0) ∧
        (hw.InSide →
          (wakeUpEnd (open_l P o (hw.emitSys (.acquire_wake_lock "AudioOutLock"))).2.1
            (open_l P o (hw.emitSys (.acquire_wake_lock "AudioOutLock"))).2.2).2.2.InSide) := by
      have f2 := out_open_l_frame P o (hw.emitSys (.acquire_wake_lock "AudioOutLock"))
      have f3 := out_wakeUpEnd_frame
        (open_l P o (hw.emitSys (.acquire_wake_lock "AudioOutLock"))).2.1
        (open_l P o (hw.emitSys (.acquire_wake_lock "AudioOutLock"))).2.2
      have e : (open_l P o (hw.emitSys (.acquire_wake_lock "AudioOutLock"))).2.1.mPcm =
          decide (hw.pcmOut = .ready) := by
        rw [(out_open_l_fst P o (hw.emitSys (.acquire_wake_lock "AudioOutLock"))).1]
        rfl
      rw [e] at f3
      have ff := (f1.frame_trans f2).frame_trans f3
      refine ⟨ff.toOut.out_cast ?_, fun h => h.in_of_frame (ff.toIn.in_cast (by decide))⟩
      by_cases hr : hw.pcmOut = .ready <;> simp [hr, wakeBalance]
    cases hg : (hw.emitSys (.acquire_wake_lock "AudioOutLock")).getInput with
    | none =>
      dsimp only
      exact plain
    | some i =>
      simp only
      cases hi : (hw.emitSys (.acquire_wake_lock "AudioOutLock")).mInputs[i]? with
      | none =>
      dsimp only
      exact plain
      | some spIn =>
        simp only
        obtain ⟨st0, hst0, hact⟩ := AudioHardware.getInput_some _ i hg
        rw [hi] at hst0
        cases hst0
        have fc := AudioStreamInALSA.in_close_l_frame
          (AudioStreamInALSA.lock (AudioStreamInALSA.prepareLock spIn).2)
          (hw.emitSys (.acquire_wake_lock "AudioOutLock"))
        have ec := (AudioStreamInALSA.in_close_l_snd
          (AudioStreamInALSA.lock (AudioStreamInALSA.prepareLock spIn).2)
          (hw.emitSys (.acquire_wake_lock "AudioOutLock"))).1
        generalize AudioStreamInALSA.close_l
          (AudioStreamInALSA.lock (AudioStreamInALSA.prepareLock spIn).2)
          (hw.emitSys (.acquire_wake_lock "AudioOutLock")) = c at fc ec ⊢
        have hc1 : c.1.mStandby = false := by rw [ec]; exact hact
        have fr := out_open_l_frame P o c.2
        have er : (open_l P o c.2).2.1.mPcm = decide (hw.pcmOut = .ready) := by
          rw [(out_open_l_fst P o c.2).1]
          show decide (c.2.pcmOut = .ready) = _
          rw [fc.pcmOut]
          rfl
        generalize open_l P o c.2 = r at fr er ⊢
        obtain ⟨fd, hd⟩ := AudioStreamInALSA.in_reopen P hP c.1 hc1 r.2.2
        generalize (if (AudioStreamInALSA.open_l P c.1 r.2.2).1 ≠ NO_ERROR then
            AudioStreamInALSA.doStandby_l (AudioStreamInALSA.open_l P c.1 r.2.2).2.1
              (AudioStreamInALSA.open_l P c.1 r.2.2).2.2
          else ((AudioStreamInALSA.open_l P c.1 r.2.2).2.1,
            (AudioStreamInALSA.open_l P c.1 r.2.2).2.2)) = d at fd hd ⊢
        have fall := ((f1.frame_trans fc).frame_trans fr).frame_trans fd
        have fe := out_wakeUpEnd_frame r.2.1 { d.2 with mInputs := d.2.mInputs.set i d.1 }
        rw [er] at fe
        refine ⟨((fall.toOut.out_trans (AudioHardware.OutFrame.set_inputs _ _)).out_trans
          fe.toOut).out_cast ?_, fun h => ?_⟩
        · by_cases hr : hw.pcmOut = .ready <;> simp [hr, wakeBalance]
        · have hst := AudioHardware.InSide.in_store h fall.toIn i spIn d.1 hi
            (by rw [hact]; simp [wakeBalance]) hd
          exact hst.in_of_frame fe.toIn

/-- Re-opening the active output stream after a hand-off, and forcing it to standby when
the open fails. -/
theorem AudioStreamOutALSA.out_reopen (P : Platform) (hP : P.NO_INIT ≠ NO_ERROR)
    (x : AudioStreamOutALSA) (hx : x.mStandby = false) (hw : AudioHardware) :
    AudioHardware.SysFrame hw
      (if (open_l P x hw).1 ≠ NO_ERROR then doStandby_l (open_l P x hw).2.1 (open_l P x hw).2.2
        else ((open_l P x hw).2.1, (open_l P x hw).2.2)).2
      ((if (if (open_l P x hw).1 ≠ NO_ERROR then
          doStandby_l (open_l P x hw).2.1 (open_l P x hw).2.2
        else ((open_l P x hw).2.1, (open_l P x hw).2.2)).1.mStandby then 0 else 1) - 1) 0 ∧
    ((if (open_l P x hw).1 ≠ NO_ERROR then doStandby_l (open_l P x hw).2.1 (open_l P x hw).2.2
        else ((open_l P x hw).2.1, (open_l P x hw).2.2)).1.mStandby = false →
      (if (open_l P x hw).1 ≠ NO_ERROR then doStandby_l (open_l P x hw).2.1 (open_l P x hw).2.2
        else ((open_l P x hw).2.1, (open_l P x hw).2.2)).1.mPcm = true) := by
  have fo := out_open_l_frame P x hw
  have es := out_open_l_status P x hw
  have e1 := (out_open_l_fst P x hw).1
  by_cases hr : hw.pcmOut = .ready
  · rw [if_pos hr] at es
    have hn : ¬ (open_l P x hw).1 ≠ NO_ERROR := not_not.mpr es
    rw [if_neg hn, e1]
    simp only [hx, hr, decide_True, Bool.false_eq_true, if_false]
    exact ⟨fo.frame_cast (by decide) rfl, fun _ => trivial⟩
  · rw [if_neg hr] at es
    have hn : (open_l P x hw).1 ≠ NO_ERROR := by rw [es]; exact hP
    rw [if_pos hn, out_doStandby_l_fst]
    have fd := out_doStandby_l_frame (open_l P x hw).2.1 (open_l P x hw).2.2
    have hs : (open_l P x hw).2.1.mStandby = false := by rw [e1]; exact hx
    rw [hs] at fd
    refine ⟨(fo.frame_trans fd).frame_cast ?_ (by decide), ?_⟩
    · simp [stoodBy]
    · intro h
      simp [stoodBy] at h

/-- The facade after `wakeUp_l` of an input stream: the balance of "AudioInLock" grows by
one exactly when a stream in standby opened its device, and the output half of the
invariant is kept by the hand-off. -/
theorem AudioStreamInALSA.in_wakeUp_l_frame (P : Platform) (hP : P.NO_INIT ≠ NO_ERROR)
    (st : AudioStreamInALSA) (hw : AudioHardware) :
    AudioHardware.InFrame hw (wakeUp_l P st hw).2.2
      (if st.mStandby then (if hw.pcmIn = .ready then 1 else 0) else 0) ∧
    (hw.OutSide → (wakeUp_l P st hw).2.2.OutSide) := by
  unfold wakeUp_l
  cases hs : st.mStandby
  · simp only [Bool.not_false, if_true]
    exact ⟨(AudioHardware.SysFrame.frame_refl hw).toIn.in_cast (by simp), fun h => h⟩
  · simp only [Bool.not_true, Bool.false_eq_true, if_false, if_true]
    have f1 := AudioHardware.emitSys_frame hw (.acquire_wake_lock "AudioInLock")
    have plain : AudioHardware.InFrame hw
          (wakeUpEnd (open_l P st (hw.emitSys (.acquire_wake_lock "AudioInLock"))).2.1
            (open_l P st (hw.emitSys (.acquire_wake_lock "AudioInLock"))).2.2).2.2
          (if hw.pcmIn = .ready then 1 else 0) ∧
        (hw.OutSide →
          (wakeUpEnd (open_l P st (hw.emitSys (.acquire_wake_lock "AudioInLock"))).2.1
            (open_l P st (hw.emitSys (.acquire_wake_lock "AudioInLock"))).2.2).2.2.OutSide) := by
      have f2 := in_open_l_frame P st (hw.emitSys (.acquire_wake_lock "AudioInLock"))
      have f3 := in_wakeUpEnd_frame
        (open_l P st (hw.emitSys (.acquire_wake_lock "AudioInLock"))).2.1
        (open_l P st (hw.emitSys (.acquire_wake_lock "AudioInLock"))).2.2
      have e : (open_l P st (hw.emitSys (.acquire_wake_lock "AudioInLock"))).2.1.mPcm =
          decide (hw.pcmIn = .ready) := by
        rw [(in_open_l_fst P st (hw.emitSys (.acquire_wake_lock "AudioInLock"))).1]
        rfl
      rw [e] at f3
      have ff := (f1.frame_trans f2).frame_trans f3
      refine ⟨ff.toIn.in_cast ?_, fun h => h.out_of_frame (ff.toOut.out_cast (by decide))⟩
      by_cases hr : hw.pcmIn = .ready <;> simp [hr, wakeBalance]
    cases ho : (hw.emitSys (.acquire_wake_lock "AudioInLock")).mOutput with
    | none =>
      dsimp only
      exact plain
    | some spOut =>
      dsimp only
      cases hact : spOut.mStandby
      · simp only [Bool.false_eq_true, if_false]
        have fc := AudioStreamOutALSA.out_close_l_frame
          (AudioStreamOutALSA.lock (AudioStreamOutALSA.prepareLock spOut).2)
          (hw.emitSys (.acquire_wake_lock "AudioInLock"))
        have ec := (AudioStreamOutALSA.out_close_l_snd
          (AudioStreamOutALSA.lock (AudioStreamOutALSA.prepareLock spOut).2)
          (hw.emitSys (.acquire_wake_lock "AudioInLock"))).1
        generalize AudioStreamOutALSA.close_l
          (AudioStreamOutALSA.lock (AudioStreamOutALSA.prepareLock spOut).2)
          (hw.emitSys (.acquire_wake_lock "AudioInLock")) = c at fc ec ⊢
        have hc1 : c.1.mStandby = false := by rw [ec]; exact hact
        obtain ⟨fd, hd⟩ := AudioStreamOutALSA.out_reopen P hP c.1 hc1 c.2
        generalize (if (AudioStreamOutALSA.open_l P c.1 c.2).1 ≠ NO_ERROR then
            AudioStreamOutALSA.doStandby_l (AudioStreamOutALSA.open_l P c.1 c.2).2.1
              (AudioStreamOutALSA.open_l P c.1 c.2).2.2
          else ((AudioStreamOutALSA.open_l P c.1 c.2).2.1,
            (AudioStreamOutALSA.open_l P c.1 c.2).2.2)) = d at fd hd ⊢
        have fall := (f1.frame_trans fc).frame_trans fd
        have fr := in_open_l_frame P st { d.2 with mOutput := some d.1 }
        have er : (open_l P st { d.2 with mOutput := some d.1 }).2.1.mPcm =
            decide (hw.pcmIn = .ready) := by
          rw [(in_open_l_fst P st _).1]
          show decide (d.2.pcmIn = .ready) = _
          rw [fall.pcmIn]
        generalize open_l P st { d.2 with mOutput := some d.1 } = r at fr er ⊢
        have fe := in_wakeUpEnd_frame r.2.1 r.2.2
        rw [er] at fe
        refine ⟨(((fall.toIn.in_trans (AudioHardware.InFrame.set_output _ _)).in_trans
          fr.toIn).in_trans fe.toIn).in_cast ?_, fun h => ?_⟩
        · by_cases hr : hw.pcmIn = .ready <;> simp [hr, wakeBalance]
        · have hst := AudioHardware.OutSide.out_store h fall.toOut spOut d.1 ho
            (by rw [hact]; simp [wakeBalance]) hd
          exact (hst.out_of_frame fr.toOut).out_of_frame fe.toOut
      · simp only [if_true]
        exact plain

namespace AudioHardware

theorem InSide.with_output {hw : AudioHardware} (h : InSide hw) (o : Option AudioStreamOutALSA) :
    InSide { hw with mOutput := o } := h.in_of_frame (InFrame.set_output hw o)

theorem OutSide.with_inputs {hw : AudioHardware} (h : OutSide hw) (l : List AudioStreamInALSA) :
    OutSide { hw with mInputs := l } := h.out_of_frame (OutFrame.set_inputs hw l)

end AudioHardware

theorem AudioStreamOutALSA.out_standby_frame (o : AudioStreamOutALSA) (hw : AudioHardware) :
    AudioHardware.SysFrame hw (standby o hw).2 (if o.mStandby then 0 else -1) 0 :=
  out_doStandby_l_frame { o with mSleepReq := false } hw

theorem AudioStreamInALSA.in_standby_frame (st : AudioStreamInALSA) (hw : AudioHardware) :
    AudioHardware.SysFrame hw (standby st hw).2 0 (if st.mStandby then 0 else -1) :=
  in_doStandby_l_frame { st with mSleepReq := false } hw

theorem AudioStreamOutALSA.out_writeError_frame (P : Platform) (status : Int) (bytes : Nat)
    (o : AudioStreamOutALSA) (hw : AudioHardware) :
    AudioHardware.SysFrame hw (writeError P status bytes o hw).2.2
      (if o.mStandby then 0 else -1) 0 ∧
    (writeError P status bytes o hw).2.1.mStandby = true := by
  unfold writeError
  refine ⟨((out_standby_frame o hw).frame_trans
    (AudioHardware.emitSys_frame _ _)).frame_cast (by simp [wakeBalance]) (by simp [wakeBalance]),
    ?_⟩
  show (standby o hw).1.mStandby = true
  rw [out_standby_fst]
  rfl

theorem AudioStreamInALSA.in_readError_frame (status : Int) (bytes : Nat)
    (st : AudioStreamInALSA) (hw : AudioHardware) :
    AudioHardware.SysFrame hw (readError status bytes st hw).2.2 0
      (if st.mStandby then 0 else -1) ∧
    (readError status bytes st hw).2.1.mStandby = true := by
  unfold readError
  refine ⟨((in_standby_frame st hw).frame_trans
    (AudioHardware.emitSys_frame _ _)).frame_cast (by simp [wakeBalance]) (by simp [wakeBalance]),
    ?_⟩
  show (standby st hw).1.mStandby = true
  rw [in_standby_fst]
  rfl

theorem AudioStreamOutALSA.out_wakeUp_l_flags (P : Platform) (o : AudioStreamOutALSA)
    (hw : AudioHardware) :
    (wakeUp_l P o hw).2.1.mStandby = (o.mStandby && !decide (hw.pcmOut = .ready)) ∧
    (wakeUp_l P o hw).2.1.mPcm =
      (if o.mStandby then decide (hw.pcmOut = .ready) else o.mPcm) ∧
    ((wakeUp_l P o hw).1 ≠ 0 → (wakeUp_l P o hw).2.1.mStandby = true) := by
  cases hs : o.mStandby
  · have e : wakeUp_l P o hw = (0, o, hw) := by
      unfold wakeUp_l
      simp [hs]
    rw [e]
    simp [hs]
  · obtain ⟨e1, e2⟩ := out_wakeUp_l_standby P o hw hs
    rw [e1, e2]
    by_cases hr : hw.pcmOut = .ready <;> simp [hr]

theorem AudioStreamInALSA.in_wakeUp_l_flags (P : Platform) (st : AudioStreamInALSA)
    (hw : AudioHardware) :
    (wakeUp_l P st hw).2.1.mStandby = (st.mStandby && !decide (hw.pcmIn = .ready)) ∧
    (wakeUp_l P st hw).2.1.mPcm =
      (if st.mStandby then decide (hw.pcmIn = .ready) else st.mPcm) ∧
    ((wakeUp_l P st hw).1 ≠ 0 → (wakeUp_l P st hw).2.1.mStandby = true) := by
  cases hs : st.mStandby
  · have e : wakeUp_l P st hw = (0, st, hw) := by
      unfold wakeUp_l
      simp [hs]
    rw [e]
    simp [hs]
  · obtain ⟨e1, e2⟩ := in_wakeUp_l_standby P st hw hs
    rw [e1, e2]
    by_cases hr : hw.pcmIn = .ready <;> simp [hr]

/-- A `write` keeps the wake-lock invariant once its stream is written back. -/
theorem AudioStreamOutALSA.write_balanced (P : Platform) (hP : P.NO_INIT ≠ NO_ERROR)
    (o : AudioStreamOutALSA) (hw : AudioHardware) (bytes : Nat) (pcmRet errno : Int)
    (ho : hw.mOutput = some o) (h : hw.Balanced) :
    AudioHardware.Balanced
      { (write P o hw bytes pcmRet errno).2.2 with
        mOutput := some (write P o hw bytes pcmRet errno).2.1 } := by
  have f0 : AudioHardware.SysFrame hw (if o.mSleepReq then hw.emitSys (.usleep 10000) else hw)
      0 0 := by
    split_ifs
    · exact (AudioHardware.emitSys_frame hw _).frame_cast (by decide) (by decide)
    · exact AudioHardware.SysFrame.frame_refl hw
  unfold write
  dsimp only
  generalize (if o.mSleepReq then hw.emitSys (.usleep 10000) else hw) = hw0 at f0 ⊢
  obtain ⟨fw, hin⟩ := out_wakeUp_l_frame P hP o hw0
  obtain ⟨g1, g2, g3⟩ := out_wakeUp_l_flags P o hw0
  rw [f0.pcmOut] at fw g1 g2
  have hi0 : hw0.InSide := h.2.in_of_frame f0.toIn
  have hiw := hin hi0
  generalize wakeUp_l P o hw0 = w at fw hiw g1 g2 g3 ⊢
  have hpcm := h.1.2 o ho
  have good : AudioHardware.Balanced { w.2.2 with mOutput := some w.2.1 } := by
    refine ⟨AudioHardware.OutSide.out_store h.1 (f0.toOut.out_trans fw) o w.2.1 ho ?_ ?_,
      hiw.with_output _⟩
    · rw [g1]
      cases o.mStandby <;> by_cases hr : hw.pcmOut = .ready <;> simp [hr]
    · rw [g1, g2]
      cases hs : o.mStandby <;> by_cases hr : hw.pcmOut = .ready <;> simp [hr] <;>
        exact hpcm hs
  have bad : ∀ status, AudioHardware.Balanced
      { (writeError P status bytes w.2.1 w.2.2).2.2 with
        mOutput := some (writeError P status bytes w.2.1 w.2.2).2.1 } := by
    intro status
    obtain ⟨fe, he⟩ := out_writeError_frame P status bytes w.2.1 w.2.2
    refine ⟨AudioHardware.OutSide.out_store h.1 ((f0.toOut.out_trans fw).out_trans fe.toOut) o _ ho
      ?_ ?_, (hiw.in_of_frame fe.toIn).with_output _⟩
    · rw [he, g1]
      cases o.mStandby <;> by_cases hr : hw.pcmOut = .ready <;> simp [hr]
    · intro hc
      rw [he] at hc
      cases hc
  split_ifs
  · exact bad _
  · exact good
  · exact bad _

theorem AudioStreamOutALSA.out_standby_balanced (o : AudioStreamOutALSA) (hw : AudioHardware)
    (ho : hw.mOutput = some o) (h : hw.Balanced) :
    AudioHardware.Balanced { (standby o hw).2 with mOutput := some (standby o hw).1 } := by
  have f := out_standby_frame o hw
  have e : (standby o hw).1.mStandby = true := by rw [out_standby_fst]; rfl
  refine ⟨AudioHardware.OutSide.out_store h.1 f.toOut o _ ho ?_ ?_, (h.2.in_of_frame f.toIn).with_output _⟩
  · rw [e]
    cases o.mStandby <;> simp
  · intro hc
    rw [e] at hc
    cases hc

theorem rawProvider_wf (P : Platform) (pcmReads : Nat → Int) :
    (rawProvider P pcmReads).Wf := by
  intro k st n
  unfold rawProvider AudioStreamInALSA.getNextBuffer
  split_ifs <;> rfl

theorem AudioStreamInALSA.readLoop_flags (prov : BufferProvider) (hw : prov.Wf) (frames : Nat)
    (fuel k framesIn : Nat) (st : AudioStreamInALSA) (l : Nat × Int × AudioStreamInALSA)
    (h : readLoop prov frames fuel k framesIn st = some l) :
    l.2.2.mStandby = st.mStandby ∧ l.2.2.mPcm = st.mPcm := by
  induction fuel generalizing k framesIn st with
  | zero => simp [readLoop] at h
  | succ n ih =>
    unfold readLoop at h
    dsimp only at h
    have e := hw k st (frames - framesIn)
    split_ifs at h
    · obtain ⟨i1, i2⟩ := ih _ _ _ h
      rw [e] at i1 i2
      exact ⟨i1, i2⟩
    · simp only [Option.some.injEq] at h
      rw [← h]
      show (prov k st (frames - framesIn)).2.2.mStandby = _ ∧
        (prov k st (frames - framesIn)).2.2.mPcm = _
      rw [e]
      exact ⟨rfl, rfl⟩

/-- A `read` that returns keeps the wake-lock invariant once its stream is written back
to its place. -/
theorem AudioStreamInALSA.read_balanced (P : Platform) (hP : P.NO_INIT ≠ NO_ERROR)
    (st : AudioStreamInALSA) (hw : AudioHardware) (bytes : Nat) (prov : BufferProvider)
    (hwf : prov.Wf) (fuel : Nat) (i : Nat) (hi : hw.mInputs[i]? = some st) (h : hw.Balanced)
    (r : IoResult × AudioStreamInALSA × AudioHardware)
    (hr : read P st hw bytes prov fuel = some r) :
    AudioHardware.Balanced { r.2.2 with mInputs := r.2.2.mInputs.set i r.2.1 } := by
  have f0 : AudioHardware.SysFrame hw (if st.mSleepReq then hw.emitSys (.usleep 10000) else hw)
      0 0 := by
    split_ifs
    · exact (AudioHardware.emitSys_frame hw _).frame_cast (by decide) (by decide)
    · exact AudioHardware.SysFrame.frame_refl hw
  unfold read at hr
  dsimp only at hr
  generalize (if st.mSleepReq then hw.emitSys (.usleep 10000) else hw) = hw0 at f0 hr
  obtain ⟨fw, hout⟩ := in_wakeUp_l_frame P hP st hw0
  obtain ⟨g1, g2, g3⟩ := in_wakeUp_l_flags P st hw0
  rw [f0.pcmIn] at fw g1 g2
  have ho0 : hw0.OutSide := h.1.out_of_frame f0.toOut
  have how := hout ho0
  generalize wakeUp_l P st hw0 = w at fw how g1 g2 g3 hr
  have hpcm := h.2.2 st (mem_of_getElem_some hi)
  have good : ∀ x : AudioStreamInALSA, x.mStandby = w.2.1.mStandby → x.mPcm = w.2.1.mPcm →
      AudioHardware.Balanced { w.2.2 with mInputs := w.2.2.mInputs.set i x } := by
    intro x hx1 hx2
    refine ⟨how.with_inputs _, AudioHardware.InSide.in_store h.2 (f0.toIn.in_trans fw) i st x hi
      ?_ ?_⟩
    · rw [hx1, g1]
      cases st.mStandby <;> by_cases hr : hw.pcmIn = .ready <;> simp [hr]
    · rw [hx1, hx2, g1, g2]
      cases hs : st.mStandby <;> by_cases hr : hw.pcmIn = .ready <;> simp [hr] <;>
        exact hpcm hs
  have bad : ∀ (status : Int) (b : Nat) (x : AudioStreamInALSA),
      x.mStandby = w.2.1.mStandby →
      AudioHardware.Balanced
        { (readError status b x w.2.2).2.2 with
          mInputs := (readError status b x w.2.2).2.2.mInputs.set i
            (readError status b x w.2.2).2.1 } := by
    intro status b x hx1
    obtain ⟨fe, he⟩ := in_readError_frame status b x w.2.2
    refine ⟨(how.out_of_frame fe.toOut).with_inputs _,
      AudioHardware.InSide.in_store h.2 ((f0.toIn.in_trans fw).in_trans fe.toIn) i st _ hi ?_ ?_⟩
    · rw [he, hx1, g1]
      cases st.mStandby <;> by_cases hr : hw.pcmIn = .ready <;> simp [hr]
    · intro hc
      rw [he] at hc
      cases hc
  split_ifs at hr
  · simp only [Option.some.injEq] at hr
    rw [← hr]
    exact bad _ _ _ rfl
  · cases hl : readLoop prov (bytes / frameSize st) fuel 0 0 { w.2.1 with mReadStatus := 0 } with
    | none => rw [hl] at hr; cases hr
    | some l =>
      rw [hl] at hr
      obtain ⟨l1, l2⟩ := readLoop_flags prov hwf _ _ _ _ _ _ hl
      dsimp only at hr
      split_ifs at hr
      · simp only [Option.some.injEq] at hr
        rw [← hr]
        exact good l.2.2 l1 l2
      · simp only [Option.some.injEq] at hr
        rw [← hr]
        exact bad _ _ _ l1

theorem AudioStreamInALSA.in_standby_balanced (st : AudioStreamInALSA) (hw : AudioHardware)
    (i : Nat) (hi : hw.mInputs[i]? = some st) (h : hw.Balanced) :
    AudioHardware.Balanced
      { (standby st hw).2 with mInputs := (standby st hw).2.mInputs.set i (standby st hw).1 } := by
  have f := in_standby_frame st hw
  have e : (standby st hw).1.mStandby = true := by rw [in_standby_fst]; rfl
  refine ⟨(h.1.out_of_frame f.toOut).with_inputs _,
    AudioHardware.InSide.in_store h.2 f.toIn i st _ hi ?_ ?_⟩
  · rw [e]
    cases st.mStandby <;> simp
  · intro hc
    rw [e] at hc
    cases hc

namespace AudioHardware

theorem setIncallPath_frame (P : Platform) (device : Nat) (hw : AudioHardware) :
    SysFrame hw (setIncallPath P device hw).2 0 0 := by
  unfold setIncallPath
  split_ifs
  · exact SysFrame.frame_refl hw
  · exact ⟨rfl, rfl, rfl, rfl, by simp, by simp⟩

theorem Balanced.bal_of_frame {a b : AudioHardware} (h : Balanced a) (f : SysFrame a b 0 0) :
    Balanced b := ⟨h.1.out_of_frame f.toOut, h.2.in_of_frame f.toIn⟩

/-- Writing the output stream back with the flags it had, or in standby after a forced
standby, keeps the invariant. -/
theorem Balanced.store_out {a b : AudioHardware} (h : Balanced a) (o x : AudioStreamOutALSA)
    (ho : a.mOutput = some o)
    (hx : (x.mStandby = o.mStandby ∧ x.mPcm = o.mPcm ∧ SysFrame a b 0 0) ∨
      (x.mStandby = true ∧ SysFrame a b (if o.mStandby then 0 else -1) 0)) :
    Balanced { b with mOutput := some x } := by
  rcases hx with ⟨h1, h2, f⟩ | ⟨h1, f⟩
  · refine ⟨h.1.out_store f.toOut o x ho (by rw [h1]; simp) ?_, (h.2.in_of_frame f.toIn).with_output _⟩
    rw [h1, h2]
    exact h.1.2 o ho
  · refine ⟨h.1.out_store f.toOut o x ho (by rw [h1]; cases o.mStandby <;> simp) ?_,
      (h.2.in_of_frame f.toIn).with_output _⟩
    intro hc
    rw [h1] at hc
    cases hc

theorem Balanced.store_in {a b : AudioHardware} (h : Balanced a) (i : Nat)
    (st x : AudioStreamInALSA) (hi : a.mInputs[i]? = some st)
    (hx : (x.mStandby = st.mStandby ∧ x.mPcm = st.mPcm ∧ SysFrame a b 0 0) ∨
      (x.mStandby = true ∧ SysFrame a b 0 (if st.mStandby then 0 else -1))) :
    Balanced { b with mInputs := b.mInputs.set i x } := by
  rcases hx with ⟨h1, h2, f⟩ | ⟨h1, f⟩
  · refine ⟨(h.1.out_of_frame f.toOut).with_inputs _, h.2.in_store f.toIn i st x hi (by rw [h1]; simp) ?_⟩
    rw [h1, h2]
    exact h.2.2 st (mem_of_getElem_some hi)
  · refine ⟨(h.1.out_of_frame f.toOut).with_inputs _,
      h.2.in_store f.toIn i st x hi (by rw [h1]; cases st.mStandby <;> simp) ?_⟩
    intro hc
    rw [h1] at hc
    cases hc

end AudioHardware

theorem AudioStreamOutALSA.out_setParameters_cases (P : Platform) (o : AudioStreamOutALSA)
    (hw : AudioHardware) (param : AudioParameter) :
    ((setParameters P o hw param).2.1.mStandby = o.mStandby ∧
      (setParameters P o hw param).2.1.mPcm = o.mPcm ∧
      AudioHardware.SysFrame hw (setParameters P o hw param).2.2.1 0 0) ∨
    ((setParameters P o hw param).2.1.mStandby = true ∧
      AudioHardware.SysFrame hw (setParameters P o hw param).2.2.1
        (if o.mStandby then 0 else -1) 0) := by
  unfold setParameters
  cases param.getInt with
  | none => exact Or.inl ⟨rfl, rfl, AudioHardware.SysFrame.frame_refl hw⟩
  | some device =>
    dsimp only
    by_cases hv : device ≠ 0
    · rw [if_pos hv]
      by_cases hc : o.mDevices ≠ toU32 device ∧ hw.mMode ≠ P.MODE_IN_CALL
      · rw [if_pos hc]
        have fd := out_doStandby_l_frame { o with mSleepReq := false } hw
        have e := out_doStandby_l_fst { o with mSleepReq := false } hw
        have es : (doStandby_l { o with mSleepReq := false } hw).1.mStandby = true := by
          rw [e]; rfl
        refine Or.inr ?_
        by_cases hm : (doStandby_l { o with mSleepReq := false } hw).2.mMode = P.MODE_IN_CALL
        · rw [if_pos hm]
          exact ⟨es, (fd.frame_trans
            (AudioHardware.setIncallPath_frame P _ _)).frame_cast (by simp) (by simp)⟩
        · rw [if_neg hm]
          exact ⟨es, fd⟩
      · rw [if_neg hc]
        refine Or.inl ?_
        by_cases hm : hw.mMode = P.MODE_IN_CALL
        · rw [if_pos hm]
          exact ⟨rfl, rfl, AudioHardware.setIncallPath_frame P _ _⟩
        · rw [if_neg hm]
          exact ⟨rfl, rfl, AudioHardware.SysFrame.frame_refl hw⟩
    · rw [if_neg hv]
      exact Or.inl ⟨rfl, rfl, AudioHardware.SysFrame.frame_refl hw⟩

theorem AudioStreamInALSA.in_setParameters_cases (P : Platform) (st : AudioStreamInALSA)
    (hw : AudioHardware) (param : AudioParameter) :
    ((setParameters P st hw param).2.1.mStandby = st.mStandby ∧
      (setParameters P st hw param).2.1.mPcm = st.mPcm ∧
      AudioHardware.SysFrame hw (setParameters P st hw param).2.2.1 0 0) ∨
    ((setParameters P st hw param).2.1.mStandby = true ∧
      AudioHardware.SysFrame hw (setParameters P st hw param).2.2.1 0
        (if st.mStandby then 0 else -1)) := by
  unfold setParameters
  cases param.getInt with
  | none => exact Or.inl ⟨rfl, rfl, AudioHardware.SysFrame.frame_refl hw⟩
  | some value =>
    dsimp only
    by_cases hv : value ≠ 0
    · rw [if_pos hv]
      by_cases hc : st.mDevices ≠ toU32 value
      · rw [if_pos hc]
        have fd := in_doStandby_l_frame { st with mSleepReq := false } hw
        have e := in_doStandby_l_fst { st with mSleepReq := false } hw
        have es : (doStandby_l { st with mSleepReq := false } hw).1.mStandby = true := by
          rw [e]; rfl
        exact Or.inr ⟨es, fd⟩
      · rw [if_neg hc]
        exact Or.inl ⟨rfl, rfl, AudioHardware.SysFrame.frame_refl hw⟩
    · rw [if_neg hv]
      exact Or.inl ⟨rfl, rfl, AudioHardware.SysFrame.frame_refl hw⟩

namespace AudioHardware

theorem lockedOutput_some (hw : AudioHardware) (x : AudioStreamOutALSA)
    (h : lockedOutput hw = some x) :
    ∃ o, hw.mOutput = some o ∧ o.mStandby = false ∧ x.mStandby = false ∧ x.mPcm = o.mPcm := by
  unfold lockedOutput at h
  cases ho : hw.mOutput with
  | none => rw [ho] at h; cases h
  | some o =>
    rw [ho] at h
    dsimp only at h
    cases hs : o.mStandby
    · rw [hs] at h
      simp only [Bool.not_false, if_true, Option.some.injEq] at h
      subst h
      exact ⟨o, rfl, hs, hs, rfl⟩
    · rw [hs] at h
      simp at h

theorem lockedInput_some (hw : AudioHardware) (i : Nat) (y : AudioStreamInALSA)
    (h : lockedInput hw = some (i, y)) :
    ∃ st, hw.mInputs[i]? = some st ∧ st.mStandby = false ∧ y.mStandby = false ∧
      y.mPcm = st.mPcm := by
  unfold lockedInput at h
  cases hg : hw.getInput with
  | none => rw [hg] at h; cases h
  | some j =>
    rw [hg] at h
    dsimp only at h
    obtain ⟨st, hst, hact⟩ := getInput_some hw j hg
    rw [hst] at h
    simp only [Option.some.injEq, Prod.mk.injEq] at h
    obtain ⟨rfl, rfl⟩ := h
    exact ⟨st, hst, hact, hact, rfl⟩

theorem standbyOut_frame (spOut : Option AudioStreamOutALSA) (hw : AudioHardware) :
    SysFrame hw (standbyOut spOut hw).2
      (match spOut with
        | none => 0
        | some x => if x.mStandby then 0 else -1) 0 := by
  cases spOut with
  | none => exact SysFrame.frame_refl hw
  | some x => exact AudioStreamOutALSA.out_doStandby_l_frame x hw

theorem standbyIn_frame (spIn : Option (Nat × AudioStreamInALSA)) (hw : AudioHardware) :
    SysFrame hw (standbyIn spIn hw).2 0
      (match spIn with
        | none => 0
        | some p => if p.2.mStandby then 0 else -1) := by
  cases spIn with
  | none => exact SysFrame.frame_refl hw
  | some p =>
    obtain ⟨i, st⟩ := p
    exact AudioStreamInALSA.in_doStandby_l_frame st hw

/-- Writing back the streams `setMode` held keeps the invariant when the balances moved
with the states of the streams. -/
theorem storeBack_balanced (hw X : AudioHardware) (spOut : Option AudioStreamOutALSA)
    (spIn : Option (Nat × AudioStreamInALSA)) (h : Balanced hw) (dOut dIn : Int)
    (f : SysFrame hw X dOut dIn) (hO0 : spOut = none → dOut = 0)
    (hO : ∀ x, spOut = some x → ∃ o, hw.mOutput = some o ∧
      dOut = (if x.mStandby then 0 else 1) - (if o.mStandby then 0 else 1) ∧
      (x.mStandby = false → x.mPcm = true))
    (hI0 : spIn = none → dIn = 0)
    (hI : ∀ i y, spIn = some (i, y) → ∃ st, hw.mInputs[i]? = some st ∧
      dIn = (if y.mStandby then 0 else 1) - (if st.mStandby then 0 else 1) ∧
      (y.mStandby = false → y.mPcm = true)) :
    Balanced (storeBack spOut spIn X) := by
  constructor
  · cases spOut with
    | none => exact (h.1.out_of_frame (f.toOut.out_cast (hO0 rfl))).with_inputs _
    | some x =>
      obtain ⟨o, e1, e2, e3⟩ := hO x rfl
      exact (h.1.out_store f.toOut o x e1 e2 e3).with_inputs _
  · cases spIn with
    | none => exact (h.2.in_of_frame (f.toIn.in_cast (hI0 rfl))).with_output _
    | some p =>
      obtain ⟨i, y⟩ := p
      obtain ⟨st, e1, e2, e3⟩ := hI i y rfl
      exact (h.2.in_store f.toIn i st y e1 e2 e3).with_output _

theorem storeBack_locked (hw X : AudioHardware) (h : Balanced hw) (f : SysFrame hw X 0 0) :
    Balanced (storeBack (lockedOutput hw) (lockedInput hw) X) := by
  refine storeBack_balanced hw X _ _ h 0 0 f (fun _ => rfl) ?_ (fun _ => rfl) ?_
  · intro x hx
    obtain ⟨o, e1, e2, e3, e4⟩ := lockedOutput_some hw x hx
    refine ⟨o, e1, by rw [e2, e3]; simp, fun _ => ?_⟩
    rw [e4]
    exact h.1.2 o e1 e2
  · intro i y hy
    obtain ⟨st, e1, e2, e3, e4⟩ := lockedInput_some hw i y hy
    refine ⟨st, e1, by rw [e2, e3]; simp, fun _ => ?_⟩
    rw [e4]
    exact h.2.2 st (mem_of_getElem_some e1) e2

theorem storeBack_forced (hw hwA X : AudioHardware) (h : Balanced hw) (f : SysFrame hw hwA 0 0)
    (g : SysFrame (standbyIn (lockedInput hw) (standbyOut (lockedOutput hw) hwA).2).2 X 0 0) :
    Balanced (storeBack (standbyOut (lockedOutput hw) hwA).1
      (standbyIn (lockedInput hw) (standbyOut (lockedOutput hw) hwA).2).1 X) := by
  have fa := standbyOut_frame (lockedOutput hw) hwA
  have fc := standbyIn_frame (lockedInput hw) (standbyOut (lockedOutput hw) hwA).2
  have fall := ((f.frame_trans fa).frame_trans fc).frame_trans g
  rw [standbyOut_fst, standbyIn_fst]
  refine storeBack_balanced hw X _ _ h _ _ fall ?_ ?_ ?_ ?_
  · intro hn
    cases hl : lockedOutput hw with
    | none => simp
    | some x => rw [hl] at hn; simp at hn
  · intro x hx
    cases hl : lockedOutput hw with
    | none => rw [hl] at hx; simp at hx
    | some x0 =>
      rw [hl] at hx
      simp only [Option.map_some', Option.some.injEq] at hx
      subst hx
      obtain ⟨o, e1, e2, e3, e4⟩ := lockedOutput_some hw x0 hl
      refine ⟨o, e1, ?_, fun hc => ?_⟩
      · simp [e2, e3, AudioStreamOutALSA.stoodBy]
      · simp [AudioStreamOutALSA.stoodBy] at hc
  · intro hn
    cases hl : lockedInput hw with
    | none => simp
    | some p => rw [hl] at hn; simp at hn
  · intro i y hy
    cases hl : lockedInput hw with
    | none => rw [hl] at hy; simp at hy
    | some p =>
      obtain ⟨j, y0⟩ := p
      rw [hl] at hy
      simp only [Option.map_some', Option.some.injEq, Prod.mk.injEq] at hy
      obtain ⟨rfl, rfl⟩ := hy
      obtain ⟨st, e1, e2, e3, e4⟩ := lockedInput_some hw j y0 hl
      refine ⟨st, e1, ?_, fun hc => ?_⟩
      · simp [e2, e3, AudioStreamInALSA.stoodBy]
      · simp [AudioStreamInALSA.stoodBy] at hc

theorem setMode_balanced (P : Platform) (mode : Int) (hw : AudioHardware) (h : Balanced hw) :
    Balanced (setMode P mode hw).2 := by
  unfold setMode
  dsimp only
  have f1 : SysFrame hw { hw with mMode := (P.baseSetMode hw.mMode mode).2 } 0 0 :=
    ⟨rfl, rfl, rfl, rfl, by simp, by simp⟩
  have f2 : ∀ r, SysFrame hw { hw with mMode := (P.baseSetMode hw.mMode mode).2, mRouter := r }
      0 0 := fun r => ⟨rfl, rfl, rfl, rfl, by simp, by simp⟩
  split_ifs
  · exact storeBack_locked hw _ h f1
  · exact storeBack_locked hw _ h f1
  · exact storeBack_forced hw _ _ h f1 ⟨rfl, rfl, rfl, rfl, by simp, by simp⟩
  · exact storeBack_forced hw _ _ h (f2 _) ⟨rfl, rfl, rfl, rfl, by simp, by simp⟩

theorem setMicMute_balanced (state : Bool) (hw : AudioHardware) (h : Balanced hw) :
    Balanced (setMicMute state hw).2 :=
  h.bal_of_frame ⟨rfl, rfl, rfl, rfl, by simp [setMicMute], by simp [setMicMute]⟩

theorem closeOutputStream_balanced (out : Nat) (hw : AudioHardware) (h : Balanced hw) :
    Balanced (closeOutputStream out hw) := by
  unfold closeOutputStream
  cases ho : hw.mOutput with
  | none => exact h
  | some o =>
    dsimp only
    split_ifs
    · exact h
    · have f := AudioStreamOutALSA.out_standby_frame o { hw with mOutput := none }
      refine ⟨?_, (h.2.in_of_frame (InFrame.set_output hw none)).in_of_frame f.toIn⟩
      unfold OutSide
      rw [f.mOutput, f.out]
      refine ⟨?_, fun x hx => by cases hx⟩
      show wakeBalance "AudioOutLock" hw.sys + _ = 0
      rw [h.1.1, ho]
      have hp := h.1.2 o ho
      cases hs : o.mStandby <;> simp [hs]

end AudioHardware

theorem Op.exec_balanced (P : Platform) (hP : P.NO_INIT ≠ NO_ERROR) (op : Op) (hop : op.Wf)
    (hw : AudioHardware) (h : hw.Balanced) : (op.exec P hw).Balanced := by
  cases op with
  | outWrite bytes pcmRet errno =>
    simp only [Op.exec]
    cases ho : hw.mOutput with
    | none => exact h
    | some o => exact AudioStreamOutALSA.write_balanced P hP o hw bytes pcmRet errno ho h
  | outStandby =>
    simp only [Op.exec]
    cases ho : hw.mOutput with
    | none => exact h
    | some o => exact AudioStreamOutALSA.out_standby_balanced o hw ho h
  | outSetParameters param =>
    simp only [Op.exec]
    cases ho : hw.mOutput with
    | none => exact h
    | some o => exact h.store_out o _ ho (AudioStreamOutALSA.out_setParameters_cases P o hw param)
  | inRead i bytes prov fuel =>
    simp only [Op.exec]
    cases hi : hw.mInputs[i]? with
    | none => exact h
    | some st =>
      dsimp only
      cases hr : st.read P hw bytes prov fuel with
      | none => exact h
      | some r => exact AudioStreamInALSA.read_balanced P hP st hw bytes prov hop fuel i hi h r hr
  | inStandby i =>
    simp only [Op.exec]
    cases hi : hw.mInputs[i]? with
    | none => exact h
    | some st => exact AudioStreamInALSA.in_standby_balanced st hw i hi h
  | inSetParameters i param =>
    simp only [Op.exec]
    cases hi : hw.mInputs[i]? with
    | none => exact h
    | some st => exact h.store_in i st _ hi (AudioStreamInALSA.in_setParameters_cases P st hw param)
  | setMode mode => exact AudioHardware.setMode_balanced P mode hw h
  | setMicMute state => exact AudioHardware.setMicMute_balanced state hw h
  | setIncallPath device => exact h.bal_of_frame (AudioHardware.setIncallPath_frame P device hw)
  | closeOutputStream out => exact AudioHardware.closeOutputStream_balanced out hw h
  | kernel pcmOut pcmIn => exact h

theorem runOps_balanced (P : Platform) (hP : P.NO_INIT ≠ NO_ERROR) (ops : List Op)
    (hops : ∀ op ∈ ops, op.Wf) (hw : AudioHardware) (h : hw.Balanced) :
    (runOps P ops hw).Balanced := by
  induction ops generalizing hw with
  | nil => exact h
  | cons op rest ih =>
    exact ih (fun x hx => hops x (List.mem_cons_of_mem _ hx)) _
      (Op.exec_balanced P hP op (hops op (List.mem_cons_self _ _)) hw h)

/-- A facade whose streams are all in standby and whose history is empty satisfies the
wake-lock invariant. -/
theorem AudioHardware.balanced_of_idle (hw : AudioHardware) (hs : hw.sys = [])
    (ho : ∀ o, hw.mOutput = some o → o.mStandby = true)
    (hi : ∀ st ∈ hw.mInputs, st.mStandby = true) : hw.Balanced := by
  refine ⟨⟨?_, fun o h1 h2 => ?_⟩, ⟨?_, fun st h1 h2 => ?_⟩⟩
  · rw [hs]
    cases h : hw.mOutput with
    | none => rfl
    | some o => simp [ho o h, wakeBalance]
  · rw [ho o h1] at h2
    cases h2
  · rw [hs]
    unfold AudioHardware.activeInputs
    have : hw.mInputs.countP (fun st => !st.mStandby) = 0 := by
      rw [List.countP_eq_zero]
      intro st hst
      simp [hi st hst]
    rw [this]
    rfl
  · rw [hi st h1] at h2
    cases h2

theorem idleHardware_balanced : idleHardware.Balanced :=
  AudioHardware.balanced_of_idle idleHardware rfl
    (fun o h => by cases h; rfl)
    (fun st h => by
      have e : st = AudioStreamInALSA.new gingerbread 2 := by simpa [idleHardware] using h
      rw [e]; rfl)

theorem sessionOps_wf : ∀ op ∈ sessionOps, op.Wf := by
  intro op h
  simp only [sessionOps, List.mem_cons, List.mem_singleton, List.not_mem_nil, or_false] at h
  rcases h with rfl | rfl | rfl | rfl | rfl | rfl | rfl | rfl
  all_goals first | trivial | exact rawProvider_wf _ _

/-- C21, amended: in every state reached from a facade that satisfies the wake-lock
invariant (for instance one whose streams are all in standby with an empty history) by
complete operations (write, read, standby and setParameters of the streams, with the
sibling hand-off inside wake-up, setMode, setMicMute, setIncallPath, closeOutputStream, and
changes of the kernel's answers), the acquisitions minus the releases of "AudioOutLock" are
1 when the output stream is active and 0 when it is in standby or absent; those of
"AudioInLock", the one tag all input streams use, are the number of active input streams,
so 1 or 0 with the state of the stream when the facade has one input stream; and a stream
is active only if its PCM handle is present.  The platform's `NO_INIT` differs from
`NO_ERROR`, and the provider chain of a read touches the stream only through its
`getNextBuffer`. -/
theorem wake_lock_balance (P : Platform) (hP : P.NO_INIT ≠ NO_ERROR) (ops : List Op)
    (hops : ∀ op ∈ ops, op.Wf) (hw : AudioHardware) (h : hw.Balanced) :
    (wakeBalance "AudioOutLock" (runOps P ops hw).sys =
      (match (runOps P ops hw).mOutput with
        | some o => if o.mStandby then 0 else 1
        | none => 0)) ∧
    (∀ o, (runOps P ops hw).mOutput = some o → o.mStandby = false → o.mPcm = true) ∧
    (wakeBalance "AudioInLock" (runOps P ops hw).sys =
      ((runOps P ops hw).mInputs.countP fun st => !st.mStandby)) ∧
    (∀ st, (runOps P ops hw).mInputs = [st] →
      wakeBalance "AudioInLock" (runOps P ops hw).sys = if st.mStandby then 0 else 1) ∧
    (∀ st ∈ (runOps P ops hw).mInputs, st.mStandby = false → st.mPcm = true) := by
  have b := runOps_balanced P hP ops hops hw h
  refine ⟨b.1.1, b.1.2, b.2.1, ?_, b.2.2⟩
  intro st hst
  have e := b.2.1
  unfold AudioHardware.activeInputs at e
  rw [e, hst]
  cases hs : st.mStandby <;> simp [hs, List.countP_cons]

theorem wake_lock_balance_witness :
    gingerbread.NO_INIT ≠ NO_ERROR ∧ (∀ op ∈ sessionOps, op.Wf) ∧ idleHardware.Balanced ∧
    (wakeBalance "AudioOutLock" (runOps gingerbread sessionOps idleHardware).sys =
      (match (runOps gingerbread sessionOps idleHardware).mOutput with
        | some o => if o.mStandby then 0 else 1
        | none => 0)) ∧
    (wakeBalance "AudioInLock" (runOps gingerbread sessionOps idleHardware).sys =
      ((runOps gingerbread sessionOps idleHardware).mInputs.countP fun st => !st.mStandby)) :=
  ⟨by decide, sessionOps_wf, idleHardware_balanced,
    (wake_lock_balance gingerbread (by decide) sessionOps sessionOps_wf idleHardware
      idleHardware_balanced).1,
    (wake_lock_balance gingerbread (by decide) sessionOps sessionOps_wf idleHardware
      idleHardware_balanced).2.2.1⟩

/-- The claim C21 fails for an input stream in standby next to an active one: on a facade
with the input streams 2 and 3, both in standby and with an empty history, a read on
stream 2 leaves stream 2 active and stream 3 in standby, and the balance of
"AudioInLock", the tag of stream 3 too, is 1 and not 0. -/
theorem wake_lock_shared_tag_counterexample :
    twoInputHardware.sys = [] ∧
    (twoInputHardware.mInputs.map fun st => (st.self, st.mStandby)) = [(2, true), (3, true)] ∧
    ((runOps gingerbread (twoReads.take 1) twoInputHardware).mInputs.map
      fun st => (st.self, st.mStandby)) = [(2, false), (3, true)] ∧
    wakeBalance "AudioInLock" (runOps gingerbread (twoReads.take 1) twoInputHardware).sys = 1 ∧
    ¬ (∀ st ∈ (runOps gingerbread (twoReads.take 1) twoInputHardware).mInputs,
        wakeBalance "AudioInLock" (runOps gingerbread (twoReads.take 1) twoInputHardware).sys
          = if st.mStandby then 0 else 1) := by
  have hb : wakeBalance "AudioInLock"
      (runOps gingerbread (twoReads.take 1) twoInputHardware).sys = 1 := rfl
  have hm : (runOps gingerbread (twoReads.take 1) twoInputHardware).mInputs[1]?.map
      (fun st => st.mStandby) = some true := rfl
  refine ⟨rfl, rfl, rfl, hb, ?_⟩
  intro hall
  cases hst : (runOps gingerbread (twoReads.take 1) twoInputHardware).mInputs[1]? with
  | none => rw [hst] at hm; cases hm
  | some st =>
    rw [hst] at hm
    simp only [Option.map_some', Option.some.injEq] at hm
    have h1 := hall st (mem_of_getElem_some hst)
    rw [hb, hm] at h1
    cases h1

theorem sessionOps_prefix_sys :
    (runOps gingerbread (sessionOps.take 2) idleHardware).sys =
      [.acquire_wake_lock "AudioOutLock", .pcm_open .PCM_OUT, .acquire_wake_lock "AudioInLock",
        .pcm_close .PCM_OUT, .pcm_open .PCM_OUT, .pcm_open .PCM_IN] := by
  rfl

theorem wrapI32_emod (x : Int) : wrapI32 x % 4294967296 = x % 4294967296 := by
  unfold wrapI32 toI32 toU32
  simp only [U32]
  split_ifs <;> omega

theorem wrapI32_range (x : Int) : -2147483648 ≤ wrapI32 x ∧ wrapI32 x < 2147483648 := by
  unfold wrapI32 toI32 toU32
  simp only [U32]
  split_ifs <;> omega

theorem wrapI32_of_range (x : Int) (h1 : -2147483648 ≤ x) (h2 : x < 2147483648) :
    wrapI32 x = x := by
  unfold wrapI32 toI32 toU32
  simp only [U32]
  split_ifs <;> omega

theorem wrapI32_congr (a b : Int) (h : a % 4294967296 = b % 4294967296) :
    wrapI32 a = wrapI32 b := by
  unfold wrapI32 toU32
  simp only [U32]
  norm_num
  rw [h]

theorem wrapI32_add_left (a b : Int) : wrapI32 (wrapI32 a + b) = wrapI32 (a + b) := by
  apply wrapI32_congr
  have h := wrapI32_emod a
  omega

theorem wrapI32_eq_self_iff (c : Int) (n : Nat) (h1 : -2147483648 ≤ c) (h2 : c < 2147483648) :
    wrapI32 (c + n) = c ↔ n % 4294967296 = 0 := by
  constructor
  · intro h
    have e := wrapI32_emod (c + n)
    rw [h] at e
    omega
  · intro h
    have e : wrapI32 (c + n) = wrapI32 c := wrapI32_congr _ _ (by omega)
    rw [e, wrapI32_of_range c h1 h2]

theorem AudioStreamOutALSA.out_wakeUp_l_cnt (P : Platform) (o : AudioStreamOutALSA)
    (hw : AudioHardware) : (wakeUp_l P o hw).2.1.mStandbyCnt = o.mStandbyCnt := by
  cases hs : o.mStandby
  · have e : wakeUp_l P o hw = (0, o, hw) := by
      unfold wakeUp_l
      simp [hs]
    rw [e]
  · rw [(out_wakeUp_l_standby P o hw hs).2]

theorem AudioStreamInALSA.in_wakeUp_l_cnt (P : Platform) (st : AudioStreamInALSA)
    (hw : AudioHardware) : (wakeUp_l P st hw).2.1.mStandbyCnt = st.mStandbyCnt := by
  cases hs : st.mStandby
  · have e : wakeUp_l P st hw = (0, st, hw) := by
      unfold wakeUp_l
      simp [hs]
    rw [e]
  · rw [(in_wakeUp_l_standby P st hw hs).2]

theorem AudioStreamOutALSA.out_writeError_cnt (P : Platform) (status : Int) (bytes : Nat)
    (o : AudioStreamOutALSA) (hw : AudioHardware) :
    (writeError P status bytes o hw).2.1.mStandbyCnt = wrapI32 (o.mStandbyCnt + 1) := by
  show (standby o hw).1.mStandbyCnt = _
  rw [out_standby_fst]
  rfl

theorem AudioStreamInALSA.in_readError_cnt (status : Int) (bytes : Nat)
    (st : AudioStreamInALSA) (hw : AudioHardware) :
    (readError status bytes st hw).2.1.mStandbyCnt = wrapI32 (st.mStandbyCnt + 1) := by
  show (standby st hw).1.mStandbyCnt = _
  rw [in_standby_fst]
  rfl

theorem AudioStreamOutALSA.write_cnt (P : Platform) (o : AudioStreamOutALSA)
    (hw : AudioHardware) (bytes : Nat) (pcmRet errno : Int) :
    (write P o hw bytes pcmRet errno).2.1.mStandbyCnt =
      (if (wakeUp_l P o (if o.mSleepReq then hw.emitSys (.usleep 10000) else hw)).1 ≠ 0 ∨
          pcmRet ≠ 0 then wrapI32 (o.mStandbyCnt + 1) else o.mStandbyCnt) := by
  unfold write
  dsimp only
  have hc := out_wakeUp_l_cnt P o (if o.mSleepReq then hw.emitSys (.usleep 10000) else hw)
  generalize wakeUp_l P o (if o.mSleepReq then hw.emitSys (.usleep 10000) else hw) = w at hc ⊢
  by_cases h1 : w.1 ≠ 0
  · rw [if_pos h1, if_pos (Or.inl h1), out_writeError_cnt, hc]
  · rw [if_neg h1]
    by_cases h2 : pcmRet = 0
    · rw [if_pos h2, if_neg (by rintro (h | h); exact h1 h; exact h h2)]
      exact hc
    · rw [if_neg h2, if_pos (Or.inr h2), out_writeError_cnt, hc]

theorem AudioStreamInALSA.readLoop_cnt (prov : BufferProvider) (hw : prov.Wf) (frames : Nat)
    (fuel k framesIn : Nat) (st : AudioStreamInALSA) (l : Nat × Int × AudioStreamInALSA)
    (h : readLoop prov frames fuel k framesIn st = some l) :
    l.2.2.mStandbyCnt = st.mStandbyCnt := by
  induction fuel generalizing k framesIn st with
  | zero => simp [readLoop] at h
  | succ n ih =>
    unfold readLoop at h
    dsimp only at h
    have e := hw k st (frames - framesIn)
    split_ifs at h
    · have i1 := ih _ _ _ h
      rw [e] at i1
      exact i1
    · simp only [Option.some.injEq] at h
      rw [← h]
      show (prov k st (frames - framesIn)).2.2.mStandbyCnt = _
      rw [e]

theorem OutCall.out_exec_cnt (P : Platform) (c : OutCall)
    (s : AudioStreamOutALSA × AudioHardware) :
    (c.exec P s).1.mStandbyCnt =
      (if c.forcesStandby P s then wrapI32 (s.1.mStandbyCnt + 1) else s.1.mStandbyCnt) := by
  cases c with
  | write bytes pcmRet errno =>
    simp only [OutCall.exec, OutCall.forcesStandby]
    rw [AudioStreamOutALSA.write_cnt]
    by_cases h1 : (s.1.wakeUp_l P (if s.1.mSleepReq then s.2.emitSys (.usleep 10000)
      else s.2)).1 ≠ 0 <;> by_cases h2 : pcmRet ≠ 0 <;> simp [h1, h2]
  | standby =>
    simp only [OutCall.exec, OutCall.forcesStandby, if_true]
    rw [AudioStreamOutALSA.out_standby_fst]
    rfl
  | setParameters param =>
    simp only [OutCall.exec, OutCall.forcesStandby]
    obtain ⟨r, n⟩ := param
    match r with
    | some (.number v) =>
      rw [AudioStreamOutALSA.out_setParameters_number]
      simp only [AudioParameter.getInt]
      by_cases hv : v ≠ 0
      · rw [if_pos hv]
        by_cases hc : s.1.mDevices ≠ toU32 v ∧ s.2.mMode ≠ P.MODE_IN_CALL
        · rw [if_pos hc]
          simp [hv, hc, AudioStreamOutALSA.stoodBy]
        · rw [if_neg hc]
          have : ¬ (v ≠ 0 ∧ s.1.mDevices ≠ toU32 v ∧ s.2.mMode ≠ P.MODE_IN_CALL) :=
            fun k => hc k.2
          simp [this]
      · rw [if_neg hv]
        have : ¬ (v ≠ 0 ∧ s.1.mDevices ≠ toU32 v ∧ s.2.mMode ≠ P.MODE_IN_CALL) :=
          fun k => hv k.1
        simp [this]
    | some .notNumber =>
      rw [AudioStreamOutALSA.out_setParameters_other _ _ _ _ (by simp)]
      simp [AudioParameter.getInt]
    | none =>
      rw [AudioStreamOutALSA.out_setParameters_other _ _ _ _ (by simp)]
      simp [AudioParameter.getInt]
  | wakeUp_l =>
    simp only [OutCall.exec, OutCall.forcesStandby]
    rw [AudioStreamOutALSA.out_wakeUp_l_cnt]
    simp
  | prepareLock => simp [OutCall.exec, OutCall.forcesStandby, AudioStreamOutALSA.prepareLock]
  | lock => simp [OutCall.exec, OutCall.forcesStandby, AudioStreamOutALSA.lock]
  | close_l =>
    simp only [OutCall.exec, OutCall.forcesStandby]
    rw [(AudioStreamOutALSA.out_close_l_snd s.1 s.2).1]
    simp
  | open_l =>
    simp only [OutCall.exec, OutCall.forcesStandby]
    rw [(AudioStreamOutALSA.out_open_l_fst P s.1 s.2).1]
    simp
  | doStandby_l =>
    simp only [OutCall.exec, OutCall.forcesStandby, if_true]
    rw [AudioStreamOutALSA.out_doStandby_l_fst]
    rfl
  | facade hw => simp [OutCall.exec, OutCall.forcesStandby]

theorem runOut_cnt (P : Platform) (calls : List OutCall)
    (s : AudioStreamOutALSA × AudioHardware) :
    (runOut P calls s).1.mStandbyCnt =
      (if forcedOut P calls s = 0 then s.1.mStandbyCnt
        else wrapI32 (s.1.mStandbyCnt + forcedOut P calls s)) := by
  induction calls generalizing s with
  | nil => simp [runOut, forcedOut]
  | cons c rest ih =>
    have e : runOut P (c :: rest) s = runOut P rest (c.exec P s) := rfl
    rw [e, ih, OutCall.out_exec_cnt]
    simp only [forcedOut]
    cases hf : c.forcesStandby P s
    · simp
    · simp only [if_true]
      by_cases h0 : forcedOut P rest (c.exec P s) = 0
      · simp [h0]
      · rw [if_neg h0, if_neg (by omega), wrapI32_add_left]
        congr 1
        push_cast
        ring

theorem InCall.in_exec_cnt (P : Platform) (c : InCall) (hc : c.Wf)
    (s : AudioStreamInALSA × AudioHardware) :
    (c.exec P s).1.mStandbyCnt =
      (if c.forcesStandby P s then wrapI32 (s.1.mStandbyCnt + 1) else s.1.mStandbyCnt) := by
  cases c with
  | read bytes prov fuel =>
    simp only [InCall.exec, InCall.forcesStandby]
    unfold AudioStreamInALSA.read
    dsimp only
    have hw := AudioStreamInALSA.in_wakeUp_l_cnt P s.1
      (if s.1.mSleepReq then s.2.emitSys (.usleep 10000) else s.2)
    generalize AudioStreamInALSA.wakeUp_l P s.1
      (if s.1.mSleepReq then s.2.emitSys (.usleep 10000) else s.2) = w at hw ⊢
    by_cases h1 : w.1 ≠ 0
    · simp only [h1, if_true, ne_eq, not_false_eq_true]
      rw [AudioStreamInALSA.in_readError_cnt, hw]
    · simp only [h1, if_false]
      cases hl : AudioStreamInALSA.readLoop prov (bytes / s.1.frameSize) fuel 0 0
          { w.2.1 with mReadStatus := 0 } with
      | none => simp
      | some l =>
        have hl2 := AudioStreamInALSA.readLoop_cnt prov hc _ _ _ _ _ _ hl
        dsimp only
        by_cases h2 : l.2.1 = 0
        · simp only [h2, if_true, ne_eq, not_true_eq_false, decide_False, Bool.false_eq_true,
            if_false]
          rw [hl2]
          exact hw
        · simp only [h2, if_false, ne_eq, not_false_eq_true, decide_True, if_true]
          rw [AudioStreamInALSA.in_readError_cnt, hl2]
          show wrapI32 (w.2.1.mStandbyCnt + 1) = _
          rw [hw]
  | standby =>
    simp only [InCall.exec, InCall.forcesStandby, if_true]
    rw [AudioStreamInALSA.in_standby_fst]
    rfl
  | setParameters param =>
    simp only [InCall.exec, InCall.forcesStandby]
    obtain ⟨r, n⟩ := param
    match r with
    | some (.number v) =>
      rw [AudioStreamInALSA.in_setParameters_number]
      simp only [AudioParameter.getInt]
      by_cases hv : v ≠ 0
      · rw [if_pos hv]
        by_cases hd : s.1.mDevices ≠ toU32 v
        · rw [if_pos hd]
          simp [hv, hd, AudioStreamInALSA.stoodBy]
        · rw [if_neg hd]
          have : ¬ (v ≠ 0 ∧ s.1.mDevices ≠ toU32 v) := fun k => hd k.2
          simp [this]
      · rw [if_neg hv]
        have : ¬ (v ≠ 0 ∧ s.1.mDevices ≠ toU32 v) := fun k => hv k.1
        simp [this]
    | some .notNumber =>
      rw [AudioStreamInALSA.in_setParameters_other _ _ _ _ (by simp)]
      simp [AudioParameter.getInt]
    | none =>
      rw [AudioStreamInALSA.in_setParameters_other _ _ _ _ (by simp)]
      simp [AudioParameter.getInt]
  | wakeUp_l =>
    simp only [InCall.exec, InCall.forcesStandby]
    rw [AudioStreamInALSA.in_wakeUp_l_cnt]
    simp
  | prepareLock => simp [InCall.exec, InCall.forcesStandby, AudioStreamInALSA.prepareLock]
  | lock => simp [InCall.exec, InCall.forcesStandby, AudioStreamInALSA.lock]
  | close_l =>
    simp only [InCall.exec, InCall.forcesStandby]
    rw [(AudioStreamInALSA.in_close_l_snd s.1 s.2).1]
    simp
  | open_l =>
    simp only [InCall.exec, InCall.forcesStandby]
    rw [(AudioStreamInALSA.in_open_l_fst P s.1 s.2).1]
    simp
  | doStandby_l =>
    simp only [InCall.exec, InCall.forcesStandby, if_true]
    rw [AudioStreamInALSA.in_doStandby_l_fst]
    rfl
  | getNextBuffer frameCount rawNull pcmRead =>
    simp only [InCall.exec, InCall.forcesStandby, Bool.false_eq_true, if_false]
    unfold AudioStreamInALSA.getNextBuffer
    split_ifs <;> rfl
  | facade hw => simp [InCall.exec, InCall.forcesStandby]

theorem runIn_cnt (P : Platform) (calls : List InCall) (hc : ∀ c ∈ calls, c.Wf)
    (s : AudioStreamInALSA × AudioHardware) :
    (runIn P calls s).1.mStandbyCnt =
      (if forcedIn P calls s = 0 then s.1.mStandbyCnt
        else wrapI32 (s.1.mStandbyCnt + forcedIn P calls s)) := by
  induction calls generalizing s with
  | nil => simp [runIn, forcedIn]
  | cons c rest ih =>
    have e : runIn P (c :: rest) s = runIn P rest (c.exec P s) := rfl
    rw [e, ih (fun x hx => hc x (List.mem_cons_of_mem _ hx)),
      InCall.in_exec_cnt P c (hc c (List.mem_cons_self _ _))]
    simp only [forcedIn]
    cases hf : c.forcesStandby P s
    · simp
    · simp only [if_true]
      by_cases h0 : forcedIn P rest (c.exec P s) = 0
      · simp [h0]
      · rw [if_neg h0, if_neg (by omega), wrapI32_add_left]
        congr 1
        push_cast
        ring

theorem forcedOut_standby (P : Platform) (n : Nat) :
    ∀ s : AudioStreamOutALSA × AudioHardware,
      forcedOut P (List.replicate n OutCall.standby) s = n := by
  induction n with
  | zero => intro s; rfl
  | succ k ih =>
    intro s
    rw [List.replicate_succ]
    simp only [forcedOut, OutCall.forcesStandby, if_true, ih]
    omega

theorem inSession_wf : ∀ c ∈ inSession, c.Wf := by
  intro c h
  simp only [inSession, List.mem_cons, List.mem_singleton, List.not_mem_nil, or_false] at h
  rcases h with rfl | rfl | rfl | rfl | rfl | rfl
  all_goals first | trivial | exact rawProvider_wf _ _

/-- C22, amended: the counter is a 32-bit `int`.  `doStandby_l` and `standby()` advance the
standby generation counter of an output or input stream by one in 32-bit arithmetic
(2^31 - 1 is followed by -2^31), whatever the state of the stream, also when it is already
in standby; so do the forced standby of `setMode` (`standbyOut`, `standbyIn`) and the
sibling re-open of the wake-up paths exactly when the re-open fails.  Every call on a
stream object (`write` or `read`, `standby`, `setParameters`, `wakeUp_l`, `prepareLock`,
`lock`, `close_l`, `open_l`, `doStandby_l`, `getNextBuffer`) advances the counter by one
when it reaches `doStandby_l` and leaves it unchanged otherwise.  So after any sequence of
calls on a stream whose counter is a 32-bit value, with arbitrary changes of the facade in
between, the counter is the old value plus the number of calls that reached `doStandby_l`,
reduced to 32 bits: it is exactly that sum, and so not smaller than before, as long as the
sum stays below 2^31, and it equals the old value exactly when that number is a multiple
of 2^32.  (The provider chain of a read touches the stream only through its
`getNextBuffer`.) -/
theorem standby_counter_counts (P : Platform) (outCalls : List OutCall)
    (inCalls : List InCall) (hwf : ∀ c ∈ inCalls, c.Wf)
    (so : AudioStreamOutALSA × AudioHardware) (si : AudioStreamInALSA × AudioHardware)
    (hro : -2147483648 ≤ so.1.mStandbyCnt ∧ so.1.mStandbyCnt < 2147483648)
    (hri : -2147483648 ≤ si.1.mStandbyCnt ∧ si.1.mStandbyCnt < 2147483648) :
    ((so.1.doStandby_l so.2).1.mStandbyCnt = wrapI32 (so.1.mStandbyCnt + 1) ∧
      (so.1.standby so.2).1.mStandbyCnt = wrapI32 (so.1.mStandbyCnt + 1) ∧
      (si.1.doStandby_l si.2).1.mStandbyCnt = wrapI32 (si.1.mStandbyCnt + 1) ∧
      (si.1.standby si.2).1.mStandbyCnt = wrapI32 (si.1.mStandbyCnt + 1)) ∧
    ((∃ x, (AudioHardware.standbyOut (some so.1) so.2).1 = some x ∧
        x.mStandbyCnt = wrapI32 (so.1.mStandbyCnt + 1)) ∧
      (∀ i, ∃ x, (AudioHardware.standbyIn (some (i, si.1)) si.2).1 = some (i, x) ∧
        x.mStandbyCnt = wrapI32 (si.1.mStandbyCnt + 1)) ∧
      (if (so.1.open_l P so.2).1 ≠ NO_ERROR then
          AudioStreamOutALSA.doStandby_l (so.1.open_l P so.2).2.1 (so.1.open_l P so.2).2.2
        else ((so.1.open_l P so.2).2.1, (so.1.open_l P so.2).2.2)).1.mStandbyCnt =
        (if (so.1.open_l P so.2).1 ≠ NO_ERROR then wrapI32 (so.1.mStandbyCnt + 1)
          else so.1.mStandbyCnt) ∧
      (if (si.1.open_l P si.2).1 ≠ NO_ERROR then
          AudioStreamInALSA.doStandby_l (si.1.open_l P si.2).2.1 (si.1.open_l P si.2).2.2
        else ((si.1.open_l P si.2).2.1, (si.1.open_l P si.2).2.2)).1.mStandbyCnt =
        (if (si.1.open_l P si.2).1 ≠ NO_ERROR then wrapI32 (si.1.mStandbyCnt + 1)
          else si.1.mStandbyCnt)) ∧
    ((∀ c : OutCall, (c.exec P so).1.mStandbyCnt =
        (if c.forcesStandby P so then wrapI32 (so.1.mStandbyCnt + 1)
          else so.1.mStandbyCnt)) ∧
      (∀ c : InCall, c.Wf → (c.exec P si).1.mStandbyCnt =
        (if c.forcesStandby P si then wrapI32 (si.1.mStandbyCnt + 1)
          else si.1.mStandbyCnt))) ∧
    ((∀ x : Int, -2147483648 ≤ x → x < 2147483647 → wrapI32 (x + 1) = x + 1) ∧
      wrapI32 (2147483647 + 1) = -2147483648) ∧
    ((runOut P outCalls so).1.mStandbyCnt =
        wrapI32 (so.1.mStandbyCnt + forcedOut P outCalls so) ∧
      (so.1.mStandbyCnt + forcedOut P outCalls so < 2147483648 →
        (runOut P outCalls so).1.mStandbyCnt = so.1.mStandbyCnt + forcedOut P outCalls so ∧
        so.1.mStandbyCnt ≤ (runOut P outCalls so).1.mStandbyCnt) ∧
      ((runOut P outCalls so).1.mStandbyCnt = so.1.mStandbyCnt ↔
        forcedOut P outCalls so % 4294967296 = 0)) ∧
    ((runIn P inCalls si).1.mStandbyCnt =
        wrapI32 (si.1.mStandbyCnt + forcedIn P inCalls si) ∧
      (si.1.mStandbyCnt + forcedIn P inCalls si < 2147483648 →
        (runIn P inCalls si).1.mStandbyCnt = si.1.mStandbyCnt + forcedIn P inCalls si ∧
        si.1.mStandbyCnt ≤ (runIn P inCalls si).1.mStandbyCnt) ∧
      ((runIn P inCalls si).1.mStandbyCnt = si.1.mStandbyCnt ↔
        forcedIn P inCalls si % 4294967296 = 0)) := by
  have ho : (runOut P outCalls so).1.mStandbyCnt =
      wrapI32 (so.1.mStandbyCnt + forcedOut P outCalls so) := by
    rw [runOut_cnt]
    split_ifs with h0
    · rw [h0]
      simp only [Nat.cast_zero, add_zero]
      exact (wrapI32_of_range _ hro.1 hro.2).symm
    · rfl
  have hi : (runIn P inCalls si).1.mStandbyCnt =
      wrapI32 (si.1.mStandbyCnt + forcedIn P inCalls si) := by
    rw [runIn_cnt P inCalls hwf]
    split_ifs with h0
    · rw [h0]
      simp only [Nat.cast_zero, add_zero]
      exact (wrapI32_of_range _ hri.1 hri.2).symm
    · rfl
  refine ⟨⟨?_, ?_, ?_, ?_⟩, ⟨?_, ?_, ?_, ?_⟩, ⟨fun c => OutCall.out_exec_cnt P c so,
    fun c hc => InCall.in_exec_cnt P c hc si⟩,
    ⟨fun x h1 h2 => wrapI32_of_range _ (by omega) (by omega), by decide⟩,
    ⟨ho, ?_, ?_⟩, ⟨hi, ?_, ?_⟩⟩
  · rw [AudioStreamOutALSA.out_doStandby_l_fst]; rfl
  · rw [AudioStreamOutALSA.out_standby_fst]; rfl
  · rw [AudioStreamInALSA.in_doStandby_l_fst]; rfl
  · rw [AudioStreamInALSA.in_standby_fst]; rfl
  · refine ⟨_, AudioHardware.standbyOut_fst _ _, rfl⟩
  · intro i
    exact ⟨_, AudioHardware.standbyIn_fst _ _, rfl⟩
  · have e := (AudioStreamOutALSA.out_open_l_fst P so.1 so.2).1
    split_ifs
    · rw [AudioStreamOutALSA.out_doStandby_l_fst, e]; rfl
    · rw [e]
  · have e := (AudioStreamInALSA.in_open_l_fst P si.1 si.2).1
    split_ifs
    · rw [AudioStreamInALSA.in_doStandby_l_fst, e]; rfl
    · rw [e]
  · intro hlt
    have e := wrapI32_of_range (so.1.mStandbyCnt + forcedOut P outCalls so) (by omega) hlt
    rw [ho, e]
    exact ⟨rfl, by omega⟩
  · rw [ho]
    exact wrapI32_eq_self_iff _ _ hro.1 hro.2
  · intro hlt
    have e := wrapI32_of_range (si.1.mStandbyCnt + forcedIn P inCalls si) (by omega) hlt
    rw [hi, e]
    exact ⟨rfl, by omega⟩
  · rw [hi]
    exact wrapI32_eq_self_iff _ _ hri.1 hri.2

theorem standby_counter_counts_witness :
    (∀ c ∈ inSession, c.Wf) ∧
    (-2147483648 ≤ (AudioStreamOutALSA.new gingerbread 1).mStandbyCnt ∧
      (AudioStreamOutALSA.new gingerbread 1).mStandbyCnt < 2147483648) ∧
    (-2147483648 ≤ (AudioStreamInALSA.new gingerbread 2).mStandbyCnt ∧
      (AudioStreamInALSA.new gingerbread 2).mStandbyCnt < 2147483648) ∧
    (runOut gingerbread outSession (AudioStreamOutALSA.new gingerbread 1, idleHardware)).1.mStandbyCnt
      = wrapI32 ((AudioStreamOutALSA.new gingerbread 1).mStandbyCnt +
        forcedOut gingerbread outSession (AudioStreamOutALSA.new gingerbread 1, idleHardware)) ∧
    (runIn gingerbread inSession (AudioStreamInALSA.new gingerbread 2, idleHardware)).1.mStandbyCnt
      = wrapI32 ((AudioStreamInALSA.new gingerbread 2).mStandbyCnt +
        forcedIn gingerbread inSession (AudioStreamInALSA.new gingerbread 2, idleHardware)) :=
  ⟨inSession_wf, by decide, by decide,
    (standby_counter_counts gingerbread outSession inSession inSession_wf
      (AudioStreamOutALSA.new gingerbread 1, idleHardware)
      (AudioStreamInALSA.new gingerbread 2, idleHardware) (by decide) (by decide)).2.2.2.2.1.1,
    (standby_counter_counts gingerbread outSession inSession inSession_wf
      (AudioStreamOutALSA.new gingerbread 1, idleHardware)
      (AudioStreamInALSA.new gingerbread 2, idleHardware) (by decide) (by decide)).2.2.2.2.2.1⟩

theorem outSession_counter :
    (runOut gingerbread outSession
      (AudioStreamOutALSA.new gingerbread 1, idleHardware)).1.mStandbyCnt = 4 ∧
    forcedOut gingerbread outSession (AudioStreamOutALSA.new gingerbread 1, idleHardware) = 4 ∧
    (runIn gingerbread inSession
      (AudioStreamInALSA.new gingerbread 2, idleHardware)).1.mStandbyCnt = 1 := by
  refine ⟨by rfl, by rfl, by rfl⟩

theorem runOut_standby (P : Platform) (n : Nat) (s : AudioStreamOutALSA × AudioHardware)
    (h1 : -2147483648 ≤ s.1.mStandbyCnt) (h2 : s.1.mStandbyCnt < 2147483648) :
    (runOut P (List.replicate n OutCall.standby) s).1.mStandbyCnt
      = wrapI32 (s.1.mStandbyCnt + n) := by
  rw [runOut_cnt, forcedOut_standby]
  split_ifs with h0
  · rw [h0]
    simp only [Nat.cast_zero, add_zero]
    exact (wrapI32_of_range _ h1 h2).symm
  · rfl

/-- The claim C22 fails at the end of the range of the 32-bit counter.  After 2^31 - 1
calls of `standby()` on a new output stream the counter is 2^31 - 1; the next `standby()`
makes it -2^31, which is smaller and not the old value plus one; and after 2^32 calls the
counter is 0 again, so two reads are equal although standby transitions happened in
between. -/
theorem standby_counter_wraps_counterexample :
    (runOut gingerbread (List.replicate 2147483647 OutCall.standby)
      (AudioStreamOutALSA.new gingerbread 1, idleHardware)).1.mStandbyCnt = 2147483647 ∧
    (runOut gingerbread (List.replicate 2147483648 OutCall.standby)
      (AudioStreamOutALSA.new gingerbread 1, idleHardware)).1.mStandbyCnt = -2147483648 ∧
    (runOut gingerbread (List.replicate 4294967296 OutCall.standby)
      (AudioStreamOutALSA.new gingerbread 1, idleHardware)).1.mStandbyCnt
      = (AudioStreamOutALSA.new gingerbread 1).mStandbyCnt ∧
    (AudioStreamOutALSA.standby
      { AudioStreamOutALSA.new gingerbread 1 with mStandbyCnt := 2147483647 }
      idleHardware).1.mStandbyCnt = -2147483648 ∧
    (AudioStreamInALSA.standby
      { AudioStreamInALSA.new gingerbread 2 with mStandbyCnt := 2147483647 }
      idleHardware).1.mStandbyCnt = -2147483648 :=
  ⟨(runOut_standby gingerbread 2147483647 _ (by decide) (by decide)).trans (by decide),
    (runOut_standby gingerbread 2147483648 _ (by decide) (by decide)).trans (by decide),
    (runOut_standby gingerbread 4294967296 _ (by decide) (by decide)).trans (by decide),
    by rfl, by rfl⟩

/-! ## Facts about the locking protocol -/

namespace Protocol

theorem lockOrder_append (a b : List Act) : ∀ held : List Mutex,
    lockOrder held (a ++ b) = (lockOrder held a && lockOrder (heldAfter held a) b) := by
  induction a with
  | nil => intro held; simp [lockOrder, heldAfter]
  | cons x a ih =>
    intro held
    cases x <;> simp [lockOrder, heldAfter, ih, Bool.and_assoc]

theorem heldAfter_append (a b : List Act) : ∀ held : List Mutex,
    heldAfter held (a ++ b) = heldAfter (heldAfter held a) b := by
  induction a with
  | nil => intro held; simp [heldAfter]
  | cons x a ih =>
    intro held
    cases x <;> simp [heldAfter, ih]

theorem outToIn_step (env : Env) (hsh : env.Shared) (fuel e sp : Nat) :
    outToIn env (fuel + 1) e (some sp) =
      if (env (e + 1)).getInput = some sp ∧ (env e).inCnt sp = (env (e + 1)).inCnt sp then
        ⟨[Act.prepareLock (.inp sp), .release .hw, .acquire (.inp sp), .acquire .hw] ++
          [.recheck (.inp sp) true, .close_l (.inp sp)], some sp, e + 1, true⟩
      else
        ⟨[Act.prepareLock (.inp sp), .release .hw, .acquire (.inp sp), .acquire .hw] ++
            [.recheck (.inp sp) false, .release (.inp sp)] ++
            (outToIn env fuel (e + 1) (env (e + 1)).getInput).acts,
          (outToIn env fuel (e + 1) (env (e + 1)).getInput).target,
          (outToIn env fuel (e + 1) (env (e + 1)).getInput).epoch,
          (outToIn env fuel (e + 1) (env (e + 1)).getInput).done⟩ := by
  rw [outToIn]
  simp only [(hsh (e + 1) sp).2, if_true]

theorem modeToIn_step (env : Env) (hsh : env.Shared) (fuel e sp : Nat) :
    modeToIn env (fuel + 1) e (some sp) =
      if (env (e + 1)).getInput = some sp ∧ (env e).inCnt sp = (env (e + 1)).inCnt sp then
        ⟨[Act.prepareLock (.inp sp), .release .hw, .acquire (.inp sp), .acquire .hw] ++
          [.recheck (.inp sp) true], some sp, e + 1, true⟩
      else
        ⟨[Act.prepareLock (.inp sp), .release .hw, .acquire (.inp sp), .acquire .hw] ++
            [.recheck (.inp sp) false, .release (.inp sp)] ++
            (modeToIn env fuel (e + 1) (env (e + 1)).getInput).acts,
          (modeToIn env fuel (e + 1) (env (e + 1)).getInput).target,
          (modeToIn env fuel (e + 1) (env (e + 1)).getInput).epoch,
          (modeToIn env fuel (e + 1) (env (e + 1)).getInput).done⟩ := by
  rw [modeToIn]
  simp only [(hsh (e + 1) sp).2, if_true]

theorem modeToOut_step (env : Env) (hsh : env.Shared) (fuel e sp : Nat) :
    modeToOut env (fuel + 1) e (some sp) =
      if (!(env e).outStandby sp) = true then
        if (env (e + 1)).mOutput = some sp ∧ (env e).outCnt sp = (env (e + 1)).outCnt sp then
          ⟨[Act.prepareLock (.out sp), .release .hw, .acquire (.out sp), .acquire .hw] ++
            [.recheck (.out sp) true], some sp, e + 1, true⟩
        else
          ⟨[Act.prepareLock (.out sp), .release .hw, .acquire (.out sp), .acquire .hw] ++
              [.recheck (.out sp) false, .release (.out sp)] ++
              (modeToOut env fuel (e + 1) (env (e + 1)).mOutput).acts,
            (modeToOut env fuel (e + 1) (env (e + 1)).mOutput).target,
            (modeToOut env fuel (e + 1) (env (e + 1)).mOutput).epoch,
            (modeToOut env fuel (e + 1) (env (e + 1)).mOutput).done⟩
      else ⟨[], none, e, true⟩ := by
  rw [modeToOut]
  simp only [(hsh (e + 1) sp).1, if_true]

theorem inToOut_step (env : Env) (hsh : env.Shared) (self fuel e sp : Nat) :
    inToOut env self (fuel + 1) e (some sp) =
      if (env e).outStandby sp = true then ⟨[], none, e, true⟩
      else
        if (env (e + 1)).mOutput = some sp ∧ (env e).outCnt sp = (env (e + 1)).outCnt sp then
          ⟨[Act.prepareLock (.out sp), .release .hw, .release (.inp self),
              .acquire (.out sp), .acquire (.inp self), .acquire .hw] ++
            [.recheck (.out sp) true, .close_l (.out sp)], some sp, e + 1, true⟩
        else
          ⟨[Act.prepareLock (.out sp), .release .hw, .release (.inp self),
                .acquire (.out sp), .acquire (.inp self), .acquire .hw] ++
              [.recheck (.out sp) false, .release (.out sp)] ++
              (inToOut env self fuel (e + 1) (env (e + 1)).mOutput).acts,
            (inToOut env self fuel (e + 1) (env (e + 1)).mOutput).target,
            (inToOut env self fuel (e + 1) (env (e + 1)).mOutput).epoch,
            (inToOut env self fuel (e + 1) (env (e + 1)).mOutput).done⟩ := by
  rw [inToOut]
  simp only [(hsh (e + 1) sp).1, if_true]

theorem dropHeld_shared (env : Env) (hsh : env.Shared) (k : Nat) (m : Option Mutex) :
    dropHeld (env k) m = [] := by
  cases m with
  | none => rfl
  | some x =>
    cases x <;> simp [dropHeld, unshared, (hsh k _).1, (hsh k _).2]

theorem outToIn_locks (env : Env) (hsh : env.Shared) (T : List Mutex) (hT : Mutex.hw ∉ T) :
    ∀ (fuel e : Nat) (sp : Option Nat),
      lockOrder (.hw :: T) (outToIn env fuel e sp).acts = true ∧
      ((outToIn env fuel e sp).done = true →
        heldAfter (.hw :: T) (outToIn env fuel e sp).acts
          = heldWith ((outToIn env fuel e sp).target.map Mutex.inp) T) := by
  have hT2 : T.contains .hw = false := by simpa using hT
  intro fuel
  induction fuel with
  | zero =>
    intro e sp
    cases sp <;> simp [outToIn, lockOrder, heldAfter, heldWith]
  | succ n ih =>
    intro e sp
    cases sp with
    | none => simp [outToIn, lockOrder, heldAfter, heldWith]
    | some sp =>
      rw [outToIn_step env hsh]
      split_ifs with hc
      · simp [lockOrder, heldAfter, heldWith, mayAcquire, hT]
      · have h := ih (e + 1) (env (e + 1)).getInput
        simp only [List.append_assoc, List.cons_append, List.nil_append, lockOrder, heldAfter,
          mayAcquire, List.erase_cons_head, Bool.and_true, Bool.true_and, hT2, Bool.not_false]
        have he : (Mutex.hw :: Mutex.inp sp :: T).erase (Mutex.inp sp) = .hw :: T := by
          simp [List.erase_cons]
        rw [he]
        exact h

theorem modeToIn_locks (env : Env) (hsh : env.Shared) (T : List Mutex) (hT : Mutex.hw ∉ T) :
    ∀ (fuel e : Nat) (sp : Option Nat),
      lockOrder (.hw :: T) (modeToIn env fuel e sp).acts = true ∧
      ((modeToIn env fuel e sp).done = true →
        heldAfter (.hw :: T) (modeToIn env fuel e sp).acts
          = heldWith ((modeToIn env fuel e sp).target.map Mutex.inp) T) := by
  have hT2 : T.contains .hw = false := by simpa using hT
  intro fuel
  induction fuel with
  | zero =>
    intro e sp
    cases sp <;> simp [modeToIn, lockOrder, heldAfter, heldWith]
  | succ n ih =>
    intro e sp
    cases sp with
    | none => simp [modeToIn, lockOrder, heldAfter, heldWith]
    | some sp =>
      rw [modeToIn_step env hsh]
      split_ifs with hc
      · simp [lockOrder, heldAfter, heldWith, mayAcquire, hT]
      · have h := ih (e + 1) (env (e + 1)).getInput
        simp only [List.append_assoc, List.cons_append, List.nil_append, lockOrder, heldAfter,
          mayAcquire, List.erase_cons_head, Bool.and_true, Bool.true_and, hT2, Bool.not_false]
        have he : (Mutex.hw :: Mutex.inp sp :: T).erase (Mutex.inp sp) = .hw :: T := by
          simp [List.erase_cons]
        rw [he]
        exact h

theorem modeToOut_locks (env : Env) (hsh : env.Shared) :
    ∀ (fuel e : Nat) (sp : Option Nat),
      lockOrder [.hw] (modeToOut env fuel e sp).acts = true ∧
      ((modeToOut env fuel e sp).done = true →
        heldAfter [.hw] (modeToOut env fuel e sp).acts
          = heldWith ((modeToOut env fuel e sp).target.map Mutex.out) []) := by
  intro fuel
  induction fuel with
  | zero =>
    intro e sp
    cases sp <;> simp [modeToOut, lockOrder, heldAfter, heldWith]
  | succ n ih =>
    intro e sp
    cases sp with
    | none => simp [modeToOut, lockOrder, heldAfter, heldWith]
    | some sp =>
      rw [modeToOut_step env hsh]
      split_ifs with hs hc
      · simp [lockOrder, heldAfter, heldWith, mayAcquire]
      · have h := ih (e + 1) (env (e + 1)).mOutput
        simp only [List.append_assoc, List.cons_append, List.nil_append, lockOrder, heldAfter,
          mayAcquire, List.erase_cons_head, Bool.and_true, Bool.true_and, List.all_nil]
        have he : [Mutex.hw, Mutex.out sp].erase (Mutex.out sp) = [.hw] := by
          simp [List.erase_cons]
        rw [he]
        exact h
      · simp [lockOrder, heldAfter, heldWith]

theorem inToOut_locks (env : Env) (hsh : env.Shared) (self : Nat) :
    ∀ (fuel e : Nat) (sp : Option Nat),
      lockOrder [.hw, .inp self] (inToOut env self fuel e sp).acts = true ∧
      ((inToOut env self fuel e sp).done = true →
        heldAfter [.hw, .inp self] (inToOut env self fuel e sp).acts
          = match (inToOut env self fuel e sp).target with
            | none => [.hw, .inp self]
            | some t => [.hw, .inp self, .out t]) := by
  intro fuel
  induction fuel with
  | zero =>
    intro e sp
    cases sp <;> simp [inToOut, lockOrder, heldAfter]
  | succ n ih =>
    intro e sp
    cases sp with
    | none => simp [inToOut, lockOrder, heldAfter]
    | some sp =>
      rw [inToOut_step env hsh]
      split_ifs with hs hc
      · simp [lockOrder, heldAfter]
      · simp [lockOrder, heldAfter, mayAcquire]
      · have h := ih (e + 1) (env (e + 1)).mOutput
        simp only [List.append_assoc, List.cons_append, List.nil_append, lockOrder, heldAfter,
          mayAcquire, List.erase_cons_head, Bool.and_true, Bool.true_and, List.all_nil]
        have he : [Mutex.hw, Mutex.inp self, Mutex.out sp].erase (Mutex.out sp)
            = [.hw, .inp self] := by
          simp [List.erase_cons]
        have hn : (!([Mutex.out sp].contains Mutex.hw)) = true := by simp
        rw [he, hn]
        exact h

theorem outWakeUp_l_locks (env : Env) (hsh : env.Shared) (fuel e a : Nat) (s r : Bool) :
    lockOrder [.out a] (outWakeUp_l env fuel e a s r).acts = true ∧
    ((outWakeUp_l env fuel e a s r).done = true →
      heldAfter [.out a] (outWakeUp_l env fuel e a s r).acts = [.out a]) := by
  unfold outWakeUp_l
  obtain ⟨h1, h2⟩ := outToIn_locks env hsh [.out a] (by simp) fuel (e + 1) (env (e + 1)).getInput
  generalize outToIn env fuel (e + 1) (env (e + 1)).getInput = h at h1 h2
  obtain ⟨acts, target, ep, done⟩ := h
  dsimp only at h1 h2 ⊢
  cases s
  · simp [lockOrder, heldAfter]
  · cases done
    · simp [lockOrder, heldAfter, mayAcquire, h1]
    · have h3 := h2 rfl
      cases target <;> cases r <;>
        simp [lockOrder, heldAfter, mayAcquire, h1, h3, lockOrder_append, heldAfter_append,
          heldWith, reopen, List.erase_cons]

theorem inWakeUp_l_locks (env : Env) (hsh : env.Shared) (fuel e a : Nat) (s r : Bool) :
    lockOrder [.inp a] (inWakeUp_l env fuel e a s r).acts = true ∧
    ((inWakeUp_l env fuel e a s r).done = true →
      heldAfter [.inp a] (inWakeUp_l env fuel e a s r).acts = [.inp a]) := by
  unfold inWakeUp_l
  obtain ⟨h1, h2⟩ := inToOut_locks env hsh a fuel (e + 1) (env (e + 1)).mOutput
  generalize inToOut env a fuel (e + 1) (env (e + 1)).mOutput = h at h1 h2
  obtain ⟨acts, target, ep, done⟩ := h
  dsimp only at h1 h2 ⊢
  cases s
  · simp [lockOrder, heldAfter]
  · cases done
    · simp [lockOrder, heldAfter, mayAcquire, h1]
    · have h3 := h2 rfl
      cases target <;> cases r <;>
        simp [lockOrder, heldAfter, mayAcquire, h1, h3, lockOrder_append, heldAfter_append,
          reopen, List.erase_cons]

theorem outWrite_locks (env : Env) (hsh : env.Shared) (fuel e a : Nat) (s r f : Bool) :
    lockOrder [] (outWrite env fuel e a s r f).acts = true ∧
    ((outWrite env fuel e a s r f).done = true →
      heldAfter [] (outWrite env fuel e a s r f).acts = []) := by
  unfold outWrite
  obtain ⟨h1, h2⟩ := outWakeUp_l_locks env hsh fuel e a s r
  generalize outWakeUp_l env fuel e a s r = w at h1 h2
  obtain ⟨acts, ep, done⟩ := w
  dsimp only at h1 h2 ⊢
  cases done
  · simp [lockOrder, heldAfter, mayAcquire, h1]
  · have h3 := h2 rfl
    cases f <;>
      simp [lockOrder, heldAfter, mayAcquire, h1, h3, lockOrder_append, heldAfter_append,
        outStandby, List.erase_cons, Mutex.isOut]

theorem inRead_locks (env : Env) (hsh : env.Shared) (fuel e a : Nat) (s r f : Bool) :
    lockOrder [] (inRead env fuel e a s r f).acts = true ∧
    ((inRead env fuel e a s r f).done = true →
      heldAfter [] (inRead env fuel e a s r f).acts = []) := by
  unfold inRead
  obtain ⟨h1, h2⟩ := inWakeUp_l_locks env hsh fuel e a s r
  generalize inWakeUp_l env fuel e a s r = w at h1 h2
  obtain ⟨acts, ep, done⟩ := w
  dsimp only at h1 h2 ⊢
  cases done
  · simp [lockOrder, heldAfter, mayAcquire, h1]
  · have h3 := h2 rfl
    cases f <;>
      simp [lockOrder, heldAfter, mayAcquire, h1, h3, lockOrder_append, heldAfter_append,
        inStandby, List.erase_cons]

theorem setMode_locks (env : Env) (hsh : env.Shared) (fuel e : Nat) (t : Bool) :
    lockOrder [] (setMode env fuel e t).acts = true ∧
    ((setMode env fuel e t).done = true →
      heldAfter [] (setMode env fuel e t).acts = []) := by
  unfold setMode
  simp only [dropHeld_shared env hsh, List.append_nil]
  obtain ⟨h1, h2⟩ := modeToOut_locks env hsh fuel (e + 1) (env (e + 1)).mOutput
  generalize modeToOut env fuel (e + 1) (env (e + 1)).mOutput = x at h1 h2
  obtain ⟨acts1, target1, ep1, done1⟩ := x
  dsimp only at h1 h2 ⊢
  cases done1
  · simp [lockOrder, heldAfter, mayAcquire, h1]
  · have h3 := h2 rfl
    have hT : Mutex.hw ∉ (match target1 with
        | none => ([] : List Mutex)
        | some o => [Mutex.out o]) := by
      cases target1 <;> simp
    obtain ⟨k1, k2⟩ := modeToIn_locks env hsh _ hT fuel ep1 (env ep1).getInput
    generalize modeToIn env fuel ep1 (env ep1).getInput = y at k1 k2
    obtain ⟨acts2, target2, ep2, done2⟩ := y
    dsimp only at k1 k2 ⊢
    cases done2
    · cases target1 <;>
        simp_all [lockOrder, heldAfter, mayAcquire, lockOrder_append, heldAfter_append, heldWith]
    · have k3 := k2 rfl
      cases target1 <;> cases target2 <;> cases t <;>
        simp_all [lockOrder, heldAfter, mayAcquire, lockOrder_append, heldAfter_append,
          heldWith, forceHeld, unlockHeld, List.erase_cons]

theorem rechecks_append (env : Env) (e0 : Nat) (a b : List Act) : ∀ k : Nat,
    rechecks env e0 k (a ++ b)
      = (rechecks env e0 k a && rechecks env e0 (periodAfter k a) b) := by
  induction a with
  | nil => intro k; simp [rechecks, periodAfter]
  | cons x a ih =>
    intro k
    cases x with
    | acquire m => cases m <;> simp [rechecks, periodAfter, ih]
    | _ => simp [rechecks, periodAfter, ih, Bool.and_assoc]

theorem periodAfter_append (a b : List Act) : ∀ k : Nat,
    periodAfter k (a ++ b) = periodAfter (periodAfter k a) b := by
  induction a with
  | nil => intro k; simp [periodAfter]
  | cons x a ih =>
    intro k
    cases x with
    | acquire m => cases m <;> simp [periodAfter, ih]
    | _ => simp [periodAfter, ih]

theorem guarded_append (own : List Mutex) (a b : List Act) : ∀ ok : List Mutex,
    guarded own ok (a ++ b) = (guarded own ok a && guarded own (okAfter ok a) b) := by
  induction a with
  | nil => intro ok; simp [guarded, okAfter]
  | cons x a ih =>
    intro ok
    cases x with
    | recheck m b => cases b <;> simp [guarded, okAfter, ih]
    | _ => simp [guarded, okAfter, ih, Bool.and_assoc]

theorem okAfter_append (a b : List Act) : ∀ ok : List Mutex,
    okAfter ok (a ++ b) = okAfter (okAfter ok a) b := by
  induction a with
  | nil => intro ok; simp [okAfter]
  | cons x a ih =>
    intro ok
    cases x with
    | recheck m b => cases b <;> simp [okAfter, ih]
    | _ => simp [okAfter, ih]

theorem outToIn_rechecks (env : Env) (hsh : env.Shared) (e0 : Nat) :
    ∀ (fuel e : Nat) (sp : Option Nat), e0 + 1 ≤ e →
      rechecks env e0 e (outToIn env fuel e sp).acts = true ∧
      periodAfter e (outToIn env fuel e sp).acts = (outToIn env fuel e sp).epoch := by
  intro fuel
  induction fuel with
  | zero =>
    intro e sp _
    cases sp <;> simp [outToIn, rechecks, periodAfter]
  | succ n ih =>
    intro e sp he
    cases sp with
    | none => simp [outToIn, rechecks, periodAfter]
    | some sp =>
      have h2 : e0 + 2 ≤ e + 1 := by omega
      rw [outToIn_step env hsh]
      split_ifs with hc
      · simp [rechecks, periodAfter, passed, hc, h2]
      · have h := ih (e + 1) (env (e + 1)).getInput (by omega)
        simp only [List.append_assoc, List.cons_append, List.nil_append, rechecks, periodAfter]
        simpa [passed, hc, h2] using h

theorem modeToIn_rechecks (env : Env) (hsh : env.Shared) (e0 : Nat) :
    ∀ (fuel e : Nat) (sp : Option Nat), e0 + 1 ≤ e →
      rechecks env e0 e (modeToIn env fuel e sp).acts = true ∧
      periodAfter e (modeToIn env fuel e sp).acts = (modeToIn env fuel e sp).epoch := by
  intro fuel
  induction fuel with
  | zero =>
    intro e sp _
    cases sp <;> simp [modeToIn, rechecks, periodAfter]
  | succ n ih =>
    intro e sp he
    cases sp with
    | none => simp [modeToIn, rechecks, periodAfter]
    | some sp =>
      have h2 : e0 + 2 ≤ e + 1 := by omega
      rw [modeToIn_step env hsh]
      split_ifs with hc
      · simp [rechecks, periodAfter, passed, hc, h2]
      · have h := ih (e + 1) (env (e + 1)).getInput (by omega)
        simp only [List.append_assoc, List.cons_append, List.nil_append, rechecks, periodAfter]
        simpa [passed, hc, h2] using h

theorem modeToOut_rechecks (env : Env) (hsh : env.Shared) (e0 : Nat) :
    ∀ (fuel e : Nat) (sp : Option Nat), e0 + 1 ≤ e →
      rechecks env e0 e (modeToOut env fuel e sp).acts = true ∧
      periodAfter e (modeToOut env fuel e sp).acts = (modeToOut env fuel e sp).epoch := by
  intro fuel
  induction fuel with
  | zero =>
    intro e sp _
    cases sp <;> simp [modeToOut, rechecks, periodAfter]
  | succ n ih =>
    intro e sp he
    cases sp with
    | none => simp [modeToOut, rechecks, periodAfter]
    | some sp =>
      have h2 : e0 + 2 ≤ e + 1 := by omega
      rw [modeToOut_step env hsh]
      split_ifs with hs hc
      · simp [rechecks, periodAfter, passed, hc, h2]
      · have h := ih (e + 1) (env (e + 1)).mOutput (by omega)
        simp only [List.append_assoc, List.cons_append, List.nil_append, rechecks, periodAfter]
        simpa [passed, hc, h2] using h
      · simp [rechecks, periodAfter]

theorem inToOut_rechecks (env : Env) (hsh : env.Shared) (self e0 : Nat) :
    ∀ (fuel e : Nat) (sp : Option Nat), e0 + 1 ≤ e →
      rechecks env e0 e (inToOut env self fuel e sp).acts = true ∧
      periodAfter e (inToOut env self fuel e sp).acts = (inToOut env self fuel e sp).epoch := by
  intro fuel
  induction fuel with
  | zero =>
    intro e sp _
    cases sp <;> simp [inToOut, rechecks, periodAfter]
  | succ n ih =>
    intro e sp he
    cases sp with
    | none => simp [inToOut, rechecks, periodAfter]
    | some sp =>
      have h2 : e0 + 2 ≤ e + 1 := by omega
      rw [inToOut_step env hsh]
      split_ifs with hs hc
      · simp [rechecks, periodAfter]
      · simp [rechecks, periodAfter, passed, hc, h2]
      · have h := ih (e + 1) (env (e + 1)).mOutput (by omega)
        simp only [List.append_assoc, List.cons_append, List.nil_append, rechecks, periodAfter]
        simpa [passed, hc, h2] using h

theorem filter_ne_of_isOut (T : List Mutex) (hT : ∀ x ∈ T, x.isOut = true) (m : Mutex)
    (hm : m.isOut = false) : T.filter (fun x => x != m) = T := by
  rw [List.filter_eq_self]
  intro x hx
  have h := hT x hx
  cases x <;> cases m <;> simp_all [Mutex.isOut]

theorem outToIn_guarded (env : Env) (hsh : env.Shared) (own : List Mutex) :
    ∀ (fuel e : Nat) (sp : Option Nat),
      guarded own [] (outToIn env fuel e sp).acts = true ∧
      ((outToIn env fuel e sp).done = true →
        okAfter [] (outToIn env fuel e sp).acts
          = ((outToIn env fuel e sp).target.map Mutex.inp).toList) := by
  intro fuel
  induction fuel with
  | zero =>
    intro e sp
    cases sp <;> simp [outToIn, guarded, okAfter]
  | succ n ih =>
    intro e sp
    cases sp with
    | none => simp [outToIn, guarded, okAfter]
    | some sp =>
      rw [outToIn_step env hsh]
      split_ifs with hc
      · simp [guarded, okAfter]
      · have h := ih (e + 1) (env (e + 1)).getInput
        simp only [List.append_assoc, List.cons_append, List.nil_append, guarded, okAfter,
          List.filter_nil]
        exact h

theorem inToOut_guarded (env : Env) (hsh : env.Shared) (self : Nat) (own : List Mutex) :
    ∀ (fuel e : Nat) (sp : Option Nat),
      guarded own [] (inToOut env self fuel e sp).acts = true ∧
      ((inToOut env self fuel e sp).done = true →
        okAfter [] (inToOut env self fuel e sp).acts
          = ((inToOut env self fuel e sp).target.map Mutex.out).toList) := by
  intro fuel
  induction fuel with
  | zero =>
    intro e sp
    cases sp <;> simp [inToOut, guarded, okAfter]
  | succ n ih =>
    intro e sp
    cases sp with
    | none => simp [inToOut, guarded, okAfter]
    | some sp =>
      rw [inToOut_step env hsh]
      split_ifs with hs hc
      · simp [guarded, okAfter]
      · simp [guarded, okAfter]
      · have h := ih (e + 1) (env (e + 1)).mOutput
        simp only [List.append_assoc, List.cons_append, List.nil_append, guarded, okAfter,
          List.filter_nil]
        exact h

theorem modeToOut_guarded (env : Env) (hsh : env.Shared) (own : List Mutex) :
    ∀ (fuel e : Nat) (sp : Option Nat),
      guarded own [] (modeToOut env fuel e sp).acts = true ∧
      ((modeToOut env fuel e sp).done = true →
        okAfter [] (modeToOut env fuel e sp).acts
          = ((modeToOut env fuel e sp).target.map Mutex.out).toList) := by
  intro fuel
  induction fuel with
  | zero =>
    intro e sp
    cases sp <;> simp [modeToOut, guarded, okAfter]
  | succ n ih =>
    intro e sp
    cases sp with
    | none => simp [modeToOut, guarded, okAfter]
    | some sp =>
      rw [modeToOut_step env hsh]
      split_ifs with hs hc
      · simp [guarded, okAfter]
      · have h := ih (e + 1) (env (e + 1)).mOutput
        simp only [List.append_assoc, List.cons_append, List.nil_append, guarded, okAfter,
          List.filter_nil]
        exact h
      · simp [guarded, okAfter]

theorem modeToIn_guarded (env : Env) (hsh : env.Shared) (own T : List Mutex) (hT : ∀ x ∈ T, x.isOut = true) :
    ∀ (fuel e : Nat) (sp : Option Nat),
      guarded own T (modeToIn env fuel e sp).acts = true ∧
      ((modeToIn env fuel e sp).done = true →
        okAfter T (modeToIn env fuel e sp).acts
          = ((modeToIn env fuel e sp).target.map Mutex.inp).toList ++ T) := by
  have f1 := filter_ne_of_isOut T hT .hw rfl
  intro fuel
  induction fuel with
  | zero =>
    intro e sp
    cases sp <;> simp [modeToIn, guarded, okAfter]
  | succ n ih =>
    intro e sp
    cases sp with
    | none => simp [modeToIn, guarded, okAfter]
    | some sp =>
      have f2 := filter_ne_of_isOut T hT (.inp sp) rfl
      rw [modeToIn_step env hsh]
      split_ifs with hc
      · simp [guarded, okAfter, f1]
      · have h := ih (e + 1) (env (e + 1)).getInput
        simp only [List.append_assoc, List.cons_append, List.nil_append, guarded, okAfter, f1, f2]
        exact h

theorem le_periodAfter (a : List Act) : ∀ k : Nat, k ≤ periodAfter k a := by
  induction a with
  | nil => intro k; simp [periodAfter]
  | cons x a ih =>
    intro k
    cases x with
    | acquire m =>
      cases m
      · simpa [periodAfter] using ih k
      · simpa [periodAfter] using ih k
      · have h := ih (k + 1)
        simp only [periodAfter]
        omega
    | _ => simpa [periodAfter] using ih k

theorem outWakeUp_l_checks (env : Env) (hsh : env.Shared) (fuel e a : Nat) (s r : Bool) :
    rechecks env e e (outWakeUp_l env fuel e a s r).acts = true ∧
    guarded [.out a] [] (outWakeUp_l env fuel e a s r).acts = true := by
  unfold outWakeUp_l
  obtain ⟨h1, -⟩ := outToIn_rechecks env hsh e fuel (e + 1) (env (e + 1)).getInput (le_refl _)
  obtain ⟨g1, g2⟩ := outToIn_guarded env hsh [.out a] fuel (e + 1) (env (e + 1)).getInput
  generalize outToIn env fuel (e + 1) (env (e + 1)).getInput = h at h1 g1 g2
  obtain ⟨acts, target, ep, done⟩ := h
  dsimp only at h1 g1 g2 ⊢
  cases s
  · simp [rechecks, guarded]
  · cases done
    · simp [rechecks, guarded, h1, g1]
    · have g3 := g2 rfl
      cases target <;> cases r <;>
        simp [rechecks, guarded, h1, g1, g3, rechecks_append, guarded_append, okAfter_append,
          reopen, okAfter]

theorem inWakeUp_l_checks (env : Env) (hsh : env.Shared) (fuel e a : Nat) (s r : Bool) :
    rechecks env e e (inWakeUp_l env fuel e a s r).acts = true ∧
    guarded [.inp a] [] (inWakeUp_l env fuel e a s r).acts = true := by
  unfold inWakeUp_l
  obtain ⟨h1, -⟩ := inToOut_rechecks env hsh a e fuel (e + 1) (env (e + 1)).mOutput (le_refl _)
  obtain ⟨g1, g2⟩ := inToOut_guarded env hsh a [.inp a] fuel (e + 1) (env (e + 1)).mOutput
  generalize inToOut env a fuel (e + 1) (env (e + 1)).mOutput = h at h1 g1 g2
  obtain ⟨acts, target, ep, done⟩ := h
  dsimp only at h1 g1 g2 ⊢
  cases s
  · simp [rechecks, guarded]
  · cases done
    · simp [rechecks, guarded, h1, g1]
    · have g3 := g2 rfl
      cases target <;> cases r <;>
        simp [rechecks, guarded, h1, g1, g3, rechecks_append, guarded_append, okAfter_append,
          reopen, okAfter]

theorem outWrite_checks (env : Env) (hsh : env.Shared) (fuel e a : Nat) (s r f : Bool) :
    rechecks env e e (outWrite env fuel e a s r f).acts = true ∧
    guarded [.out a] [] (outWrite env fuel e a s r f).acts = true := by
  unfold outWrite
  obtain ⟨h1, g1⟩ := outWakeUp_l_checks env hsh fuel e a s r
  generalize outWakeUp_l env fuel e a s r = w at h1 g1
  obtain ⟨acts, ep, done⟩ := w
  dsimp only at h1 g1 ⊢
  cases done
  · simp [rechecks, guarded, h1, g1]
  · cases f <;>
      simp [rechecks, guarded, h1, g1, rechecks_append, guarded_append, outStandby]

theorem inRead_checks (env : Env) (hsh : env.Shared) (fuel e a : Nat) (s r f : Bool) :
    rechecks env e e (inRead env fuel e a s r f).acts = true ∧
    guarded [.inp a] [] (inRead env fuel e a s r f).acts = true := by
  unfold inRead
  obtain ⟨h1, g1⟩ := inWakeUp_l_checks env hsh fuel e a s r
  generalize inWakeUp_l env fuel e a s r = w at h1 g1
  obtain ⟨acts, ep, done⟩ := w
  dsimp only at h1 g1 ⊢
  cases done
  · simp [rechecks, guarded, h1, g1]
  · cases f <;>
      simp [rechecks, guarded, h1, g1, rechecks_append, guarded_append, inStandby]

theorem setMode_checks (env : Env) (hsh : env.Shared) (fuel e : Nat) (t : Bool) :
    rechecks env e e (setMode env fuel e t).acts = true ∧
    guarded [] [] (setMode env fuel e t).acts = true := by
  unfold setMode
  simp only [dropHeld_shared env hsh, List.append_nil]
  obtain ⟨h1, h2⟩ := modeToOut_rechecks env hsh e fuel (e + 1) (env (e + 1)).mOutput (le_refl _)
  obtain ⟨g1, g2⟩ := modeToOut_guarded env hsh [] fuel (e + 1) (env (e + 1)).mOutput
  have hle := le_periodAfter (modeToOut env fuel (e + 1) (env (e + 1)).mOutput).acts (e + 1)
  rw [h2] at hle
  generalize modeToOut env fuel (e + 1) (env (e + 1)).mOutput = x at h1 h2 g1 g2 hle
  obtain ⟨acts1, target1, ep1, done1⟩ := x
  dsimp only at h1 h2 g1 g2 hle ⊢
  cases done1
  · simp [rechecks, guarded, h1, g1]
  · have g3 := g2 rfl
    have hT : ∀ x ∈ (Option.map Mutex.out target1).toList, x.isOut = true := by
      cases target1 <;> simp [Mutex.isOut]
    obtain ⟨k1, -⟩ := modeToIn_rechecks env hsh e fuel ep1 (env ep1).getInput hle
    obtain ⟨j1, j2⟩ := modeToIn_guarded env hsh [] _ hT fuel ep1 (env ep1).getInput
    generalize modeToIn env fuel ep1 (env ep1).getInput = y at k1 j1 j2
    obtain ⟨acts2, target2, ep2, done2⟩ := y
    dsimp only at k1 j1 j2 ⊢
    cases done2
    · simp [rechecks, guarded, h1, g1, h2, g3, k1, j1, rechecks_append, guarded_append]
    · have j3 := j2 rfl
      cases target1 <;> cases target2 <;> cases t <;>
        simp_all [rechecks, guarded, rechecks_append, guarded_append, okAfter_append,
          forceHeld, unlockHeld, okAfter]

theorem lockOrder_acquire (held : List Mutex) (pre post : List Act) (m : Mutex)
    (h : lockOrder held (pre ++ .acquire m :: post) = true) :
    mayAcquire (heldAfter held pre) m = true := by
  rw [lockOrder_append] at h
  simp only [lockOrder, Bool.and_eq_true] at h
  exact h.2.1

theorem rechecks_at (env : Env) (e0 k : Nat) (pre post : List Act) (m : Mutex) (b : Bool)
    (h : rechecks env e0 k (pre ++ .recheck m b :: post) = true) :
    e0 + 2 ≤ periodAfter k pre ∧ b = passed env (periodAfter k pre) m := by
  rw [rechecks_append] at h
  simp only [rechecks, Bool.and_eq_true, decide_eq_true_eq, beq_iff_eq] at h
  exact ⟨h.2.1.1, h.2.1.2⟩

theorem guarded_at (own ok : List Mutex) (pre post : List Act) (x : Act) (m : Mutex)
    (h : guarded own ok (pre ++ x :: post) = true) (hx : x.changes m = true) (hm : m ∉ own) :
    m ∈ okAfter ok pre := by
  rw [guarded_append] at h
  cases x <;> simp_all [guarded, Act.changes]

theorem okAfter_mem (m : Mutex) (pre : List Act) : ∀ ok : List Mutex, m ∈ okAfter ok pre →
    (m ∈ ok ∧ Act.release m ∉ pre) ∨
      ∃ p q, pre = p ++ Act.recheck m true :: q ∧ Act.release m ∉ q := by
  induction pre with
  | nil => intro ok h; exact Or.inl ⟨h, by simp⟩
  | cons x pre ih =>
    intro ok h
    have step : ∀ ok2 : List Mutex, m ∈ okAfter ok2 pre →
        (m ∈ ok2 → (m ∈ ok ∧ Act.release m ≠ x) ∨ x = Act.recheck m true) →
        (m ∈ ok ∧ Act.release m ∉ x :: pre) ∨
          ∃ p q, x :: pre = p ++ Act.recheck m true :: q ∧ Act.release m ∉ q := by
      intro ok2 h2 hk
      rcases ih ok2 h2 with ⟨h3, h4⟩ | ⟨p, q, h3, h4⟩
      · rcases hk h3 with ⟨h5, h6⟩ | h5
        · exact Or.inl ⟨h5, by simp [h4, h6]⟩
        · exact Or.inr ⟨[], pre, by simp [h5], h4⟩
      · exact Or.inr ⟨x :: p, q, by simp [h3], h4⟩
    cases x with
    | recheck m2 b =>
      cases b
      · exact step ok h (fun h3 => Or.inl ⟨h3, by simp⟩)
      · refine step (m2 :: ok) h (fun h3 => ?_)
        rcases List.mem_cons.mp h3 with h4 | h4
        · exact Or.inr (by rw [h4])
        · exact Or.inl ⟨h4, by simp⟩
    | release m2 =>
      refine step (ok.filter (fun y => y != m2)) h (fun h3 => ?_)
      simp only [List.mem_filter, bne_iff_ne, ne_eq] at h3
      exact Or.inl ⟨h3.1, by simpa using h3.2⟩
    | acquire m2 => exact step ok h (fun h3 => Or.inl ⟨h3, by simp⟩)
    | prepareLock m2 => exact step ok h (fun h3 => Or.inl ⟨h3, by simp⟩)
    | close_l m2 => exact step ok h (fun h3 => Or.inl ⟨h3, by simp⟩)
    | open_l m2 => exact step ok h (fun h3 => Or.inl ⟨h3, by simp⟩)
    | doStandby_l m2 => exact step ok h (fun h3 => Or.inl ⟨h3, by simp⟩)
    | relock m2 => exact step ok h (fun h3 => Or.inl ⟨h3, by simp⟩)

theorem passed_isCurrent (env : Env) (k : Nat) (m : Mutex) (h : passed env k m = true) :
    isCurrent (env k) m = true := by
  cases m <;> simp_all [passed, isCurrent]

theorem passed_lock (env : Env) (h : Hand) (k sp : Nat) :
    passed env k (h.lock sp)
      = decide (h.current (env k) = some sp ∧ h.cnt (env (k - 1)) sp = h.cnt (env k) sp) := by
  cases h <;> rfl

theorem Hand.run_none (env : Env) (h : Hand) (fuel e : Nat) :
    h.run env fuel e none = ⟨[], none, e, true⟩ := by
  cases h <;> cases fuel <;> simp [Hand.run, Protocol.outToIn, Protocol.inToOut, Protocol.modeToOut, Protocol.modeToIn]

theorem Hand.run_idle (env : Env) (h : Hand) (fuel e sp : Nat)
    (hi : h.idle (env e) sp = true) :
    h.run env (fuel + 1) e (some sp) = ⟨[], none, e, true⟩ := by
  cases h <;> simp_all [Hand.run, Hand.idle, Protocol.inToOut, Protocol.modeToOut]

theorem Hand.run_pass (env : Env) (h : Hand) (fuel e sp : Nat)
    (hi : h.idle (env e) sp = false) (hp : passed env (e + 1) (h.lock sp) = true) :
    h.run env (fuel + 1) e (some sp)
      = ⟨h.pass sp ++ .recheck (h.lock sp) true :: h.onPass sp, some sp, e + 1, true⟩ := by
  cases h <;>
    simp_all [Hand.run, Hand.idle, Hand.lock, Hand.pass, Hand.onPass, passed,
      Protocol.outToIn, Protocol.inToOut, Protocol.modeToOut, Protocol.modeToIn]

theorem Hand.run_retry (env : Env) (hsh : env.Shared) (h : Hand) (fuel e sp : Nat)
    (hi : h.idle (env e) sp = false) (hp : passed env (e + 1) (h.lock sp) = false) :
    h.run env (fuel + 1) e (some sp)
      = ⟨h.pass sp ++ [.recheck (h.lock sp) false, .release (h.lock sp)]
            ++ (h.run env fuel (e + 1) (h.current (env (e + 1)))).acts,
          (h.run env fuel (e + 1) (h.current (env (e + 1)))).target,
          (h.run env fuel (e + 1) (h.current (env (e + 1)))).epoch,
          (h.run env fuel (e + 1) (h.current (env (e + 1)))).done⟩ := by
  have s1 := (hsh (e + 1) sp).1
  have s2 := (hsh (e + 1) sp).2
  cases h <;>
    simp_all [Hand.run, Hand.idle, Hand.lock, Hand.pass, Hand.current, passed,
      Protocol.outToIn, Protocol.inToOut, Protocol.modeToOut, Protocol.modeToIn]

theorem Hand.run_settled (env : Env) (h : Hand) (fuel e : Nat) (hq : env (e + 1) = env e) :
    (h.run env (fuel + 1) e (h.current (env e))).done = true := by
  cases hc : h.current (env e) with
  | none => rw [Hand.run_none]
  | some sp =>
    cases hi : h.idle (env e) sp with
    | true => rw [Hand.run_idle env h fuel e sp hi]
    | false =>
      have hp : passed env (e + 1) (h.lock sp) = true := by
        rw [passed_lock]
        simp [hq, hc]
      rw [Hand.run_pass env h fuel e sp hi hp]

theorem Hand.run_ends (env : Env) (hsh : env.Shared) (h : Hand) : ∀ (n fuel e : Nat) (sp : Option Nat),
    (∀ k, e + n ≤ k → env (k + 1) = env k) → n + 2 ≤ fuel →
      (h.run env fuel e sp).done = true := by
  intro n
  induction n with
  | zero =>
    intro fuel e sp hq hf
    obtain ⟨f, rfl⟩ : ∃ f, fuel = f + 1 + 1 := ⟨fuel - 2, by omega⟩
    cases sp with
    | none => rw [Hand.run_none]
    | some sp =>
      cases hi : h.idle (env e) sp with
      | true => rw [Hand.run_idle env h _ e sp hi]
      | false =>
        cases hp : passed env (e + 1) (h.lock sp) with
        | true => rw [Hand.run_pass env h _ e sp hi hp]
        | false =>
          rw [Hand.run_retry env hsh h _ e sp hi hp]
          exact Hand.run_settled env h f (e + 1) (hq (e + 1) (by omega))
  | succ n ih =>
    intro fuel e sp hq hf
    obtain ⟨f, rfl⟩ : ∃ f, fuel = f + 1 := ⟨fuel - 1, by omega⟩
    cases sp with
    | none => rw [Hand.run_none]
    | some sp =>
      cases hi : h.idle (env e) sp with
      | true => rw [Hand.run_idle env h _ e sp hi]
      | false =>
        cases hp : passed env (e + 1) (h.lock sp) with
        | true => rw [Hand.run_pass env h _ e sp hi hp]
        | false =>
          rw [Hand.run_retry env hsh h _ e sp hi hp]
          exact ih f (e + 1) _ (fun k hk => hq k (by omega)) (by omega)

theorem Call.run_done (env : Env) (hsh : env.Shared) (n fuel e : Nat) (c : Call)
    (hq : ∀ k, e + 1 + n ≤ k → env (k + 1) = env k) (hf : n + 2 ≤ fuel) :
    (c.run env fuel e).done = true := by
  have d1 := Hand.run_ends env hsh .outToIn n fuel (e + 1) (env (e + 1)).getInput hq hf
  have d3 := Hand.run_ends env hsh .modeToOut n fuel (e + 1) (env (e + 1)).mOutput hq hf
  cases c with
  | outWrite a s r f =>
    simp only [Hand.run] at d1
    cases s <;> cases f <;> simp [Call.run, Protocol.outWrite, outWakeUp_l, outStandby, d1]
  | outWakeUp a s r =>
    simp only [Hand.run] at d1
    cases s <;> simp [Call.run, outWakeUp_l, d1]
  | outStandby a => rfl
  | outSetParameters a n f => rfl
  | inRead a s r f =>
    have d2 := Hand.run_ends env hsh (.inToOut a) n fuel (e + 1) (env (e + 1)).mOutput hq hf
    simp only [Hand.run] at d2
    cases s <;> cases f <;> simp [Call.run, Protocol.inRead, inWakeUp_l, d2]
  | inWakeUp a s r =>
    have d2 := Hand.run_ends env hsh (.inToOut a) n fuel (e + 1) (env (e + 1)).mOutput hq hf
    simp only [Hand.run] at d2
    cases s <;> simp [Call.run, inWakeUp_l, d2]
  | inStandby a => rfl
  | inSetParameters a n f => rfl
  | setMode t =>
    simp only [Hand.run] at d3
    obtain ⟨-, h2⟩ := modeToOut_rechecks env hsh e fuel (e + 1) (env (e + 1)).mOutput (le_refl _)
    have hle := le_periodAfter (modeToOut env fuel (e + 1) (env (e + 1)).mOutput).acts (e + 1)
    rw [h2] at hle
    have d4 := Hand.run_ends env hsh .modeToIn n fuel
      (modeToOut env fuel (e + 1) (env (e + 1)).mOutput).epoch
      (env (modeToOut env fuel (e + 1) (env (e + 1)).mOutput).epoch).getInput
      (fun k hk => hq k (by omega)) hf
    simp only [Hand.run] at d4
    simp [Call.run, Protocol.setMode, d3, d4]
  | setMicMute => rfl

theorem Call.run_locks (env : Env) (hsh : env.Shared) (fuel e : Nat) (c : Call) :
    lockOrder c.entry (c.run env fuel e).acts = true ∧
    ((c.run env fuel e).done = true → heldAfter c.entry (c.run env fuel e).acts = c.entry) := by
  cases c with
  | outWrite a s r f => exact outWrite_locks env hsh fuel e a s r f
  | outWakeUp a s r => exact outWakeUp_l_locks env hsh fuel e a s r
  | outStandby a =>
    simp [Call.run, Call.entry, Protocol.outStandby, lockOrder, heldAfter, mayAcquire,
      List.erase_cons, Mutex.isOut]
  | outSetParameters a n f =>
    cases n <;> cases f <;>
      simp [Call.run, Call.entry, Protocol.outSetParameters, lockOrder, heldAfter, mayAcquire,
        List.erase_cons]
  | inRead a s r f => exact inRead_locks env hsh fuel e a s r f
  | inWakeUp a s r => exact inWakeUp_l_locks env hsh fuel e a s r
  | inStandby a =>
    simp [Call.run, Call.entry, Protocol.inStandby, lockOrder, heldAfter, mayAcquire,
      List.erase_cons]
  | inSetParameters a n f =>
    cases n <;> cases f <;>
      simp [Call.run, Call.entry, Protocol.inSetParameters, lockOrder, heldAfter, mayAcquire,
        List.erase_cons]
  | setMode t => exact setMode_locks env hsh fuel e t
  | setMicMute =>
    simp [Call.run, Call.entry, Protocol.setMicMute, lockOrder, heldAfter, mayAcquire]

theorem Call.run_checks (env : Env) (hsh : env.Shared) (fuel e : Nat) (c : Call) :
    rechecks env e e (c.run env fuel e).acts = true ∧
    guarded c.own [] (c.run env fuel e).acts = true := by
  cases c with
  | outWrite a s r f => exact outWrite_checks env hsh fuel e a s r f
  | outWakeUp a s r => exact outWakeUp_l_checks env hsh fuel e a s r
  | outStandby a => simp [Call.run, Call.own, Protocol.outStandby, rechecks, guarded]
  | outSetParameters a n f =>
    cases n <;> cases f <;>
      simp [Call.run, Call.own, Protocol.outSetParameters, rechecks, guarded]
  | inRead a s r f => exact inRead_checks env hsh fuel e a s r f
  | inWakeUp a s r => exact inWakeUp_l_checks env hsh fuel e a s r
  | inStandby a => simp [Call.run, Call.own, Protocol.inStandby, rechecks, guarded]
  | inSetParameters a n f =>
    cases n <;> cases f <;>
      simp [Call.run, Call.own, Protocol.inSetParameters, rechecks, guarded]
  | setMode t => exact setMode_checks env hsh fuel e t
  | setMicMute => simp [Call.run, Call.own, Protocol.setMicMute, rechecks, guarded]

theorem mayAcquire_out (held : List Mutex) (a : Nat) (h : mayAcquire held (.out a) = true) :
    ∀ x ∈ held, x ≠ Mutex.hw ∧ ∀ b, x ≠ Mutex.inp b := by
  intro x hx
  simp only [mayAcquire, List.all_eq_true] at h
  have hx2 := h x hx
  cases x <;> simp_all [Mutex.isOut]

theorem mayAcquire_inp (held : List Mutex) (a : Nat) (h : mayAcquire held (.inp a) = true) :
    Mutex.hw ∉ held := by
  simpa [mayAcquire] using h

theorem Call.changes_after_recheck (env : Env) (hsh : env.Shared) (fuel e : Nat) (c : Call) (pre post : List Act)
    (x : Act) (m : Mutex) (h : (c.run env fuel e).acts = pre ++ x :: post)
    (hx : x.changes m = true) (hm : m ∉ c.own) :
    ∃ p q, pre = p ++ Act.recheck m true :: q ∧ Act.release m ∉ q := by
  have g := (Call.run_checks env hsh fuel e c).2
  rw [h] at g
  have hmem := guarded_at c.own [] pre post x m g hx hm
  rcases okAfter_mem m pre [] hmem with ⟨h1, -⟩ | h1
  · simp at h1
  · exact h1

theorem Call.recheck_reports (env : Env) (hsh : env.Shared) (fuel e : Nat) (c : Call) (pre post : List Act)
    (m : Mutex) (b : Bool) (h : (c.run env fuel e).acts = pre ++ .recheck m b :: post) :
    e + 2 ≤ periodAfter e pre ∧ b = passed env (periodAfter e pre) m := by
  have g := (Call.run_checks env hsh fuel e c).1
  rw [h] at g
  exact rechecks_at env e e pre post m b g

theorem Call.stale_untouched (env : Env) (hsh : env.Shared) (fuel e : Nat) (c : Call) (m : Mutex)
    (hm : m ∉ c.own) (hs : ∀ k, e + 2 ≤ k → isCurrent (env k) m = false) :
    ∀ x ∈ (c.run env fuel e).acts, x.changes m = false := by
  intro x hx
  cases hch : x.changes m with
  | false => rfl
  | true =>
    obtain ⟨pre, post, h⟩ := List.append_of_mem hx
    obtain ⟨p, q, hp, -⟩ := Call.changes_after_recheck env hsh fuel e c pre post x m h hch hm
    rw [hp, List.append_assoc, List.cons_append] at h
    obtain ⟨h1, h2⟩ := Call.recheck_reports env hsh fuel e c p _ m true h
    have h3 := passed_isCurrent env _ m h2.symm
    rw [hs _ h1] at h3
    cases h3

/-- While no hand-off drops the last pointer to a stream, every acquisition of a call keeps
the order output-stream lock, input-stream lock, facade lock: when the thread acquires an
output-stream lock it holds neither the facade lock nor an input-stream lock, and when it
acquires an input-stream lock it does not hold the facade lock. -/
theorem lock_order_while_shared (env : Env) (hsh : env.Shared) (fuel e : Nat) (c : Call)
    (pre post : List Act) (m : Mutex)
    (h : (c.run env fuel e).acts = pre ++ Act.acquire m :: post) :
    (∀ a, m = Mutex.out a →
        ∀ x ∈ heldAfter c.entry pre, x ≠ Mutex.hw ∧ ∀ b, x ≠ Mutex.inp b) ∧
    (∀ a, m = Mutex.inp a → Mutex.hw ∉ heldAfter c.entry pre) := by
  have g := (Call.run_locks env hsh fuel e c).1
  rw [h] at g
  have g2 := lockOrder_acquire c.entry pre post m g
  constructor
  · intro a ha
    subst ha
    exact mayAcquire_out _ a g2
  · intro a ha
    subst ha
    exact mayAcquire_inp _ a g2

/-- While no hand-off drops the last pointer to a stream, a call that runs to its end
holds the mutexes it was entered with. -/
theorem locks_released (env : Env) (hsh : env.Shared) (fuel e : Nat) (c : Call)
    (h : (c.run env fuel e).done = true) :
    heldAfter c.entry (c.run env fuel e).acts = c.entry :=
  (Call.run_locks env hsh fuel e c).2 h

/-- A failed test on a stream whose last pointer is the local one: the loop releases the
lock of the stream, the assignment of the now-current stream runs the destructor, and the
thread blocks in it; the loop does not go on. -/
theorem Hand.run_drop (env : Env) (h : Hand) (fuel e sp : Nat)
    (hi : h.idle (env e) sp = false) (hp : passed env (e + 1) (h.lock sp) = false)
    (hu : unshared (env (e + 1)) (h.lock sp) = true) :
    h.run env (fuel + 1) e (some sp)
      = ⟨h.pass sp ++ [.recheck (h.lock sp) false, .release (h.lock sp)]
            ++ destroy (h.lock sp), none, e + 1, false⟩ := by
  cases h <;>
    simp_all [Hand.run, Hand.idle, Hand.lock, Hand.pass, passed, unshared, destroy,
      Protocol.outToIn, Protocol.inToOut, Protocol.modeToOut, Protocol.modeToIn]

/-- While no hand-off drops the last pointer to a stream: in every call, a step that
closes, re-opens or puts to standby a stream other than the one the call belongs to comes
after a test of that stream that passed, with no release of the stream's lock in between; a
test is made only after the facade lock has been taken again (period `e + 2` or later) and
passes exactly when the stream is the current one of its role in that period and its
standby counter equals the one read in the period before the release.  In each of the four
hand-off loops a failed test is followed by the release of the stream's lock and the same
loop on the stream that is current now, a passed test ends the loop, an output stream in
standby is left alone, and the loop ends at once when there is no stream.  A stream that is
not current in any period from `e + 2` on is never closed, re-opened or put to standby by
the call, and the call runs to its end once the other threads leave the facade alone. -/
theorem handoff_while_shared (env : Env) (hsh : env.Shared) (fuel e : Nat) (c : Call) :
    (∀ pre x post m, (c.run env fuel e).acts = pre ++ x :: post → x.changes m = true →
        m ∉ c.own → ∃ p q, pre = p ++ Act.recheck m true :: q ∧ Act.release m ∉ q) ∧
    (∀ pre m b post, (c.run env fuel e).acts = pre ++ Act.recheck m b :: post →
        e + 2 ≤ periodAfter e pre ∧ b = passed env (periodAfter e pre) m) ∧
    (∀ (h : Hand) (k sp : Nat),
        passed env k (h.lock sp)
          = decide (h.current (env k) = some sp ∧
              h.cnt (env (k - 1)) sp = h.cnt (env k) sp)) ∧
    (∀ (h : Hand) (f k sp : Nat), h.idle (env k) sp = false →
        passed env (k + 1) (h.lock sp) = false →
        h.run env (f + 1) k (some sp)
          = ⟨h.pass sp ++ [Act.recheck (h.lock sp) false, Act.release (h.lock sp)]
                ++ (h.run env f (k + 1) (h.current (env (k + 1)))).acts,
              (h.run env f (k + 1) (h.current (env (k + 1)))).target,
              (h.run env f (k + 1) (h.current (env (k + 1)))).epoch,
              (h.run env f (k + 1) (h.current (env (k + 1)))).done⟩) ∧
    (∀ (h : Hand) (f k sp : Nat), h.idle (env k) sp = false →
        passed env (k + 1) (h.lock sp) = true →
        h.run env (f + 1) k (some sp)
          = ⟨h.pass sp ++ Act.recheck (h.lock sp) true :: h.onPass sp, some sp, k + 1, true⟩) ∧
    (∀ (h : Hand) (f k sp : Nat), h.idle (env k) sp = true →
        h.run env (f + 1) k (some sp) = ⟨[], none, k, true⟩) ∧
    (∀ (h : Hand) (f k : Nat), h.run env f k none = ⟨[], none, k, true⟩) ∧
    (∀ m, m ∉ c.own → (∀ k, e + 2 ≤ k → isCurrent (env k) m = false) →
        ∀ x ∈ (c.run env fuel e).acts, x.changes m = false) ∧
    (∀ n, (∀ k, e + 1 + n ≤ k → env (k + 1) = env k) → n + 2 ≤ fuel →
        (c.run env fuel e).done = true) :=
  ⟨fun pre x post m h hx hm => Call.changes_after_recheck env hsh fuel e c pre post x m h hx hm,
    fun pre m b post h => Call.recheck_reports env hsh fuel e c pre post m b h,
    fun h k sp => passed_lock env h k sp,
    fun h f k sp hi hp => Hand.run_retry env hsh h f k sp hi hp,
    fun h f k sp hi hp => Hand.run_pass env h f k sp hi hp,
    fun h f k sp hi => Hand.run_idle env h f k sp hi,
    fun h f k => Hand.run_none env h f k,
    fun m hm hs => Call.stale_untouched env hsh fuel e c m hm hs,
    fun n hq hf => Call.run_done env hsh n fuel e c hq hf⟩

/-- The write of an output stream at address 7 while another thread replaces the input
stream 9 by the input stream 11 and still holds a pointer to 9: the test on 9 fails, the
thread releases the lock of 9, takes over 11 instead and closes and re-opens 11 only. -/
theorem replaced_input_write :
    (Call.run replacedEnv 3 0 (.outWrite 7 true false false))
      = ⟨[Act.acquire (.out 7), .acquire .hw, .prepareLock (.inp 9), .release .hw,
          .acquire (.inp 9), .acquire .hw, .recheck (.inp 9) false, .release (.inp 9),
          .prepareLock (.inp 11), .release .hw, .acquire (.inp 11), .acquire .hw,
          .recheck (.inp 11) true, .close_l (.inp 11), .open_l (.out 7), .open_l (.inp 11),
          .release (.inp 11), .release .hw, .release (.out 7)], 3, true⟩ ∧
    (∀ k, 2 ≤ k → isCurrent (replacedEnv k) (.inp 9) = false) ∧
    (Call.run replacedEnv 1 0 (.outWrite 7 true false false)).done = false := by
  refine ⟨rfl, ?_, rfl⟩
  intro k hk
  have h : ¬ k ≤ 1 := by omega
  simp [replacedEnv, h, isCurrent, busyView]

/-- C24: the order of the locks is broken when a hand-off drops the last pointer to a
stream.  The output stream 7 wakes up while the input stream 9 is active; another thread
runs `closeInputStream` on 9 before the thread takes the facade lock again.  The test on 9
fails, the thread releases the lock of 9, and the assignment `spIn = getInput()` runs the
destructor of 9, whose `standby()` acquires the lock of the input stream 9 while the thread
holds the facade lock (and the lock of the output stream 7); the `lock()` on the facade
lock that follows does not return, so the write never ends, whatever the bound on the
passes. -/
theorem lock_order_broken_by_destructor :
    (Call.run closedEnv 3 0 (.outWrite 7 true false false)).acts
      = [Act.acquire (.out 7), .acquire .hw, .prepareLock (.inp 9), .release .hw,
          .acquire (.inp 9), .acquire .hw, .recheck (.inp 9) false, .release (.inp 9)]
        ++ Act.acquire (.inp 9) :: [Act.relock .hw] ∧
    heldAfter (Call.entry (.outWrite 7 true false false))
      [Act.acquire (.out 7), .acquire .hw, .prepareLock (.inp 9), .release .hw,
        .acquire (.inp 9), .acquire .hw, .recheck (.inp 9) false, .release (.inp 9)]
      = [.hw, .out 7] ∧
    mayAcquire [.hw, .out 7] (.inp 9) = false ∧
    lockOrder (Call.entry (.outWrite 7 true false false))
      (Call.run closedEnv 3 0 (.outWrite 7 true false false)).acts = false ∧
    (∀ fuel, (Call.run closedEnv (fuel + 1) 0 (.outWrite 7 true false false)).done = false) ∧
    (closedEnv 2).getInput = none ∧ unshared (closedEnv 2) (.inp 9) = true := by
  refine ⟨rfl, rfl, rfl, rfl, ?_, rfl, rfl⟩
  intro fuel
  have h : outToIn closedEnv (fuel + 1) 1 (some 9)
      = ⟨[Act.prepareLock (.inp 9), .release .hw, .acquire (.inp 9), .acquire .hw,
          .recheck (.inp 9) false, .release (.inp 9), .acquire (.inp 9), .relock .hw],
        none, 2, false⟩ := rfl
  show (outWrite closedEnv (fuel + 1) 0 7 true false false).done = false
  unfold outWrite outWakeUp_l
  have hg : (closedEnv (0 + 1)).getInput = some 9 := rfl
  simp only [hg, h]
  rfl

/-- C23: a stream that is no longer current is put to standby.  `setMode` takes over the
active output stream 7 (the test in period 2 passes) and then releases the facade lock in
its second loop; another thread closes 7 and opens the output stream 8 before the thread
takes the facade lock for the third time.  The test on the input stream 9 passes, and the
mode change calls `doStandby_l()` on 7 in period 3, when the facade's output stream is 8;
when `setMode` returns, its local pointer is the last one to 7 and the destructor puts 7 to
standby once more.  And when the last pointer to a stream is dropped after a failed test,
as in the wake-up of output 7 while input 9 is closed, the thread does not retry with the
now-current stream: it blocks in the destructor of 9. -/
theorem handoff_changes_stale_stream :
    (Call.run swappedEnv 3 0 (.setMode true)).acts
      = [Act.acquire .hw, .prepareLock (.out 7), .release .hw, .acquire (.out 7), .acquire .hw,
          .recheck (.out 7) true, .prepareLock (.inp 9), .release .hw, .acquire (.inp 9),
          .acquire .hw, .recheck (.inp 9) true]
        ++ Act.doStandby_l (.out 7) ::
          [.doStandby_l (.inp 9), .release (.inp 9), .release (.out 7), .release .hw,
            .acquire (.out 7), .acquire .hw, .doStandby_l (.out 7), .release .hw,
            .release (.out 7)] ∧
    periodAfter 0
      [Act.acquire .hw, .prepareLock (.out 7), .release .hw, .acquire (.out 7), .acquire .hw,
        .recheck (.out 7) true, .prepareLock (.inp 9), .release .hw, .acquire (.inp 9),
        .acquire .hw, .recheck (.inp 9) true] = 3 ∧
    (swappedEnv 3).mOutput = some 8 ∧
    isCurrent (swappedEnv 3) (.out 7) = false ∧
    passed swappedEnv 2 (.out 7) = true ∧
    (Call.run closedEnv 3 0 (.outWakeUp 7 true false))
      = ⟨[Act.acquire .hw, .prepareLock (.inp 9), .release .hw, .acquire (.inp 9),
          .acquire .hw, .recheck (.inp 9) false, .release (.inp 9), .acquire (.inp 9),
          .relock .hw], 2, false⟩ ∧
    passed closedEnv 2 (.inp 9) = false ∧ unshared (closedEnv 2) (.inp 9) = true := by
  refine ⟨rfl, rfl, rfl, rfl, rfl, rfl, rfl, rfl⟩

end Protocol

end android
